import Mathlib

/-!
LIO-SAM front end: image projection and IMU preintegration

A shallow embedding of `src/src/imageProjection.cpp` and
`src/src/imuPreintegration.cpp`.

Conventions of the embedding

* `float` and `double` values are modelled by exact rationals (`ℚ`); rounding of
  machine arithmetic is not modelled, with two exceptions. The narrowing of a
  `double` to a `float` in `failureDetection` is the rounding `toFloat`. A
  division by zero, which gives NaN or an infinity in the source and 0 in `ℚ`,
  is exposed for the two divisions of the deskewing by `deskewPointChecked`.
* C++ `int` values are `Int`; container sizes and array indices are `Nat`.
* Member variables of a class become the fields of a structure and member
  functions become functions from state to state (plus a returned value).
* Functions of third-party libraries (libm, PCL, tf2, GTSAM) and helpers of
  this repository that live in headers outside `src/` are fields of an
  environment structure, next to the configuration constants. `ROS_TIME` and
  `header.stamp.toSec()` read the `stamp` of a message.
* Logging calls are left out; `ros::shutdown()` sets a flag and returns.
-/

namespace LioSam

/-! ## Numeric helpers -/

/-- C `round`: nearest integer, halfway cases away from zero. -/
def cround (q : ℚ) : Int :=
  if 0 ≤ q then ⌊q + 1 / 2⌋ else -⌊-q + 1 / 2⌋

/-- C conversion of a floating value to `int`: truncation toward zero. -/
def ctrunc (q : ℚ) : Int :=
  if 0 ≤ q then ⌊q⌋ else ⌈q⌉

/-- Rounding to the nearest integer, a tie going to the even neighbour (the
default rounding mode of IEEE 754). -/
def roundEven (q : ℚ) : Int :=
  if q - ⌊q⌋ < 1 / 2 then ⌊q⌋
  else if q - ⌊q⌋ > 1 / 2 then ⌊q⌋ + 1
  else if ⌊q⌋ % 2 = 0 then ⌊q⌋ else ⌊q⌋ + 1

/-- Conversion of a `double` to `float` (binary32): with `2 ^ e ≤ |q| < 2 ^ (e + 1)`
the value is rounded to the nearest multiple of `2 ^ (e - 23)`, and to the
nearest multiple of `2 ^ (-149)` in the subnormal range `e < -126`. A value that
rounds past the largest `float` becomes an infinity in the source; the model
keeps the rounded number. -/
def toFloat (q : ℚ) : ℚ :=
  if q = 0 then 0
  else
    let e : Int := max (Int.log 2 |q|) (-126)
    (roundEven (q / 2 ^ (e - 23)) : ℚ) * 2 ^ (e - 23)

/-! ## Geometry (Eigen fixed-size types) -/

/-- Three-vector. -/
structure Vec3 where
  x : ℚ
  y : ℚ
  z : ℚ
deriving DecidableEq

/-- Quaternion message (x, y, z, w). -/
structure Quat where
  x : ℚ
  y : ℚ
  z : ℚ
  w : ℚ
deriving DecidableEq

/-- A 3x3 matrix, row major. -/
structure Mat3 where
  a00 : ℚ
  a01 : ℚ
  a02 : ℚ
  a10 : ℚ
  a11 : ℚ
  a12 : ℚ
  a20 : ℚ
  a21 : ℚ
  a22 : ℚ
deriving DecidableEq

/-- An affine transform `Eigen::Affine3f/d`: linear part and translation. -/
structure Affine3 where
  linear : Mat3
  translation : Vec3
deriving DecidableEq

def Vec3.zero : Vec3 := ⟨0, 0, 0⟩

def Vec3.neg (v : Vec3) : Vec3 := ⟨-v.x, -v.y, -v.z⟩

def Vec3.add (u v : Vec3) : Vec3 := ⟨u.x + v.x, u.y + v.y, u.z + v.z⟩

/-- Squared Euclidean norm. -/
def Vec3.normSq (v : Vec3) : ℚ := v.x * v.x + v.y * v.y + v.z * v.z

def Mat3.identity : Mat3 := ⟨1, 0, 0, 0, 1, 0, 0, 0, 1⟩

def Mat3.mul (m n : Mat3) : Mat3 :=
  ⟨m.a00 * n.a00 + m.a01 * n.a10 + m.a02 * n.a20,
   m.a00 * n.a01 + m.a01 * n.a11 + m.a02 * n.a21,
   m.a00 * n.a02 + m.a01 * n.a12 + m.a02 * n.a22,
   m.a10 * n.a00 + m.a11 * n.a10 + m.a12 * n.a20,
   m.a10 * n.a01 + m.a11 * n.a11 + m.a12 * n.a21,
   m.a10 * n.a02 + m.a11 * n.a12 + m.a12 * n.a22,
   m.a20 * n.a00 + m.a21 * n.a10 + m.a22 * n.a20,
   m.a20 * n.a01 + m.a21 * n.a11 + m.a22 * n.a21,
   m.a20 * n.a02 + m.a21 * n.a12 + m.a22 * n.a22⟩

def Mat3.mulVec (m : Mat3) (v : Vec3) : Vec3 :=
  ⟨m.a00 * v.x + m.a01 * v.y + m.a02 * v.z,
   m.a10 * v.x + m.a11 * v.y + m.a12 * v.z,
   m.a20 * v.x + m.a21 * v.y + m.a22 * v.z⟩

def Mat3.det (m : Mat3) : ℚ :=
  m.a00 * (m.a11 * m.a22 - m.a12 * m.a21)
    - m.a01 * (m.a10 * m.a22 - m.a12 * m.a20)
    + m.a02 * (m.a10 * m.a21 - m.a11 * m.a20)

/-- Inverse of a 3x3 matrix by cofactors, as Eigen computes it for fixed size 3. -/
def Mat3.inverse (m : Mat3) : Mat3 :=
  let invdet := 1 / m.det
  ⟨(m.a11 * m.a22 - m.a12 * m.a21) * invdet,
   (m.a02 * m.a21 - m.a01 * m.a22) * invdet,
   (m.a01 * m.a12 - m.a02 * m.a11) * invdet,
   (m.a12 * m.a20 - m.a10 * m.a22) * invdet,
   (m.a00 * m.a22 - m.a02 * m.a20) * invdet,
   (m.a02 * m.a10 - m.a00 * m.a12) * invdet,
   (m.a10 * m.a21 - m.a11 * m.a20) * invdet,
   (m.a01 * m.a20 - m.a00 * m.a21) * invdet,
   (m.a00 * m.a11 - m.a01 * m.a10) * invdet⟩

def Affine3.identity : Affine3 := ⟨Mat3.identity, Vec3.zero⟩

/-- Product of affine transforms. -/
def Affine3.mul (s t : Affine3) : Affine3 :=
  ⟨s.linear.mul t.linear, (s.linear.mulVec t.translation).add s.translation⟩

/-- Inverse of an affine transform: inverse linear part, translation `-(L⁻¹ t)`. -/
def Affine3.inverse (t : Affine3) : Affine3 :=
  ⟨t.linear.inverse, (t.linear.inverse.mulVec t.translation).neg⟩

/-! ## Messages and point types -/

/-- The point type `pcl::PointXYZI` used for the range image (`PointType`). -/
structure PointType where
  x : ℚ
  y : ℚ
  z : ℚ
  intensity : ℚ
deriving DecidableEq

/-- The canonical input point (`PointXYZIRT`): position, intensity, ring, time offset. -/
structure PointXYZIRT where
  x : ℚ
  y : ℚ
  z : ℚ
  intensity : ℚ
  ring : Int
  time : ℚ
deriving DecidableEq

/-- An Ouster input point (`OusterPointXYZIRT`), with its time offset `t` in nanoseconds. -/
structure OusterPointXYZIRT where
  x : ℚ
  y : ℚ
  z : ℚ
  intensity : ℚ
  t : Nat
  ring : Int
deriving DecidableEq

/-- A `sensor_msgs::Imu` sample. -/
structure ImuMsg where
  stamp : ℚ
  linear_acceleration : Vec3
  angular_velocity : Vec3
  orientation : Quat
deriving DecidableEq

/-- A `nav_msgs::Odometry` sample: stamp, pose and entry 0 of the pose covariance. -/
structure OdomMsg where
  stamp : ℚ
  position : Vec3
  orientation : Quat
  covariance0 : ℚ
deriving DecidableEq

/-- A `sensor_msgs::PointCloud2` scan. The payload is kept in both decoded forms
that `pcl::moveFromROSMsg` can produce from it. -/
structure CloudMsg where
  stamp : ℚ
  fields : List String
  is_dense : Bool
  points : List PointXYZIRT
  ousterPoints : List OusterPointXYZIRT
deriving DecidableEq

/-- The sensor-type selector. `UNKNOWN` stands for any value of the enumeration
other than the four supported ones. -/
inductive SensorType where
  | VELODYNE
  | OUSTER
  | LIVOX
  | LEISHEN
  | UNKNOWN
deriving DecidableEq

/-! ## Image projection: configuration, collaborators and state -/

/-- Configuration constants and external functions used by `ImageProjection`. -/
structure ProjEnv where
  /-- The configured sensor type. -/
  sensor : SensorType
  /-- Number of rings (rows of the range image). -/
  N_SCAN : Nat
  /-- Number of angular columns of the range image. -/
  Horizon_SCAN : Nat
  downsampleRate : Int
  lidarMinRange : ℚ
  lidarMaxRange : ℚ
  imuType : Int
  imuRate : ℚ
  /-- The sentinel `FLT_MAX` of an empty range-image cell. -/
  FLT_MAX : ℚ
  /-- The constant `M_PI`. -/
  M_PI : ℚ
  /-- The helper `pointDistance` (utility header): Euclidean norm of a point. -/
  pointDistance : PointType → ℚ
  /-- The libm function `atan2`. -/
  atan2 : ℚ → ℚ → ℚ
  /-- The PCL function `pcl::getTransformation x y z roll pitch yaw`. -/
  getTransformation : ℚ → ℚ → ℚ → ℚ → ℚ → ℚ → Affine3
  /-- The helper `imuRPY2rosRPY` (utility header): roll, pitch, yaw of a sample. -/
  imuRPY2rosRPY : ImuMsg → ℚ × ℚ × ℚ
  /-- Roll, pitch, yaw of a quaternion (`tf2::Matrix3x3::getRPY`). -/
  getRPY : Quat → ℚ × ℚ × ℚ
  /-- The helper `imuConverter` (utility header). -/
  imuConverter : ImuMsg → ImuMsg

/-- The message `lio_sam::cloud_info` (the fields written by this node). -/
structure CloudInfo where
  imuAvailable : Bool
  odomAvailable : Bool
  imuRollInit : ℚ
  imuPitchInit : ℚ
  imuYawInit : ℚ
  initialGuessX : ℚ
  initialGuessY : ℚ
  initialGuessZ : ℚ
  initialGuessRoll : ℚ
  initialGuessPitch : ℚ
  initialGuessYaw : ℚ
  startRingIndex : Nat → Int
  endRingIndex : Nat → Int
  pointColInd : Nat → Int
  pointRange : Nat → ℚ

/-- One published pair: the extracted cloud and its metadata. -/
structure Published where
  stamp : ℚ
  cloud : List PointType
  info : CloudInfo

/-- The member variables of `ImageProjection`. Arrays and matrices are total
functions of their indices; the code only reads the indices it has allocated. -/
structure ImageProjection where
  imuQueue : List ImuMsg
  odomQueue : List OdomMsg
  cloudQueue : List CloudMsg
  currentCloudMsg : CloudMsg
  imuTime : Nat → ℚ
  imuRotX : Nat → ℚ
  imuRotY : Nat → ℚ
  imuRotZ : Nat → ℚ
  imuPointerCur : Int
  firstPointFlag : Bool
  transStartInverse : Affine3
  laserCloudIn : List PointXYZIRT
  laserCloudInDense : Bool
  fullCloud : Nat → PointType
  extractedCloud : List PointType
  deskewFlag : Int
  rangeMat : Nat → Nat → ℚ
  odomDeskewFlag : Bool
  odomIncreX : ℚ
  odomIncreY : ℚ
  odomIncreZ : ℚ
  cloudInfo : CloudInfo
  timeScanCur : ℚ
  timeScanEnd : ℚ
  cloudHeaderStamp : ℚ
  columnIdnCountVec : Nat → Int
  /-- LEISHEN time bookkeeping. -/
  firstFlag : Bool
  timePrev : ℚ
  timeIncrement : ℚ
  /-- The function-local `static int ringFlag` of `cachePointCloud`. -/
  ringFlag : Int
  /-- Set once `ros::shutdown()` has been called. -/
  shutdownRequested : Bool
  /-- Everything handed to the two publishers, oldest first. -/
  published : List Published

namespace ImageProjection

/-- Translation of `resetParameters`. -/
def resetParameters (env : ProjEnv) (s : ImageProjection) : ImageProjection :=
  { s with
    laserCloudIn := []
    extractedCloud := []
    rangeMat := fun _ _ => env.FLT_MAX
    imuPointerCur := 0
    firstPointFlag := true
    odomDeskewFlag := false
    imuTime := fun _ => 0
    imuRotX := fun _ => 0
    imuRotY := fun _ => 0
    imuRotZ := fun _ => 0
    columnIdnCountVec := fun _ => 0 }

/-- The `while` loop of `findRotation`: starting at `imuPointerFront`, with `n`
iterations left before `imuPointerFront` reaches `imuPointerCur`. -/
def findRotationLoop (imuTime : Nat → ℚ) (pointTime : ℚ) : Nat → Nat → Nat
  | imuPointerFront, 0 => imuPointerFront
  | imuPointerFront, n + 1 =>
    if pointTime < imuTime imuPointerFront then imuPointerFront
    else findRotationLoop imuTime pointTime (imuPointerFront + 1) n

/-- Translation of `findRotation`: returns `(rotXCur, rotYCur, rotZCur)`. The
division is that of the rationals (see `findRotationDivisor` for a zero
divisor). -/
def findRotation (s : ImageProjection) (pointTime : ℚ) : ℚ × ℚ × ℚ :=
  let imuPointerFront := findRotationLoop s.imuTime pointTime 0 s.imuPointerCur.toNat
  if pointTime > s.imuTime imuPointerFront ∨ imuPointerFront = 0 then
    (s.imuRotX imuPointerFront, s.imuRotY imuPointerFront, s.imuRotZ imuPointerFront)
  else
    let imuPointerBack := imuPointerFront - 1
    let ratioFront := (pointTime - s.imuTime imuPointerBack)
      / (s.imuTime imuPointerFront - s.imuTime imuPointerBack)
    let ratioBack := (s.imuTime imuPointerFront - pointTime)
      / (s.imuTime imuPointerFront - s.imuTime imuPointerBack)
    (s.imuRotX imuPointerFront * ratioFront + s.imuRotX imuPointerBack * ratioBack,
     s.imuRotY imuPointerFront * ratioFront + s.imuRotY imuPointerBack * ratioBack,
     s.imuRotZ imuPointerFront * ratioFront + s.imuRotZ imuPointerBack * ratioBack)

/-- Translation of `findPosition`: returns `(posXCur, posYCur, posZCur)`. The
division is that of the rationals (see `findPositionDivisor` for a zero
divisor). -/
def findPosition (s : ImageProjection) (relTime : ℚ) : ℚ × ℚ × ℚ :=
  if s.cloudInfo.odomAvailable = false ∨ s.odomDeskewFlag = false then (0, 0, 0)
  else
    let ratio := relTime / (s.timeScanEnd - s.timeScanCur)
    (ratio * s.odomIncreX, ratio * s.odomIncreY, ratio * s.odomIncreZ)

/-- Translation of `deskewPoint`: the returned point and the state, whose
`firstPointFlag` and `transStartInverse` the call may set. -/
def deskewPoint (env : ProjEnv) (s : ImageProjection) (point : PointType) (relTime : ℚ) :
    PointType × ImageProjection :=
  if s.deskewFlag = -1 ∨ s.cloudInfo.imuAvailable = false then (point, s)
  else
    let pointTime := s.timeScanCur + relTime
    let rot := findRotation s pointTime
    let pos := findPosition s relTime
    let s1 : ImageProjection :=
      if s.firstPointFlag = true then
        { s with
          transStartInverse :=
            (env.getTransformation pos.1 pos.2.1 pos.2.2 rot.1 rot.2.1 rot.2.2).inverse
          firstPointFlag := false }
      else s
    let transFinal := env.getTransformation pos.1 pos.2.1 pos.2.2 rot.1 rot.2.1 rot.2.2
    let transBt := s1.transStartInverse.mul transFinal
    let newPoint : PointType :=
      { x := transBt.linear.a00 * point.x + transBt.linear.a01 * point.y
          + transBt.linear.a02 * point.z + transBt.translation.x
        y := transBt.linear.a10 * point.x + transBt.linear.a11 * point.y
          + transBt.linear.a12 * point.z + transBt.translation.y
        z := transBt.linear.a20 * point.x + transBt.linear.a21 * point.y
          + transBt.linear.a22 * point.z + transBt.translation.z
        intensity := point.intensity }
    (newPoint, s1)

/-- The column of a point in the azimuth-based sensor modes, before the range check. -/
def azimuthColumn (env : ProjEnv) (thisPoint : PointType) : Int :=
  let horizonAngle := env.atan2 thisPoint.x thisPoint.y * 180 / env.M_PI
  let ang_res_x : ℚ := 360 / (env.Horizon_SCAN : ℚ)
  let columnIdn : Int := -cround ((horizonAngle - 90) / ang_res_x) + (env.Horizon_SCAN : Int) / 2
  if columnIdn ≥ (env.Horizon_SCAN : Int) then columnIdn - (env.Horizon_SCAN : Int) else columnIdn

/-- The column computation of one iteration of `projectPointCloud`: the value of
`columnIdn` and the state (the LIVOX branch advances the per-row counter). -/
def locateColumn (env : ProjEnv) (s : ImageProjection) (thisPoint : PointType) (rowIdn : Int) :
    Int × ImageProjection :=
  if env.sensor = SensorType.VELODYNE ∨ env.sensor = SensorType.LEISHEN
      ∨ env.sensor = SensorType.OUSTER then
    (azimuthColumn env thisPoint, s)
  else if env.sensor = SensorType.LIVOX then
    (s.columnIdnCountVec rowIdn.toNat,
      { s with
        columnIdnCountVec :=
          Function.update s.columnIdnCountVec rowIdn.toNat
            (s.columnIdnCountVec rowIdn.toNat + 1) })
  else (-1, s)

/-- One iteration of the loop of `projectPointCloud`. Next to the new state it
reports the cell `(rowIdn, columnIdn)` the iteration wrote, `none` when the point
was skipped by a `continue`. The C++ `%` truncates toward zero (`Int.tmod`); with
`downsampleRate = 0` it is undefined in the source. -/
def projectPoint (env : ProjEnv) (s : ImageProjection) (pt : PointXYZIRT) :
    ImageProjection × Option (Nat × Nat) :=
  let thisPoint : PointType := ⟨pt.x, pt.y, pt.z, pt.intensity⟩
  let range := env.pointDistance thisPoint
  if range < env.lidarMinRange ∨ range > env.lidarMaxRange then (s, none)
  else
    let rowIdn : Int := pt.ring
    if rowIdn < 0 ∨ rowIdn ≥ (env.N_SCAN : Int) then (s, none)
    else if rowIdn.tmod env.downsampleRate ≠ 0 then (s, none)
    else
      let located := locateColumn env s thisPoint rowIdn
      let columnIdn := located.1
      let s1 := located.2
      if columnIdn < 0 ∨ columnIdn ≥ (env.Horizon_SCAN : Int) then (s1, none)
      else if s1.rangeMat rowIdn.toNat columnIdn.toNat ≠ env.FLT_MAX then (s1, none)
      else
        let d := deskewPoint env s1 thisPoint pt.time
        let index := columnIdn.toNat + rowIdn.toNat * env.Horizon_SCAN
        ({ d.2 with
            rangeMat := Function.update d.2.rangeMat rowIdn.toNat
              (Function.update (d.2.rangeMat rowIdn.toNat) columnIdn.toNat (env.pointDistance d.1))
            fullCloud := Function.update d.2.fullCloud index d.1 },
          some (rowIdn.toNat, columnIdn.toNat))

/-- The loop of `projectPointCloud` over a list of points. -/
def projectLoop (env : ProjEnv) : ImageProjection → List PointXYZIRT → ImageProjection
  | s, [] => s
  | s, pt :: rest => projectLoop env (projectPoint env s pt).1 rest

/-- The cells written by the loop of `projectPointCloud`, in the order of the writes. -/
def cellWrites (env : ProjEnv) : ImageProjection → List PointXYZIRT → List (Nat × Nat)
  | _, [] => []
  | s, pt :: rest =>
    match (projectPoint env s pt).2 with
    | some c => c :: cellWrites env (projectPoint env s pt).1 rest
    | none => cellWrites env (projectPoint env s pt).1 rest

/-- Translation of `projectPointCloud`. -/
def projectPointCloud (env : ProjEnv) (s : ImageProjection) : ImageProjection :=
  projectLoop env s s.laserCloudIn

/-- The body of the inner loop of `cloudExtraction` for cell `(i, j)`; the state
is paired with the running `count`. -/
def extractCell (env : ProjEnv) (i : Nat) (acc : ImageProjection × Nat) (j : Nat) :
    ImageProjection × Nat :=
  if acc.1.rangeMat i j ≠ env.FLT_MAX then
    ({ acc.1 with
        cloudInfo :=
          { acc.1.cloudInfo with
            pointColInd := Function.update acc.1.cloudInfo.pointColInd acc.2 (j : Int)
            pointRange := Function.update acc.1.cloudInfo.pointRange acc.2 (acc.1.rangeMat i j) }
        extractedCloud := acc.1.extractedCloud ++ [acc.1.fullCloud (j + i * env.Horizon_SCAN)] },
      acc.2 + 1)
  else acc

/-- The body of the outer loop of `cloudExtraction` for ring `i`. -/
def extractRing (env : ProjEnv) (acc : ImageProjection × Nat) (i : Nat) :
    ImageProjection × Nat :=
  let s1 : ImageProjection :=
    { acc.1 with
      cloudInfo :=
        { acc.1.cloudInfo with
          startRingIndex := Function.update acc.1.cloudInfo.startRingIndex i ((acc.2 : Int) - 1 + 5) } }
  let r := (List.range env.Horizon_SCAN).foldl (extractCell env i) (s1, acc.2)
  ({ r.1 with
      cloudInfo :=
        { r.1.cloudInfo with
          endRingIndex := Function.update r.1.cloudInfo.endRingIndex i ((r.2 : Int) - 1 - 5) } },
    r.2)

/-- Translation of `cloudExtraction`. -/
def cloudExtraction (env : ProjEnv) (s : ImageProjection) : ImageProjection :=
  ((List.range env.N_SCAN).foldl (extractRing env) (s, 0)).1

/-- Modelled from the spec: the helper `imuAngular2rosAngular` of the utility
header, which is not under `src/`; the table integrates the angular velocity of
the sample, which the helper hands over component by component. -/
def imuAngular2rosAngular (thisImuMsg : ImuMsg) : ℚ × ℚ × ℚ :=
  (thisImuMsg.angular_velocity.x, thisImuMsg.angular_velocity.y, thisImuMsg.angular_velocity.z)

/-- The `for` loop of `imuDeskewInfo` over the samples of the queue. -/
def imuDeskewLoop (env : ProjEnv) : List ImuMsg → ImageProjection → ImageProjection
  | [], s => s
  | thisImuMsg :: rest, s =>
    let currentImuTime := thisImuMsg.stamp
    let s1 : ImageProjection :=
      if env.imuType ≠ 0 ∧ currentImuTime ≤ s.timeScanCur then
        { s with
          cloudInfo :=
            { s.cloudInfo with
              imuRollInit := (env.imuRPY2rosRPY thisImuMsg).1
              imuPitchInit := (env.imuRPY2rosRPY thisImuMsg).2.1
              imuYawInit := (env.imuRPY2rosRPY thisImuMsg).2.2 } }
      else s
    if currentImuTime > s1.timeScanEnd + 1 / 100 then s1
    else if s1.imuPointerCur = 0 then
      imuDeskewLoop env rest
        { s1 with
          imuRotX := Function.update s1.imuRotX 0 0
          imuRotY := Function.update s1.imuRotY 0 0
          imuRotZ := Function.update s1.imuRotZ 0 0
          imuTime := Function.update s1.imuTime 0 currentImuTime
          imuPointerCur := s1.imuPointerCur + 1 }
    else
      let cur := s1.imuPointerCur.toNat
      let angular := imuAngular2rosAngular thisImuMsg
      let timeDiff := currentImuTime - s1.imuTime (cur - 1)
      imuDeskewLoop env rest
        { s1 with
          imuRotX := Function.update s1.imuRotX cur
            (s1.imuRotX (cur - 1) + angular.1 * timeDiff)
          imuRotY := Function.update s1.imuRotY cur
            (s1.imuRotY (cur - 1) + angular.2.1 * timeDiff)
          imuRotZ := Function.update s1.imuRotZ cur
            (s1.imuRotZ (cur - 1) + angular.2.2 * timeDiff)
          imuTime := Function.update s1.imuTime cur currentImuTime
          imuPointerCur := s1.imuPointerCur + 1 }

/-- Translation of `imuDeskewInfo`. -/
def imuDeskewInfo (env : ProjEnv) (s : ImageProjection) : ImageProjection :=
  let s0 : ImageProjection := { s with cloudInfo := { s.cloudInfo with imuAvailable := false } }
  let s1 : ImageProjection :=
    { s0 with imuQueue := s0.imuQueue.dropWhile (fun m => decide (m.stamp < s0.timeScanCur - 1 / 100)) }
  if s1.imuQueue.isEmpty then s1
  else
    let s2 := imuDeskewLoop env s1.imuQueue { s1 with imuPointerCur := 0 }
    let s3 : ImageProjection := { s2 with imuPointerCur := s2.imuPointerCur - 1 }
    if s3.imuPointerCur ≤ 0 then s3
    else { s3 with cloudInfo := { s3.cloudInfo with imuAvailable := true } }

/-- The selection loops of `odomDeskewInfo`: the first sample of the queue whose
stamp is not before `t`, the last sample when there is none; `cur` is the value
the message variable holds before the loop. -/
def selectOdom (t : ℚ) : List OdomMsg → OdomMsg → OdomMsg
  | [], cur => cur
  | m :: rest, _ => if m.stamp < t then selectOdom t rest m else m

/-- A default-constructed `nav_msgs::Odometry`. -/
def emptyOdom : OdomMsg := ⟨0, Vec3.zero, ⟨0, 0, 0, 0⟩, 0⟩

/-- Translation of `odomDeskewInfo`. -/
def odomDeskewInfo (env : ProjEnv) (s : ImageProjection) : ImageProjection :=
  let s0 : ImageProjection := { s with cloudInfo := { s.cloudInfo with odomAvailable := false } }
  let timeDiff : ℚ := 5 / env.imuRate
  let s1 : ImageProjection :=
    { s0 with odomQueue := s0.odomQueue.dropWhile (fun m => decide (m.stamp < s0.timeScanCur - timeDiff)) }
  match s1.odomQueue.head?, s1.odomQueue.getLast? with
  | some front, some back =>
    if front.stamp > s1.timeScanCur then s1
    else
      let startOdomMsg := selectOdom s1.timeScanCur s1.odomQueue emptyOdom
      let rpy := env.getRPY startOdomMsg.orientation
      let s2 : ImageProjection :=
        { s1 with
          cloudInfo :=
            { s1.cloudInfo with
              initialGuessX := startOdomMsg.position.x
              initialGuessY := startOdomMsg.position.y
              initialGuessZ := startOdomMsg.position.z
              initialGuessRoll := rpy.1
              initialGuessPitch := rpy.2.1
              initialGuessYaw := rpy.2.2
              odomAvailable := true }
          odomDeskewFlag := false }
      if back.stamp < s2.timeScanEnd then s2
      else
        let endOdomMsg := selectOdom s2.timeScanEnd s2.odomQueue emptyOdom
        if cround startOdomMsg.covariance0 ≠ cround endOdomMsg.covariance0 then s2
        else
          let transBegin := env.getTransformation startOdomMsg.position.x startOdomMsg.position.y
            startOdomMsg.position.z rpy.1 rpy.2.1 rpy.2.2
          let rpyEnd := env.getRPY endOdomMsg.orientation
          let transEnd := env.getTransformation endOdomMsg.position.x endOdomMsg.position.y
            endOdomMsg.position.z rpyEnd.1 rpyEnd.2.1 rpyEnd.2.2
          let transBt := transBegin.inverse.mul transEnd
          { s2 with
            odomIncreX := transBt.translation.x
            odomIncreY := transBt.translation.y
            odomIncreZ := transBt.translation.z
            odomDeskewFlag := true }
  | _, _ => s1

/-- Translation of `deskewInfo`: the returned flag and the new state. -/
def deskewInfo (env : ProjEnv) (s : ImageProjection) : Bool × ImageProjection :=
  match s.imuQueue.head?, s.imuQueue.getLast? with
  | some front, some back =>
    if front.stamp > s.timeScanCur ∨ back.stamp < s.timeScanEnd then (false, s)
    else (true, odomDeskewInfo env (imuDeskewInfo env s))
  | _, _ => (false, s)

/-- The LEISHEN branch of `cachePointCloud`: point times from the azimuth, then a
sort by time (`std::sort`; the order of points of equal time is unspecified in
the source, a stable sort is used here). -/
def leishenConvert (env : ProjEnv) (s : ImageProjection) : ImageProjection :=
  let stamp := s.currentCloudMsg.stamp
  let s1 : ImageProjection :=
    if s.firstFlag = true then
      { s with firstFlag := false, timePrev := stamp, timeIncrement := 1 / 10 }
    else
      { s with timeIncrement := stamp - s.timePrev, timePrev := stamp }
  let pts := s1.currentCloudMsg.points
  let pointAngle : List ℚ := pts.map (fun p => env.atan2 p.y p.x)
  let startAngle := pointAngle.foldl min (pointAngle.headD 0)
  let endAngle := pointAngle.foldl max (pointAngle.headD 0)
  let angleRange0 := endAngle - startAngle
  let angleRange := if angleRange0 < 0 then angleRange0 + 2 * env.M_PI else angleRange0
  let timed : List PointXYZIRT :=
    List.zipWith (fun p angle => { p with time := (angle - startAngle) / angleRange * s1.timeIncrement })
      pts pointAngle
  { s1 with
    laserCloudIn := List.mergeSort timed (fun a b => decide (a.time ≤ b.time))
    laserCloudInDense := s1.currentCloudMsg.is_dense }

/-- The block "convert cloud" of `cachePointCloud`, by sensor type. -/
def convertCloud (env : ProjEnv) (s : ImageProjection) : ImageProjection :=
  if env.sensor = SensorType.VELODYNE ∨ env.sensor = SensorType.LIVOX then
    { s with
      laserCloudIn := s.currentCloudMsg.points
      laserCloudInDense := s.currentCloudMsg.is_dense }
  else if env.sensor = SensorType.LEISHEN then leishenConvert env s
  else if env.sensor = SensorType.OUSTER then
    { s with
      laserCloudIn := s.currentCloudMsg.ousterPoints.map
        (fun src => ⟨src.x, src.y, src.z, src.intensity, src.ring, (src.t : ℚ) * (1 / 1000000000)⟩)
      laserCloudInDense := s.currentCloudMsg.is_dense }
  else { s with shutdownRequested := true }

/-- The block "get timestamp" of `cachePointCloud`. `points.back()` of an empty
cloud is undefined in the source; the model reads time offset 0 there. -/
def getTimestamp (s : ImageProjection) : ImageProjection :=
  let backTime : ℚ :=
    match s.laserCloudIn.getLast? with
    | some p => p.time
    | none => 0
  { s with
    cloudHeaderStamp := s.currentCloudMsg.stamp
    timeScanCur := s.currentCloudMsg.stamp
    timeScanEnd := s.currentCloudMsg.stamp + backTime }

/-- The block "check dense flag" of `cachePointCloud`. -/
def checkDenseFlag (s : ImageProjection) : ImageProjection :=
  if s.laserCloudInDense = false then { s with shutdownRequested := true } else s

/-- The block "check ring channel" of `cachePointCloud`. -/
def checkRingChannel (s : ImageProjection) : ImageProjection :=
  if s.ringFlag = 0 then
    if s.currentCloudMsg.fields.contains "ring" then { s with ringFlag := 1 }
    else { s with ringFlag := -1, shutdownRequested := true }
  else s

/-- The block "check point time" of `cachePointCloud`. -/
def checkPointTime (s : ImageProjection) : ImageProjection :=
  if s.deskewFlag = 0 then
    if s.currentCloudMsg.fields.any (fun name => name == "time" || name == "t") then
      { s with deskewFlag := 1 }
    else { s with deskewFlag := -1 }
  else s

/-- Translation of `cachePointCloud`: the returned flag and the new state. -/
def cachePointCloud (env : ProjEnv) (s : ImageProjection) (laserCloudMsg : CloudMsg) :
    Bool × ImageProjection :=
  let s0 : ImageProjection := { s with cloudQueue := s.cloudQueue ++ [laserCloudMsg] }
  if s0.cloudQueue.length ≤ 2 then (false, s0)
  else
    let s1 : ImageProjection :=
      { s0 with
        currentCloudMsg := s0.cloudQueue.headD s0.currentCloudMsg
        cloudQueue := s0.cloudQueue.tail }
    (true, checkPointTime (checkRingChannel (checkDenseFlag (getTimestamp (convertCloud env s1)))))

/-- Translation of `publishClouds`. -/
def publishClouds (s : ImageProjection) : ImageProjection :=
  { s with published := s.published ++ [⟨s.cloudHeaderStamp, s.extractedCloud, s.cloudInfo⟩] }

/-- Translation of `cloudHandler`. -/
def cloudHandler (env : ProjEnv) (s : ImageProjection) (laserCloudMsg : CloudMsg) :
    ImageProjection :=
  let c := cachePointCloud env s laserCloudMsg
  if c.1 = false then c.2
  else
    let d := deskewInfo env c.2
    if d.1 = false then d.2
    else resetParameters env (publishClouds (cloudExtraction env (projectPointCloud env d.2)))

/-- Translation of `imuHandler`. -/
def imuHandler (env : ProjEnv) (s : ImageProjection) (imuMsg : ImuMsg) : ImageProjection :=
  let thisImu := env.imuConverter imuMsg
  { s with imuQueue := s.imuQueue ++ [thisImu] }

/-- Translation of `odometryHandler`. -/
def odometryHandler (s : ImageProjection) (odometryMsg : OdomMsg) : ImageProjection :=
  { s with odomQueue := s.odomQueue ++ [odometryMsg] }

/-- The state after the constructor (`deskewFlag(0)`, `allocateMemory`,
`resetParameters`). Members the constructor does not assign are empty, zero or,
for `firstFlag`, true. -/
def initial (env : ProjEnv) : ImageProjection :=
  { imuQueue := []
    odomQueue := []
    cloudQueue := []
    currentCloudMsg := ⟨0, [], true, [], []⟩
    imuTime := fun _ => 0
    imuRotX := fun _ => 0
    imuRotY := fun _ => 0
    imuRotZ := fun _ => 0
    imuPointerCur := 0
    firstPointFlag := true
    transStartInverse := Affine3.identity
    laserCloudIn := []
    laserCloudInDense := true
    fullCloud := fun _ => ⟨0, 0, 0, 0⟩
    extractedCloud := []
    deskewFlag := 0
    rangeMat := fun _ _ => env.FLT_MAX
    odomDeskewFlag := false
    odomIncreX := 0
    odomIncreY := 0
    odomIncreZ := 0
    cloudInfo :=
      { imuAvailable := false
        odomAvailable := false
        imuRollInit := 0
        imuPitchInit := 0
        imuYawInit := 0
        initialGuessX := 0
        initialGuessY := 0
        initialGuessZ := 0
        initialGuessRoll := 0
        initialGuessPitch := 0
        initialGuessYaw := 0
        startRingIndex := fun _ => 0
        endRingIndex := fun _ => 0
        pointColInd := fun _ => 0
        pointRange := fun _ => 0 }
    timeScanCur := 0
    timeScanEnd := 0
    cloudHeaderStamp := 0
    columnIdnCountVec := fun _ => 0
    firstFlag := true
    timePrev := 0
    timeIncrement := 0
    ringFlag := 0
    shutdownRequested := false
    published := [] }

/-- A message delivered to the node: an IMU sample, an odometry sample or a scan. -/
inductive Input where
  | imu (imuMsg : ImuMsg)
  | odometry (odometryMsg : OdomMsg)
  | cloud (laserCloudMsg : CloudMsg)

/-- One callback of the node. -/
def receive (env : ProjEnv) (s : ImageProjection) : Input → ImageProjection
  | Input.imu imuMsg => imuHandler env s imuMsg
  | Input.odometry odometryMsg => odometryHandler s odometryMsg
  | Input.cloud laserCloudMsg => cloudHandler env s laserCloudMsg

/-- The state of a freshly constructed node after the given messages, handled in
their order of arrival. -/
def afterInputs (env : ProjEnv) (inputs : List Input) : ImageProjection :=
  inputs.foldl (receive env) (initial env)

/-- The divisor `imuTime[imuPointerFront] - imuTime[imuPointerBack]` of the two
ratios of `findRotation` for a query time, `none` when the function does not
interpolate. -/
def findRotationDivisor (s : ImageProjection) (pointTime : ℚ) : Option ℚ :=
  let imuPointerFront := findRotationLoop s.imuTime pointTime 0 s.imuPointerCur.toNat
  if pointTime > s.imuTime imuPointerFront ∨ imuPointerFront = 0 then none
  else
    let imuPointerBack := imuPointerFront - 1
    some (s.imuTime imuPointerFront - s.imuTime imuPointerBack)

/-- The divisor `timeScanEnd - timeScanCur` of the ratio of `findPosition`,
`none` when the function returns before the division. -/
def findPositionDivisor (s : ImageProjection) : Option ℚ :=
  if s.cloudInfo.odomAvailable = false ∨ s.odomDeskewFlag = false then none
  else some (s.timeScanEnd - s.timeScanCur)

/-- The function `deskewPoint` with its two floating-point divisions checked. A
division by zero gives NaN or an infinity in the source: in `findRotation` the
three angles are NaN, in `findPosition` the three offsets are infinite or NaN,
and through `transBt` the three coordinates of the returned point are then not
numbers. The result is `none` in that case, and the result of `deskewPoint`
otherwise. -/
def deskewPointChecked (env : ProjEnv) (s : ImageProjection) (point : PointType) (relTime : ℚ) :
    Option (PointType × ImageProjection) :=
  if s.deskewFlag = -1 ∨ s.cloudInfo.imuAvailable = false then some (point, s)
  else if findRotationDivisor s (s.timeScanCur + relTime) = some 0 ∨ findPositionDivisor s = some 0
  then none
  else some (deskewPoint env s point relTime)

/-- A sample configuration: a LIVOX sensor with 2 rings and 4 columns. The
collaborators are rational stand-ins: the 1-norm capped at `2^64` for
`pointDistance`, a pure translation for `getTransformation`. -/
def sampleEnv : ProjEnv :=
  { sensor := SensorType.LIVOX
    N_SCAN := 2
    Horizon_SCAN := 4
    downsampleRate := 1
    lidarMinRange := 1
    lidarMaxRange := 1000
    imuType := 0
    imuRate := 500
    FLT_MAX := 340282346638528859811704183484516925440
    M_PI := 355 / 113
    pointDistance := fun p => min (|p.x| + |p.y| + |p.z|) 18446744073709551616
    atan2 := fun _ _ => 0
    getTransformation := fun x y z _ _ _ => ⟨Mat3.identity, ⟨x, y, z⟩⟩
    imuRPY2rosRPY := fun _ => (0, 0, 0)
    getRPY := fun _ => (0, 0, 0)
    imuConverter := fun m => m }

/-- A sample scan of three points: two on ring 0 and one on ring 5 (out of range). -/
def samplePoints : List PointXYZIRT :=
  [⟨3, 0, 0, 10, 0, 0⟩, ⟨0, 4, 0, 20, 5, 1 / 100⟩, ⟨0, 0, 5, 30, 0, 2 / 100⟩]

/-- The constructed state of the sample configuration with the sample scan loaded. -/
def sampleScanState : ImageProjection :=
  { initial sampleEnv with laserCloudIn := samplePoints }

/-- Ten IMU samples 0.12 s apart, the first at -0.05 s, each with angular velocity
`(0, 0, 3/10)`. -/
def sampleImuQueue : List ImuMsg :=
  [⟨-1 / 20, Vec3.zero, ⟨0, 0, 3 / 10⟩, ⟨0, 0, 0, 1⟩⟩,
   ⟨7 / 100, Vec3.zero, ⟨0, 0, 3 / 10⟩, ⟨0, 0, 0, 1⟩⟩,
   ⟨19 / 100, Vec3.zero, ⟨0, 0, 3 / 10⟩, ⟨0, 0, 0, 1⟩⟩,
   ⟨31 / 100, Vec3.zero, ⟨0, 0, 3 / 10⟩, ⟨0, 0, 0, 1⟩⟩,
   ⟨43 / 100, Vec3.zero, ⟨0, 0, 3 / 10⟩, ⟨0, 0, 0, 1⟩⟩,
   ⟨55 / 100, Vec3.zero, ⟨0, 0, 3 / 10⟩, ⟨0, 0, 0, 1⟩⟩,
   ⟨67 / 100, Vec3.zero, ⟨0, 0, 3 / 10⟩, ⟨0, 0, 0, 1⟩⟩,
   ⟨79 / 100, Vec3.zero, ⟨0, 0, 3 / 10⟩, ⟨0, 0, 0, 1⟩⟩,
   ⟨91 / 100, Vec3.zero, ⟨0, 0, 3 / 10⟩, ⟨0, 0, 0, 1⟩⟩,
   ⟨103 / 100, Vec3.zero, ⟨0, 0, 3 / 10⟩, ⟨0, 0, 0, 1⟩⟩]

/-- The constructed state with the sample IMU queue and a scan over `[0, 1]`. -/
def sampleDeskewState : ImageProjection :=
  { initial sampleEnv with imuQueue := sampleImuQueue, timeScanCur := 0, timeScanEnd := 1 }

/-- A rotation table with three entries at times 0, 1, 2. -/
def sampleTableState : ImageProjection :=
  { initial sampleEnv with
    imuPointerCur := 2
    imuTime := fun k => (k : ℚ)
    imuRotX := fun k => (k : ℚ) * (k : ℚ)
    imuRotY := fun k => -(k : ℚ)
    imuRotZ := fun k => 2 * (k : ℚ) }

/-- A run of `cachePointCloud` over the scans `msgs` in their order of arrival:
the final state and the scans handed on for processing (the `currentCloudMsg`
of the calls that returned true), in the order of the calls. -/
def cacheRun (env : ProjEnv) : ImageProjection → List CloudMsg → ImageProjection × List CloudMsg
  | s, [] => (s, [])
  | s, m :: rest =>
    let r := cachePointCloud env s m
    let t := cacheRun env r.2 rest
    (t.1, if r.1 = true then r.2.currentCloudMsg :: t.2 else t.2)

/-- A sample scan with the given stamp. -/
def sampleScan (stamp : ℚ) : CloudMsg :=
  ⟨stamp, ["x", "y", "z", "intensity", "ring", "time"], true, samplePoints, []⟩

/-! ### Predicates used in the statements about deskewing -/

/-- Fields of the state on which the deskew transform of a point depends, apart
from the first-point reference. -/
def SameDeskewInputs (a b : ImageProjection) : Prop :=
  a.imuTime = b.imuTime ∧ a.imuRotX = b.imuRotX ∧ a.imuRotY = b.imuRotY ∧ a.imuRotZ = b.imuRotZ
    ∧ a.imuPointerCur = b.imuPointerCur ∧ a.cloudInfo.imuAvailable = b.cloudInfo.imuAvailable
    ∧ a.deskewFlag = b.deskewFlag

/-- A table of zero rotations: either the scan has no usable IMU data, or every
entry up to `imuPointerCur` is zero. -/
def ZeroTable (s : ImageProjection) : Prop :=
  s.cloudInfo.imuAvailable = false
    ∨ (0 ≤ s.imuPointerCur ∧ ∀ k : Nat, (k : Int) ≤ s.imuPointerCur →
        s.imuRotX k = 0 ∧ s.imuRotY k = 0 ∧ s.imuRotZ k = 0)

/-- The condition under which `deskewPoint` is the identity on points. -/
def DeskewIsIdentity (s : ImageProjection) : Prop :=
  ZeroTable s ∧ s.cloudInfo.odomAvailable = false
    ∧ (s.firstPointFlag = true ∨ s.transStartInverse = Affine3.identity)

/-- The rotation table of a constant angular velocity `(0, 0, w)`: entries
`0..imuPointerCur` have increasing times, zero X and Y rotation, and Z rotation
`w * (imuTime k - imuTime 0)`. -/
def ConstantRateTable (w : ℚ) (s : ImageProjection) : Prop :=
  0 ≤ s.imuPointerCur
    ∧ (∀ i j : Nat, i < j → (j : Int) ≤ s.imuPointerCur → s.imuTime i < s.imuTime j)
    ∧ ∀ k : Nat, (k : Int) ≤ s.imuPointerCur →
        s.imuRotX k = 0 ∧ s.imuRotY k = 0 ∧ s.imuRotZ k = w * (s.imuTime k - s.imuTime 0)

/-! ### Notions used in the statements about scan times, extraction and the
deskewing reference -/

/-- The time offset of the last point of a cloud (`points.back().time`), 0 for an
empty cloud. -/
def backTime (cloud : List PointXYZIRT) : ℚ :=
  match cloud.getLast? with
  | some p => p.time
  | none => 0

/-- The occupied columns of ring `i` of the range image, ascending. -/
def occupiedColumns (env : ProjEnv) (s : ImageProjection) (i : Nat) : List Nat :=
  (List.range env.Horizon_SCAN).filter (fun j => decide (s.rangeMat i j ≠ env.FLT_MAX))

/-- The occupied cells `(ring, column)` of the rings below `n`, in row-major
order: rings ascending, columns ascending within a ring. -/
def occupiedCells (env : ProjEnv) (s : ImageProjection) : Nat → List (Nat × Nat)
  | 0 => []
  | n + 1 => occupiedCells env s n ++ (occupiedColumns env s n).map (fun j => (n, j))

/-- The two divisions of the deskewing have non-zero divisors for every point of
the scan: the last two stamps of the rotation table differ, and the scan has a
non-zero duration when the translation is interpolated. -/
def DivisorsNonzero (s : ImageProjection) : Prop :=
  (0 < s.imuPointerCur →
      s.imuTime (s.imuPointerCur.toNat - 1) ≠ s.imuTime s.imuPointerCur.toNat)
    ∧ (s.cloudInfo.odomAvailable = true → s.odomDeskewFlag = true →
        s.timeScanEnd ≠ s.timeScanCur)

/-- Fields of the state read by the two divisions of the deskewing. -/
def SameDivisors (a b : ImageProjection) : Prop :=
  a.imuTime = b.imuTime ∧ a.imuPointerCur = b.imuPointerCur ∧ a.timeScanCur = b.timeScanCur
    ∧ a.timeScanEnd = b.timeScanEnd ∧ a.cloudInfo.odomAvailable = b.cloudInfo.odomAvailable
    ∧ a.odomDeskewFlag = b.odomDeskewFlag ∧ a.deskewFlag = b.deskewFlag
    ∧ a.cloudInfo.imuAvailable = b.cloudInfo.imuAvailable

/-- The constructed state of the sample configuration with two scans queued
(stamps 1 and 2) and no IMU sample. -/
def sampleQueuedState : ImageProjection :=
  { initial sampleEnv with cloudQueue := [sampleScan 1, sampleScan 2] }

/-- A sample scan whose last point does not carry the largest time offset. -/
def sampleUnorderedScan (stamp : ℚ) : CloudMsg :=
  ⟨stamp, ["x", "y", "z", "intensity", "ring", "time"], true,
    [⟨3, 0, 0, 10, 0, 0⟩, ⟨0, 4, 0, 20, 1, 5 / 100⟩, ⟨0, 0, 5, 30, 0, 2 / 100⟩], []⟩

/-- The constructed state with the unordered scan (stamp 1) at the head of the
scan queue, followed by the sample scan of stamp 2. -/
def sampleUnorderedState : ImageProjection :=
  { initial sampleEnv with cloudQueue := [sampleUnorderedScan 1, sampleScan 2] }

/-- A sample scan flagged non-dense, with the points of the sample scan. -/
def sampleNonDenseScan (stamp : ℚ) : CloudMsg :=
  ⟨stamp, ["x", "y", "z", "intensity", "ring", "time"], false, samplePoints, []⟩

/-- The constructed state with a non-dense scan of stamp 0 at the head of the
scan queue, the sample scan of stamp 1 behind it, and the sample IMU queue,
which spans the non-dense scan. -/
def sampleNonDenseState : ImageProjection :=
  { initial sampleEnv with
    cloudQueue := [sampleNonDenseScan 0, sampleScan 1]
    imuQueue := sampleImuQueue }

/-- A range image of the sample configuration (2 rings, 4 columns): ring 0 is
occupied at columns 1 and 3, ring 1 at columns 0, 1 and 2, each at range 10; the
stored point of flat index `k` has `x = k`. -/
def sampleImage : ImageProjection :=
  { initial sampleEnv with
    rangeMat := fun i j =>
      if (i = 0 ∧ (j = 1 ∨ j = 3)) ∨ (i = 1 ∧ j < 3) then 10 else sampleEnv.FLT_MAX
    fullCloud := fun k => ⟨(k : ℚ), 0, 0, 0⟩ }

/-- The constructed state with a scan over `[0, 1]` and two odometry samples, at
the scan start and at the scan end, whose degenerate markers are 0 and 1. -/
def sampleMismatchState : ImageProjection :=
  { initial sampleEnv with
    odomQueue := [⟨0, ⟨1, 2, 3⟩, ⟨0, 0, 0, 1⟩, 0⟩, ⟨1, ⟨2, 2, 3⟩, ⟨0, 0, 0, 1⟩, 1⟩]
    timeScanCur := 0
    timeScanEnd := 1 }

/-! ### Sample message sequences -/

/-- A sample scan of three points with the time offsets 0, 1/2 and 1. -/
def sampleLongScan (stamp : ℚ) : CloudMsg :=
  ⟨stamp, ["x", "y", "z", "intensity", "ring", "time"], true,
    [⟨3, 0, 0, 10, 0, 0⟩, ⟨0, 4, 0, 20, 1, 1 / 2⟩, ⟨0, 0, 5, 30, 0, 1⟩], []⟩

/-- An IMU sample at rest at the given stamp. -/
def sampleStillImu (stamp : ℚ) : ImuMsg :=
  ⟨stamp, ⟨0, 0, 98 / 10⟩, Vec3.zero, ⟨0, 0, 0, 1⟩⟩

/-- An IMU sample turning about the z axis at the given stamp. -/
def sampleTurningImu (stamp : ℚ) : ImuMsg :=
  ⟨stamp, ⟨0, 0, 98 / 10⟩, ⟨0, 0, 1⟩, ⟨0, 0, 0, 1⟩⟩

/-- Three IMU samples at rest at 0, 1/2 and 1, a turning one at 3, then the scan
over `[0, 1]` and a second scan; the scan over `[0, 1]` is taken out of the queue
when a third scan arrives. -/
def sampleStillInputs : List Input :=
  [Input.imu (sampleStillImu 0), Input.imu (sampleStillImu (1 / 2)), Input.imu (sampleStillImu 1),
   Input.imu (sampleTurningImu 3), Input.cloud (sampleLongScan 0), Input.cloud (sampleScan 5)]

/-- Three IMU samples at rest whose stamps are 0, 1 and 1, then the scan over
`[0, 1]` and a second scan. -/
def sampleRepeatedInputs : List Input :=
  [Input.imu (sampleStillImu 0), Input.imu (sampleStillImu 1), Input.imu (sampleStillImu 1),
   Input.cloud (sampleLongScan 0), Input.cloud (sampleScan 5)]

/-- The state in which the scan over `[0, 1]` is prepared when a third scan
arrives after the messages of `sampleStillInputs`. -/
def sampleStillScan : ImageProjection :=
  (cachePointCloud sampleEnv (afterInputs sampleEnv sampleStillInputs) (sampleScan 6)).2

/-- The state in which the scan over `[0, 1]` is prepared when a third scan
arrives after the messages of `sampleRepeatedInputs`. -/
def sampleRepeatedScan : ImageProjection :=
  (cachePointCloud sampleEnv (afterInputs sampleEnv sampleRepeatedInputs) (sampleScan 6)).2

/-- The sample configuration with a VELODYNE sensor; the stand-in for `atan2`
returns a quarter turn for points on the positive x axis and 0 otherwise. -/
def sampleAzimuthEnv : ProjEnv :=
  { sampleEnv with
    sensor := SensorType.VELODYNE
    atan2 := fun x y => if y = 0 ∧ 0 < x then 355 / 226 else 0 }

/-- A rotation table with three entries whose times 0, 1, 1 are non-decreasing
with a repeated timestamp. -/
def sampleRepeatedTable : ImageProjection :=
  { initial sampleEnv with
    imuPointerCur := 2
    imuTime := fun k => if k = 0 then 0 else 1
    imuRotX := fun k => (k : ℚ) }

end ImageProjection

/-! ## IMU preintegration: GTSAM values, factors and the solver -/

/-- A `gtsam::Pose3`, held as its rotation matrix and translation;
`compose` is the product of the transforms. -/
abbrev Pose3 := Affine3

/-- A `gtsam::imuBias::ConstantBias`. -/
structure ConstantBias where
  accelerometer : Vec3
  gyroscope : Vec3
deriving DecidableEq

/-- A `gtsam::NavState`: pose and velocity. -/
structure NavState where
  pose : Pose3
  v : Vec3
deriving DecidableEq

/-- A `gtsam::PreintegratedImuMeasurements`, held as the bias it was last reset
with and the measurements `(acc, gyro, dt)` integrated since, oldest first. -/
structure Preintegrated where
  biasHat : ConstantBias
  measurements : List (Vec3 × Vec3 × ℚ)
deriving DecidableEq

def Preintegrated.resetIntegrationAndSetBias (_p : Preintegrated) (b : ConstantBias) :
    Preintegrated :=
  ⟨b, []⟩

def Preintegrated.integrateMeasurement (p : Preintegrated) (acc gyro : Vec3) (dt : ℚ) :
    Preintegrated :=
  { p with measurements := p.measurements ++ [(acc, gyro, dt)] }

/-- Elapsed time of the integrated measurements. -/
def Preintegrated.deltaTij (p : Preintegrated) : ℚ :=
  (p.measurements.map (fun m => m.2.2)).sum

/-- Graph keys `X(i)`, `V(i)`, `B(i)`. -/
inductive Symbol where
  | X (i : Int)
  | V (i : Int)
  | B (i : Int)
deriving DecidableEq

/-- A noise model: one of the fixed models built by the constructor, the
bias-between model `Sigmas(sqrt(deltaTij) * noiseModelBetweenBias)`, or a Gaussian
built from a marginal covariance. -/
inductive NoiseModel where
  | priorPoseNoise
  | priorVelNoise
  | priorBiasNoise
  | correctionNoise
  | correctionNoise2
  | priorGravityNoise
  | betweenBias (deltaTij : ℚ)
  | covariance (c : List (List ℚ))
deriving DecidableEq

/-- The factors the handler adds to the graph. -/
inductive Factor where
  | priorPose (key : Symbol) (prior : Pose3) (noise : NoiseModel)
  | priorVel (key : Symbol) (prior : Vec3) (noise : NoiseModel)
  | priorBias (key : Symbol) (prior : ConstantBias) (noise : NoiseModel)
  | imu (xi vi xj vj bi : Symbol) (preint : Preintegrated)
  | betweenBias (bi bj : Symbol) (measured : ConstantBias) (noise : NoiseModel)
  | gravity (key : Symbol) (gravityInGlobal : Vec3) (noise : NoiseModel) (gravityReferenceBody : Vec3)
deriving DecidableEq

/-- A value inserted for a key. -/
inductive Value where
  | pose (p : Pose3)
  | vel (v : Vec3)
  | bias (b : ConstantBias)
deriving DecidableEq

/-- A `gtsam::ISAM2` solver, held as the arguments of the `update` calls made on
it since it was constructed, oldest first. -/
structure ISAM2 where
  updates : List (List Factor × List (Symbol × Value))
deriving DecidableEq

def ISAM2.update (o : ISAM2) (graph : List Factor) (values : List (Symbol × Value)) : ISAM2 :=
  ⟨o.updates ++ [(graph, values)]⟩

/-- An entry of the gravity window. -/
structure TransformAndPreintegrator where
  transform : Affine3
  pre_integration : Preintegrated
deriving DecidableEq

/-- A published `nav_msgs::Odometry` of the fast path. -/
structure ImuOdometry where
  stamp : ℚ
  pose : Pose3
  linear : Vec3
  angular : Vec3
deriving DecidableEq

/-- Configuration constants and external functions used by `IMUPreintegration`. -/
structure PreintEnv where
  imuRate : ℚ
  imuGravity : ℚ
  /-- The slack `delta_t` subtracted from the correction time. -/
  delta_t : ℚ
  resetPreintegrationNum : Int
  gravityOptimizationFlag : Bool
  gravityEstimateWindowSize : Int
  lidar2Imu : Pose3
  imu2Lidar : Pose3
  transform_l_b : Affine3
  /-- The rotation `gtsam::Rot3::Quaternion w x y z`. -/
  rot3Quaternion : ℚ → ℚ → ℚ → ℚ → Mat3
  /-- The prediction `PreintegratedImuMeasurements::predict`. -/
  predict : Preintegrated → NavState → ConstantBias → NavState
  /-- The entries of `ISAM2::calculateEstimate` read by the handler. -/
  estimatePose : ISAM2 → Symbol → Pose3
  estimateVel : ISAM2 → Symbol → Vec3
  estimateBias : ISAM2 → Symbol → ConstantBias
  /-- The marginal `ISAM2::marginalCovariance`. -/
  marginalCovariance : ISAM2 → Symbol → List (List ℚ)
  /-- The gravity solver `gravityEstimator.Estimate`: from the window, the
  lidar-body transform, the velocities, the gravity magnitude and the current
  content of its output argument, the success flag and the output argument. -/
  Estimate : List TransformAndPreintegrator → Affine3 → List Vec3 → ℚ → Vec3 → Bool × Vec3
  /-- The normalisation of a vector (`normalized`, `gtsam::Unit3`). -/
  normalized : Vec3 → Vec3
  /-- The helper `imuConverter` (utility header). -/
  imuConverter : ImuMsg → ImuMsg
  /-- The norm `Eigen::Vector3f::norm` of a vector of `float` values. -/
  vector3fNorm : Vec3 → ℚ

/-- The member variables of `IMUPreintegration`. -/
structure IMUPreintegration where
  systemInitialized : Bool
  doneFirstOpt : Bool
  lastImuT_imu : ℚ
  lastImuT_opt : ℚ
  imuQueOpt : List ImuMsg
  imuQueImu : List ImuMsg
  prevPose_ : Pose3
  prevVel_ : Vec3
  prevState_ : NavState
  prevBias_ : ConstantBias
  prevStateOdom : NavState
  prevBiasOdom : ConstantBias
  optimizer : ISAM2
  graphFactors : List Factor
  graphValues : List (Symbol × Value)
  imuIntegratorOpt_ : Preintegrated
  imuIntegratorImu_ : Preintegrated
  key : Int
  currentCorrectionTime : ℚ
  transformAndPreintegratorQueue : List TransformAndPreintegrator
  transformAndPreintegratorQueueTemp : List TransformAndPreintegrator
  imuGravityVec : List Vec3
  gravityInBodyVec : Vec3
  gravityInGlobalVec : Vec3
  /-- Everything handed to `pubImuOdometry`, oldest first. -/
  published : List ImuOdometry
deriving DecidableEq

namespace IMUPreintegration

/-- Translation of `resetOptimization`. -/
def resetOptimization (s : IMUPreintegration) : IMUPreintegration :=
  { s with optimizer := ⟨[]⟩, graphFactors := [], graphValues := [] }

/-- Translation of `resetParams`. -/
def resetParams (s : IMUPreintegration) : IMUPreintegration :=
  { s with lastImuT_imu := -1, doneFirstOpt := false, systemInitialized := false }

/-- The loop of `trimOldIMUData`: the remaining queue and `lastImuT_opt`. -/
def trimLoop (bound : ℚ) : List ImuMsg → ℚ → List ImuMsg × ℚ
  | [], last => ([], last)
  | m :: rest, last => if m.stamp < bound then trimLoop bound rest m.stamp else (m :: rest, last)

/-- Translation of `trimOldIMUData`. -/
def trimOldIMUData (env : PreintEnv) (s : IMUPreintegration) : IMUPreintegration :=
  let r := trimLoop (s.currentCorrectionTime - env.delta_t) s.imuQueOpt s.lastImuT_opt
  { s with imuQueOpt := r.1, lastImuT_opt := r.2 }

/-- Translation of `failureDetection`. The velocity and the two biases are
narrowed from `double` to `float` vectors, whose norms are compared with the
thresholds. -/
def failureDetection (env : PreintEnv) (velCur : Vec3) (biasCur : ConstantBias) : Bool :=
  let vel : Vec3 := ⟨toFloat velCur.x, toFloat velCur.y, toFloat velCur.z⟩
  if env.vector3fNorm vel > 30 then true
  else
    let ba : Vec3 := ⟨toFloat biasCur.accelerometer.x, toFloat biasCur.accelerometer.y,
      toFloat biasCur.accelerometer.z⟩
    let bg : Vec3 := ⟨toFloat biasCur.gyroscope.x, toFloat biasCur.gyroscope.y,
      toFloat biasCur.gyroscope.z⟩
    if env.vector3fNorm ba > 1 ∨ env.vector3fNorm bg > 1 then true else false

/-- The loop of `estimateGravity` that re-expresses the velocities: entry `i` of
the velocity deque is multiplied by the inverse rotation of entry `i` of the
window. -/
def rotateVelocities : List TransformAndPreintegrator → List Vec3 → List Vec3
  | [], g => g
  | _ :: _, [] => []
  | t :: ts, v :: vs => t.transform.linear.inverse.mulVec v :: rotateVelocities ts vs

/-- The first block of `estimateGravity`: the current pose, a copy of the
optimisation integrator and the current velocity are appended to the window. The
window entry is built from `prevPose_` (its rotation passes through a quaternion
in the source). -/
def pushWindow (s : IMUPreintegration) : IMUPreintegration :=
  let transform : Affine3 := s.prevPose_
  let temp : TransformAndPreintegrator := ⟨transform, s.imuIntegratorOpt_⟩
  { s with
    transformAndPreintegratorQueue := s.transformAndPreintegratorQueue ++ [temp]
    imuGravityVec := s.imuGravityVec ++ [s.prevVel_] }

/-- The transform of `transformAndPreintegratorQueue.front()`. `front()` of an
empty deque is undefined in the source; the model reads the identity there. -/
def windowFront (s : IMUPreintegration) : Affine3 :=
  match s.transformAndPreintegratorQueue.head? with
  | some e => e.transform
  | none => Affine3.identity

/-- The block of `estimateGravity` run when the window is full: the oldest entry
of both deques is evicted, the window is copied with its transforms re-expressed
relative to the first entry, and the velocities are re-expressed in place. -/
def reexpressWindow (s : IMUPreintegration) : IMUPreintegration :=
  let s1 : IMUPreintegration :=
    { s with
      transformAndPreintegratorQueue := s.transformAndPreintegratorQueue.tail
      imuGravityVec := s.imuGravityVec.tail }
  let T_w_inv := (windowFront s1).inverse
  { s1 with
    transformAndPreintegratorQueueTemp :=
      s1.transformAndPreintegratorQueue.map (fun e => { e with transform := T_w_inv.mul e.transform })
    imuGravityVec := rotateVelocities s1.transformAndPreintegratorQueue s1.imuGravityVec }

/-- Translation of `estimateGravity`: the returned flag and the new state. -/
def estimateGravity (env : PreintEnv) (s : IMUPreintegration) : Bool × IMUPreintegration :=
  let s1 := pushWindow s
  if (s1.transformAndPreintegratorQueue.length : Int) > env.gravityEstimateWindowSize + 1 then
    let s2 := reexpressWindow s1
    let est := env.Estimate s2.transformAndPreintegratorQueueTemp env.transform_l_b s2.imuGravityVec
      env.imuGravity s2.gravityInBodyVec
    let s3 : IMUPreintegration := { s2 with gravityInBodyVec := est.2 }
    if est.1 = true then
      let s4 : IMUPreintegration :=
        { s3 with gravityInGlobalVec := (windowFront s3).linear.mulVec s3.gravityInBodyVec.neg }
      if s4.gravityInGlobalVec.z + env.imuGravity < 1 / 2 then (true, s4) else (false, s4)
    else (false, s3)
  else (false, s1)

/-- The integration loop of `odometryHandler` over `imuQueOpt`: the remaining
queue, `lastImuT_opt` and the integrator. -/
def integrateOptLoop (env : PreintEnv) (bound : ℚ) :
    List ImuMsg → ℚ → Preintegrated → List ImuMsg × ℚ × Preintegrated
  | [], last, integ => ([], last, integ)
  | thisImu :: rest, last, integ =>
    if thisImu.stamp < bound then
      let dt := if last < 0 then 1 / env.imuRate else thisImu.stamp - last
      integrateOptLoop env bound rest thisImu.stamp
        (integ.integrateMeasurement thisImu.linear_acceleration thisImu.angular_velocity dt)
    else (thisImu :: rest, last, integ)

/-- The loop of `odometryHandler` that pops old samples of `imuQueImu`: the
remaining queue and `lastImuQT`. -/
def popImuLoop (bound : ℚ) : List ImuMsg → ℚ → List ImuMsg × ℚ
  | [], last => ([], last)
  | m :: rest, last => if m.stamp < bound then popImuLoop bound rest m.stamp else (m :: rest, last)

/-- The re-propagation loop of `odometryHandler` over `imuQueImu`. -/
def repropagateLoop (env : PreintEnv) : List ImuMsg → ℚ → Preintegrated → Preintegrated
  | [], _, integ => integ
  | thisImu :: rest, last, integ =>
    let dt := if last < 0 then 1 / env.imuRate else thisImu.stamp - last
    repropagateLoop env rest thisImu.stamp
      (integ.integrateMeasurement thisImu.linear_acceleration thisImu.angular_velocity dt)

/-- The gravity factor built from `gravityInGlobalVec` for the pose `key`. -/
def gravityFactor (env : PreintEnv) (s : IMUPreintegration) (key : Symbol) : Factor :=
  Factor.gravity key (env.normalized (env.normalized s.gravityInGlobalVec))
    NoiseModel.priorGravityNoise (env.normalized ⟨0, 0, -1⟩)

/-- The initialisation branch of `odometryHandler` (step 0). -/
def initializeSystem (env : PreintEnv) (s : IMUPreintegration) (lidarPose : Pose3) :
    IMUPreintegration :=
  let s1 := trimOldIMUData env (resetOptimization s)
  let prevPose := lidarPose.mul env.lidar2Imu
  let prevVel : Vec3 := ⟨0, 0, 0⟩
  let prevBias : ConstantBias := ⟨Vec3.zero, Vec3.zero⟩
  let graphFactors := s1.graphFactors ++
    [Factor.priorPose (Symbol.X 0) prevPose NoiseModel.priorPoseNoise,
     Factor.priorVel (Symbol.V 0) prevVel NoiseModel.priorVelNoise,
     Factor.priorBias (Symbol.B 0) prevBias NoiseModel.priorBiasNoise]
  let graphValues := s1.graphValues ++
    [(Symbol.X 0, Value.pose prevPose), (Symbol.V 0, Value.vel prevVel),
     (Symbol.B 0, Value.bias prevBias)]
  { s1 with
    prevPose_ := prevPose
    prevVel_ := prevVel
    prevBias_ := prevBias
    optimizer := s1.optimizer.update graphFactors graphValues
    graphFactors := []
    graphValues := []
    imuIntegratorImu_ := s1.imuIntegratorImu_.resetIntegrationAndSetBias prevBias
    imuIntegratorOpt_ := s1.imuIntegratorOpt_.resetIntegrationAndSetBias prevBias
    key := 1
    systemInitialized := true }

/-- The re-anchoring block of `odometryHandler` ("reset graph for speed"). -/
def reanchor (env : PreintEnv) (s : IMUPreintegration) : IMUPreintegration :=
  let updatedPoseNoise := NoiseModel.covariance (env.marginalCovariance s.optimizer (Symbol.X (s.key - 1)))
  let updatedVelNoise := NoiseModel.covariance (env.marginalCovariance s.optimizer (Symbol.V (s.key - 1)))
  let updatedBiasNoise := NoiseModel.covariance (env.marginalCovariance s.optimizer (Symbol.B (s.key - 1)))
  let s1 := resetOptimization s
  let s2 : IMUPreintegration :=
    { s1 with
      graphFactors := s1.graphFactors ++
        [Factor.priorPose (Symbol.X 0) s1.prevPose_ updatedPoseNoise,
         Factor.priorVel (Symbol.V 0) s1.prevVel_ updatedVelNoise,
         Factor.priorBias (Symbol.B 0) s1.prevBias_ updatedBiasNoise] }
  let s3 : IMUPreintegration :=
    if env.gravityOptimizationFlag = true then
      let g := estimateGravity env s2
      if g.1 = true then
        { g.2 with graphFactors := g.2.graphFactors ++ [gravityFactor env g.2 (Symbol.X 0)] }
      else g.2
    else s2
  let graphValues := s3.graphValues ++
    [(Symbol.X 0, Value.pose s3.prevPose_), (Symbol.V 0, Value.vel s3.prevVel_),
     (Symbol.B 0, Value.bias s3.prevBias_)]
  { s3 with
    optimizer := s3.optimizer.update s3.graphFactors graphValues
    graphFactors := []
    graphValues := []
    key := 1 }

/-- The part of `odometryHandler` from the integration of the buffered samples to
the read-back of the solved state and the reset of the optimisation integrator
(step 1, up to the failure check). -/
def integrateAndOptimize (env : PreintEnv) (s : IMUPreintegration) (lidarPose : Pose3)
    (degenerate : Bool) : IMUPreintegration :=
  let r := integrateOptLoop env (s.currentCorrectionTime - env.delta_t) s.imuQueOpt
    s.lastImuT_opt s.imuIntegratorOpt_
  let s1 : IMUPreintegration :=
    { s with imuQueOpt := r.1, lastImuT_opt := r.2.1, imuIntegratorOpt_ := r.2.2 }
  let curPose := lidarPose.mul env.lidar2Imu
  let s2 : IMUPreintegration :=
    { s1 with
      graphFactors := s1.graphFactors ++
        [Factor.imu (Symbol.X (s1.key - 1)) (Symbol.V (s1.key - 1)) (Symbol.X s1.key)
           (Symbol.V s1.key) (Symbol.B (s1.key - 1)) s1.imuIntegratorOpt_,
         Factor.betweenBias (Symbol.B (s1.key - 1)) (Symbol.B s1.key) ⟨Vec3.zero, Vec3.zero⟩
           (NoiseModel.betweenBias s1.imuIntegratorOpt_.deltaTij),
         Factor.priorPose (Symbol.X s1.key) curPose
           (if degenerate = true then NoiseModel.correctionNoise2 else NoiseModel.correctionNoise)] }
  let s3 : IMUPreintegration :=
    if env.gravityOptimizationFlag = true then
      let g := estimateGravity env s2
      if g.1 = true ∧ g.2.key - env.gravityEstimateWindowSize ≥ 0 then
        { g.2 with
          graphFactors := g.2.graphFactors ++
            [gravityFactor env g.2 (Symbol.X (g.2.key - env.gravityEstimateWindowSize))] }
      else g.2
    else s2
  let propState := env.predict s3.imuIntegratorOpt_ s3.prevState_ s3.prevBias_
  let graphValues := s3.graphValues ++
    [(Symbol.X s3.key, Value.pose propState.pose), (Symbol.V s3.key, Value.vel propState.v),
     (Symbol.B s3.key, Value.bias s3.prevBias_)]
  let optimizer := (s3.optimizer.update s3.graphFactors graphValues).update [] []
  let prevPose := env.estimatePose optimizer (Symbol.X s3.key)
  let prevVel := env.estimateVel optimizer (Symbol.V s3.key)
  let prevBias := env.estimateBias optimizer (Symbol.B s3.key)
  { s3 with
    optimizer := optimizer
    graphFactors := []
    graphValues := []
    prevPose_ := prevPose
    prevVel_ := prevVel
    prevState_ := ⟨prevPose, prevVel⟩
    prevBias_ := prevBias
    imuIntegratorOpt_ := s3.imuIntegratorOpt_.resetIntegrationAndSetBias prevBias }

/-- The part of `odometryHandler` after a passed failure check (step 2 and the
key increment). -/
def repropagate (env : PreintEnv) (s : IMUPreintegration) : IMUPreintegration :=
  let s1 : IMUPreintegration := { s with prevStateOdom := s.prevState_, prevBiasOdom := s.prevBias_ }
  let r := popImuLoop (s1.currentCorrectionTime - env.delta_t) s1.imuQueImu (-1)
  let s2 : IMUPreintegration := { s1 with imuQueImu := r.1 }
  let s3 : IMUPreintegration :=
    if s2.imuQueImu.isEmpty then s2
    else
      { s2 with
        imuIntegratorImu_ := repropagateLoop env s2.imuQueImu r.2
          (s2.imuIntegratorImu_.resetIntegrationAndSetBias s2.prevBiasOdom) }
  { s3 with key := s3.key + 1, doneFirstOpt := true }

/-- The local `lidarPose` of `odometryHandler`: the pose of the correction. -/
def lidarPose (env : PreintEnv) (odomMsg : OdomMsg) : Pose3 :=
  ⟨env.rot3Quaternion odomMsg.orientation.w odomMsg.orientation.x odomMsg.orientation.y
    odomMsg.orientation.z, odomMsg.position⟩

/-- The local `degenerate` of `odometryHandler`. -/
def degenerate (odomMsg : OdomMsg) : Bool :=
  decide (ctrunc odomMsg.covariance0 = 1)

/-- Translation of `odometryHandler`. -/
def odometryHandler (env : PreintEnv) (s : IMUPreintegration) (odomMsg : OdomMsg) :
    IMUPreintegration :=
  let s0 : IMUPreintegration := { s with currentCorrectionTime := odomMsg.stamp }
  if s0.imuQueOpt.isEmpty then s0
  else if s0.systemInitialized = false then initializeSystem env s0 (lidarPose env odomMsg)
  else
    let s1 := if s0.key = env.resetPreintegrationNum then reanchor env s0 else s0
    let s2 := integrateAndOptimize env s1 (lidarPose env odomMsg) (degenerate odomMsg)
    if failureDetection env s2.prevVel_ s2.prevBias_ = true then resetParams s2
    else repropagate env s2

/-- Translation of `imuHandler`. -/
def imuHandler (env : PreintEnv) (s : IMUPreintegration) (imu_raw : ImuMsg) : IMUPreintegration :=
  let thisImu := env.imuConverter imu_raw
  let s1 : IMUPreintegration :=
    { s with imuQueOpt := s.imuQueOpt ++ [thisImu], imuQueImu := s.imuQueImu ++ [thisImu] }
  if s1.doneFirstOpt = false then s1
  else
    let imuTime := thisImu.stamp
    let dt := if s1.lastImuT_imu < 0 then 1 / env.imuRate else imuTime - s1.lastImuT_imu
    let s2 : IMUPreintegration :=
      { s1 with
        lastImuT_imu := imuTime
        imuIntegratorImu_ := s1.imuIntegratorImu_.integrateMeasurement thisImu.linear_acceleration
          thisImu.angular_velocity dt }
    let currentState := env.predict s2.imuIntegratorImu_ s2.prevStateOdom s2.prevBiasOdom
    let lidarPose := currentState.pose.mul env.imu2Lidar
    { s2 with
      published := s2.published ++
        [⟨thisImu.stamp, lidarPose, currentState.v,
          thisImu.angular_velocity.add s2.prevBiasOdom.gyroscope⟩] }

/-- Modelled from the spec: the state of a freshly constructed estimator. The
member initialisers of the class (`imuPreintegration.hpp`) are not under `src/`;
the spec's Uninitialized state has no nodes, keys count from 0, no sample is
buffered and the transient flags are clear; last-sample times are `-1` as
`resetParams` sets them. -/
def initial : IMUPreintegration :=
  { systemInitialized := false
    doneFirstOpt := false
    lastImuT_imu := -1
    lastImuT_opt := -1
    imuQueOpt := []
    imuQueImu := []
    prevPose_ := Affine3.identity
    prevVel_ := Vec3.zero
    prevState_ := ⟨Affine3.identity, Vec3.zero⟩
    prevBias_ := ⟨Vec3.zero, Vec3.zero⟩
    prevStateOdom := ⟨Affine3.identity, Vec3.zero⟩
    prevBiasOdom := ⟨Vec3.zero, Vec3.zero⟩
    optimizer := ⟨[]⟩
    graphFactors := []
    graphValues := []
    imuIntegratorOpt_ := ⟨⟨Vec3.zero, Vec3.zero⟩, []⟩
    imuIntegratorImu_ := ⟨⟨Vec3.zero, Vec3.zero⟩, []⟩
    key := 0
    currentCorrectionTime := 0
    transformAndPreintegratorQueue := []
    transformAndPreintegratorQueueTemp := []
    imuGravityVec := []
    gravityInBodyVec := Vec3.zero
    gravityInGlobalVec := Vec3.zero
    published := [] }

/-- A sample configuration of the estimator: gravity refinement off, a solver
whose estimate of every velocity is `vel`, identity extrinsics, and the 1-norm
as a rational stand-in for the norm of a `float` vector (the two agree on
vectors along an axis). -/
def sampleEnv (vel : Vec3) : PreintEnv :=
  { imuRate := 500
    imuGravity := 98 / 10
    delta_t := 0
    resetPreintegrationNum := 100
    gravityOptimizationFlag := false
    gravityEstimateWindowSize := 2
    lidar2Imu := Affine3.identity
    imu2Lidar := Affine3.identity
    transform_l_b := Affine3.identity
    rot3Quaternion := fun _ _ _ _ => Mat3.identity
    predict := fun _ st _ => st
    estimatePose := fun _ _ => Affine3.identity
    estimateVel := fun _ _ => vel
    estimateBias := fun _ _ => ⟨Vec3.zero, Vec3.zero⟩
    marginalCovariance := fun _ _ => []
    Estimate := fun _ _ _ _ g => (false, g)
    normalized := fun v => v
    imuConverter := fun m => m
    vector3fNorm := fun v => |v.x| + |v.y| + |v.z| }

/-- A sample IMU sample at the given stamp: at rest, gravity on the z axis. -/
def sampleImu (stamp : ℚ) : ImuMsg :=
  ⟨stamp, ⟨0, 0, 98 / 10⟩, Vec3.zero, ⟨0, 0, 0, 1⟩⟩

/-- A sample correction at the given stamp: the identity pose, not degenerate. -/
def sampleOdom (stamp : ℚ) : OdomMsg :=
  ⟨stamp, Vec3.zero, ⟨0, 0, 0, 1⟩, 0⟩

/-- A Running estimator at key 2 with one buffered IMU sample at time 0. -/
def sampleRunning : IMUPreintegration :=
  { initial with
    systemInitialized := true
    doneFirstOpt := true
    key := 2
    imuQueOpt := [sampleImu 0]
    imuQueImu := [sampleImu 0] }

/-- A Running estimator at key 2 with two buffered IMU samples, at times 0 and 2. -/
def sampleRunningTwo : IMUPreintegration :=
  { sampleRunning with
    imuQueOpt := [sampleImu 0, sampleImu 2]
    imuQueImu := [sampleImu 0, sampleImu 2] }

/-- A sample configuration with a window of size 0 and a gravity solver that
reports success with the body-frame vector `g_b`. -/
def sampleGravityEnv (g_b : Vec3) : PreintEnv :=
  { sampleEnv Vec3.zero with
    gravityOptimizationFlag := true
    gravityEstimateWindowSize := 0
    Estimate := fun _ _ _ _ _ => (true, g_b) }

/-- An estimator whose gravity window holds one entry, with the identity pose. -/
def sampleWindowState : IMUPreintegration :=
  { sampleRunning with
    transformAndPreintegratorQueue := [⟨Affine3.identity, ⟨⟨Vec3.zero, Vec3.zero⟩, []⟩⟩]
    imuGravityVec := [Vec3.zero] }

/-- The pose of a half turn about the x axis at the origin. -/
def halfTurn : Pose3 :=
  ⟨⟨1, 0, 0, 0, -1, 0, 0, 0, -1⟩, Vec3.zero⟩

/-- An estimator whose gravity window holds one entry, with the identity pose,
and whose current pose is the half turn about the x axis. -/
def sampleTurnedWindowState : IMUPreintegration :=
  { sampleWindowState with prevPose_ := halfTurn }

/-! ### Input sequences and the gravity window -/

/-- An input of the estimator: an IMU sample or a correction. -/
inductive Event where
  | imu (imu_raw : ImuMsg)
  | correction (odomMsg : OdomMsg)
deriving DecidableEq

/-- One callback: `imuHandler` or `odometryHandler`, under the common mutex. -/
def handle (env : PreintEnv) (s : IMUPreintegration) : Event → IMUPreintegration
  | Event.imu imu_raw => imuHandler env s imu_raw
  | Event.correction odomMsg => odometryHandler env s odomMsg

/-- The state of a freshly constructed estimator after the given inputs, handled
in their order of arrival. -/
def run (env : PreintEnv) (events : List Event) : IMUPreintegration :=
  events.foldl (handle env) initial

/-- The condition on the two deques of the gravity window: equal lengths, at most
`gravityEstimateWindowSize + 1` entries. -/
def WindowBounded (env : PreintEnv) (s : IMUPreintegration) : Prop :=
  s.transformAndPreintegratorQueue.length = s.imuGravityVec.length
    ∧ (s.transformAndPreintegratorQueue.length : Int) ≤ env.gravityEstimateWindowSize + 1

/-! ### Successive calls of the gravity estimation -/

/-- The calls of `estimateGravity` made by successive corrections: before each
call `prevPose_` and `prevVel_` hold the pose and velocity read back from the
solver by the previous correction, given here as a list. -/
def gravityRun (env : PreintEnv) : IMUPreintegration → List (Pose3 × Vec3) → IMUPreintegration
  | s, [] => s
  | s, (pose, vel) :: rest =>
    gravityRun env (estimateGravity env { s with prevPose_ := pose, prevVel_ := vel }).2 rest

/-- A sample configuration with gravity refinement on and a window of size 1. -/
def sampleWindowEnv : PreintEnv :=
  { sampleEnv Vec3.zero with
    gravityOptimizationFlag := true
    gravityEstimateWindowSize := 1 }

/-- The pose of a quarter turn about the z axis at the origin. -/
def quarterTurn : Pose3 :=
  ⟨⟨0, -1, 0, 1, 0, 0, 0, 0, 1⟩, Vec3.zero⟩

end IMUPreintegration

/-! ## Theorems: range-image projection -/

namespace ImageProjection

theorem update2_apply {α : Type} (f : Nat → Nat → α) (r c : Nat) (v : α) (r1 c1 : Nat) :
    Function.update f r (Function.update (f r) c v) r1 c1
      = if r1 = r ∧ c1 = c then v else f r1 c1 := by
  by_cases hr : r1 = r
  · subst hr
    by_cases hc : c1 = c
    · subst hc; simp
    · simp [hc]
  · simp [hr]

theorem deskewPoint_rangeMat (env : ProjEnv) (s : ImageProjection) (p : PointType) (t : ℚ) :
    (deskewPoint env s p t).2.rangeMat = s.rangeMat := by
  unfold deskewPoint
  split_ifs <;> rfl

theorem deskewPoint_fullCloud (env : ProjEnv) (s : ImageProjection) (p : PointType) (t : ℚ) :
    (deskewPoint env s p t).2.fullCloud = s.fullCloud := by
  unfold deskewPoint
  split_ifs <;> rfl

theorem locateColumn_rangeMat (env : ProjEnv) (s : ImageProjection) (p : PointType) (r : Int) :
    (locateColumn env s p r).2.rangeMat = s.rangeMat := by
  unfold locateColumn
  split_ifs <;> rfl

theorem locateColumn_fullCloud (env : ProjEnv) (s : ImageProjection) (p : PointType) (r : Int) :
    (locateColumn env s p r).2.fullCloud = s.fullCloud := by
  unfold locateColumn
  split_ifs <;> rfl

/-- What one iteration does to the range image and the stored points. -/
theorem projectPoint_cases (env : ProjEnv) (s : ImageProjection) (pt : PointXYZIRT) :
    ((projectPoint env s pt).2 = none ∧ (projectPoint env s pt).1.rangeMat = s.rangeMat
        ∧ (projectPoint env s pt).1.fullCloud = s.fullCloud)
    ∨ ∃ row col s1, (projectPoint env s pt).2 = some (row, col)
        ∧ row < env.N_SCAN ∧ col < env.Horizon_SCAN
        ∧ (pt.ring = (row : Int)) ∧ pt.ring.tmod env.downsampleRate = 0
        ∧ s.rangeMat row col = env.FLT_MAX
        ∧ (projectPoint env s pt).1.rangeMat
            = Function.update s.rangeMat row (Function.update (s.rangeMat row) col
                (env.pointDistance (deskewPoint env s1 ⟨pt.x, pt.y, pt.z, pt.intensity⟩ pt.time).1))
        ∧ (projectPoint env s pt).1.fullCloud
            = Function.update s.fullCloud (col + row * env.Horizon_SCAN)
                (deskewPoint env s1 ⟨pt.x, pt.y, pt.z, pt.intensity⟩ pt.time).1 := by
  have hrm := locateColumn_rangeMat env s ⟨pt.x, pt.y, pt.z, pt.intensity⟩ pt.ring
  have hfc := locateColumn_fullCloud env s ⟨pt.x, pt.y, pt.z, pt.intensity⟩ pt.ring
  unfold projectPoint
  dsimp only
  generalize locateColumn env s ⟨pt.x, pt.y, pt.z, pt.intensity⟩ pt.ring = loc at hrm hfc ⊢
  have hdr := deskewPoint_rangeMat env loc.2 ⟨pt.x, pt.y, pt.z, pt.intensity⟩ pt.time
  have hdf := deskewPoint_fullCloud env loc.2 ⟨pt.x, pt.y, pt.z, pt.intensity⟩ pt.time
  split_ifs with h1 h2 h3 h4 h5
  · left; exact ⟨rfl, rfl, rfl⟩
  · left; exact ⟨rfl, rfl, rfl⟩
  · left; exact ⟨rfl, rfl, rfl⟩
  · left; exact ⟨rfl, hrm, hfc⟩
  · left; exact ⟨rfl, hrm, hfc⟩
  · right
    push_neg at h2 h3 h4 h5
    refine ⟨pt.ring.toNat, loc.1.toNat, loc.2, rfl, ?_, ?_, ?_, h3, ?_, ?_, ?_⟩
    · omega
    · omega
    · omega
    · rw [← hrm]; exact h5
    · dsimp only; rw [hdr, hrm]
    · dsimp only; rw [hdf, hfc]


theorem projectLoop_append (env : ProjEnv) (s : ImageProjection) (pre post : List PointXYZIRT) :
    projectLoop env s (pre ++ post) = projectLoop env (projectLoop env s pre) post := by
  induction pre generalizing s with
  | nil => rfl
  | cons pt rest ih => exact ih (projectPoint env s pt).1

/-- A flat index of the stored-point array determines its cell. -/
theorem flat_index_inj {H r c r1 c1 : Nat} (hc : c < H) (hc1 : c1 < H)
    (h : c + r * H = c1 + r1 * H) : r = r1 ∧ c = c1 := by
  have hH : 0 < H := by omega
  have e1 : (c + r * H) / H = r := by
    rw [Nat.add_mul_div_right _ _ hH, Nat.div_eq_of_lt hc, Nat.zero_add]
  have e2 : (c1 + r1 * H) / H = r1 := by
    rw [Nat.add_mul_div_right _ _ hH, Nat.div_eq_of_lt hc1, Nat.zero_add]
  have hr : r = r1 := by rw [← e1, ← e2, h]
  subst hr
  exact ⟨rfl, by omega⟩

/-- An occupied cell keeps its range and its stored point through one iteration,
and the iteration does not report a write to it. -/
theorem projectPoint_occupied (env : ProjEnv) (s : ImageProjection) (pt : PointXYZIRT)
    (row col : Nat) (hocc : s.rangeMat row col ≠ env.FLT_MAX) :
    (projectPoint env s pt).2 ≠ some (row, col)
      ∧ (projectPoint env s pt).1.rangeMat row col = s.rangeMat row col
      ∧ (col < env.Horizon_SCAN →
          (projectPoint env s pt).1.fullCloud (col + row * env.Horizon_SCAN)
            = s.fullCloud (col + row * env.Horizon_SCAN)) := by
  rcases projectPoint_cases env s pt with ⟨h2, hr, hf⟩ | ⟨r, c, s1, h2, _, hc, _, _, hemp, hr, hf⟩
  · rw [h2, hr, hf]
    exact ⟨by simp, rfl, fun _ => rfl⟩
  · have hne : ¬(row = r ∧ col = c) := by
      rintro ⟨rfl, rfl⟩
      exact hocc hemp
    refine ⟨?_, ?_, ?_⟩
    · rw [h2]
      intro h
      injection h with h
      injection h with ha hb
      exact hne ⟨ha.symm, hb.symm⟩
    · rw [hr, update2_apply, if_neg hne]
    · intro hcol
      rw [hf]
      apply Function.update_noteq
      intro h
      have := flat_index_inj hcol hc h
      exact hne this

/-- Occupied cells lie inside the image, provided they did before the iteration. -/
theorem projectPoint_bounds (env : ProjEnv) (s : ImageProjection) (pt : PointXYZIRT)
    (hb : ∀ row col, s.rangeMat row col ≠ env.FLT_MAX → row < env.N_SCAN ∧ col < env.Horizon_SCAN) :
    ∀ row col, (projectPoint env s pt).1.rangeMat row col ≠ env.FLT_MAX →
      row < env.N_SCAN ∧ col < env.Horizon_SCAN := by
  intro row col hocc
  rcases projectPoint_cases env s pt with ⟨_, hr, _⟩ | ⟨r, c, s1, _, hrn, hc, _, _, _, hr, _⟩
  · rw [hr] at hocc; exact hb row col hocc
  · rw [hr, update2_apply] at hocc
    by_cases hrc : row = r ∧ col = c
    · obtain ⟨rfl, rfl⟩ := hrc; exact ⟨hrn, hc⟩
    · rw [if_neg hrc] at hocc; exact hb row col hocc

theorem projectLoop_bounds (env : ProjEnv) (pts : List PointXYZIRT) (s : ImageProjection)
    (hb : ∀ row col, s.rangeMat row col ≠ env.FLT_MAX → row < env.N_SCAN ∧ col < env.Horizon_SCAN) :
    ∀ row col, (projectLoop env s pts).rangeMat row col ≠ env.FLT_MAX →
      row < env.N_SCAN ∧ col < env.Horizon_SCAN := by
  induction pts generalizing s with
  | nil => exact hb
  | cons pt rest ih => exact ih _ (projectPoint_bounds env s pt hb)

theorem projectLoop_occupied (env : ProjEnv) (pts : List PointXYZIRT) (s : ImageProjection)
    (row col : Nat) (hocc : s.rangeMat row col ≠ env.FLT_MAX) :
    (projectLoop env s pts).rangeMat row col = s.rangeMat row col
      ∧ (col < env.Horizon_SCAN →
          (projectLoop env s pts).fullCloud (col + row * env.Horizon_SCAN)
            = s.fullCloud (col + row * env.Horizon_SCAN)) := by
  induction pts generalizing s with
  | nil => exact ⟨rfl, fun _ => rfl⟩
  | cons pt rest ih =>
    obtain ⟨_, h1, h2⟩ := projectPoint_occupied env s pt row col hocc
    have hocc1 : (projectPoint env s pt).1.rangeMat row col ≠ env.FLT_MAX := by rw [h1]; exact hocc
    obtain ⟨g1, g2⟩ := ih (projectPoint env s pt).1 hocc1
    refine ⟨?_, ?_⟩
    · show (projectLoop env (projectPoint env s pt).1 rest).rangeMat row col = _
      rw [g1, h1]
    · intro hcol
      show (projectLoop env (projectPoint env s pt).1 rest).fullCloud _ = _
      rw [g2 hcol, h2 hcol]

/-- Every cell the loop writes was empty when the loop started. -/
theorem cellWrites_empty (env : ProjEnv) (pts : List PointXYZIRT) (s : ImageProjection)
    (cell : Nat × Nat) (hmem : cell ∈ cellWrites env s pts) :
    s.rangeMat cell.1 cell.2 = env.FLT_MAX := by
  induction pts generalizing s with
  | nil => simp [cellWrites] at hmem
  | cons pt rest ih =>
    by_contra hocc
    obtain ⟨h0, h1, _⟩ := projectPoint_occupied env s pt cell.1 cell.2 hocc
    have htail : cell ∈ cellWrites env (projectPoint env s pt).1 rest := by
      unfold cellWrites at hmem
      split at hmem
      · rename_i c hc
        rcases List.mem_cons.mp hmem with h | h
        · exact absurd (by rw [hc, h]) h0
        · exact h
      · exact hmem
    have := ih _ htail
    rw [h1] at this
    exact hocc this

theorem cellWrites_nodup (env : ProjEnv) (hdist : ∀ p, env.pointDistance p ≠ env.FLT_MAX)
    (pts : List PointXYZIRT) (s : ImageProjection) : (cellWrites env s pts).Nodup := by
  induction pts generalizing s with
  | nil => simp [cellWrites]
  | cons pt rest ih =>
    unfold cellWrites
    split
    · rename_i c hc
      refine List.nodup_cons.mpr ⟨?_, ih _⟩
      intro hmem
      have hemp := cellWrites_empty env rest _ c hmem
      rcases projectPoint_cases env s pt with ⟨h2, _, _⟩ | ⟨r, c1, s1, h2, _, _, _, _, _, hr, _⟩
      · rw [h2] at hc; simp at hc
      · rw [h2] at hc
        injection hc with hc
        subst hc
        rw [hr, update2_apply] at hemp
        simp only [and_self, if_true] at hemp
        exact hdist _ hemp
    · exact ih _

/-- C1: starting from a range image whose cells all hold `FLT_MAX`, no cell is
written twice by `projectPointCloud`, and once a cell is occupied every later
point leaves it alone: the point is not written and the stored range and stored
point of the cell stay what they were. (`pointDistance` never returns the
sentinel `FLT_MAX`.) -/
theorem projectPointCloud_first_writer_wins (env : ProjEnv) (s : ImageProjection)
    (hdist : ∀ p, env.pointDistance p ≠ env.FLT_MAX)
    (hempty : ∀ row col, s.rangeMat row col = env.FLT_MAX) :
    (cellWrites env s s.laserCloudIn).Nodup
      ∧ ∀ pre pt post, s.laserCloudIn = pre ++ pt :: post →
          ∀ row col, (projectLoop env s pre).rangeMat row col ≠ env.FLT_MAX →
            (projectPoint env (projectLoop env s pre) pt).2 ≠ some (row, col)
              ∧ (projectPointCloud env s).rangeMat row col
                  = (projectLoop env s pre).rangeMat row col
              ∧ (projectPointCloud env s).fullCloud (col + row * env.Horizon_SCAN)
                  = (projectLoop env s pre).fullCloud (col + row * env.Horizon_SCAN) := by
  refine ⟨cellWrites_nodup env hdist _ s, ?_⟩
  intro pre pt post hsplit row col hocc
  have hb := projectLoop_bounds env pre s (fun r c h => absurd (hempty r c) h) row col hocc
  have h := projectLoop_occupied env (pt :: post) (projectLoop env s pre) row col hocc
  unfold projectPointCloud
  rw [hsplit, projectLoop_append]
  exact ⟨(projectPoint_occupied env _ pt row col hocc).1, h.1, h.2 hb.2⟩


/-- The inner loop of `cloudExtraction` reads the range image and the stored
points without changing them, and only appends stored points of occupied cells. -/
theorem extractCell_fold (env : ProjEnv) (i : Nat) (js : List Nat) (acc : ImageProjection × Nat) :
    (js.foldl (extractCell env i) acc).1.rangeMat = acc.1.rangeMat
      ∧ (js.foldl (extractCell env i) acc).1.fullCloud = acc.1.fullCloud
      ∧ ∀ p ∈ (js.foldl (extractCell env i) acc).1.extractedCloud,
          p ∈ acc.1.extractedCloud
            ∨ ∃ j ∈ js, acc.1.rangeMat i j ≠ env.FLT_MAX
                ∧ p = acc.1.fullCloud (j + i * env.Horizon_SCAN) := by
  induction js generalizing acc with
  | nil => exact ⟨rfl, rfl, fun p hp => Or.inl hp⟩
  | cons j rest ih =>
    obtain ⟨h1, h2, h3⟩ := ih (extractCell env i acc j)
    have e1 : (extractCell env i acc j).1.rangeMat = acc.1.rangeMat := by
      unfold extractCell; split_ifs <;> rfl
    have e2 : (extractCell env i acc j).1.fullCloud = acc.1.fullCloud := by
      unfold extractCell; split_ifs <;> rfl
    have e3 : ∀ p ∈ (extractCell env i acc j).1.extractedCloud,
        p ∈ acc.1.extractedCloud
          ∨ (acc.1.rangeMat i j ≠ env.FLT_MAX ∧ p = acc.1.fullCloud (j + i * env.Horizon_SCAN)) := by
      intro p hp
      unfold extractCell at hp
      split_ifs at hp with hocc
      · rcases List.mem_append.mp hp with h | h
        · exact Or.inl h
        · exact Or.inr ⟨hocc, List.mem_singleton.mp h⟩
      · exact Or.inl hp
    refine ⟨by rw [List.foldl_cons, h1, e1], by rw [List.foldl_cons, h2, e2], ?_⟩
    intro p hp
    rw [List.foldl_cons] at hp
    rcases h3 p hp with h | ⟨j1, hj1, hocc, hpe⟩
    · rcases e3 p h with h | ⟨hocc, hpe⟩
      · exact Or.inl h
      · exact Or.inr ⟨j, List.mem_cons_self _ _, hocc, hpe⟩
    · rw [e1] at hocc
      rw [e2] at hpe
      exact Or.inr ⟨j1, List.mem_cons_of_mem _ hj1, hocc, hpe⟩

theorem extractRing_fold (env : ProjEnv) (is : List Nat) (acc : ImageProjection × Nat) :
    (is.foldl (extractRing env) acc).1.rangeMat = acc.1.rangeMat
      ∧ (is.foldl (extractRing env) acc).1.fullCloud = acc.1.fullCloud
      ∧ ∀ p ∈ (is.foldl (extractRing env) acc).1.extractedCloud,
          p ∈ acc.1.extractedCloud
            ∨ ∃ i ∈ is, ∃ j, j < env.Horizon_SCAN ∧ acc.1.rangeMat i j ≠ env.FLT_MAX
                ∧ p = acc.1.fullCloud (j + i * env.Horizon_SCAN) := by
  induction is generalizing acc with
  | nil => exact ⟨rfl, rfl, fun p hp => Or.inl hp⟩
  | cons i rest ih =>
    obtain ⟨h1, h2, h3⟩ := ih (extractRing env acc i)
    have e := extractCell_fold env i (List.range env.Horizon_SCAN)
      ({ acc.1 with
          cloudInfo :=
            { acc.1.cloudInfo with
              startRingIndex :=
                Function.update acc.1.cloudInfo.startRingIndex i ((acc.2 : Int) - 1 + 5) } },
        acc.2)
    have e1 : (extractRing env acc i).1.rangeMat = acc.1.rangeMat := e.1
    have e2 : (extractRing env acc i).1.fullCloud = acc.1.fullCloud := e.2.1
    have e3 : ∀ p ∈ (extractRing env acc i).1.extractedCloud,
        p ∈ acc.1.extractedCloud
          ∨ ∃ j ∈ List.range env.Horizon_SCAN, acc.1.rangeMat i j ≠ env.FLT_MAX
              ∧ p = acc.1.fullCloud (j + i * env.Horizon_SCAN) := e.2.2
    refine ⟨by rw [List.foldl_cons, h1, e1], by rw [List.foldl_cons, h2, e2], ?_⟩
    intro p hp
    rw [List.foldl_cons] at hp
    rcases h3 p hp with h | ⟨i1, hi1, j, hj, hocc, hpe⟩
    · rcases e3 p h with h | ⟨j, hj, hocc, hpe⟩
      · exact Or.inl h
      · exact Or.inr ⟨i, List.mem_cons_self _ _, j, List.mem_range.mp hj, hocc, hpe⟩
    · rw [e1] at hocc
      rw [e2] at hpe
      exact Or.inr ⟨i1, List.mem_cons_of_mem _ hi1, j, hj, hocc, hpe⟩

/-- Every cell either is untouched by the loop of `projectPointCloud` or holds
the deskewed image of an input point that passed the ring filters of its row. -/
theorem projectLoop_provenance (env : ProjEnv) (pts : List PointXYZIRT) (s : ImageProjection)
    (row col : Nat) (hcol : col < env.Horizon_SCAN) :
    ((projectLoop env s pts).rangeMat row col = s.rangeMat row col
        ∧ (projectLoop env s pts).fullCloud (col + row * env.Horizon_SCAN)
            = s.fullCloud (col + row * env.Horizon_SCAN))
      ∨ ∃ pre pt post s1, pts = pre ++ pt :: post
          ∧ pt.ring = (row : Int) ∧ row < env.N_SCAN ∧ pt.ring.tmod env.downsampleRate = 0
          ∧ (projectLoop env s pts).fullCloud (col + row * env.Horizon_SCAN)
              = (deskewPoint env s1 ⟨pt.x, pt.y, pt.z, pt.intensity⟩ pt.time).1 := by
  induction pts generalizing s with
  | nil => exact Or.inl ⟨rfl, rfl⟩
  | cons pt rest ih =>
    rcases ih (projectPoint env s pt).1 with ⟨hr, hf⟩ | ⟨pre, q, post, s1, hsplit, h1, h2, h3, h4⟩
    · rcases projectPoint_cases env s pt with ⟨_, gr, gf⟩ | ⟨r, c, s1, _, hrn, hc, hring, hstride, _, gr, gf⟩
      · left
        exact ⟨by show (projectLoop env (projectPoint env s pt).1 rest).rangeMat row col = _
                  rw [hr, gr],
               by show (projectLoop env (projectPoint env s pt).1 rest).fullCloud _ = _
                  rw [hf, gf]⟩
      · by_cases hrc : row = r ∧ col = c
        · obtain ⟨rfl, rfl⟩ := hrc
          right
          refine ⟨[], pt, rest, s1, rfl, hring, hrn, hstride, ?_⟩
          show (projectLoop env (projectPoint env s pt).1 rest).fullCloud _ = _
          rw [hf, gf, Function.update_same]
        · left
          refine ⟨?_, ?_⟩
          · show (projectLoop env (projectPoint env s pt).1 rest).rangeMat row col = _
            rw [hr, gr, update2_apply, if_neg hrc]
          · show (projectLoop env (projectPoint env s pt).1 rest).fullCloud _ = _
            rw [hf, gf]
            apply Function.update_noteq
            intro h
            exact hrc (flat_index_inj hcol hc h)
    · right
      exact ⟨pt :: pre, q, post, s1, by rw [hsplit]; rfl, h1, h2, h3, h4⟩

theorem projectPoint_extractedCloud (env : ProjEnv) (s : ImageProjection) (pt : PointXYZIRT) :
    (projectPoint env s pt).1.extractedCloud = s.extractedCloud := by
  have hl : (locateColumn env s ⟨pt.x, pt.y, pt.z, pt.intensity⟩ pt.ring).2.extractedCloud
      = s.extractedCloud := by
    unfold locateColumn
    split_ifs <;> rfl
  unfold projectPoint
  dsimp only
  generalize locateColumn env s ⟨pt.x, pt.y, pt.z, pt.intensity⟩ pt.ring = loc at hl ⊢
  have hd : (deskewPoint env loc.2 ⟨pt.x, pt.y, pt.z, pt.intensity⟩ pt.time).2.extractedCloud
      = loc.2.extractedCloud := by
    unfold deskewPoint
    split_ifs <;> rfl
  split_ifs
  · rfl
  · rfl
  · rfl
  · exact hl
  · exact hl
  · exact hd.trans hl

theorem projectLoop_extractedCloud (env : ProjEnv) (pts : List PointXYZIRT) (s : ImageProjection) :
    (projectLoop env s pts).extractedCloud = s.extractedCloud := by
  induction pts generalizing s with
  | nil => rfl
  | cons pt rest ih => exact (ih _).trans (projectPoint_extractedCloud env s pt)

/-- A point whose ring is out of range or fails the stride leaves the state as
it is. -/
theorem projectPoint_bad_ring (env : ProjEnv) (s : ImageProjection) (pt : PointXYZIRT)
    (hbad : pt.ring < 0 ∨ (env.N_SCAN : Int) ≤ pt.ring ∨ pt.ring.tmod env.downsampleRate ≠ 0) :
    projectPoint env s pt = (s, none) := by
  unfold projectPoint
  dsimp only
  by_cases h1 : env.pointDistance ⟨pt.x, pt.y, pt.z, pt.intensity⟩ < env.lidarMinRange
      ∨ env.pointDistance ⟨pt.x, pt.y, pt.z, pt.intensity⟩ > env.lidarMaxRange
  · rw [if_pos h1]
  · rw [if_neg h1]
    by_cases h2 : pt.ring < 0 ∨ pt.ring ≥ (env.N_SCAN : Int)
    · rw [if_pos h2]
    · rw [if_neg h2]
      have h3 : pt.ring.tmod env.downsampleRate ≠ 0 := by
        rcases hbad with h | h | h
        · exact absurd (Or.inl h) h2
        · exact absurd (Or.inr h) h2
        · exact h
      rw [if_pos h3]

/-- C2: every point of the extracted cloud is the stored point of an occupied
cell of some row `r`, and is the deskewed image of an input point whose ring is
`r`, with `0 <= r < N_SCAN` and `r mod downsampleRate = 0`; an input point whose
ring is out of range or fails the stride is skipped by its iteration, which
leaves the whole state as it is. -/
theorem extracted_points_have_valid_ring (env : ProjEnv) (s : ImageProjection)
    (hempty : ∀ row col, s.rangeMat row col = env.FLT_MAX)
    (hext : s.extractedCloud = []) :
    (∀ p ∈ (cloudExtraction env (projectPointCloud env s)).extractedCloud,
        ∃ (row col : Nat) (pre : List PointXYZIRT) (pt : PointXYZIRT) (post : List PointXYZIRT)
          (s1 : ImageProjection), s.laserCloudIn = pre ++ pt :: post
          ∧ pt.ring = (row : Int) ∧ 0 ≤ pt.ring ∧ pt.ring < (env.N_SCAN : Int)
          ∧ pt.ring.tmod env.downsampleRate = 0
          ∧ col < env.Horizon_SCAN
          ∧ (projectPointCloud env s).rangeMat row col ≠ env.FLT_MAX
          ∧ p = (projectPointCloud env s).fullCloud (col + row * env.Horizon_SCAN)
          ∧ p = (deskewPoint env s1 ⟨pt.x, pt.y, pt.z, pt.intensity⟩ pt.time).1)
      ∧ ∀ pre pt post, s.laserCloudIn = pre ++ pt :: post →
          (pt.ring < 0 ∨ (env.N_SCAN : Int) ≤ pt.ring ∨ pt.ring.tmod env.downsampleRate ≠ 0) →
          projectPoint env (projectLoop env s pre) pt = (projectLoop env s pre, none) := by
  constructor
  · intro p hp
    have hpl : (projectPointCloud env s).extractedCloud = [] :=
      (projectLoop_extractedCloud env _ s).trans hext
    rcases (extractRing_fold env (List.range env.N_SCAN) (projectPointCloud env s, 0)).2.2 p hp
      with h | ⟨row, _, col, hcol, hocc, hpe⟩
    · rw [hpl] at h; simp at h
    · rcases projectLoop_provenance env s.laserCloudIn s row col hcol
        with ⟨hr, _⟩ | ⟨pre, pt, post, s1, hsplit, h1, h2, h3, h4⟩
      · exact absurd ((hr.symm.trans rfl).symm.trans (hempty row col)) hocc
      · refine ⟨row, col, pre, pt, post, s1, hsplit, h1, ?_, ?_, h3, hcol, hocc, hpe, ?_⟩
        · omega
        · omega
        · rw [hpe]; exact h4
  · intro pre pt post _ hbad
    exact projectPoint_bad_ring env _ pt hbad


/-- The scan of `findRotation` stops at the first index whose time exceeds the
query, or at the end of its range. -/
theorem findRotationLoop_spec (imuTime : Nat → ℚ) (t : ℚ) (k front : Nat) :
    front ≤ findRotationLoop imuTime t front k
      ∧ findRotationLoop imuTime t front k ≤ front + k
      ∧ (findRotationLoop imuTime t front k < front + k →
          t < imuTime (findRotationLoop imuTime t front k))
      ∧ ∀ j, front ≤ j → j < findRotationLoop imuTime t front k → imuTime j ≤ t := by
  induction k generalizing front with
  | zero =>
    refine ⟨le_refl _, le_refl _, fun h => absurd h (lt_irrefl _), fun j h1 h2 => ?_⟩
    exact absurd (lt_of_le_of_lt h1 h2) (lt_irrefl _)
  | succ k ih =>
    unfold findRotationLoop
    split_ifs with hlt
    · refine ⟨le_refl _, by omega, fun _ => hlt, fun j h1 h2 => ?_⟩
      exact absurd (lt_of_le_of_lt h1 h2) (lt_irrefl _)
    · obtain ⟨h1, h2, h3, h4⟩ := ih (front + 1)
      refine ⟨by omega, by omega, fun h => h3 (by omega), fun j hj1 hj2 => ?_⟩
      by_cases hj : j = front
      · subst hj; exact not_lt.mp hlt
      · exact h4 j (by omega) hj2

/-- C3: on a table with entries `0..n`, `n >= 1`, and strictly increasing
timestamps, `findRotation` returns the linear interpolation between the entries
that bracket the query time, and the last entry for a query at or after the last
timestamp. -/
theorem findRotation_linear_interpolation (s : ImageProjection) (n : Nat)
    (hcur : s.imuPointerCur = (n : Int)) (hn : 1 ≤ n)
    (hmono : ∀ i j, i < j → j ≤ n → s.imuTime i < s.imuTime j) (t : ℚ) :
    (∀ i, 1 ≤ i → i ≤ n → s.imuTime (i - 1) ≤ t → t < s.imuTime i →
        findRotation s t =
          (s.imuRotX (i - 1) + (s.imuRotX i - s.imuRotX (i - 1)) * (t - s.imuTime (i - 1))
              / (s.imuTime i - s.imuTime (i - 1)),
           s.imuRotY (i - 1) + (s.imuRotY i - s.imuRotY (i - 1)) * (t - s.imuTime (i - 1))
              / (s.imuTime i - s.imuTime (i - 1)),
           s.imuRotZ (i - 1) + (s.imuRotZ i - s.imuRotZ (i - 1)) * (t - s.imuTime (i - 1))
              / (s.imuTime i - s.imuTime (i - 1))))
      ∧ (s.imuTime n ≤ t → findRotation s t = (s.imuRotX n, s.imuRotY n, s.imuRotZ n)) := by
  obtain ⟨_, h2, h3, h4⟩ := findRotationLoop_spec s.imuTime t n 0
  have hle : ∀ i j, i ≤ j → j ≤ n → s.imuTime i ≤ s.imuTime j := by
    intro i j hij hjn
    rcases Nat.lt_or_ge i j with h | h
    · exact le_of_lt (hmono i j h hjn)
    · have : i = j := le_antisymm hij h
      subst this; exact le_refl _
  constructor
  · intro i hi1 hin hlo hhi
    have hf : findRotationLoop s.imuTime t 0 n = i := by
      apply le_antisymm
      · by_contra hgt
        have := h4 i (Nat.zero_le _) (by omega)
        exact absurd hhi (not_lt.mpr this)
      · by_contra hlt
        have hfi : findRotationLoop s.imuTime t 0 n ≤ i - 1 := by omega
        have := h3 (by omega)
        have := hle _ _ hfi (by omega)
        linarith
    have hd : s.imuTime i - s.imuTime (i - 1) ≠ 0 := by
      have := hmono (i - 1) i (by omega) hin
      linarith
    unfold findRotation
    simp only [hcur, Int.toNat_ofNat, hf]
    rw [if_neg (by
      rintro (h | h)
      · exact absurd hhi (not_lt.mpr (le_of_lt h))
      · omega)]
    refine Prod.ext ?_ (Prod.ext ?_ ?_) <;> dsimp only <;> field_simp <;> ring
  · intro hlast
    have hf : findRotationLoop s.imuTime t 0 n = n := by
      apply le_antisymm
      · omega
      · by_contra hlt
        have hlt : findRotationLoop s.imuTime t 0 n < n := by omega
        have := h3 (by omega)
        have := hmono _ n hlt (le_refl _)
        linarith
    unfold findRotation
    simp only [hcur, Int.toNat_ofNat, hf]
    split_ifs with hgt
    · rfl
    · have heq : t = s.imuTime n := by
        push_neg at hgt
        exact le_antisymm hgt.1 hlast
      have hd : s.imuTime n - s.imuTime (n - 1) ≠ 0 := by
        have := hmono (n - 1) n (by omega) (le_refl _)
        linarith
      subst heq
      refine Prod.ext ?_ (Prod.ext ?_ ?_) <;> dsimp only <;> field_simp


theorem odomDeskewInfo_sameInputs (env : ProjEnv) (s : ImageProjection) :
    SameDeskewInputs (odomDeskewInfo env s) s
      ∧ (odomDeskewInfo env s).firstPointFlag = s.firstPointFlag
      ∧ (odomDeskewInfo env s).transStartInverse = s.transStartInverse := by
  unfold odomDeskewInfo SameDeskewInputs
  dsimp only
  split
  · split_ifs <;> exact ⟨⟨rfl, rfl, rfl, rfl, rfl, rfl, rfl⟩, rfl, rfl⟩
  · exact ⟨⟨rfl, rfl, rfl, rfl, rfl, rfl, rfl⟩, rfl, rfl⟩

/-- When the samples that enter the table (those before the first one later than
`timeScanEnd + 0.01`) have zero angular velocity, the loop of `imuDeskewInfo`
fills the table with zero rotations. -/
theorem imuDeskewLoop_zero (env : ProjEnv) (tEnd : ℚ) (q : List ImuMsg) (s : ImageProjection)
    (hend : s.timeScanEnd = tEnd)
    (hzero : ∀ m ∈ q.takeWhile (fun m => decide (m.stamp ≤ tEnd + 1 / 100)),
      m.angular_velocity = Vec3.zero)
    (hcur : 0 ≤ s.imuPointerCur)
    (htab : ∀ k : Nat, (k : Int) < s.imuPointerCur →
      s.imuRotX k = 0 ∧ s.imuRotY k = 0 ∧ s.imuRotZ k = 0) :
    0 ≤ (imuDeskewLoop env q s).imuPointerCur
      ∧ (∀ k : Nat, (k : Int) < (imuDeskewLoop env q s).imuPointerCur →
          (imuDeskewLoop env q s).imuRotX k = 0 ∧ (imuDeskewLoop env q s).imuRotY k = 0
            ∧ (imuDeskewLoop env q s).imuRotZ k = 0)
      ∧ (imuDeskewLoop env q s).firstPointFlag = s.firstPointFlag
      ∧ (imuDeskewLoop env q s).transStartInverse = s.transStartInverse := by
  induction q generalizing s with
  | nil => exact ⟨hcur, htab, rfl, rfl⟩
  | cons m rest ih =>
    have huse : m.stamp ≤ tEnd + 1 / 100 →
        m.angular_velocity = Vec3.zero
          ∧ ∀ m1 ∈ rest.takeWhile (fun m => decide (m.stamp ≤ tEnd + 1 / 100)),
              m1.angular_velocity = Vec3.zero := by
      intro hle
      have htw : (m :: rest).takeWhile (fun m => decide (m.stamp ≤ tEnd + 1 / 100))
          = m :: rest.takeWhile (fun m => decide (m.stamp ≤ tEnd + 1 / 100)) := by
        rw [List.takeWhile_cons, if_pos (by simpa using hle)]
      rw [htw] at hzero
      exact ⟨hzero m (List.mem_cons_self _ _), fun m1 h => hzero m1 (List.mem_cons_of_mem _ h)⟩
    have hstep0 : ∀ k : Nat, (k : Int) < 0 + 1 →
        Function.update s.imuRotX 0 0 k = 0 ∧ Function.update s.imuRotY 0 0 k = 0
          ∧ Function.update s.imuRotZ 0 0 k = 0 := by
      intro k hk
      have : k = 0 := by omega
      subst this
      simp
    have hstep : m.angular_velocity = Vec3.zero → s.imuPointerCur ≠ 0 → ∀ dt : ℚ, ∀ k : Nat,
        (k : Int) < s.imuPointerCur + 1 →
        Function.update s.imuRotX s.imuPointerCur.toNat
            (s.imuRotX (s.imuPointerCur.toNat - 1) + m.angular_velocity.x * dt) k = 0
          ∧ Function.update s.imuRotY s.imuPointerCur.toNat
            (s.imuRotY (s.imuPointerCur.toNat - 1) + m.angular_velocity.y * dt) k = 0
          ∧ Function.update s.imuRotZ s.imuPointerCur.toNat
            (s.imuRotZ (s.imuPointerCur.toNat - 1) + m.angular_velocity.z * dt) k = 0 := by
      intro hm h0 dt k hk
      by_cases hkc : k = s.imuPointerCur.toNat
      · subst hkc
        have hp := htab (s.imuPointerCur.toNat - 1) (by omega)
        simp [hm, Vec3.zero, hp.1, hp.2.1, hp.2.2]
      · have hp := htab k (by omega)
        simp [Function.update_noteq hkc, hp.1, hp.2.1, hp.2.2]
    unfold imuDeskewLoop imuAngular2rosAngular
    dsimp only
    split_ifs with h1 h2 h3 h4 h5 <;> try dsimp only at *
    · exact ⟨hcur, htab, rfl, rfl⟩
    · rw [hend] at h2
      refine ih _ hend (huse (not_lt.mp h2)).2 (by dsimp only; omega) ?_
      dsimp only
      rw [h3]
      exact hstep0
    · rw [hend] at h2
      refine ih _ hend (huse (not_lt.mp h2)).2 (by dsimp only; omega) ?_
      dsimp only
      exact hstep (huse (not_lt.mp h2)).1 (by assumption) _
    · exact ⟨hcur, htab, rfl, rfl⟩
    · rw [hend] at h4
      refine ih _ hend (huse (not_lt.mp h4)).2 (by dsimp only; omega) ?_
      dsimp only
      rw [h5]
      exact hstep0
    · rw [hend] at h4
      refine ih _ hend (huse (not_lt.mp h4)).2 (by dsimp only; omega) ?_
      dsimp only
      exact hstep (huse (not_lt.mp h4)).1 (by assumption) _

theorem imuDeskewLoop_imuAvailable (env : ProjEnv) (q : List ImuMsg) (s : ImageProjection) :
    (imuDeskewLoop env q s).cloudInfo.imuAvailable = s.cloudInfo.imuAvailable := by
  induction q generalizing s with
  | nil => rfl
  | cons m rest ih =>
    unfold imuDeskewLoop imuAngular2rosAngular
    dsimp only
    split_ifs <;> first | rfl | (rw [ih])

theorem imuDeskewInfo_zero (env : ProjEnv) (s : ImageProjection)
    (hzero : ∀ m ∈ (s.imuQueue.dropWhile
        (fun m => decide (m.stamp < s.timeScanCur - 1 / 100))).takeWhile
          (fun m => decide (m.stamp ≤ s.timeScanEnd + 1 / 100)),
      m.angular_velocity = Vec3.zero) :
    ZeroTable (imuDeskewInfo env s)
      ∧ (imuDeskewInfo env s).firstPointFlag = s.firstPointFlag
      ∧ (imuDeskewInfo env s).transStartInverse = s.transStartInverse := by
  have g := imuDeskewLoop_zero env s.timeScanEnd
    (s.imuQueue.dropWhile (fun m => decide (m.stamp < s.timeScanCur - 1 / 100)))
    { s with
      cloudInfo := { s.cloudInfo with imuAvailable := false }
      imuQueue := s.imuQueue.dropWhile (fun m => decide (m.stamp < s.timeScanCur - 1 / 100))
      imuPointerCur := 0 }
    rfl hzero (le_refl _) (fun k hk => by dsimp only at hk; omega)
  dsimp only at g
  obtain ⟨g1, g2, g3, g4⟩ := g
  unfold imuDeskewInfo ZeroTable
  dsimp only
  split_ifs with h1 h2
  · exact ⟨Or.inl rfl, rfl, rfl⟩
  · exact ⟨Or.inl (by dsimp only; rw [imuDeskewLoop_imuAvailable]), g3, g4⟩
  · refine ⟨Or.inr ⟨?_, ?_⟩, g3, g4⟩
    · try dsimp only at h2
      try dsimp only
      omega
    · intro k hk
      try dsimp only at hk
      try dsimp only
      exact g2 k (by omega)

theorem findRotation_zero (s : ImageProjection) (hcur : 0 ≤ s.imuPointerCur)
    (htab : ∀ k : Nat, (k : Int) ≤ s.imuPointerCur →
      s.imuRotX k = 0 ∧ s.imuRotY k = 0 ∧ s.imuRotZ k = 0) (t : ℚ) :
    findRotation s t = (0, 0, 0) := by
  obtain ⟨_, h2, _, _⟩ := findRotationLoop_spec s.imuTime t s.imuPointerCur.toNat 0
  have hf := htab (findRotationLoop s.imuTime t 0 s.imuPointerCur.toNat) (by omega)
  have hb := htab (findRotationLoop s.imuTime t 0 s.imuPointerCur.toNat - 1) (by omega)
  unfold findRotation
  dsimp only
  split_ifs
  · rw [hf.1, hf.2.1, hf.2.2]
  · rw [hf.1, hf.2.1, hf.2.2, hb.1, hb.2.1, hb.2.2]
    simp

theorem deskewPoint_identity_step (env : ProjEnv)
    (hT : env.getTransformation 0 0 0 0 0 0 = Affine3.identity)
    (s : ImageProjection) (hs : DeskewIsIdentity s) (point : PointType) (relTime : ℚ) :
    (deskewPoint env s point relTime).1 = point
      ∧ DeskewIsIdentity (deskewPoint env s point relTime).2 := by
  obtain ⟨hz, ho, hf⟩ := hs
  have hinv : Affine3.identity.inverse = Affine3.identity := by
    simp [Affine3.inverse, Affine3.identity, Mat3.inverse, Mat3.identity, Mat3.det, Mat3.mulVec,
      Vec3.neg, Vec3.zero]
  have hmul : Affine3.identity.mul Affine3.identity = Affine3.identity := by
    simp [Affine3.mul, Affine3.identity, Mat3.mul, Mat3.identity, Mat3.mulVec, Vec3.add, Vec3.zero]
  by_cases hskip : s.deskewFlag = -1 ∨ s.cloudInfo.imuAvailable = false
  · unfold deskewPoint
    rw [if_pos hskip]
    exact ⟨rfl, hz, ho, hf⟩
  · have hav : ¬ s.cloudInfo.imuAvailable = false := fun h => hskip (Or.inr h)
    rcases hz with hz | ⟨hcur, htab⟩
    · exact absurd hz hav
    have hrot := findRotation_zero s hcur htab (s.timeScanCur + relTime)
    have hpos : findPosition s relTime = (0, 0, 0) := by
      unfold findPosition
      rw [if_pos (Or.inl ho)]
    unfold deskewPoint
    rw [if_neg hskip]
    dsimp only
    rw [hrot, hpos]
    dsimp only
    rw [hT, hinv]
    by_cases hfirst : s.firstPointFlag = true
    · rw [if_pos hfirst]
      dsimp only
      rw [hmul]
      refine ⟨?_, Or.inr ⟨hcur, htab⟩, ho, Or.inr rfl⟩
      simp [Affine3.identity, Mat3.identity, Vec3.zero]
    · rw [if_neg hfirst]
      have hti : s.transStartInverse = Affine3.identity := by
        rcases hf with h | h
        · exact absurd h hfirst
        · exact h
      rw [hti, hmul]
      refine ⟨?_, Or.inr ⟨hcur, htab⟩, ho, Or.inr hti⟩
      simp [Affine3.identity, Mat3.identity, Vec3.zero]

/-- The identity condition only reads the rotation table, the availability flags
and the first-point reference. -/
theorem DeskewIsIdentity_congr (a b : ImageProjection) (h : DeskewIsIdentity a)
    (e1 : b.cloudInfo.imuAvailable = a.cloudInfo.imuAvailable)
    (e2 : b.imuPointerCur = a.imuPointerCur) (e3 : b.imuRotX = a.imuRotX)
    (e4 : b.imuRotY = a.imuRotY) (e5 : b.imuRotZ = a.imuRotZ)
    (e6 : b.cloudInfo.odomAvailable = a.cloudInfo.odomAvailable)
    (e7 : b.firstPointFlag = a.firstPointFlag)
    (e8 : b.transStartInverse = a.transStartInverse) : DeskewIsIdentity b := by
  unfold DeskewIsIdentity ZeroTable at *
  rw [e1, e2, e3, e4, e5, e6, e7, e8]
  exact h

theorem locateColumn_identity (env : ProjEnv) (s : ImageProjection) (p : PointType) (r : Int)
    (h : DeskewIsIdentity s) : DeskewIsIdentity (locateColumn env s p r).2 := by
  unfold locateColumn
  split_ifs
  · exact h
  · exact DeskewIsIdentity_congr s _ h rfl rfl rfl rfl rfl rfl rfl rfl
  · exact h

theorem projectPoint_identity (env : ProjEnv)
    (hT : env.getTransformation 0 0 0 0 0 0 = Affine3.identity)
    (s : ImageProjection) (pt : PointXYZIRT) (h : DeskewIsIdentity s) :
    DeskewIsIdentity (projectPoint env s pt).1 := by
  have hl := locateColumn_identity env s ⟨pt.x, pt.y, pt.z, pt.intensity⟩ pt.ring h
  unfold projectPoint
  dsimp only
  generalize locateColumn env s ⟨pt.x, pt.y, pt.z, pt.intensity⟩ pt.ring = loc at hl ⊢
  have hd := (deskewPoint_identity_step env hT loc.2 hl ⟨pt.x, pt.y, pt.z, pt.intensity⟩ pt.time).2
  split_ifs
  · exact h
  · exact h
  · exact h
  · exact hl
  · exact hl
  · exact DeskewIsIdentity_congr _ _ hd rfl rfl rfl rfl rfl rfl rfl rfl

theorem projectLoop_identity (env : ProjEnv)
    (hT : env.getTransformation 0 0 0 0 0 0 = Affine3.identity)
    (pts : List PointXYZIRT) (s : ImageProjection) (h : DeskewIsIdentity s) :
    DeskewIsIdentity (projectLoop env s pts) := by
  induction pts generalizing s with
  | nil => exact h
  | cons pt rest ih => exact ih _ (projectPoint_identity env hT s pt h)

/-- On the table of a constant angular velocity `(0, 0, w)` the rotation found
for a query time is `w` times the distance from the first entry to the query
time clamped to the span of the table. -/
theorem findRotation_constant_rate (w : ℚ) (s : ImageProjection) (h : ConstantRateTable w s)
    (t : ℚ) :
    findRotation s t
      = (0, 0, w * (max (s.imuTime 0) (min t (s.imuTime s.imuPointerCur.toNat)) - s.imuTime 0)) := by
  obtain ⟨hcur, hmono, htab⟩ := h
  obtain ⟨_, h2, h3, h4⟩ := findRotationLoop_spec s.imuTime t s.imuPointerCur.toNat 0
  have hle : ∀ i j : Nat, i ≤ j → (j : Int) ≤ s.imuPointerCur → s.imuTime i ≤ s.imuTime j := by
    intro i j hij hjn
    rcases Nat.lt_or_ge i j with hlt | hge
    · exact le_of_lt (hmono i j hlt hjn)
    · have : i = j := le_antisymm hij hge
      subst this; exact le_refl _
  have hfn : ((findRotationLoop s.imuTime t 0 s.imuPointerCur.toNat : Nat) : Int)
      ≤ s.imuPointerCur := by omega
  have hnn : ((s.imuPointerCur.toNat : Nat) : Int) ≤ s.imuPointerCur := by omega
  have hf := htab _ hfn
  have h0n := hle 0 _ (Nat.zero_le _) hnn
  unfold findRotation
  dsimp only
  generalize hF : findRotationLoop s.imuTime t 0 s.imuPointerCur.toNat = f at *
  split_ifs with hc
  · rw [hf.1, hf.2.1, hf.2.2]
    rcases hc with hgt | hz
    · have hfeq : f = s.imuPointerCur.toNat := by
        by_contra hne
        have := h3 (by omega)
        linarith
      rw [hfeq] at hgt ⊢
      rw [min_eq_right (le_of_lt hgt), max_eq_right h0n]
    · subst hz
      by_cases hn : s.imuPointerCur.toNat = 0
      · rw [hn, max_eq_left (min_le_right _ _)]
      · have := h3 (by omega)
        rw [max_eq_left (le_trans (min_le_left _ _) (le_of_lt this))]
  · push_neg at hc
    obtain ⟨hle1, hne⟩ := hc
    have hb := htab (f - 1) (by omega)
    have hlo : s.imuTime (f - 1) ≤ t := h4 (f - 1) (Nat.zero_le _) (by omega)
    have hlt : s.imuTime (f - 1) < s.imuTime f := hmono (f - 1) f (by omega) hfn
    have hd : s.imuTime f - s.imuTime (f - 1) ≠ 0 := by linarith
    have h0b := hle 0 (f - 1) (Nat.zero_le _) (by omega)
    have hfn2 := hle f _ (by omega) hnn
    rw [hf.1, hf.2.1, hf.2.2, hb.1, hb.2.1, hb.2.2,
      min_eq_left (le_trans hle1 hfn2), max_eq_right (le_trans h0b hlo)]
    refine Prod.ext ?_ (Prod.ext ?_ ?_) <;> dsimp only
    · simp
    · simp
    · field_simp
      ring

/-- With constant angular velocity `(0, 0, w)` and increasing stamps, the loop of
`imuDeskewInfo` extends a constant-rate table (counted by `imuPointerCur`) to a
constant-rate table. -/
theorem imuDeskewLoop_constant_rate (env : ProjEnv) (w : ℚ) (q : List ImuMsg) (s : ImageProjection)
    (hvel : ∀ m ∈ q, m.angular_velocity = ⟨0, 0, w⟩)
    (hsorted : q.Pairwise (fun a b => a.stamp < b.stamp))
    (hcur : 0 ≤ s.imuPointerCur)
    (hmono : ∀ i j : Nat, i < j → (j : Int) < s.imuPointerCur → s.imuTime i < s.imuTime j)
    (htab : ∀ k : Nat, (k : Int) < s.imuPointerCur →
      s.imuRotX k = 0 ∧ s.imuRotY k = 0 ∧ s.imuRotZ k = w * (s.imuTime k - s.imuTime 0))
    (hlast : 0 < s.imuPointerCur → ∀ m ∈ q, s.imuTime (s.imuPointerCur.toNat - 1) < m.stamp) :
    0 ≤ (imuDeskewLoop env q s).imuPointerCur
      ∧ (∀ i j : Nat, i < j → (j : Int) < (imuDeskewLoop env q s).imuPointerCur →
          (imuDeskewLoop env q s).imuTime i < (imuDeskewLoop env q s).imuTime j)
      ∧ ∀ k : Nat, (k : Int) < (imuDeskewLoop env q s).imuPointerCur →
          (imuDeskewLoop env q s).imuRotX k = 0 ∧ (imuDeskewLoop env q s).imuRotY k = 0
            ∧ (imuDeskewLoop env q s).imuRotZ k
                = w * ((imuDeskewLoop env q s).imuTime k - (imuDeskewLoop env q s).imuTime 0) := by
  induction q generalizing s with
  | nil => exact ⟨hcur, hmono, htab⟩
  | cons m rest ih =>
    have hm : m.angular_velocity = ⟨0, 0, w⟩ := hvel m (List.mem_cons_self _ _)
    have hrest : ∀ m1 ∈ rest, m1.angular_velocity = ⟨0, 0, w⟩ :=
      fun m1 h => hvel m1 (List.mem_cons_of_mem _ h)
    obtain ⟨hhead, hsrest⟩ := List.pairwise_cons.mp hsorted
    -- first entry of the table
    have first : s.imuPointerCur = 0 →
        ∀ s1 : ImageProjection, s1.imuPointerCur = 0 + 1 →
          s1.imuTime = Function.update s.imuTime 0 m.stamp →
          s1.imuRotX = Function.update s.imuRotX 0 0 →
          s1.imuRotY = Function.update s.imuRotY 0 0 →
          s1.imuRotZ = Function.update s.imuRotZ 0 0 →
          0 ≤ (imuDeskewLoop env rest s1).imuPointerCur
            ∧ (∀ i j : Nat, i < j → (j : Int) < (imuDeskewLoop env rest s1).imuPointerCur →
                (imuDeskewLoop env rest s1).imuTime i < (imuDeskewLoop env rest s1).imuTime j)
            ∧ ∀ k : Nat, (k : Int) < (imuDeskewLoop env rest s1).imuPointerCur →
                (imuDeskewLoop env rest s1).imuRotX k = 0 ∧ (imuDeskewLoop env rest s1).imuRotY k = 0
                  ∧ (imuDeskewLoop env rest s1).imuRotZ k
                      = w * ((imuDeskewLoop env rest s1).imuTime k
                          - (imuDeskewLoop env rest s1).imuTime 0) := by
      intro _ s1 e1 e2 e3 e4 e5
      refine ih s1 hrest hsrest (by omega) ?_ ?_ ?_
      · intro i j hij hj; omega
      · intro k hk
        have : k = 0 := by omega
        subst this
        rw [e2, e3, e4, e5]
        simp
      · intro _ m1 hm1
        rw [e1, e2]
        have : ((0 : Int) + 1).toNat - 1 = 0 := by decide
        rw [this, Function.update_same]
        exact hhead m1 hm1
    -- later entries of the table
    have later : s.imuPointerCur ≠ 0 →
        ∀ s1 : ImageProjection, s1.imuPointerCur = s.imuPointerCur + 1 →
          s1.imuTime = Function.update s.imuTime s.imuPointerCur.toNat m.stamp →
          s1.imuRotX = Function.update s.imuRotX s.imuPointerCur.toNat
            (s.imuRotX (s.imuPointerCur.toNat - 1)
              + m.angular_velocity.x * (m.stamp - s.imuTime (s.imuPointerCur.toNat - 1))) →
          s1.imuRotY = Function.update s.imuRotY s.imuPointerCur.toNat
            (s.imuRotY (s.imuPointerCur.toNat - 1)
              + m.angular_velocity.y * (m.stamp - s.imuTime (s.imuPointerCur.toNat - 1))) →
          s1.imuRotZ = Function.update s.imuRotZ s.imuPointerCur.toNat
            (s.imuRotZ (s.imuPointerCur.toNat - 1)
              + m.angular_velocity.z * (m.stamp - s.imuTime (s.imuPointerCur.toNat - 1))) →
          0 ≤ (imuDeskewLoop env rest s1).imuPointerCur
            ∧ (∀ i j : Nat, i < j → (j : Int) < (imuDeskewLoop env rest s1).imuPointerCur →
                (imuDeskewLoop env rest s1).imuTime i < (imuDeskewLoop env rest s1).imuTime j)
            ∧ ∀ k : Nat, (k : Int) < (imuDeskewLoop env rest s1).imuPointerCur →
                (imuDeskewLoop env rest s1).imuRotX k = 0 ∧ (imuDeskewLoop env rest s1).imuRotY k = 0
                  ∧ (imuDeskewLoop env rest s1).imuRotZ k
                      = w * ((imuDeskewLoop env rest s1).imuTime k
                          - (imuDeskewLoop env rest s1).imuTime 0) := by
      intro hne s1 e1 e2 e3 e4 e5
      have hpos : 0 < s.imuPointerCur := by omega
      have hprev := hlast hpos m (List.mem_cons_self _ _)
      have hc0 : (0 : Nat) ≠ s.imuPointerCur.toNat := by omega
      refine ih s1 hrest hsrest (by omega) ?_ ?_ ?_
      · intro i j hij hj
        rw [e2]
        by_cases hjc : j = s.imuPointerCur.toNat
        · have hic : i ≠ s.imuPointerCur.toNat := by omega
          rw [hjc, Function.update_same, Function.update_noteq hic]
          by_cases hil : i = s.imuPointerCur.toNat - 1
          · rw [hil]; exact hprev
          · exact lt_trans (hmono i (s.imuPointerCur.toNat - 1) (by omega) (by omega)) hprev
        · have hic : i ≠ s.imuPointerCur.toNat := by omega
          rw [Function.update_noteq hjc, Function.update_noteq hic]
          exact hmono i j hij (by omega)
      · intro k hk
        rw [e2, e3, e4, e5, Function.update_noteq hc0]
        by_cases hkc : k = s.imuPointerCur.toNat
        · have hp := htab (s.imuPointerCur.toNat - 1) (by omega)
          rw [hkc]
          simp only [Function.update_same, hm, hp.1, hp.2.1, hp.2.2]
          refine ⟨by ring, by ring, by ring⟩
        · have hp := htab k (by omega)
          simp only [Function.update_noteq hkc]
          exact hp
      · intro _ m1 hm1
        rw [e1, e2]
        have : (s.imuPointerCur + 1).toNat - 1 = s.imuPointerCur.toNat := by omega
        rw [this, Function.update_same]
        exact hhead m1 hm1
    unfold imuDeskewLoop imuAngular2rosAngular
    dsimp only
    split_ifs with h1 h2 h3 h4 h5 <;> try dsimp only at *
    · exact ⟨hcur, hmono, htab⟩
    · exact first h3 _ (by dsimp only; rw [h3]) rfl rfl rfl rfl
    · exact later h3 _ rfl rfl rfl rfl rfl
    · exact ⟨hcur, hmono, htab⟩
    · exact first h5 _ (by dsimp only; rw [h5]) rfl rfl rfl rfl
    · exact later h5 _ rfl rfl rfl rfl rfl

theorem imuDeskewInfo_constant_rate (env : ProjEnv) (w : ℚ) (s : ImageProjection)
    (hvel : ∀ m ∈ s.imuQueue, m.angular_velocity = ⟨0, 0, w⟩)
    (hsorted : s.imuQueue.Pairwise (fun a b => a.stamp < b.stamp))
    (hav : (imuDeskewInfo env s).cloudInfo.imuAvailable = true) :
    ConstantRateTable w (imuDeskewInfo env s) := by
  have hsub : ∀ m ∈ s.imuQueue.dropWhile (fun m => decide (m.stamp < s.timeScanCur - 1 / 100)),
      m.angular_velocity = ⟨0, 0, w⟩ :=
    fun m hm => hvel m ((List.dropWhile_suffix _).subset hm)
  have hsrt : (s.imuQueue.dropWhile (fun m => decide (m.stamp < s.timeScanCur - 1 / 100))).Pairwise
      (fun a b => a.stamp < b.stamp) :=
    List.Pairwise.sublist (List.dropWhile_suffix _).sublist hsorted
  have g := imuDeskewLoop_constant_rate env w _
    { s with
      cloudInfo := { s.cloudInfo with imuAvailable := false }
      imuQueue := s.imuQueue.dropWhile (fun m => decide (m.stamp < s.timeScanCur - 1 / 100))
      imuPointerCur := 0 }
    hsub hsrt (le_refl _) (fun i j _ hj => by dsimp only at hj; omega)
    (fun k hk => by dsimp only at hk; omega) (fun h => absurd h (lt_irrefl _))
  dsimp only at g
  obtain ⟨g1, g2, g3⟩ := g
  unfold imuDeskewInfo ConstantRateTable at *
  dsimp only at *
  split_ifs at hav ⊢ with h1 h2
  · rw [imuDeskewLoop_imuAvailable] at hav
    simp at hav
  · refine ⟨?_, ?_, ?_⟩
    · try dsimp only at h2
      try dsimp only
      omega
    · intro i j hij hj
      try dsimp only at hj
      try dsimp only
      exact g2 i j hij (by omega)
    · intro k hk
      try dsimp only at hk
      try dsimp only
      exact g3 k (by omega)

/-- The rotations of a scan with constant angular velocity `(0, 0, w)`, `w > 0`:
zero about X and Y, and about Z non-decreasing in the query time and strictly
increasing between the first and the last entry of the table. -/
theorem constant_rate_rotation_monotone (w : ℚ) (hw : 0 < w) (st : ImageProjection)
    (h : ConstantRateTable w st) (t1 t2 : ℚ) (h12 : t1 < t2) :
    (findRotation st t1).1 = 0 ∧ (findRotation st t1).2.1 = 0
      ∧ (findRotation st t1).2.2 ≤ (findRotation st t2).2.2
      ∧ (st.imuTime 0 ≤ t1 → t2 ≤ st.imuTime st.imuPointerCur.toNat →
          (findRotation st t1).2.2 < (findRotation st t2).2.2) := by
  rw [findRotation_constant_rate w st h t1, findRotation_constant_rate w st h t2]
  refine ⟨rfl, rfl, ?_, ?_⟩
  · dsimp only
    have : max (st.imuTime 0) (min t1 (st.imuTime st.imuPointerCur.toNat))
        ≤ max (st.imuTime 0) (min t2 (st.imuTime st.imuPointerCur.toNat)) :=
      max_le_max (le_refl _) (min_le_min (le_of_lt h12) (le_refl _))
    nlinarith
  · intro hlo hhi
    dsimp only
    rw [min_eq_left (le_trans (le_of_lt h12) hhi), min_eq_left hhi, max_eq_right hlo,
      max_eq_right (le_trans hlo (le_of_lt h12))]
    nlinarith

/-- An accepted scan is prepared by `imuDeskewInfo` followed by `odomDeskewInfo`. -/
theorem deskewInfo_accepted (env : ProjEnv) (s : ImageProjection)
    (hacc : (deskewInfo env s).1 = true) :
    (deskewInfo env s).2 = odomDeskewInfo env (imuDeskewInfo env s) := by
  unfold deskewInfo at hacc ⊢
  split at hacc
  · split_ifs at hacc ⊢ with hc
    rfl
  · simp at hacc

theorem deskewInfo_constant_rate (env : ProjEnv) (w : ℚ) (s : ImageProjection)
    (hvel : ∀ m ∈ s.imuQueue, m.angular_velocity = ⟨0, 0, w⟩)
    (hsorted : s.imuQueue.Pairwise (fun a b => a.stamp < b.stamp))
    (hacc : (deskewInfo env s).1 = true)
    (hav : (deskewInfo env s).2.cloudInfo.imuAvailable = true) :
    ConstantRateTable w (deskewInfo env s).2 := by
  rw [deskewInfo_accepted env s hacc] at hav ⊢
  obtain ⟨⟨e1, e2, e3, e4, e5, e6, _⟩, _, _⟩ := odomDeskewInfo_sameInputs env (imuDeskewInfo env s)
  have := imuDeskewInfo_constant_rate env w s hvel hsorted (by rw [← e6]; exact hav)
  unfold ConstantRateTable at this ⊢
  rw [e1, e2, e3, e4, e5]
  exact this

/-- C5 (amended): for a 1-second scan accepted by `deskewInfo` with 10 IMU samples
of increasing stamps and constant angular velocity `(0, 0, w)`, `w > 0`, for
which the rotation table is usable (`imuAvailable`), the rotation found for a
point has zero X and Y components and a Z component that is non-decreasing in
the time offset over `[0, 1]` and strictly increasing for point times between
the first and the last entry of the table; it is held at 0 for point times up to
the first entry and at the rotation of the last entry for point times from the
last entry on. -/
theorem deskew_rotation_monotone_in_offset (env : ProjEnv) (s : ImageProjection) (w : ℚ)
    (hw : 0 < w) (_hlen : s.imuQueue.length = 10)
    (hvel : ∀ m ∈ s.imuQueue, m.angular_velocity = ⟨0, 0, w⟩)
    (hsorted : s.imuQueue.Pairwise (fun a b => a.stamp < b.stamp))
    (_hscan : s.timeScanEnd = s.timeScanCur + 1)
    (hacc : (deskewInfo env s).1 = true)
    (hav : (deskewInfo env s).2.cloudInfo.imuAvailable = true) :
    (∀ r : ℚ, 0 ≤ r → r ≤ 1 →
        (findRotation (deskewInfo env s).2 ((deskewInfo env s).2.timeScanCur + r)).1 = 0
          ∧ (findRotation (deskewInfo env s).2 ((deskewInfo env s).2.timeScanCur + r)).2.1 = 0)
      ∧ (∀ r1 r2 : ℚ, 0 ≤ r1 → r1 < r2 → r2 ≤ 1 →
          (findRotation (deskewInfo env s).2 ((deskewInfo env s).2.timeScanCur + r1)).2.2
              ≤ (findRotation (deskewInfo env s).2 ((deskewInfo env s).2.timeScanCur + r2)).2.2
            ∧ ((deskewInfo env s).2.imuTime 0 ≤ (deskewInfo env s).2.timeScanCur + r1 →
                (deskewInfo env s).2.timeScanCur + r2
                  ≤ (deskewInfo env s).2.imuTime (deskewInfo env s).2.imuPointerCur.toNat →
                (findRotation (deskewInfo env s).2 ((deskewInfo env s).2.timeScanCur + r1)).2.2
                  < (findRotation (deskewInfo env s).2 ((deskewInfo env s).2.timeScanCur + r2)).2.2))
      ∧ ∀ r : ℚ,
          ((deskewInfo env s).2.timeScanCur + r ≤ (deskewInfo env s).2.imuTime 0 →
              (findRotation (deskewInfo env s).2 ((deskewInfo env s).2.timeScanCur + r)).2.2 = 0)
            ∧ ((deskewInfo env s).2.imuTime (deskewInfo env s).2.imuPointerCur.toNat
                  ≤ (deskewInfo env s).2.timeScanCur + r →
                (findRotation (deskewInfo env s).2 ((deskewInfo env s).2.timeScanCur + r)).2.2
                  = w * ((deskewInfo env s).2.imuTime (deskewInfo env s).2.imuPointerCur.toNat
                      - (deskewInfo env s).2.imuTime 0)) := by
  have hct := deskewInfo_constant_rate env w s hvel hsorted hacc hav
  refine ⟨?_, ?_, ?_⟩
  · intro r _ _
    rw [findRotation_constant_rate w _ hct]
    exact ⟨rfl, rfl⟩
  · intro r1 r2 _ h12 _
    have := constant_rate_rotation_monotone w hw _ hct
      ((deskewInfo env s).2.timeScanCur + r1) ((deskewInfo env s).2.timeScanCur + r2) (by linarith)
    exact ⟨this.2.2.1, this.2.2.2⟩
  · intro r
    have h0n : (deskewInfo env s).2.imuTime 0
        ≤ (deskewInfo env s).2.imuTime (deskewInfo env s).2.imuPointerCur.toNat := by
      obtain ⟨hcur, hmono, _⟩ := hct
      rcases Nat.eq_zero_or_pos (deskewInfo env s).2.imuPointerCur.toNat with h | h
      · rw [h]
      · exact le_of_lt (hmono 0 _ h (by omega))
    rw [findRotation_constant_rate w _ hct]
    dsimp only
    constructor
    · intro h
      rw [max_eq_left (le_trans (min_le_left _ _) h)]
      ring
    · intro h
      rw [min_eq_right h, max_eq_right h0n]

/-- The loop of `imuDeskewInfo` appends to the table the stamps of the leading
samples that are not later than `timeScanEnd + 0.01`, in order. -/
theorem imuDeskewLoop_times (env : ProjEnv) (q : List ImuMsg) (s : ImageProjection)
    (hcur : 0 ≤ s.imuPointerCur) :
    (imuDeskewLoop env q s).imuPointerCur
        = s.imuPointerCur
          + ((q.takeWhile (fun m => decide (m.stamp ≤ s.timeScanEnd + 1 / 100))).length : Int)
      ∧ (∀ k : Nat, (k : Int) < s.imuPointerCur → (imuDeskewLoop env q s).imuTime k = s.imuTime k)
      ∧ ∀ (k : Nat) (m : ImuMsg),
          (q.takeWhile (fun m => decide (m.stamp ≤ s.timeScanEnd + 1 / 100)))[k]? = some m →
          (imuDeskewLoop env q s).imuTime (s.imuPointerCur.toNat + k) = m.stamp := by
  induction q generalizing s with
  | nil =>
    refine ⟨by simp [imuDeskewLoop], fun _ _ => rfl, fun k m h => ?_⟩
    simp at h
  | cons m0 rest ih =>
    have step : ∀ s1 : ImageProjection, s1.imuPointerCur = s.imuPointerCur + 1 →
        s1.timeScanEnd = s.timeScanEnd →
        s1.imuTime = Function.update s.imuTime s.imuPointerCur.toNat m0.stamp →
        m0.stamp ≤ s.timeScanEnd + 1 / 100 →
        (imuDeskewLoop env rest s1).imuPointerCur
            = s.imuPointerCur
              + (((m0 :: rest).takeWhile
                  (fun m => decide (m.stamp ≤ s.timeScanEnd + 1 / 100))).length : Int)
          ∧ (∀ k : Nat, (k : Int) < s.imuPointerCur →
              (imuDeskewLoop env rest s1).imuTime k = s.imuTime k)
          ∧ ∀ (k : Nat) (m : ImuMsg),
              ((m0 :: rest).takeWhile
                (fun m => decide (m.stamp ≤ s.timeScanEnd + 1 / 100)))[k]? = some m →
              (imuDeskewLoop env rest s1).imuTime (s.imuPointerCur.toNat + k) = m.stamp := by
      intro s1 e1 e2 e3 hle
      obtain ⟨g1, g2, g3⟩ := ih s1 (by omega)
      rw [e2] at g1 g3
      have htw : (m0 :: rest).takeWhile (fun m => decide (m.stamp ≤ s.timeScanEnd + 1 / 100))
          = m0 :: rest.takeWhile (fun m => decide (m.stamp ≤ s.timeScanEnd + 1 / 100)) := by
        rw [List.takeWhile_cons, if_pos (by simpa using hle)]
      rw [htw]
      refine ⟨?_, ?_, ?_⟩
      · rw [g1, e1, List.length_cons]
        push_cast
        ring
      · intro k hk
        rw [g2 k (by omega), e3]
        exact Function.update_noteq (by omega) _ _
      · intro k m hkm
        cases k with
        | zero =>
          simp only [List.getElem?_cons_zero, Option.some.injEq] at hkm
          subst hkm
          rw [Nat.add_zero, g2 _ (by omega), e3, Function.update_same]
        | succ k =>
          simp only [List.getElem?_cons_succ] at hkm
          have := g3 k m hkm
          rw [e1] at this
          have hidx : (s.imuPointerCur + 1).toNat + k = s.imuPointerCur.toNat + (k + 1) := by omega
          rw [hidx] at this
          exact this
    have stop : ¬ m0.stamp ≤ s.timeScanEnd + 1 / 100 →
        s.imuPointerCur
            = s.imuPointerCur
              + (((m0 :: rest).takeWhile
                  (fun m => decide (m.stamp ≤ s.timeScanEnd + 1 / 100))).length : Int)
          ∧ ∀ (k : Nat) (m : ImuMsg),
              ((m0 :: rest).takeWhile
                (fun m => decide (m.stamp ≤ s.timeScanEnd + 1 / 100)))[k]? = some m → False := by
      intro hgt
      have htw : (m0 :: rest).takeWhile (fun m => decide (m.stamp ≤ s.timeScanEnd + 1 / 100))
          = [] := by
        rw [List.takeWhile_cons, if_neg (by simpa using hgt)]
      rw [htw]
      exact ⟨by simp, fun k m h => by simp at h⟩
    unfold imuDeskewLoop imuAngular2rosAngular
    dsimp only
    split_ifs with h1 h2 h3 h4 h5 <;> try dsimp only at *
    · obtain ⟨a, b⟩ := stop (not_le.mpr h2)
      exact ⟨a, fun _ _ => rfl, fun k m h => (b k m h).elim⟩
    · exact step _ (by dsimp only) rfl (by dsimp only; rw [h3]; rfl) (not_lt.mp h2)
    · exact step _ rfl rfl rfl (not_lt.mp h2)
    · obtain ⟨a, b⟩ := stop (not_le.mpr h4)
      exact ⟨a, fun _ _ => rfl, fun k m h => (b k m h).elim⟩
    · exact step _ (by dsimp only) rfl (by dsimp only; rw [h5]; rfl) (not_lt.mp h4)
    · exact step _ rfl rfl rfl (not_lt.mp h4)

/-- The table built by `imuDeskewInfo`: its entries are the stamps of the samples
of the trimmed queue up to the first one later than `timeScanEnd + 0.01`;
`imuPointerCur` is their number less one, and the table is usable when there are
at least two. -/
theorem imuDeskewInfo_table (env : ProjEnv) (s : ImageProjection) (taken : List ImuMsg)
    (htaken : taken = (s.imuQueue.dropWhile
        (fun m => decide (m.stamp < s.timeScanCur - 1 / 100))).takeWhile
          (fun m => decide (m.stamp ≤ s.timeScanEnd + 1 / 100)))
    (hlen : 2 ≤ taken.length) :
    (imuDeskewInfo env s).cloudInfo.imuAvailable = true
      ∧ (imuDeskewInfo env s).imuPointerCur = (taken.length : Int) - 1
      ∧ ∀ (k : Nat) (m : ImuMsg), taken[k]? = some m → (imuDeskewInfo env s).imuTime k = m.stamp := by
  have g := imuDeskewLoop_times env
    (s.imuQueue.dropWhile (fun m => decide (m.stamp < s.timeScanCur - 1 / 100)))
    { s with
      cloudInfo := { s.cloudInfo with imuAvailable := false }
      imuQueue := s.imuQueue.dropWhile (fun m => decide (m.stamp < s.timeScanCur - 1 / 100))
      imuPointerCur := 0 }
    (le_refl _)
  dsimp only at g
  rw [← htaken] at g
  obtain ⟨g1, _, g3⟩ := g
  have hne : ¬ (s.imuQueue.dropWhile
      (fun m => decide (m.stamp < s.timeScanCur - 1 / 100))).isEmpty = true := by
    intro he
    rw [List.isEmpty_iff] at he
    rw [he] at htaken
    rw [htaken] at hlen
    simp at hlen
  unfold imuDeskewInfo
  dsimp only
  rw [if_neg hne]
  split_ifs with h2
  · exfalso
    try dsimp only at h2
    omega
  · refine ⟨rfl, ?_, ?_⟩
    · try dsimp only
      omega
    · intro k m hkm
      try dsimp only
      have := g3 k m hkm
      simpa using this

theorem imuDeskewLoop_timeScanCur (env : ProjEnv) (q : List ImuMsg) (s : ImageProjection) :
    (imuDeskewLoop env q s).timeScanCur = s.timeScanCur := by
  induction q generalizing s with
  | nil => rfl
  | cons m rest ih =>
    unfold imuDeskewLoop imuAngular2rosAngular
    dsimp only
    split_ifs <;> first | rfl | (rw [ih])

/-- The scan start time is not changed by `deskewInfo`. -/
theorem deskewInfo_timeScanCur (env : ProjEnv) (s : ImageProjection) :
    (deskewInfo env s).2.timeScanCur = s.timeScanCur := by
  have h1 : (imuDeskewInfo env s).timeScanCur = s.timeScanCur := by
    unfold imuDeskewInfo
    dsimp only
    split_ifs
    · rfl
    · exact imuDeskewLoop_timeScanCur env _ _
    · exact imuDeskewLoop_timeScanCur env _ _
  have h2 : ∀ st : ImageProjection, (odomDeskewInfo env st).timeScanCur = st.timeScanCur := by
    intro st
    unfold odomDeskewInfo
    dsimp only
    split
    · split_ifs <;> rfl
    · rfl
  unfold deskewInfo
  split
  · split_ifs
    · rfl
    · exact (h2 _).trans h1
  · rfl

/-- The scan of the sample state is accepted by `deskewInfo`. -/
theorem sample_deskewInfo_accepts : (deskewInfo sampleEnv sampleDeskewState).1 = true := by
  simp [deskewInfo, sampleDeskewState, sampleImuQueue, initial]
  norm_num

/-- The samples of the sample queue that enter the rotation table. -/
theorem sample_taken :
    [(⟨7 / 100, Vec3.zero, ⟨0, 0, 3 / 10⟩, ⟨0, 0, 0, 1⟩⟩ : ImuMsg),
      ⟨19 / 100, Vec3.zero, ⟨0, 0, 3 / 10⟩, ⟨0, 0, 0, 1⟩⟩,
      ⟨31 / 100, Vec3.zero, ⟨0, 0, 3 / 10⟩, ⟨0, 0, 0, 1⟩⟩,
      ⟨43 / 100, Vec3.zero, ⟨0, 0, 3 / 10⟩, ⟨0, 0, 0, 1⟩⟩,
      ⟨55 / 100, Vec3.zero, ⟨0, 0, 3 / 10⟩, ⟨0, 0, 0, 1⟩⟩,
      ⟨67 / 100, Vec3.zero, ⟨0, 0, 3 / 10⟩, ⟨0, 0, 0, 1⟩⟩,
      ⟨79 / 100, Vec3.zero, ⟨0, 0, 3 / 10⟩, ⟨0, 0, 0, 1⟩⟩,
      ⟨91 / 100, Vec3.zero, ⟨0, 0, 3 / 10⟩, ⟨0, 0, 0, 1⟩⟩]
      = (sampleDeskewState.imuQueue.dropWhile
          (fun m => decide (m.stamp < sampleDeskewState.timeScanCur - 1 / 100))).takeWhile
            (fun m => decide (m.stamp ≤ sampleDeskewState.timeScanEnd + 1 / 100)) := by
  simp [sampleDeskewState, sampleImuQueue, initial, List.dropWhile, List.takeWhile]
  norm_num

/-- The rotation table of the sample state: usable, eight entries, the first at
0.07 s and the last at 0.91 s. -/
theorem sample_table :
    (deskewInfo sampleEnv sampleDeskewState).2.cloudInfo.imuAvailable = true
      ∧ (deskewInfo sampleEnv sampleDeskewState).2.imuPointerCur = 7
      ∧ (deskewInfo sampleEnv sampleDeskewState).2.imuTime 0 = 7 / 100
      ∧ (deskewInfo sampleEnv sampleDeskewState).2.imuTime 7 = 91 / 100
      ∧ (deskewInfo sampleEnv sampleDeskewState).2.timeScanCur = 0 := by
  have hst := deskewInfo_accepted sampleEnv sampleDeskewState sample_deskewInfo_accepts
  obtain ⟨⟨e1, _, _, _, e5, e6, _⟩, _, _⟩ :=
    odomDeskewInfo_sameInputs sampleEnv (imuDeskewInfo sampleEnv sampleDeskewState)
  obtain ⟨t1, t2, t3⟩ := imuDeskewInfo_table sampleEnv sampleDeskewState _ sample_taken
    (by simp)
  refine ⟨?_, ?_, ?_, ?_, ?_⟩
  · rw [hst, e6]; exact t1
  · rw [hst, e5, t2]; simp
  · rw [hst, e1]; exact t3 0 _ rfl
  · rw [hst, e1]; exact t3 7 _ rfl
  · exact deskewInfo_timeScanCur sampleEnv sampleDeskewState

theorem sample_velocity :
    ∀ m ∈ sampleDeskewState.imuQueue, m.angular_velocity = ⟨0, 0, 3 / 10⟩ := by
  simp [sampleDeskewState, sampleImuQueue, initial]

theorem sample_sorted : sampleDeskewState.imuQueue.Pairwise (fun a b => a.stamp < b.stamp) := by
  simp [sampleDeskewState, sampleImuQueue, initial]
  norm_num

/-- C5 (counterexample): a 1-second scan with 10 samples of angular velocity
`(0, 0, 3/10)` and no odometry is accepted by `deskewInfo`, and the Z rotation
found for the time offsets 0 and 0.05 is the same: the first table entry is at
0.07 s and earlier query times get its rotation. -/
theorem deskew_rotation_not_strictly_increasing :
    sampleDeskewState.imuQueue.length = 10
      ∧ (∀ m ∈ sampleDeskewState.imuQueue, m.angular_velocity = ⟨0, 0, 3 / 10⟩)
      ∧ sampleDeskewState.timeScanEnd = sampleDeskewState.timeScanCur + 1
      ∧ sampleDeskewState.odomQueue = []
      ∧ (deskewInfo sampleEnv sampleDeskewState).1 = true
      ∧ (deskewInfo sampleEnv sampleDeskewState).2.cloudInfo.imuAvailable = true
      ∧ (0 : ℚ) < 1 / 20 ∧ (1 / 20 : ℚ) ≤ 1
      ∧ ¬ (findRotation (deskewInfo sampleEnv sampleDeskewState).2
              ((deskewInfo sampleEnv sampleDeskewState).2.timeScanCur + 0)).2.2
            < (findRotation (deskewInfo sampleEnv sampleDeskewState).2
              ((deskewInfo sampleEnv sampleDeskewState).2.timeScanCur + 1 / 20)).2.2 := by
  obtain ⟨t1, t2, t3, t4, t5⟩ := sample_table
  have hct := deskewInfo_constant_rate sampleEnv (3 / 10) sampleDeskewState sample_velocity
    sample_sorted sample_deskewInfo_accepts t1
  refine ⟨rfl, sample_velocity, by norm_num [sampleDeskewState, initial], rfl,
    sample_deskewInfo_accepts, t1, by norm_num, by norm_num, ?_⟩
  rw [findRotation_constant_rate _ _ hct, findRotation_constant_rate _ _ hct, t2, t3, t5]
  have h7 : (deskewInfo sampleEnv sampleDeskewState).2.imuTime (7 : Int).toNat = 91 / 100 := t4
  rw [h7]
  norm_num

/-- C5 (witness): the sample scan; the offsets 0.1 and 0.5 fall between the first
and the last entry of its table. -/
theorem deskew_rotation_monotone_in_offset_witness :
    (0 : ℚ) < 3 / 10 ∧ sampleDeskewState.imuQueue.length = 10
      ∧ (deskewInfo sampleEnv sampleDeskewState).1 = true
      ∧ (deskewInfo sampleEnv sampleDeskewState).2.cloudInfo.imuAvailable = true
      ∧ (findRotation (deskewInfo sampleEnv sampleDeskewState).2
            ((deskewInfo sampleEnv sampleDeskewState).2.timeScanCur + 1 / 10)).2.2
          < (findRotation (deskewInfo sampleEnv sampleDeskewState).2
            ((deskewInfo sampleEnv sampleDeskewState).2.timeScanCur + 1 / 2)).2.2 :=
  ⟨by norm_num, rfl, sample_deskewInfo_accepts, sample_table.1,
    ((deskew_rotation_monotone_in_offset sampleEnv sampleDeskewState (3 / 10) (by norm_num) rfl
        sample_velocity sample_sorted (by norm_num [sampleDeskewState, initial])
        sample_deskewInfo_accepts sample_table.1).2.1 (1 / 10) (1 / 2) (by norm_num) (by norm_num)
        (by norm_num)).2
      (by rw [sample_table.2.2.1, sample_table.2.2.2.2]; norm_num)
      (by
        rw [sample_table.2.1, sample_table.2.2.2.2]
        have h7 : (deskewInfo sampleEnv sampleDeskewState).2.imuTime (7 : Int).toNat = 91 / 100 :=
          sample_table.2.2.2.1
        rw [h7]
        norm_num)⟩

/-! ### Instances on the sample configuration -/

theorem sampleEnv_pointDistance (p : PointType) :
    sampleEnv.pointDistance p ≠ sampleEnv.FLT_MAX := by
  have h : sampleEnv.pointDistance p ≤ 18446744073709551616 := min_le_right _ _
  have h2 : (18446744073709551616 : ℚ) < sampleEnv.FLT_MAX := by
    norm_num [sampleEnv]
  exact ne_of_lt (lt_of_le_of_lt h h2)

/-- C1 (witness): the sample scan on the sample configuration. -/
theorem projectPointCloud_first_writer_wins_witness :
    (∀ p, sampleEnv.pointDistance p ≠ sampleEnv.FLT_MAX)
      ∧ (∀ row col, sampleScanState.rangeMat row col = sampleEnv.FLT_MAX)
      ∧ (cellWrites sampleEnv sampleScanState sampleScanState.laserCloudIn).Nodup :=
  ⟨sampleEnv_pointDistance, fun _ _ => rfl,
    (projectPointCloud_first_writer_wins sampleEnv sampleScanState sampleEnv_pointDistance
      (fun _ _ => rfl)).1⟩

/-- C2 (witness): the sample scan on the sample configuration; its second point
has ring 5, outside the two rings of the image. -/
theorem extracted_points_have_valid_ring_witness :
    (∀ row col, sampleScanState.rangeMat row col = sampleEnv.FLT_MAX)
      ∧ sampleScanState.extractedCloud = []
      ∧ projectPoint sampleEnv
            (projectLoop sampleEnv sampleScanState [⟨3, 0, 0, 10, 0, 0⟩])
            ⟨0, 4, 0, 20, 5, 1 / 100⟩
          = (projectLoop sampleEnv sampleScanState [⟨3, 0, 0, 10, 0, 0⟩], none) :=
  ⟨fun _ _ => rfl, rfl,
    (extracted_points_have_valid_ring sampleEnv sampleScanState (fun _ _ => rfl) rfl).2
      [⟨3, 0, 0, 10, 0, 0⟩] ⟨0, 4, 0, 20, 5, 1 / 100⟩ [⟨0, 0, 5, 30, 0, 2 / 100⟩] rfl
      (Or.inr (Or.inl (by decide)))⟩

/-- C3 (witness): on the table with times 0, 1, 2 the query 3/2 is interpolated
between entries 1 and 2. -/
theorem findRotation_linear_interpolation_witness :
    sampleTableState.imuPointerCur = ((2 : Nat) : Int) ∧ 1 ≤ 2
      ∧ (∀ i j, i < j → j ≤ 2 → sampleTableState.imuTime i < sampleTableState.imuTime j)
      ∧ findRotation sampleTableState (3 / 2) =
          (sampleTableState.imuRotX (2 - 1)
              + (sampleTableState.imuRotX 2 - sampleTableState.imuRotX (2 - 1))
                * (3 / 2 - sampleTableState.imuTime (2 - 1))
                / (sampleTableState.imuTime 2 - sampleTableState.imuTime (2 - 1)),
           sampleTableState.imuRotY (2 - 1)
              + (sampleTableState.imuRotY 2 - sampleTableState.imuRotY (2 - 1))
                * (3 / 2 - sampleTableState.imuTime (2 - 1))
                / (sampleTableState.imuTime 2 - sampleTableState.imuTime (2 - 1)),
           sampleTableState.imuRotZ (2 - 1)
              + (sampleTableState.imuRotZ 2 - sampleTableState.imuRotZ (2 - 1))
                * (3 / 2 - sampleTableState.imuTime (2 - 1))
                / (sampleTableState.imuTime 2 - sampleTableState.imuTime (2 - 1))) :=
  ⟨rfl, by decide, fun i j hij _ => Nat.cast_lt.mpr hij,
    (findRotation_linear_interpolation sampleTableState 2 rfl (by decide)
      (fun i j hij _ => Nat.cast_lt.mpr hij) (3 / 2)).1 2 (by decide) (by decide)
      (by norm_num [sampleTableState]) (by norm_num [sampleTableState])⟩

theorem imuDeskewLoop_odomQueue (env : ProjEnv) (q : List ImuMsg) (s : ImageProjection) :
    (imuDeskewLoop env q s).odomQueue = s.odomQueue := by
  induction q generalizing s with
  | nil => rfl
  | cons m rest ih =>
    unfold imuDeskewLoop imuAngular2rosAngular
    dsimp only
    split_ifs <;> first | rfl | (rw [ih])

/-- Without queued odometry `deskewInfo` leaves `odomAvailable` false. -/
theorem odomDeskewInfo_no_odometry (env : ProjEnv) (s : ImageProjection)
    (h : s.odomQueue = []) :
    (odomDeskewInfo env (imuDeskewInfo env s)).cloudInfo.odomAvailable = false := by
  have h1 : (imuDeskewInfo env s).odomQueue = [] := by
    unfold imuDeskewInfo
    dsimp only
    split_ifs
    · exact h
    · exact (imuDeskewLoop_odomQueue env _ _).trans h
    · exact (imuDeskewLoop_odomQueue env _ _).trans h
  unfold odomDeskewInfo
  dsimp only
  rw [h1]
  rfl

/-! ### The scan queue -/

theorem leishenConvert_queue (env : ProjEnv) (s : ImageProjection) :
    (leishenConvert env s).cloudQueue = s.cloudQueue
      ∧ (leishenConvert env s).currentCloudMsg = s.currentCloudMsg := by
  unfold leishenConvert
  dsimp only
  split_ifs <;> exact ⟨rfl, rfl⟩

theorem convertCloud_queue (env : ProjEnv) (s : ImageProjection) :
    (getTimestamp (convertCloud env s)).cloudQueue = s.cloudQueue
      ∧ (getTimestamp (convertCloud env s)).currentCloudMsg = s.currentCloudMsg := by
  unfold getTimestamp convertCloud
  dsimp only
  split_ifs <;> first | exact ⟨rfl, rfl⟩ | exact leishenConvert_queue env s

theorem cacheChecks_queue (s : ImageProjection) :
    (checkPointTime (checkRingChannel (checkDenseFlag s))).cloudQueue = s.cloudQueue
      ∧ (checkPointTime (checkRingChannel (checkDenseFlag s))).currentCloudMsg
          = s.currentCloudMsg := by
  have h1 : ∀ t : ImageProjection, (checkPointTime t).cloudQueue = t.cloudQueue
      ∧ (checkPointTime t).currentCloudMsg = t.currentCloudMsg := by
    intro t; unfold checkPointTime; split_ifs <;> exact ⟨rfl, rfl⟩
  have h2 : ∀ t : ImageProjection, (checkRingChannel t).cloudQueue = t.cloudQueue
      ∧ (checkRingChannel t).currentCloudMsg = t.currentCloudMsg := by
    intro t; unfold checkRingChannel; split_ifs <;> exact ⟨rfl, rfl⟩
  have h3 : ∀ t : ImageProjection, (checkDenseFlag t).cloudQueue = t.cloudQueue
      ∧ (checkDenseFlag t).currentCloudMsg = t.currentCloudMsg := by
    intro t; unfold checkDenseFlag; split_ifs <;> exact ⟨rfl, rfl⟩
  exact ⟨((h1 _).1.trans (h2 _).1).trans (h3 _).1, ((h1 _).2.trans (h2 _).2).trans (h3 _).2⟩

/-- One call of `cachePointCloud`: with at most one scan queued before the call
the new scan is only queued; otherwise the oldest queued scan is taken out as
`currentCloudMsg` and the call returns true. -/
theorem cachePointCloud_call (env : ProjEnv) (s : ImageProjection) (m : CloudMsg) :
    (s.cloudQueue.length ≤ 1 →
        (cachePointCloud env s m).1 = false
          ∧ (cachePointCloud env s m).2 = { s with cloudQueue := s.cloudQueue ++ [m] })
      ∧ (2 ≤ s.cloudQueue.length →
          (cachePointCloud env s m).1 = true
            ∧ (cachePointCloud env s m).2.currentCloudMsg = (s.cloudQueue ++ [m]).headD s.currentCloudMsg
            ∧ (cachePointCloud env s m).2.cloudQueue = (s.cloudQueue ++ [m]).tail) := by
  constructor
  · intro h
    have hl : (s.cloudQueue ++ [m]).length ≤ 2 := by
      rw [List.length_append, List.length_singleton]; omega
    unfold cachePointCloud
    dsimp only
    rw [if_pos hl]
    exact ⟨rfl, rfl⟩
  · intro h
    have hl : ¬ (s.cloudQueue ++ [m]).length ≤ 2 := by
      rw [List.length_append, List.length_singleton]; omega
    unfold cachePointCloud
    dsimp only
    rw [if_neg hl]
    obtain ⟨q1, q2⟩ := cacheChecks_queue
      (getTimestamp (convertCloud env
        { s with
          cloudQueue := (s.cloudQueue ++ [m]).tail
          currentCloudMsg := (s.cloudQueue ++ [m]).headD s.currentCloudMsg }))
    obtain ⟨v1, v2⟩ := convertCloud_queue env
      { s with
        cloudQueue := (s.cloudQueue ++ [m]).tail
        currentCloudMsg := (s.cloudQueue ++ [m]).headD s.currentCloudMsg }
    exact ⟨rfl, q2.trans v2, q1.trans v1⟩

theorem cacheRun_spec (env : ProjEnv) (msgs : List CloudMsg) (s : ImageProjection)
    (hq : s.cloudQueue.length ≤ 2) :
    (cacheRun env s msgs).2 = (s.cloudQueue ++ msgs).take ((s.cloudQueue ++ msgs).length - 2)
      ∧ (cacheRun env s msgs).1.cloudQueue
          = (s.cloudQueue ++ msgs).drop ((s.cloudQueue ++ msgs).length - 2) := by
  induction msgs generalizing s with
  | nil =>
    have h0 : s.cloudQueue.length - 2 = 0 := by omega
    simp [cacheRun, h0]
  | cons m rest ih =>
    obtain ⟨c1, c2⟩ := cachePointCloud_call env s m
    unfold cacheRun
    dsimp only
    by_cases h : s.cloudQueue.length ≤ 1
    · obtain ⟨f, e⟩ := c1 h
      have hq1 : (cachePointCloud env s m).2.cloudQueue = s.cloudQueue ++ [m] := by rw [e]
      have hlen : (cachePointCloud env s m).2.cloudQueue.length ≤ 2 := by
        rw [hq1, List.length_append, List.length_singleton]; omega
      obtain ⟨i1, i2⟩ := ih _ hlen
      rw [f, i1, i2, hq1]
      simp
    · obtain ⟨f, e1, e2⟩ := c2 (by omega)
      have hlen : (cachePointCloud env s m).2.cloudQueue.length ≤ 2 := by
        rw [e2, List.length_tail, List.length_append, List.length_singleton]; omega
      obtain ⟨i1, i2⟩ := ih _ hlen
      rw [f, i1, i2, e1, e2]
      obtain ⟨a, b, hab⟩ : ∃ a b, s.cloudQueue = [a, b] := by
        match hs : s.cloudQueue with
        | [] => rw [hs] at h; simp at h
        | [_] => rw [hs] at h; simp at h
        | [a, b] => exact ⟨a, b, rfl⟩
        | _ :: _ :: _ :: _ => rw [hs] at hq; simp at hq
      rw [hab]
      simp

/-- C10 (amended): starting from an empty scan queue, the first two calls of
`cachePointCloud` only queue their scan and return false; every later call takes
out and hands on the oldest queued scan, so that the scans handed on are the
arrivals in their order, one per call, without the last two, which stay queued. -/
theorem cachePointCloud_hands_on_third_oldest (env : ProjEnv) (s : ImageProjection)
    (msgs : List CloudMsg) (hempty : s.cloudQueue = []) :
    (cacheRun env s msgs).2 = msgs.take (msgs.length - 2)
      ∧ (cacheRun env s msgs).1.cloudQueue = msgs.drop (msgs.length - 2)
      ∧ ∀ pre m post, msgs = pre ++ m :: post →
          ((cachePointCloud env (cacheRun env s pre).1 m).1 = true ↔ 2 ≤ pre.length)
            ∧ (pre.length < 2 →
                (cachePointCloud env (cacheRun env s pre).1 m).2.cloudQueue = pre ++ [m])
            ∧ (2 ≤ pre.length →
                some (cachePointCloud env (cacheRun env s pre).1 m).2.currentCloudMsg
                  = msgs[pre.length - 2]?) := by
  have hq : s.cloudQueue.length ≤ 2 := by rw [hempty]; simp
  obtain ⟨r1, r2⟩ := cacheRun_spec env msgs s hq
  rw [hempty, List.nil_append] at r1 r2
  refine ⟨r1, r2, ?_⟩
  intro pre m post hsplit
  obtain ⟨_, p2⟩ := cacheRun_spec env pre s hq
  rw [hempty, List.nil_append] at p2
  obtain ⟨c1, c2⟩ := cachePointCloud_call env (cacheRun env s pre).1 m
  have hlen : (cacheRun env s pre).1.cloudQueue.length = min 2 pre.length := by
    rw [p2, List.length_drop]; omega
  refine ⟨?_, ?_, ?_⟩
  · constructor
    · intro ht
      by_contra hlt
      have := (c1 (by rw [hlen]; omega)).1
      rw [ht] at this
      exact absurd this (by simp)
    · intro h2
      exact (c2 (by rw [hlen]; omega)).1
  · intro hlt
    have := (c1 (by rw [hlen]; omega)).2
    rw [this]
    dsimp only
    rw [p2]
    have : pre.length - 2 = 0 := by omega
    rw [this, List.drop_zero]
  · intro h2
    have := (c2 (by rw [hlen]; omega)).2.1
    have hlt : pre.length - 2 < pre.length := by omega
    rw [this, p2, hsplit, List.drop_eq_getElem_cons hlt, List.getElem?_append_left hlt,
      List.getElem?_eq_getElem hlt]
    rfl

/-- C10 (counterexample): starting from the empty queue of the constructed state,
the call for the second scan returns false and both scans stay queued: the
oldest scan is not processed once a second scan has arrived. -/
theorem cachePointCloud_second_scan_only_queued :
    (initial sampleEnv).cloudQueue = []
      ∧ (cachePointCloud sampleEnv
          (cachePointCloud sampleEnv (initial sampleEnv) (sampleScan 0)).2 (sampleScan (1 / 10))).1
          = false
      ∧ (cachePointCloud sampleEnv
          (cachePointCloud sampleEnv (initial sampleEnv) (sampleScan 0)).2 (sampleScan (1 / 10))).2.cloudQueue
          = [sampleScan 0, sampleScan (1 / 10)] := by
  have h1 := (cachePointCloud_call sampleEnv (initial sampleEnv) (sampleScan 0)).1
    (by simp [initial])
  have hq : (cachePointCloud sampleEnv (initial sampleEnv) (sampleScan 0)).2.cloudQueue
      = [sampleScan 0] := by
    rw [h1.2]; rfl
  have h2 := (cachePointCloud_call sampleEnv
    (cachePointCloud sampleEnv (initial sampleEnv) (sampleScan 0)).2 (sampleScan (1 / 10))).1
    (by rw [hq]; simp)
  refine ⟨rfl, h2.1, ?_⟩
  rw [h2.2]
  dsimp only
  rw [hq]
  rfl

/-- C10 (witness): three scans arrive at the constructed state; only the first is
handed on, by the third call. -/
theorem cachePointCloud_hands_on_third_oldest_witness :
    (initial sampleEnv).cloudQueue = []
      ∧ (cacheRun sampleEnv (initial sampleEnv)
          [sampleScan 0, sampleScan (1 / 10), sampleScan (2 / 10)]).2 = [sampleScan 0] :=
  ⟨rfl,
    (cachePointCloud_hands_on_third_oldest sampleEnv (initial sampleEnv)
      [sampleScan 0, sampleScan (1 / 10), sampleScan (2 / 10)] rfl).1⟩

/-! ### Scans without IMU coverage, scan times and fatal configuration errors -/

theorem leishenConvert_streams (env : ProjEnv) (s : ImageProjection) :
    (leishenConvert env s).imuQueue = s.imuQueue
      ∧ (leishenConvert env s).odomQueue = s.odomQueue
      ∧ (leishenConvert env s).published = s.published
      ∧ (leishenConvert env s).shutdownRequested = s.shutdownRequested
      ∧ (leishenConvert env s).ringFlag = s.ringFlag := by
  unfold leishenConvert
  dsimp only
  split_ifs <;> exact ⟨rfl, rfl, rfl, rfl, rfl⟩

theorem convertCloud_streams (env : ProjEnv) (s : ImageProjection) :
    (convertCloud env s).imuQueue = s.imuQueue
      ∧ (convertCloud env s).odomQueue = s.odomQueue
      ∧ (convertCloud env s).published = s.published
      ∧ (convertCloud env s).currentCloudMsg = s.currentCloudMsg
      ∧ (convertCloud env s).ringFlag = s.ringFlag := by
  unfold convertCloud
  split_ifs
  · exact ⟨rfl, rfl, rfl, rfl, rfl⟩
  · obtain ⟨h1, h2, h3, _, h5⟩ := leishenConvert_streams env s
    exact ⟨h1, h2, h3, (leishenConvert_queue env s).2, h5⟩
  · exact ⟨rfl, rfl, rfl, rfl, rfl⟩
  · exact ⟨rfl, rfl, rfl, rfl, rfl⟩

/-- The three checks of `cachePointCloud` leave the queues, the publications, the
converted cloud and the scan times alone, and never clear a shutdown request. -/
theorem cacheChecks_frame (s : ImageProjection) :
    (checkPointTime (checkRingChannel (checkDenseFlag s))).imuQueue = s.imuQueue
      ∧ (checkPointTime (checkRingChannel (checkDenseFlag s))).odomQueue = s.odomQueue
      ∧ (checkPointTime (checkRingChannel (checkDenseFlag s))).published = s.published
      ∧ (checkPointTime (checkRingChannel (checkDenseFlag s))).laserCloudIn = s.laserCloudIn
      ∧ (checkPointTime (checkRingChannel (checkDenseFlag s))).timeScanCur = s.timeScanCur
      ∧ (checkPointTime (checkRingChannel (checkDenseFlag s))).timeScanEnd = s.timeScanEnd
      ∧ (s.shutdownRequested = true →
          (checkPointTime (checkRingChannel (checkDenseFlag s))).shutdownRequested = true) := by
  unfold checkPointTime checkRingChannel checkDenseFlag
  split_ifs <;> exact ⟨rfl, rfl, rfl, rfl, rfl, rfl, fun h => by first | exact h | rfl⟩

/-- The state a call of `cachePointCloud` that takes a scan out of the queue
returns: the queue guard is its only `return false`. -/
theorem cachePointCloud_taken (env : ProjEnv) (s : ImageProjection) (m : CloudMsg)
    (h : 2 ≤ s.cloudQueue.length) :
    cachePointCloud env s m
      = (true, checkPointTime (checkRingChannel (checkDenseFlag (getTimestamp (convertCloud env
          { s with
            cloudQueue := (s.cloudQueue ++ [m]).tail
            currentCloudMsg := (s.cloudQueue ++ [m]).headD s.currentCloudMsg }))))) := by
  have hl : ¬ (s.cloudQueue ++ [m]).length ≤ 2 := by
    rw [List.length_append, List.length_singleton]; omega
  unfold cachePointCloud
  dsimp only
  rw [if_neg hl]

/-- What `cachePointCloud` leaves alone. -/
theorem cachePointCloud_frame (env : ProjEnv) (s : ImageProjection) (m : CloudMsg) :
    (cachePointCloud env s m).2.imuQueue = s.imuQueue
      ∧ (cachePointCloud env s m).2.odomQueue = s.odomQueue
      ∧ (cachePointCloud env s m).2.published = s.published := by
  by_cases h : 2 ≤ s.cloudQueue.length
  · rw [cachePointCloud_taken env s m h]
    obtain ⟨c1, c2, c3, _⟩ := cacheChecks_frame (getTimestamp (convertCloud env
      { s with
        cloudQueue := (s.cloudQueue ++ [m]).tail
        currentCloudMsg := (s.cloudQueue ++ [m]).headD s.currentCloudMsg }))
    obtain ⟨v1, v2, v3, _⟩ := convertCloud_streams env
      { s with
        cloudQueue := (s.cloudQueue ++ [m]).tail
        currentCloudMsg := (s.cloudQueue ++ [m]).headD s.currentCloudMsg }
    exact ⟨c1.trans v1, c2.trans v2, c3.trans v3⟩
  · rw [((cachePointCloud_call env s m).1 (by omega)).2]
    exact ⟨rfl, rfl, rfl⟩

/-- The scan times `cachePointCloud` sets: the start is the header stamp of the
scan taken out of the queue, the end is the start plus the time offset of the
last point of the converted cloud. -/
theorem cachePointCloud_times (env : ProjEnv) (s : ImageProjection) (m : CloudMsg)
    (h : 2 ≤ s.cloudQueue.length) :
    (cachePointCloud env s m).2.timeScanCur = (cachePointCloud env s m).2.currentCloudMsg.stamp
      ∧ (cachePointCloud env s m).2.timeScanEnd
          = (cachePointCloud env s m).2.timeScanCur + backTime (cachePointCloud env s m).2.laserCloudIn := by
  obtain ⟨_, hcur, _⟩ := (cachePointCloud_call env s m).2 h
  rw [hcur, cachePointCloud_taken env s m h]
  obtain ⟨_, _, _, c4, c5, c6, _⟩ := cacheChecks_frame (getTimestamp (convertCloud env
    { s with
      cloudQueue := (s.cloudQueue ++ [m]).tail
      currentCloudMsg := (s.cloudQueue ++ [m]).headD s.currentCloudMsg }))
  obtain ⟨_, _, _, v4, _⟩ := convertCloud_streams env
    { s with
      cloudQueue := (s.cloudQueue ++ [m]).tail
      currentCloudMsg := (s.cloudQueue ++ [m]).headD s.currentCloudMsg }
  dsimp only at c4 c5 c6 v4 ⊢
  rw [c4, c5, c6]
  unfold getTimestamp backTime
  dsimp only
  rw [v4]
  exact ⟨rfl, rfl⟩

/-- The guard of `deskewInfo`: a scan whose interval the IMU queue does not span
is refused and the state is left as it is. -/
theorem deskewInfo_uncovered (env : ProjEnv) (s : ImageProjection)
    (hcov : s.imuQueue = []
      ∨ (∃ front, s.imuQueue.head? = some front ∧ front.stamp > s.timeScanCur)
      ∨ (∃ back, s.imuQueue.getLast? = some back ∧ back.stamp < s.timeScanEnd)) :
    deskewInfo env s = (false, s) := by
  unfold deskewInfo
  rcases hcov with h | ⟨front, hf, hgt⟩ | ⟨back, hb, hlt⟩
  · rw [h]; rfl
  · rw [hf]
    cases hl : s.imuQueue.getLast? with
    | none => rfl
    | some back => dsimp only; rw [if_pos (Or.inl hgt)]
  · rw [hb]
    cases hh : s.imuQueue.head? with
    | none => rfl
    | some front => dsimp only; rw [if_pos (Or.inr hlt)]

/-- A call of `cloudHandler` on a state with two or more queued scans whose oldest
scan the IMU queue does not span. -/
theorem cloudHandler_uncovered (env : ProjEnv) (s : ImageProjection) (a b : CloudMsg)
    (rest : List CloudMsg) (m : CloudMsg) (hq : s.cloudQueue = a :: b :: rest)
    (hcov : s.imuQueue = []
      ∨ (∃ front, s.imuQueue.head? = some front
          ∧ front.stamp > (cachePointCloud env s m).2.timeScanCur)
      ∨ (∃ back, s.imuQueue.getLast? = some back
          ∧ back.stamp < (cachePointCloud env s m).2.timeScanEnd)) :
    (cachePointCloud env s m).1 = true
      ∧ (cachePointCloud env s m).2.currentCloudMsg = a
      ∧ (cachePointCloud env s m).2.timeScanCur = a.stamp
      ∧ (deskewInfo env (cachePointCloud env s m).2).1 = false
      ∧ cloudHandler env s m = (cachePointCloud env s m).2
      ∧ (cloudHandler env s m).published = s.published
      ∧ (cloudHandler env s m).cloudQueue = b :: rest ++ [m]
      ∧ ∀ m2 : CloudMsg,
          (cachePointCloud env (cloudHandler env s m) m2).1 = true
            ∧ (cachePointCloud env (cloudHandler env s m) m2).2.currentCloudMsg = b := by
  have hlen : 2 ≤ s.cloudQueue.length := by rw [hq]; simp
  obtain ⟨c1, c2, c3⟩ := (cachePointCloud_call env s m).2 hlen
  obtain ⟨f1, _, f3⟩ := cachePointCloud_frame env s m
  obtain ⟨t1, _⟩ := cachePointCloud_times env s m hlen
  have hcur : (cachePointCloud env s m).2.currentCloudMsg = a := by rw [c2, hq]; rfl
  have hqueue : (cachePointCloud env s m).2.cloudQueue = b :: rest ++ [m] := by rw [c3, hq]; rfl
  have hd : deskewInfo env (cachePointCloud env s m).2 = (false, (cachePointCloud env s m).2) := by
    apply deskewInfo_uncovered
    rw [f1]
    exact hcov
  have hh : cloudHandler env s m = (cachePointCloud env s m).2 := by
    unfold cloudHandler
    dsimp only
    rw [c1, hd]
    rfl
  refine ⟨c1, hcur, by rw [t1, hcur], by rw [hd], hh, by rw [hh, f3], by rw [hh, hqueue], ?_⟩
  intro m2
  have hlen2 : 2 ≤ (cloudHandler env s m).cloudQueue.length := by rw [hh, hqueue]; simp
  obtain ⟨d1, d2, _⟩ := (cachePointCloud_call env (cloudHandler env s m) m2).2 hlen2
  refine ⟨d1, ?_⟩
  rw [d2, hh, hqueue]
  rfl

/-- C11 (amended): when the IMU queue does not span the interval of the scan that
`cachePointCloud` has taken out of the scan queue (queue empty, first stamp after
the start, or last stamp before the end), `cloudHandler` publishes nothing and
returns; the scan has already been removed from the queue, and the next cycle
attempts the scan that was queued behind it. -/
theorem uncovered_scan_is_dropped (env : ProjEnv) (s : ImageProjection) (a b : CloudMsg)
    (rest : List CloudMsg) (m : CloudMsg) (hq : s.cloudQueue = a :: b :: rest)
    (hcov : s.imuQueue = []
      ∨ (∃ front, s.imuQueue.head? = some front
          ∧ front.stamp > (cachePointCloud env s m).2.timeScanCur)
      ∨ (∃ back, s.imuQueue.getLast? = some back
          ∧ back.stamp < (cachePointCloud env s m).2.timeScanEnd)) :
    (cachePointCloud env s m).1 = true
      ∧ (cachePointCloud env s m).2.currentCloudMsg = a
      ∧ (cachePointCloud env s m).2.timeScanCur = a.stamp
      ∧ (deskewInfo env (cachePointCloud env s m).2).1 = false
      ∧ (cloudHandler env s m).published = s.published
      ∧ (cloudHandler env s m).cloudQueue = b :: rest ++ [m]
      ∧ ∀ m2 : CloudMsg,
          (cachePointCloud env (cloudHandler env s m) m2).1 = true
            ∧ (cachePointCloud env (cloudHandler env s m) m2).2.currentCloudMsg = b := by
  obtain ⟨h1, h2, h3, h4, _, h6, h7, h8⟩ := cloudHandler_uncovered env s a b rest m hq hcov
  exact ⟨h1, h2, h3, h4, h6, h7, h8⟩

/-- C11 (counterexample): with the scans of stamps 1 and 2 queued and no IMU
sample, the arrival of the scan of stamp 3 makes `cloudHandler` attempt the scan
of stamp 1; it is refused for lack of IMU coverage, nothing is published, and the
scan is gone from the queue: the queue then holds the scans of stamps 2 and 3 and
the next cycle attempts the scan of stamp 2. -/
theorem uncovered_scan_is_not_retried :
    sampleQueuedState.imuQueue = []
      ∧ (cachePointCloud sampleEnv sampleQueuedState (sampleScan 3)).2.currentCloudMsg.stamp = 1
      ∧ (deskewInfo sampleEnv (cachePointCloud sampleEnv sampleQueuedState (sampleScan 3)).2).1
          = false
      ∧ (cloudHandler sampleEnv sampleQueuedState (sampleScan 3)).published = []
      ∧ (cloudHandler sampleEnv sampleQueuedState (sampleScan 3)).cloudQueue.map (fun c => c.stamp)
          = [2, 3]
      ∧ (cachePointCloud sampleEnv (cloudHandler sampleEnv sampleQueuedState (sampleScan 3))
          (sampleScan 4)).2.currentCloudMsg.stamp = 2 := by
  obtain ⟨_, h2, _, h4, _, h6, h7, h8⟩ := cloudHandler_uncovered sampleEnv sampleQueuedState
    (sampleScan 1) (sampleScan 2) [] (sampleScan 3) rfl (Or.inl rfl)
  refine ⟨rfl, by rw [h2]; rfl, h4, h6, by rw [h7]; rfl, ?_⟩
  rw [(h8 (sampleScan 4)).2]
  rfl

/-- C11 (witness): the sample state with two queued scans and no IMU sample. -/
theorem uncovered_scan_is_dropped_witness :
    sampleQueuedState.cloudQueue = [sampleScan 1, sampleScan 2]
      ∧ sampleQueuedState.imuQueue = []
      ∧ (cloudHandler sampleEnv sampleQueuedState (sampleScan 3)).cloudQueue
          = [sampleScan 2, sampleScan 3] :=
  ⟨rfl, rfl,
    (uncovered_scan_is_dropped sampleEnv sampleQueuedState (sampleScan 1) (sampleScan 2) []
      (sampleScan 3) rfl (Or.inl rfl)).2.2.2.2.2.1⟩

/-- In the VELODYNE and LIVOX modes the converted cloud holds the points of the
scan in the order of the message. -/
theorem cachePointCloud_cloud (env : ProjEnv) (s : ImageProjection) (m : CloudMsg)
    (h : 2 ≤ s.cloudQueue.length)
    (hs : env.sensor = SensorType.VELODYNE ∨ env.sensor = SensorType.LIVOX) :
    (cachePointCloud env s m).2.laserCloudIn = (cachePointCloud env s m).2.currentCloudMsg.points := by
  obtain ⟨_, hcur, _⟩ := (cachePointCloud_call env s m).2 h
  rw [hcur, cachePointCloud_taken env s m h]
  obtain ⟨_, _, _, c4, _⟩ := cacheChecks_frame (getTimestamp (convertCloud env
    { s with
      cloudQueue := (s.cloudQueue ++ [m]).tail
      currentCloudMsg := (s.cloudQueue ++ [m]).headD s.currentCloudMsg }))
  dsimp only at c4 ⊢
  rw [c4]
  unfold getTimestamp convertCloud
  dsimp only
  rw [if_pos hs]

/-- In a list ordered by a relation every element is the last one or related to it. -/
theorem pairwise_getLast {α : Type} (R : α → α → Prop) (l : List α) (last : α)
    (hl : l.getLast? = some last) (hp : l.Pairwise R) :
    ∀ p ∈ l, p = last ∨ R p last := by
  rcases List.eq_nil_or_concat l with h | ⟨L, b, h⟩
  · rw [h] at hl; simp at hl
  · subst h
    rw [List.concat_eq_append] at hl hp ⊢
    simp at hl
    subst hl
    intro p hp2
    rw [List.mem_append] at hp2
    rcases hp2 with h1 | h1
    · right
      exact (List.pairwise_append.1 hp).2.2 p h1 b (List.mem_singleton_self b)
    · left
      exact List.mem_singleton.1 h1

/-- C16 (amended): for a scan with at least one point, `cachePointCloud` sets the
scan start to the header time and the scan end to the start plus the time offset
of the last point of the cloud; that offset is the maximum over the points when
the points are in the order of their time offsets. In the VELODYNE and LIVOX
modes the cloud is the point list of the message. -/
theorem scan_end_is_start_plus_last_offset (env : ProjEnv) (s : ImageProjection) (m : CloudMsg)
    (h : 2 ≤ s.cloudQueue.length) (hne : (cachePointCloud env s m).2.laserCloudIn ≠ []) :
    (cachePointCloud env s m).2.timeScanCur = (cachePointCloud env s m).2.currentCloudMsg.stamp
      ∧ (∃ last, (cachePointCloud env s m).2.laserCloudIn.getLast? = some last
          ∧ (cachePointCloud env s m).2.timeScanEnd
              = (cachePointCloud env s m).2.timeScanCur + last.time
          ∧ ((cachePointCloud env s m).2.laserCloudIn.Pairwise (fun p q => p.time ≤ q.time) →
              ∀ p ∈ (cachePointCloud env s m).2.laserCloudIn, p.time ≤ last.time))
      ∧ (env.sensor = SensorType.VELODYNE ∨ env.sensor = SensorType.LIVOX →
          (cachePointCloud env s m).2.laserCloudIn
            = (cachePointCloud env s m).2.currentCloudMsg.points) := by
  obtain ⟨t1, t2⟩ := cachePointCloud_times env s m h
  refine ⟨t1, ?_, cachePointCloud_cloud env s m h⟩
  cases hl : (cachePointCloud env s m).2.laserCloudIn.getLast? with
  | none => exact absurd (List.getLast?_eq_none_iff.1 hl) hne
  | some last =>
    refine ⟨last, rfl, ?_, ?_⟩
    · rw [t2]
      unfold backTime
      rw [hl]
    · intro hp p hpm
      rcases pairwise_getLast _ _ last hl hp p hpm with e | e
      · rw [e]
      · exact e

/-- C16 (counterexample): a scan of stamp 1 whose points carry the time offsets
0, 5/100 and 2/100 in this order. The scan end is set to 1 + 2/100, the offset of
the last point, although the point of offset 5/100 is later. -/
theorem scan_end_is_not_start_plus_max_offset :
    (cachePointCloud sampleEnv sampleUnorderedState (sampleScan 3)).2.laserCloudIn.map
        (fun p => p.time) = [0, 5 / 100, 2 / 100]
      ∧ (cachePointCloud sampleEnv sampleUnorderedState (sampleScan 3)).2.timeScanCur = 1
      ∧ (cachePointCloud sampleEnv sampleUnorderedState (sampleScan 3)).2.timeScanEnd = 1 + 2 / 100
      ∧ (cachePointCloud sampleEnv sampleUnorderedState (sampleScan 3)).2.timeScanEnd
          ≠ 1 + 5 / 100 := by
  have hlen : 2 ≤ sampleUnorderedState.cloudQueue.length := by decide
  obtain ⟨t1, t2⟩ := cachePointCloud_times sampleEnv sampleUnorderedState (sampleScan 3) hlen
  have hc := cachePointCloud_cloud sampleEnv sampleUnorderedState (sampleScan 3) hlen (Or.inr rfl)
  obtain ⟨_, hcur, _⟩ := (cachePointCloud_call sampleEnv sampleUnorderedState (sampleScan 3)).2 hlen
  have hcur2 : (cachePointCloud sampleEnv sampleUnorderedState (sampleScan 3)).2.currentCloudMsg
      = sampleUnorderedScan 1 := by rw [hcur]; rfl
  rw [hcur2] at hc t1
  rw [t2, t1, hc]
  refine ⟨rfl, rfl, ?_, ?_⟩ <;> norm_num [backTime, sampleUnorderedScan]

/-- C16 (witness): the sample scan, whose points are in time order. -/
theorem scan_end_is_start_plus_last_offset_witness :
    2 ≤ sampleQueuedState.cloudQueue.length
      ∧ (cachePointCloud sampleEnv sampleQueuedState (sampleScan 3)).2.laserCloudIn ≠ []
      ∧ (cachePointCloud sampleEnv sampleQueuedState (sampleScan 3)).2.timeScanCur
          = (cachePointCloud sampleEnv sampleQueuedState (sampleScan 3)).2.currentCloudMsg.stamp :=
  have hne : (cachePointCloud sampleEnv sampleQueuedState (sampleScan 3)).2.laserCloudIn ≠ [] := by
    rw [cachePointCloud_cloud sampleEnv sampleQueuedState (sampleScan 3) (by decide) (Or.inr rfl),
      ((cachePointCloud_call sampleEnv sampleQueuedState (sampleScan 3)).2 (by decide)).2.1]
    simp [sampleQueuedState, sampleScan, samplePoints]
  ⟨by decide, hne,
    (scan_end_is_start_plus_last_offset sampleEnv sampleQueuedState (sampleScan 3) (by decide)
      hne).1⟩

theorem imuDeskewLoop_published (env : ProjEnv) (q : List ImuMsg) (s : ImageProjection) :
    (imuDeskewLoop env q s).published = s.published := by
  induction q generalizing s with
  | nil => rfl
  | cons m rest ih =>
    unfold imuDeskewLoop imuAngular2rosAngular
    dsimp only
    split_ifs <;> first | rfl | (rw [ih])

theorem deskewInfo_published (env : ProjEnv) (s : ImageProjection) :
    (deskewInfo env s).2.published = s.published := by
  have h1 : (imuDeskewInfo env s).published = s.published := by
    unfold imuDeskewInfo
    dsimp only
    split_ifs
    · rfl
    · exact imuDeskewLoop_published env _ _
    · exact imuDeskewLoop_published env _ _
  have h2 : ∀ t : ImageProjection, (odomDeskewInfo env t).published = t.published := by
    intro t
    unfold odomDeskewInfo
    dsimp only
    split
    · split_ifs <;> rfl
    · rfl
  unfold deskewInfo
  split
  · split_ifs
    · rfl
    · exact (h2 _).trans h1
  · rfl

theorem projectPoint_published (env : ProjEnv) (s : ImageProjection) (pt : PointXYZIRT) :
    (projectPoint env s pt).1.published = s.published := by
  have hl : (locateColumn env s ⟨pt.x, pt.y, pt.z, pt.intensity⟩ pt.ring).2.published
      = s.published := by
    unfold locateColumn
    split_ifs <;> rfl
  unfold projectPoint
  dsimp only
  generalize locateColumn env s ⟨pt.x, pt.y, pt.z, pt.intensity⟩ pt.ring = loc at hl ⊢
  have hd : (deskewPoint env loc.2 ⟨pt.x, pt.y, pt.z, pt.intensity⟩ pt.time).2.published
      = loc.2.published := by
    unfold deskewPoint
    split_ifs <;> rfl
  split_ifs
  · rfl
  · rfl
  · rfl
  · exact hl
  · exact hl
  · exact hd.trans hl

theorem projectLoop_published (env : ProjEnv) (pts : List PointXYZIRT) (s : ImageProjection) :
    (projectLoop env s pts).published = s.published := by
  induction pts generalizing s with
  | nil => rfl
  | cons pt rest ih => exact (ih _).trans (projectPoint_published env s pt)

theorem cloudExtraction_published (env : ProjEnv) (s : ImageProjection) :
    (cloudExtraction env s).published = s.published := by
  have hcell : ∀ (i : Nat) (js : List Nat) (acc : ImageProjection × Nat),
      (js.foldl (extractCell env i) acc).1.published = acc.1.published := by
    intro i js
    induction js with
    | nil => intro acc; rfl
    | cons j rest ih =>
      intro acc
      rw [List.foldl_cons, ih]
      unfold extractCell
      split_ifs <;> rfl
  have hring : ∀ (is : List Nat) (acc : ImageProjection × Nat),
      (is.foldl (extractRing env) acc).1.published = acc.1.published := by
    intro is
    induction is with
    | nil => intro acc; rfl
    | cons i rest ih =>
      intro acc
      rw [List.foldl_cons, ih]
      unfold extractRing
      dsimp only
      rw [hcell]
  exact hring _ _

/-- A scan that `cachePointCloud` hands on and `deskewInfo` accepts is projected,
extracted and handed to the publishers. -/
theorem cloudHandler_accepted (env : ProjEnv) (s : ImageProjection) (m : CloudMsg)
    (hc : (cachePointCloud env s m).1 = true)
    (hd : (deskewInfo env (cachePointCloud env s m).2).1 = true) :
    cloudHandler env s m
        = resetParameters env (publishClouds (cloudExtraction env (projectPointCloud env
            (deskewInfo env (cachePointCloud env s m).2).2)))
      ∧ (cloudHandler env s m).published
        = s.published ++
          [⟨(cloudExtraction env (projectPointCloud env
              (deskewInfo env (cachePointCloud env s m).2).2)).cloudHeaderStamp,
            (cloudExtraction env (projectPointCloud env
              (deskewInfo env (cachePointCloud env s m).2).2)).extractedCloud,
            (cloudExtraction env (projectPointCloud env
              (deskewInfo env (cachePointCloud env s m).2).2)).cloudInfo⟩] := by
  have hh : cloudHandler env s m
      = resetParameters env (publishClouds (cloudExtraction env (projectPointCloud env
          (deskewInfo env (cachePointCloud env s m).2).2))) := by
    unfold cloudHandler
    dsimp only
    rw [hc, hd]
    rfl
  refine ⟨hh, ?_⟩
  rw [hh]
  show (cloudExtraction env (projectPointCloud env
      (deskewInfo env (cachePointCloud env s m).2).2)).published ++ _ = _
  rw [cloudExtraction_published]
  unfold projectPointCloud
  rw [projectLoop_published, deskewInfo_published, (cachePointCloud_frame env s m).2.2]

/-- The guard of `deskewInfo` passes when the IMU queue spans the scan. -/
theorem deskewInfo_covered (env : ProjEnv) (s : ImageProjection) (front back : ImuMsg)
    (hf : s.imuQueue.head? = some front) (hb : s.imuQueue.getLast? = some back)
    (h1 : front.stamp ≤ s.timeScanCur) (h2 : s.timeScanEnd ≤ back.stamp) :
    (deskewInfo env s).1 = true := by
  unfold deskewInfo
  rw [hf, hb]
  dsimp only
  rw [if_neg (by rintro (h | h) <;> linarith)]

theorem convertCloud_fatal (env : ProjEnv) (s : ImageProjection) :
    ((env.sensor = SensorType.UNKNOWN → (convertCloud env s).shutdownRequested = true)
      ∧ (env.sensor ≠ SensorType.UNKNOWN →
          (convertCloud env s).laserCloudInDense = s.currentCloudMsg.is_dense)) := by
  unfold convertCloud leishenConvert
  constructor
  · intro h
    rw [h]
    simp
  · intro h
    cases hs : env.sensor <;> simp_all
    split_ifs <;> rfl

theorem checkDenseFlag_shutdown (s : ImageProjection) :
    (s.shutdownRequested = true ∨ s.laserCloudInDense = false →
        (checkDenseFlag s).shutdownRequested = true)
      ∧ (checkDenseFlag s).ringFlag = s.ringFlag
      ∧ (checkDenseFlag s).currentCloudMsg = s.currentCloudMsg := by
  unfold checkDenseFlag
  split_ifs with h
  · exact ⟨fun _ => rfl, rfl, rfl⟩
  · exact ⟨fun g => g.elim id (fun g2 => absurd g2 h), rfl, rfl⟩

theorem checkRingChannel_shutdown (s : ImageProjection) :
    (s.shutdownRequested = true
        ∨ (s.ringFlag = 0 ∧ s.currentCloudMsg.fields.contains "ring" = false) →
      (checkRingChannel s).shutdownRequested = true) := by
  unfold checkRingChannel
  split_ifs with h1 h2
  · rintro (g | ⟨_, g⟩)
    · exact g
    · rw [g] at h2; exact absurd h2 (by simp)
  · intro _; rfl
  · rintro (g | ⟨g, _⟩)
    · exact g
    · exact absurd g h1

theorem checkPointTime_shutdown (s : ImageProjection) :
    (checkPointTime s).shutdownRequested = s.shutdownRequested := by
  unfold checkPointTime
  split_ifs <;> rfl

/-- The three fatal checks of `cachePointCloud` request the shutdown; the call
still returns true. -/
theorem cachePointCloud_fatal (env : ProjEnv) (s : ImageProjection) (a b : CloudMsg)
    (rest : List CloudMsg) (m : CloudMsg) (hq : s.cloudQueue = a :: b :: rest)
    (hfatal : env.sensor = SensorType.UNKNOWN ∨ a.is_dense = false
      ∨ (s.ringFlag = 0 ∧ a.fields.contains "ring" = false)) :
    (cachePointCloud env s m).1 = true
      ∧ (cachePointCloud env s m).2.currentCloudMsg = a
      ∧ (cachePointCloud env s m).2.shutdownRequested = true := by
  have hlen : 2 ≤ s.cloudQueue.length := by rw [hq]; simp
  obtain ⟨c1, c2, _⟩ := (cachePointCloud_call env s m).2 hlen
  have hcur : (cachePointCloud env s m).2.currentCloudMsg = a := by rw [c2, hq]; rfl
  refine ⟨c1, hcur, ?_⟩
  rw [cachePointCloud_taken env s m hlen]
  have hhead : (s.cloudQueue ++ [m]).headD s.currentCloudMsg = a := by rw [hq]; rfl
  rw [hhead]
  obtain ⟨v1, v2⟩ := convertCloud_fatal env
    { s with cloudQueue := (s.cloudQueue ++ [m]).tail, currentCloudMsg := a }
  obtain ⟨_, _, _, v4, v5⟩ := convertCloud_streams env
    { s with cloudQueue := (s.cloudQueue ++ [m]).tail, currentCloudMsg := a }
  dsimp only at v1 v2 v4 v5 ⊢
  generalize convertCloud env
    { s with cloudQueue := (s.cloudQueue ++ [m]).tail, currentCloudMsg := a } = cv at v1 v2 v4 v5 ⊢
  have g1 : (getTimestamp cv).shutdownRequested = cv.shutdownRequested := rfl
  have g2 : (getTimestamp cv).laserCloudInDense = cv.laserCloudInDense := rfl
  have g3 : (getTimestamp cv).ringFlag = cv.ringFlag := rfl
  have g4 : (getTimestamp cv).currentCloudMsg = cv.currentCloudMsg := rfl
  obtain ⟨d1, d2, d3⟩ := checkDenseFlag_shutdown (getTimestamp cv)
  rw [checkPointTime_shutdown]
  apply checkRingChannel_shutdown
  by_cases hu : env.sensor = SensorType.UNKNOWN
  · left
    apply d1
    left
    rw [g1]
    exact v1 hu
  · rcases hfatal with h | h | ⟨h1, h2⟩
    · exact absurd h hu
    · left
      apply d1
      right
      rw [g2, v2 hu, h]
    · right
      rw [d2, d3, g3, g4, v5, v4]
      exact ⟨h1, h2⟩

/-- C12 (amended): for a scan taken out of the queue under an unknown sensor-type
selector, or flagged non-dense, or (with the ring check still pending) lacking a
`ring` field, `cachePointCloud` requests the shutdown. With a known sensor type
the call nevertheless returns true, as for any other scan; `cloudHandler`
therefore goes on to `deskewInfo` and, when the IMU queue spans the scan,
projects, extracts and hands the cloud and its metadata to the publishers within
the same call. -/
theorem fatal_scan_is_still_handed_on (env : ProjEnv) (s : ImageProjection) (a b : CloudMsg)
    (rest : List CloudMsg) (m : CloudMsg) (hq : s.cloudQueue = a :: b :: rest)
    (hfatal : env.sensor = SensorType.UNKNOWN ∨ a.is_dense = false
      ∨ (s.ringFlag = 0 ∧ a.fields.contains "ring" = false)) :
    (cachePointCloud env s m).2.currentCloudMsg = a
      ∧ (cachePointCloud env s m).2.shutdownRequested = true
      ∧ (env.sensor ≠ SensorType.UNKNOWN →
          (cachePointCloud env s m).1 = true
            ∧ ((deskewInfo env (cachePointCloud env s m).2).1 = true →
                cloudHandler env s m
                    = resetParameters env (publishClouds (cloudExtraction env
                        (projectPointCloud env (deskewInfo env (cachePointCloud env s m).2).2)))
                  ∧ (cloudHandler env s m).published.length = s.published.length + 1)) := by
  obtain ⟨h1, h2, h3⟩ := cachePointCloud_fatal env s a b rest m hq hfatal
  refine ⟨h2, h3, fun _ => ⟨h1, fun hd => ?_⟩⟩
  obtain ⟨e1, e2⟩ := cloudHandler_accepted env s m h1 hd
  refine ⟨e1, ?_⟩
  rw [e2, List.length_append, List.length_singleton]

theorem sample_nonDense_accepted :
    (deskewInfo sampleEnv (cachePointCloud sampleEnv sampleNonDenseState (sampleScan 2)).2).1
      = true := by
  have hlen : 2 ≤ sampleNonDenseState.cloudQueue.length := by decide
  obtain ⟨t1, t2⟩ := cachePointCloud_times sampleEnv sampleNonDenseState (sampleScan 2) hlen
  have hc := cachePointCloud_cloud sampleEnv sampleNonDenseState (sampleScan 2) hlen (Or.inr rfl)
  obtain ⟨_, hcur, _⟩ := (cachePointCloud_call sampleEnv sampleNonDenseState (sampleScan 2)).2 hlen
  have hcur2 : (cachePointCloud sampleEnv sampleNonDenseState (sampleScan 2)).2.currentCloudMsg
      = sampleNonDenseScan 0 := by rw [hcur]; rfl
  rw [hcur2] at hc t1
  obtain ⟨f1, _, _⟩ := cachePointCloud_frame sampleEnv sampleNonDenseState (sampleScan 2)
  apply deskewInfo_covered sampleEnv _ ⟨-1 / 20, Vec3.zero, ⟨0, 0, 3 / 10⟩, ⟨0, 0, 0, 1⟩⟩
    ⟨103 / 100, Vec3.zero, ⟨0, 0, 3 / 10⟩, ⟨0, 0, 0, 1⟩⟩
  · rw [f1]; rfl
  · rw [f1]; rfl
  · rw [t1]; norm_num [sampleNonDenseScan]
  · rw [t2, t1, hc]; norm_num [backTime, sampleNonDenseScan, samplePoints]

/-- C12 (counterexample): a non-dense scan at the head of the queue, spanned by
the IMU queue. `cachePointCloud` requests the shutdown and reports the scan as
ready (it returns true); `deskewInfo` accepts it and `cloudHandler` hands one
cloud with its metadata to the publishers. -/
theorem non_dense_scan_is_reported_ready :
    (sampleNonDenseScan 0).is_dense = false
      ∧ (cachePointCloud sampleEnv sampleNonDenseState (sampleScan 2)).2.currentCloudMsg
          = sampleNonDenseScan 0
      ∧ (cachePointCloud sampleEnv sampleNonDenseState (sampleScan 2)).2.shutdownRequested = true
      ∧ (cachePointCloud sampleEnv sampleNonDenseState (sampleScan 2)).1 = true
      ∧ (deskewInfo sampleEnv
          (cachePointCloud sampleEnv sampleNonDenseState (sampleScan 2)).2).1 = true
      ∧ sampleNonDenseState.published = []
      ∧ (cloudHandler sampleEnv sampleNonDenseState (sampleScan 2)).published.length = 1 := by
  obtain ⟨h1, h2, h3⟩ := cachePointCloud_fatal sampleEnv sampleNonDenseState
    (sampleNonDenseScan 0) (sampleScan 1) [] (sampleScan 2) rfl (Or.inr (Or.inl rfl))
  obtain ⟨_, e2⟩ := cloudHandler_accepted sampleEnv sampleNonDenseState (sampleScan 2) h1
    sample_nonDense_accepted
  refine ⟨rfl, h2, h3, h1, sample_nonDense_accepted, rfl, ?_⟩
  rw [e2]
  rfl

/-- C12 (witness): the non-dense sample scan under the LIVOX sensor type. -/
theorem fatal_scan_is_still_handed_on_witness :
    sampleNonDenseState.cloudQueue = [sampleNonDenseScan 0, sampleScan 1]
      ∧ (sampleNonDenseScan 0).is_dense = false
      ∧ (cachePointCloud sampleEnv sampleNonDenseState (sampleScan 2)).2.shutdownRequested = true
      ∧ (cachePointCloud sampleEnv sampleNonDenseState (sampleScan 2)).1 = true :=
  ⟨rfl, rfl,
    (fatal_scan_is_still_handed_on sampleEnv sampleNonDenseState (sampleNonDenseScan 0)
      (sampleScan 1) [] (sampleScan 2) rfl (Or.inr (Or.inl rfl))).2.1,
    ((fatal_scan_is_still_handed_on sampleEnv sampleNonDenseState (sampleNonDenseScan 0)
      (sampleScan 1) [] (sampleScan 2) rfl (Or.inr (Or.inl rfl))).2.2 (by decide)).1⟩

/-! ### The extraction pass -/

/-- The inner loop of `cloudExtraction` on ring `i`, started with `count = acc.2`:
the occupied cells among the columns `js` are emitted in the order of `js`. -/
theorem extractCell_fold_spec (env : ProjEnv) (i : Nat) (js : List Nat)
    (acc : ImageProjection × Nat) :
    (js.foldl (extractCell env i) acc).2
        = acc.2 + (js.filter (fun j => decide (acc.1.rangeMat i j ≠ env.FLT_MAX))).length
      ∧ (js.foldl (extractCell env i) acc).1.extractedCloud
        = acc.1.extractedCloud
          ++ (js.filter (fun j => decide (acc.1.rangeMat i j ≠ env.FLT_MAX))).map
              (fun j => acc.1.fullCloud (j + i * env.Horizon_SCAN))
      ∧ (js.foldl (extractCell env i) acc).1.rangeMat = acc.1.rangeMat
      ∧ (js.foldl (extractCell env i) acc).1.fullCloud = acc.1.fullCloud
      ∧ (js.foldl (extractCell env i) acc).1.cloudInfo.startRingIndex
        = acc.1.cloudInfo.startRingIndex
      ∧ (js.foldl (extractCell env i) acc).1.cloudInfo.endRingIndex
        = acc.1.cloudInfo.endRingIndex
      ∧ (∀ k, k < acc.2 →
          (js.foldl (extractCell env i) acc).1.cloudInfo.pointColInd k
              = acc.1.cloudInfo.pointColInd k
            ∧ (js.foldl (extractCell env i) acc).1.cloudInfo.pointRange k
              = acc.1.cloudInfo.pointRange k)
      ∧ ∀ n j : Nat, (js.filter (fun j => decide (acc.1.rangeMat i j ≠ env.FLT_MAX)))[n]? = some j →
          (js.foldl (extractCell env i) acc).1.cloudInfo.pointColInd (acc.2 + n) = (j : Int)
            ∧ (js.foldl (extractCell env i) acc).1.cloudInfo.pointRange (acc.2 + n)
              = acc.1.rangeMat i j := by
  induction js generalizing acc with
  | nil =>
    refine ⟨rfl, by simp, rfl, rfl, rfl, rfl, fun _ _ => ⟨rfl, rfl⟩, ?_⟩
    intro n j h
    simp at h
  | cons j rest ih =>
    rw [List.foldl_cons]
    obtain ⟨h1, h2, h3, h4, h5, h6, h7, h8⟩ := ih (extractCell env i acc j)
    by_cases hocc : acc.1.rangeMat i j ≠ env.FLT_MAX
    · have hstep : extractCell env i acc j
          = ({ acc.1 with
                cloudInfo :=
                  { acc.1.cloudInfo with
                    pointColInd := Function.update acc.1.cloudInfo.pointColInd acc.2 (j : Int)
                    pointRange := Function.update acc.1.cloudInfo.pointRange acc.2
                      (acc.1.rangeMat i j) }
                extractedCloud := acc.1.extractedCloud
                  ++ [acc.1.fullCloud (j + i * env.Horizon_SCAN)] },
              acc.2 + 1) := by
        unfold extractCell
        rw [if_pos hocc]
      rw [hstep] at h1 h2 h3 h4 h5 h6 h7 h8 ⊢
      dsimp only at h1 h2 h3 h4 h5 h6 h7 h8 ⊢
      have hf : List.filter (fun j => decide (acc.1.rangeMat i j ≠ env.FLT_MAX)) (j :: rest)
          = j :: List.filter (fun j => decide (acc.1.rangeMat i j ≠ env.FLT_MAX)) rest := by
        rw [List.filter_cons_of_pos (by simpa using hocc)]
      rw [hf]
      refine ⟨by rw [h1, List.length_cons]; omega, by rw [h2]; simp, h3, h4, h5, h6, ?_, ?_⟩
      · intro k hk
        obtain ⟨a, b⟩ := h7 k (by omega)
        rw [a, b]
        exact ⟨Function.update_noteq (by omega) _ _, Function.update_noteq (by omega) _ _⟩
      · intro n c hn
        cases n with
        | zero =>
          rw [List.getElem?_cons_zero] at hn
          injection hn with hn
          subst hn
          obtain ⟨a, b⟩ := h7 acc.2 (by omega)
          exact ⟨a.trans (Function.update_same _ _ _), b.trans (Function.update_same _ _ _)⟩
        | succ n =>
          rw [List.getElem?_cons_succ] at hn
          obtain ⟨a, b⟩ := h8 n c hn
          have e : acc.2 + (n + 1) = acc.2 + 1 + n := by omega
          rw [e]
          exact ⟨a, b⟩
    · have hstep : extractCell env i acc j = acc := by
        unfold extractCell
        rw [if_neg hocc]
      rw [hstep] at h1 h2 h3 h4 h5 h6 h7 h8 ⊢
      have hf : List.filter (fun j => decide (acc.1.rangeMat i j ≠ env.FLT_MAX)) (j :: rest)
          = List.filter (fun j => decide (acc.1.rangeMat i j ≠ env.FLT_MAX)) rest := by
        rw [List.filter_cons_of_neg (by simpa using hocc)]
      rw [hf]
      exact ⟨h1, h2, h3, h4, h5, h6, h7, h8⟩

/-- The body of the outer loop of `cloudExtraction` for ring `i`, started with
`count = acc.2`. -/
theorem extractRing_spec (env : ProjEnv) (acc : ImageProjection × Nat) (i : Nat) :
    (extractRing env acc i).2 = acc.2 + (occupiedColumns env acc.1 i).length
      ∧ (extractRing env acc i).1.extractedCloud
        = acc.1.extractedCloud
          ++ (occupiedColumns env acc.1 i).map (fun j => acc.1.fullCloud (j + i * env.Horizon_SCAN))
      ∧ (extractRing env acc i).1.rangeMat = acc.1.rangeMat
      ∧ (extractRing env acc i).1.fullCloud = acc.1.fullCloud
      ∧ (∀ k, k < acc.2 →
          (extractRing env acc i).1.cloudInfo.pointColInd k = acc.1.cloudInfo.pointColInd k
            ∧ (extractRing env acc i).1.cloudInfo.pointRange k = acc.1.cloudInfo.pointRange k)
      ∧ (∀ n j : Nat, (occupiedColumns env acc.1 i)[n]? = some j →
          (extractRing env acc i).1.cloudInfo.pointColInd (acc.2 + n) = (j : Int)
            ∧ (extractRing env acc i).1.cloudInfo.pointRange (acc.2 + n) = acc.1.rangeMat i j)
      ∧ (extractRing env acc i).1.cloudInfo.startRingIndex
        = Function.update acc.1.cloudInfo.startRingIndex i ((acc.2 : Int) - 1 + 5)
      ∧ (extractRing env acc i).1.cloudInfo.endRingIndex
        = Function.update acc.1.cloudInfo.endRingIndex i
            (((acc.2 + (occupiedColumns env acc.1 i).length : Nat) : Int) - 1 - 5) := by
  obtain ⟨h1, h2, h3, h4, h5, h6, h7, h8⟩ := extractCell_fold_spec env i (List.range env.Horizon_SCAN)
    ({ acc.1 with
        cloudInfo :=
          { acc.1.cloudInfo with
            startRingIndex :=
              Function.update acc.1.cloudInfo.startRingIndex i ((acc.2 : Int) - 1 + 5) } },
      acc.2)
  dsimp only at h1 h2 h3 h4 h5 h6 h7 h8
  unfold extractRing occupiedColumns
  dsimp only
  refine ⟨h1, h2, h3, h4, h7, h8, h5, ?_⟩
  rw [h6, h1]

/-- The outer loop of `cloudExtraction` over the rings below `n`. -/
theorem extractRing_fold_spec (env : ProjEnv) (s : ImageProjection) (n : Nat) :
    ((List.range n).foldl (extractRing env) (s, 0)).2 = (occupiedCells env s n).length
      ∧ ((List.range n).foldl (extractRing env) (s, 0)).1.extractedCloud
        = s.extractedCloud
          ++ (occupiedCells env s n).map (fun c => s.fullCloud (c.2 + c.1 * env.Horizon_SCAN))
      ∧ ((List.range n).foldl (extractRing env) (s, 0)).1.rangeMat = s.rangeMat
      ∧ ((List.range n).foldl (extractRing env) (s, 0)).1.fullCloud = s.fullCloud
      ∧ (∀ (k : Nat) (c : Nat × Nat), (occupiedCells env s n)[k]? = some c →
          ((List.range n).foldl (extractRing env) (s, 0)).1.cloudInfo.pointColInd k = (c.2 : Int)
            ∧ ((List.range n).foldl (extractRing env) (s, 0)).1.cloudInfo.pointRange k
              = s.rangeMat c.1 c.2)
      ∧ ∀ i, i < n →
          ((List.range n).foldl (extractRing env) (s, 0)).1.cloudInfo.startRingIndex i
              = ((occupiedCells env s i).length : Int) - 1 + 5
            ∧ ((List.range n).foldl (extractRing env) (s, 0)).1.cloudInfo.endRingIndex i
              = ((occupiedCells env s (i + 1)).length : Int) - 1 - 5 := by
  induction n with
  | zero =>
    refine ⟨rfl, by simp [occupiedCells], rfl, rfl, ?_, ?_⟩
    · intro k c h; simp [occupiedCells] at h
    · intro i hi; omega
  | succ n ih =>
    obtain ⟨i1, i2, i3, i4, i5, i6⟩ := ih
    rw [List.range_succ, List.foldl_append, List.foldl_cons, List.foldl_nil]
    obtain ⟨r1, r2, r3, r4, r5, r6, r7, r8⟩ := extractRing_spec env
      ((List.range n).foldl (extractRing env) (s, 0)) n
    have hcols : occupiedColumns env ((List.range n).foldl (extractRing env) (s, 0)).1 n
        = occupiedColumns env s n := by
      unfold occupiedColumns
      rw [i3]
    rw [hcols] at r1 r2 r6 r8
    rw [i1] at r1 r5 r6 r7 r8
    rw [i4] at r2
    rw [i3] at r6
    have hlen : (occupiedCells env s (n + 1)).length
        = (occupiedCells env s n).length + (occupiedColumns env s n).length := by
      simp [occupiedCells]
    refine ⟨by rw [r1, hlen], ?_, r3.trans i3, r4.trans i4, ?_, ?_⟩
    · rw [r2, i2]
      simp [occupiedCells]
    · intro k c hk
      by_cases hlt : k < (occupiedCells env s n).length
      · have hk2 : (occupiedCells env s n)[k]? = some c := by
          rw [← hk]
          show _ = (occupiedCells env s n ++ _)[k]?
          rw [List.getElem?_append_left hlt]
        obtain ⟨a, b⟩ := r5 k hlt
        rw [a, b]
        exact i5 k c hk2
      · have hk2 : ((occupiedColumns env s n).map (fun j => (n, j)))[k - (occupiedCells env s n).length]?
            = some c := by
          rw [← hk]
          show _ = (occupiedCells env s n ++ _)[k]?
          rw [List.getElem?_append_right (by omega)]
        rw [List.getElem?_map] at hk2
        cases hj : (occupiedColumns env s n)[k - (occupiedCells env s n).length]? with
        | none => rw [hj] at hk2; simp at hk2
        | some j =>
          rw [hj] at hk2
          simp at hk2
          subst hk2
          obtain ⟨a, b⟩ := r6 (k - (occupiedCells env s n).length) j hj
          have e : (occupiedCells env s n).length + (k - (occupiedCells env s n).length) = k := by
            omega
          rw [e] at a b
          exact ⟨a, b⟩
    · intro i hi
      rw [r7, r8]
      by_cases hin : i = n
      · subst hin
        rw [Function.update_same, Function.update_same, hlen]
        exact ⟨rfl, rfl⟩
      · rw [Function.update_noteq hin, Function.update_noteq hin]
        exact i6 i (by omega)

/-- The list `occupiedCells` holds exactly the occupied cells of the rings below `n`. -/
theorem occupiedCells_mem (env : ProjEnv) (s : ImageProjection) (n : Nat) (c : Nat × Nat) :
    c ∈ occupiedCells env s n
      ↔ c.1 < n ∧ c.2 < env.Horizon_SCAN ∧ s.rangeMat c.1 c.2 ≠ env.FLT_MAX := by
  induction n with
  | zero => simp [occupiedCells]
  | succ n ih =>
    obtain ⟨i, j⟩ := c
    simp only [occupiedCells, List.mem_append, ih, List.mem_map, occupiedColumns, List.mem_filter,
      List.mem_range, decide_eq_true_eq, Prod.mk.injEq]
    constructor
    · rintro (⟨h1, h2, h3⟩ | ⟨a, ⟨h1, h2⟩, h3, h4⟩)
      · exact ⟨by omega, h2, h3⟩
      · subst h3 h4
        exact ⟨by omega, h1, h2⟩
    · rintro ⟨h1, h2, h3⟩
      by_cases h : i < n
      · exact Or.inl ⟨h, h2, h3⟩
      · have : i = n := by omega
        subst this
        exact Or.inr ⟨j, ⟨h2, h3⟩, rfl, rfl⟩

/-- The list `occupiedCells` is in row-major order. -/
theorem occupiedCells_rowMajor (env : ProjEnv) (s : ImageProjection) (n : Nat) :
    (occupiedCells env s n).Pairwise (fun a b => a.1 < b.1 ∨ (a.1 = b.1 ∧ a.2 < b.2)) := by
  induction n with
  | zero => simp [occupiedCells]
  | succ n ih =>
    unfold occupiedCells
    rw [List.pairwise_append]
    refine ⟨ih, ?_, ?_⟩
    · rw [List.pairwise_map]
      unfold occupiedColumns
      apply List.Pairwise.filter
      exact List.Pairwise.imp (fun h => Or.inr ⟨rfl, h⟩) (List.pairwise_lt_range _)
    · intro a ha b hb
      left
      rw [List.mem_map] at hb
      obtain ⟨j, _, hj⟩ := hb
      rw [← hj]
      exact ((occupiedCells_mem env s n a).1 ha).1

/-- C14: for a range image and an empty output cloud, `cloudExtraction` emits
exactly the points stored in the occupied cells, in row-major order: the list
`occupiedCells` of the cells `(ring, column)` with `ring < N_SCAN`,
`column < Horizon_SCAN` and a range other than `FLT_MAX` is ordered by rings and
by columns within a ring; the extracted cloud is the list of their stored
points, so its length is the number of occupied cells, and for every `k` the
`k`-th entries of `pointColInd` and `pointRange` are the column and the stored
range of the `k`-th cell. -/
theorem cloudExtraction_emits_occupied_cells_row_major (env : ProjEnv) (s : ImageProjection)
    (hempty : s.extractedCloud = []) :
    (∀ c : Nat × Nat, c ∈ occupiedCells env s env.N_SCAN
        ↔ c.1 < env.N_SCAN ∧ c.2 < env.Horizon_SCAN ∧ s.rangeMat c.1 c.2 ≠ env.FLT_MAX)
      ∧ (occupiedCells env s env.N_SCAN).Pairwise
          (fun a b => a.1 < b.1 ∨ (a.1 = b.1 ∧ a.2 < b.2))
      ∧ (cloudExtraction env s).extractedCloud
        = (occupiedCells env s env.N_SCAN).map
            (fun c => s.fullCloud (c.2 + c.1 * env.Horizon_SCAN))
      ∧ (cloudExtraction env s).extractedCloud.length = (occupiedCells env s env.N_SCAN).length
      ∧ ∀ (k : Nat) (c : Nat × Nat), (occupiedCells env s env.N_SCAN)[k]? = some c →
          (cloudExtraction env s).extractedCloud[k]?
              = some (s.fullCloud (c.2 + c.1 * env.Horizon_SCAN))
            ∧ (cloudExtraction env s).cloudInfo.pointColInd k = (c.2 : Int)
            ∧ (cloudExtraction env s).cloudInfo.pointRange k = s.rangeMat c.1 c.2 := by
  obtain ⟨_, h2, _, _, h5, _⟩ := extractRing_fold_spec env s env.N_SCAN
  rw [hempty, List.nil_append] at h2
  have hcloud : (cloudExtraction env s).extractedCloud
      = (occupiedCells env s env.N_SCAN).map
          (fun c => s.fullCloud (c.2 + c.1 * env.Horizon_SCAN)) := h2
  refine ⟨fun c => occupiedCells_mem env s env.N_SCAN c, occupiedCells_rowMajor env s env.N_SCAN,
    hcloud, by rw [hcloud, List.length_map], ?_⟩
  intro k c hk
  refine ⟨?_, h5 k c hk⟩
  rw [hcloud, List.getElem?_map, hk]
  rfl

theorem sampleImage_cells :
    occupiedCells sampleEnv sampleImage 2 = [(0, 1), (0, 3), (1, 0), (1, 1), (1, 2)] := by
  simp [occupiedCells, occupiedColumns, sampleImage, sampleEnv, List.range_succ, List.filter]

/-- C14 (witness): the sample range image; five points are extracted, the third
one from cell `(1, 0)`. -/
theorem cloudExtraction_emits_occupied_cells_row_major_witness :
    sampleImage.extractedCloud = []
      ∧ (cloudExtraction sampleEnv sampleImage).extractedCloud.length = 5
      ∧ (cloudExtraction sampleEnv sampleImage).cloudInfo.pointColInd 2 = 0
      ∧ (cloudExtraction sampleEnv sampleImage).extractedCloud[2]? = some ⟨4, 0, 0, 0⟩ := by
  obtain ⟨_, _, _, h4, h5⟩ :=
    cloudExtraction_emits_occupied_cells_row_major sampleEnv sampleImage rfl
  have hc : occupiedCells sampleEnv sampleImage sampleEnv.N_SCAN
      = [(0, 1), (0, 3), (1, 0), (1, 1), (1, 2)] := sampleImage_cells
  rw [hc] at h4 h5
  obtain ⟨a, b, _⟩ := h5 2 (1, 0) rfl
  refine ⟨rfl, h4, b, ?_⟩
  rw [a]
  simp [sampleImage, sampleEnv]

/-- The ring index ranges `cloudExtraction` records: for ring `i`, with `f` the
compacted index of the next point to be emitted when the ring is entered (the
index of the ring's first point, if it has one) and `l` the index of the last
point emitted when the ring is left, `startRingIndex[i] = f + 4` and
`endRingIndex[i] = l - 5`. -/
theorem cloudExtraction_ring_indices (env : ProjEnv) (s : ImageProjection) (i : Nat)
    (hi : i < env.N_SCAN) :
    (cloudExtraction env s).cloudInfo.startRingIndex i
        = ((occupiedCells env s i).length : Int) + 4
      ∧ (cloudExtraction env s).cloudInfo.endRingIndex i
        = (((occupiedCells env s (i + 1)).length : Int) - 1) - 5 := by
  obtain ⟨_, _, _, _, _, h6⟩ := extractRing_fold_spec env s env.N_SCAN
  obtain ⟨a, b⟩ := h6 i hi
  refine ⟨?_, b⟩
  show ((List.range env.N_SCAN).foldl (extractRing env) (s, 0)).1.cloudInfo.startRingIndex i = _
  rw [a]
  ring

/-- C15 (code at the failing input): on the sample range image ring 1 emits the
points of compacted indices 2, 3 and 4. `cloudExtraction` records the end index
`4 - 5` and the start index `2 + 4`, not `2 + 5`; for ring 0, whose points have
the indices 0 and 1, it records the start `0 + 4` and the end `1 - 5`. -/
theorem ring_start_index_is_inset_by_four :
    (occupiedCells sampleEnv sampleImage 1).length = 2
      ∧ (occupiedCells sampleEnv sampleImage 2).length = 5
      ∧ (cloudExtraction sampleEnv sampleImage).cloudInfo.startRingIndex 1 = 2 + 4
      ∧ (cloudExtraction sampleEnv sampleImage).cloudInfo.startRingIndex 1 ≠ 2 + 5
      ∧ (cloudExtraction sampleEnv sampleImage).cloudInfo.endRingIndex 1 = 4 - 5
      ∧ (cloudExtraction sampleEnv sampleImage).cloudInfo.startRingIndex 0 = 0 + 4
      ∧ (cloudExtraction sampleEnv sampleImage).cloudInfo.endRingIndex 0 = 1 - 5 := by
  have h0 : occupiedCells sampleEnv sampleImage 0 = [] := rfl
  have h1 : occupiedCells sampleEnv sampleImage 1 = [(0, 1), (0, 3)] := by
    simp [occupiedCells, occupiedColumns, sampleImage, sampleEnv, List.range_succ, List.filter]
  have h2 := sampleImage_cells
  obtain ⟨a0, b0⟩ := cloudExtraction_ring_indices sampleEnv sampleImage 0 (by decide)
  obtain ⟨a1, b1⟩ := cloudExtraction_ring_indices sampleEnv sampleImage 1 (by decide)
  rw [h0] at a0
  rw [h1] at b0 a1
  rw [h2] at b1
  refine ⟨by rw [h1]; rfl, by rw [h2]; rfl, ?_, ?_, ?_, ?_, ?_⟩
  · rw [a1]; rfl
  · rw [a1]; decide
  · rw [b1]; rfl
  · rw [a0]; rfl
  · rw [b0]; rfl

/-! ### The reference frame of the deskewing -/

/-- The outcome of `odomDeskewInfo` when the trimmed odometry queue spans the
scan: the initial guess is taken from the start sample, and the translational
deskew is enabled exactly when the rounded degenerate markers of the start and
end samples agree. -/
theorem odomDeskewInfo_spanned (env : ProjEnv) (s : ImageProjection) (front back : OdomMsg)
    (hf : (s.odomQueue.dropWhile
      (fun m => decide (m.stamp < s.timeScanCur - 5 / env.imuRate))).head? = some front)
    (hb : (s.odomQueue.dropWhile
      (fun m => decide (m.stamp < s.timeScanCur - 5 / env.imuRate))).getLast? = some back)
    (h1 : front.stamp ≤ s.timeScanCur) (h2 : s.timeScanEnd ≤ back.stamp) :
    (odomDeskewInfo env s).cloudInfo.odomAvailable = true
      ∧ (odomDeskewInfo env s).cloudInfo.initialGuessX
        = (selectOdom s.timeScanCur (s.odomQueue.dropWhile
            (fun m => decide (m.stamp < s.timeScanCur - 5 / env.imuRate))) emptyOdom).position.x
      ∧ (odomDeskewInfo env s).cloudInfo.initialGuessY
        = (selectOdom s.timeScanCur (s.odomQueue.dropWhile
            (fun m => decide (m.stamp < s.timeScanCur - 5 / env.imuRate))) emptyOdom).position.y
      ∧ (odomDeskewInfo env s).cloudInfo.initialGuessZ
        = (selectOdom s.timeScanCur (s.odomQueue.dropWhile
            (fun m => decide (m.stamp < s.timeScanCur - 5 / env.imuRate))) emptyOdom).position.z
      ∧ ((odomDeskewInfo env s).cloudInfo.initialGuessRoll,
          (odomDeskewInfo env s).cloudInfo.initialGuessPitch,
          (odomDeskewInfo env s).cloudInfo.initialGuessYaw)
        = env.getRPY (selectOdom s.timeScanCur (s.odomQueue.dropWhile
            (fun m => decide (m.stamp < s.timeScanCur - 5 / env.imuRate))) emptyOdom).orientation
      ∧ ((odomDeskewInfo env s).odomDeskewFlag = true ↔
          cround (selectOdom s.timeScanCur (s.odomQueue.dropWhile
              (fun m => decide (m.stamp < s.timeScanCur - 5 / env.imuRate))) emptyOdom).covariance0
            = cround (selectOdom s.timeScanEnd (s.odomQueue.dropWhile
              (fun m => decide (m.stamp < s.timeScanCur - 5 / env.imuRate))) emptyOdom).covariance0) := by
  unfold odomDeskewInfo
  dsimp only
  rw [hf, hb]
  dsimp only
  rw [if_neg (not_lt.2 h1), if_neg (not_lt.2 h2)]
  split_ifs with h
  · exact ⟨rfl, rfl, rfl, rfl, rfl, ⟨fun g => absurd g (by simp), fun g => absurd g h⟩⟩
  · exact ⟨rfl, rfl, rfl, rfl, rfl, ⟨fun _ => not_not.1 h, fun _ => rfl⟩⟩

/-- The position `findPosition` returns after `odomDeskewInfo` does not depend on
the value `odomDeskewFlag` had before the call. -/
theorem odomDeskewInfo_flag_independent (env : ProjEnv) (s : ImageProjection) (b : Bool)
    (relTime : ℚ) :
    findPosition (odomDeskewInfo env { s with odomDeskewFlag := b }) relTime
      = findPosition (odomDeskewInfo env s) relTime := by
  unfold odomDeskewInfo
  dsimp only
  cases (s.odomQueue.dropWhile
      (fun m => decide (m.stamp < s.timeScanCur - 5 / env.imuRate))).head? with
  | none => simp [findPosition]
  | some front =>
    cases (s.odomQueue.dropWhile
        (fun m => decide (m.stamp < s.timeScanCur - 5 / env.imuRate))).getLast? with
    | none => simp [findPosition]
    | some back =>
      dsimp only
      split_ifs <;> simp [findPosition]

/-- C18: when the trimmed odometry queue spans the scan and the rounded
degenerate markers (`round` of pose covariance entry 0) of the selected start and
end samples differ, `odomDeskewInfo` leaves `odomDeskewFlag` false, so
`findPosition` returns `(0, 0, 0)` for every point time of the scan, while
`odomAvailable` is true and the initial guess holds the pose of the start sample.
Nothing of this carries over: the position found after the `odomDeskewInfo` of
any scan does not depend on the flag left by an earlier one, and a scan whose
markers agree gets the translational deskew enabled. -/
theorem marker_mismatch_disables_translation_for_that_scan (env : ProjEnv) (s : ImageProjection)
    (front back : OdomMsg)
    (hf : (s.odomQueue.dropWhile
      (fun m => decide (m.stamp < s.timeScanCur - 5 / env.imuRate))).head? = some front)
    (hb : (s.odomQueue.dropWhile
      (fun m => decide (m.stamp < s.timeScanCur - 5 / env.imuRate))).getLast? = some back)
    (h1 : front.stamp ≤ s.timeScanCur) (h2 : s.timeScanEnd ≤ back.stamp)
    (hmis : cround (selectOdom s.timeScanCur (s.odomQueue.dropWhile
          (fun m => decide (m.stamp < s.timeScanCur - 5 / env.imuRate))) emptyOdom).covariance0
        ≠ cround (selectOdom s.timeScanEnd (s.odomQueue.dropWhile
          (fun m => decide (m.stamp < s.timeScanCur - 5 / env.imuRate))) emptyOdom).covariance0) :
    (odomDeskewInfo env s).odomDeskewFlag = false
      ∧ (∀ relTime : ℚ, findPosition (odomDeskewInfo env s) relTime = (0, 0, 0))
      ∧ (odomDeskewInfo env s).cloudInfo.odomAvailable = true
      ∧ (odomDeskewInfo env s).cloudInfo.initialGuessX
        = (selectOdom s.timeScanCur (s.odomQueue.dropWhile
            (fun m => decide (m.stamp < s.timeScanCur - 5 / env.imuRate))) emptyOdom).position.x
      ∧ (odomDeskewInfo env s).cloudInfo.initialGuessY
        = (selectOdom s.timeScanCur (s.odomQueue.dropWhile
            (fun m => decide (m.stamp < s.timeScanCur - 5 / env.imuRate))) emptyOdom).position.y
      ∧ (odomDeskewInfo env s).cloudInfo.initialGuessZ
        = (selectOdom s.timeScanCur (s.odomQueue.dropWhile
            (fun m => decide (m.stamp < s.timeScanCur - 5 / env.imuRate))) emptyOdom).position.z
      ∧ ((odomDeskewInfo env s).cloudInfo.initialGuessRoll,
          (odomDeskewInfo env s).cloudInfo.initialGuessPitch,
          (odomDeskewInfo env s).cloudInfo.initialGuessYaw)
        = env.getRPY (selectOdom s.timeScanCur (s.odomQueue.dropWhile
            (fun m => decide (m.stamp < s.timeScanCur - 5 / env.imuRate))) emptyOdom).orientation
      ∧ (resetParameters env (odomDeskewInfo env s)).odomDeskewFlag = false
      ∧ (∀ (next : ImageProjection) (b : Bool) (relTime : ℚ),
          findPosition (odomDeskewInfo env { next with odomDeskewFlag := b }) relTime
            = findPosition (odomDeskewInfo env next) relTime)
      ∧ ∀ (next : ImageProjection) (front2 back2 : OdomMsg),
          (next.odomQueue.dropWhile
            (fun m => decide (m.stamp < next.timeScanCur - 5 / env.imuRate))).head? = some front2 →
          (next.odomQueue.dropWhile
            (fun m => decide (m.stamp < next.timeScanCur - 5 / env.imuRate))).getLast? = some back2 →
          front2.stamp ≤ next.timeScanCur → next.timeScanEnd ≤ back2.stamp →
          cround (selectOdom next.timeScanCur (next.odomQueue.dropWhile
              (fun m => decide (m.stamp < next.timeScanCur - 5 / env.imuRate))) emptyOdom).covariance0
            = cround (selectOdom next.timeScanEnd (next.odomQueue.dropWhile
              (fun m => decide (m.stamp < next.timeScanCur - 5 / env.imuRate))) emptyOdom).covariance0 →
          (odomDeskewInfo env next).odomDeskewFlag = true := by
  obtain ⟨a1, a2, a3, a4, a5, a6⟩ := odomDeskewInfo_spanned env s front back hf hb h1 h2
  have hflag : (odomDeskewInfo env s).odomDeskewFlag = false := by
    cases hfl : (odomDeskewInfo env s).odomDeskewFlag with
    | false => rfl
    | true => exact absurd (a6.1 hfl) hmis
  refine ⟨hflag, ?_, a1, a2, a3, a4, a5, rfl, ?_, ?_⟩
  · intro relTime
    unfold findPosition
    rw [if_pos (Or.inr hflag)]
  · intro next b relTime
    exact odomDeskewInfo_flag_independent env next b relTime
  · intro next front2 back2 g1 g2 g3 g4 g5
    exact (odomDeskewInfo_spanned env next front2 back2 g1 g2 g3 g4).2.2.2.2.2.2 g5

theorem sampleMismatch_queue :
    sampleMismatchState.odomQueue.dropWhile
        (fun m => decide (m.stamp < sampleMismatchState.timeScanCur - 5 / sampleEnv.imuRate))
      = [⟨0, ⟨1, 2, 3⟩, ⟨0, 0, 0, 1⟩, 0⟩, ⟨1, ⟨2, 2, 3⟩, ⟨0, 0, 0, 1⟩, 1⟩] := by
  simp [sampleMismatchState, initial, sampleEnv, List.dropWhile]
  norm_num

theorem sampleMismatch_markers :
    cround (selectOdom sampleMismatchState.timeScanCur
        [⟨0, ⟨1, 2, 3⟩, ⟨0, 0, 0, 1⟩, 0⟩, ⟨1, ⟨2, 2, 3⟩, ⟨0, 0, 0, 1⟩, 1⟩] emptyOdom).covariance0 = 0
      ∧ cround (selectOdom sampleMismatchState.timeScanEnd
        [⟨0, ⟨1, 2, 3⟩, ⟨0, 0, 0, 1⟩, 0⟩, ⟨1, ⟨2, 2, 3⟩, ⟨0, 0, 0, 1⟩, 1⟩] emptyOdom).covariance0 = 1 := by
  constructor
  · simp [selectOdom, sampleMismatchState, initial, cround]
    norm_num
  · simp [selectOdom, sampleMismatchState, initial, cround]
    norm_num [Int.floor_eq_iff]

/-- C18 (witness): odometry samples at the start and the end of a scan over
`[0, 1]` with the markers 0 and 1. -/
theorem marker_mismatch_disables_translation_for_that_scan_witness :
    (odomDeskewInfo sampleEnv sampleMismatchState).odomDeskewFlag = false
      ∧ (odomDeskewInfo sampleEnv sampleMismatchState).cloudInfo.odomAvailable = true
      ∧ findPosition (odomDeskewInfo sampleEnv sampleMismatchState) (1 / 2) = (0, 0, 0) := by
  have h := marker_mismatch_disables_translation_for_that_scan sampleEnv sampleMismatchState
    ⟨0, ⟨1, 2, 3⟩, ⟨0, 0, 0, 1⟩, 0⟩ ⟨1, ⟨2, 2, 3⟩, ⟨0, 0, 0, 1⟩, 1⟩
    (by rw [sampleMismatch_queue]; rfl) (by rw [sampleMismatch_queue]; rfl)
    (by norm_num [sampleMismatchState]) (by norm_num [sampleMismatchState])
    (by rw [sampleMismatch_queue, sampleMismatch_markers.1, sampleMismatch_markers.2]; decide)
  exact ⟨h.1, h.2.2.1, h.2.1 (1 / 2)⟩

/-! ### Indices and weights of the rotation lookup -/

/-- The scan of `findRotation` only looks at the times of the indices it passes. -/
theorem findRotationLoop_congr (f g : Nat → ℚ) (t : ℚ) (k front : Nat)
    (h : ∀ j, front ≤ j → j < front + k → f j = g j) :
    findRotationLoop f t front k = findRotationLoop g t front k := by
  induction k generalizing front with
  | zero => rfl
  | succ k ih =>
    unfold findRotationLoop
    rw [h front (le_refl _) (by omega), ih (front + 1) (fun j h1 h2 => h j (by omega) (by omega))]

/-- The result of `findRotation` is determined by the table entries of the
indices `0..imuPointerCur`. -/
theorem findRotation_congr (a b : ImageProjection) (n : Nat) (t : ℚ)
    (ha : a.imuPointerCur = (n : Int)) (hb : b.imuPointerCur = (n : Int))
    (h : ∀ k, k ≤ n → a.imuTime k = b.imuTime k ∧ a.imuRotX k = b.imuRotX k
      ∧ a.imuRotY k = b.imuRotY k ∧ a.imuRotZ k = b.imuRotZ k) :
    findRotation a t = findRotation b t := by
  have hloop : findRotationLoop a.imuTime t 0 n = findRotationLoop b.imuTime t 0 n :=
    findRotationLoop_congr _ _ t n 0 (fun j _ hj => (h j (by omega)).1)
  obtain ⟨_, hle, _, _⟩ := findRotationLoop_spec b.imuTime t n 0
  have hf := h (findRotationLoop b.imuTime t 0 n) (by omega)
  have hbk := h (findRotationLoop b.imuTime t 0 n - 1) (by omega)
  unfold findRotation
  rw [ha, hb]
  simp only [Int.toNat_ofNat]
  rw [hloop, hf.1, hf.2.1, hf.2.2.1, hf.2.2.2, hbk.1, hbk.2.1, hbk.2.2.1, hbk.2.2.2]

/-- In the interpolation branch of `findRotation` on a table of strictly
increasing times the query lies between the times of the two entries used. -/
theorem findRotation_bracket (imuTime : Nat → ℚ) (n : Nat) (t : ℚ)
    (hmono : ∀ i j, i < j → j ≤ n → imuTime i < imuTime j)
    (hbranch : ¬ (t > imuTime (findRotationLoop imuTime t 0 n)
      ∨ findRotationLoop imuTime t 0 n = 0)) :
    1 ≤ findRotationLoop imuTime t 0 n ∧ findRotationLoop imuTime t 0 n ≤ n
      ∧ imuTime (findRotationLoop imuTime t 0 n - 1) ≤ t
      ∧ t ≤ imuTime (findRotationLoop imuTime t 0 n)
      ∧ imuTime (findRotationLoop imuTime t 0 n - 1) < imuTime (findRotationLoop imuTime t 0 n) := by
  obtain ⟨_, hle, _, h4⟩ := findRotationLoop_spec imuTime t n 0
  push_neg at hbranch
  obtain ⟨b1, b2⟩ := hbranch
  have hpos : 1 ≤ findRotationLoop imuTime t 0 n := Nat.one_le_iff_ne_zero.2 b2
  refine ⟨hpos, by omega, h4 _ (Nat.zero_le _) (by omega), b1, hmono _ _ (by omega) (by omega)⟩

/-- C22: on a rotation table with entries `0..n` (`imuPointerCur = n`) and
strictly increasing times, for every query time `findRotation` uses the index
`front` its scan stops at, which is at most `n`, and in the interpolation branch
also `front - 1`: there `front >= 1`, the denominator
`imuTime[front] - imuTime[front - 1]` is positive, and the two weights lie in
`[0, 1]` and sum to 1. The result is determined by the table entries of the
indices `0..n`. On the sample table with the times 0, 1, 1 the query 1 enters the
interpolation branch with the denominator 0. -/
theorem findRotation_indices_and_weights (s : ImageProjection) (n : Nat)
    (hcur : s.imuPointerCur = (n : Int))
    (hmono : ∀ i j, i < j → j ≤ n → s.imuTime i < s.imuTime j) (t : ℚ) :
    findRotationLoop s.imuTime t 0 n ≤ n
      ∧ findRotation s t
        = (if t > s.imuTime (findRotationLoop s.imuTime t 0 n)
              ∨ findRotationLoop s.imuTime t 0 n = 0 then
            (s.imuRotX (findRotationLoop s.imuTime t 0 n),
             s.imuRotY (findRotationLoop s.imuTime t 0 n),
             s.imuRotZ (findRotationLoop s.imuTime t 0 n))
          else
            (s.imuRotX (findRotationLoop s.imuTime t 0 n)
                * ((t - s.imuTime (findRotationLoop s.imuTime t 0 n - 1))
                  / (s.imuTime (findRotationLoop s.imuTime t 0 n)
                    - s.imuTime (findRotationLoop s.imuTime t 0 n - 1)))
              + s.imuRotX (findRotationLoop s.imuTime t 0 n - 1)
                * ((s.imuTime (findRotationLoop s.imuTime t 0 n) - t)
                  / (s.imuTime (findRotationLoop s.imuTime t 0 n)
                    - s.imuTime (findRotationLoop s.imuTime t 0 n - 1))),
             s.imuRotY (findRotationLoop s.imuTime t 0 n)
                * ((t - s.imuTime (findRotationLoop s.imuTime t 0 n - 1))
                  / (s.imuTime (findRotationLoop s.imuTime t 0 n)
                    - s.imuTime (findRotationLoop s.imuTime t 0 n - 1)))
              + s.imuRotY (findRotationLoop s.imuTime t 0 n - 1)
                * ((s.imuTime (findRotationLoop s.imuTime t 0 n) - t)
                  / (s.imuTime (findRotationLoop s.imuTime t 0 n)
                    - s.imuTime (findRotationLoop s.imuTime t 0 n - 1))),
             s.imuRotZ (findRotationLoop s.imuTime t 0 n)
                * ((t - s.imuTime (findRotationLoop s.imuTime t 0 n - 1))
                  / (s.imuTime (findRotationLoop s.imuTime t 0 n)
                    - s.imuTime (findRotationLoop s.imuTime t 0 n - 1)))
              + s.imuRotZ (findRotationLoop s.imuTime t 0 n - 1)
                * ((s.imuTime (findRotationLoop s.imuTime t 0 n) - t)
                  / (s.imuTime (findRotationLoop s.imuTime t 0 n)
                    - s.imuTime (findRotationLoop s.imuTime t 0 n - 1)))))
      ∧ (¬ (t > s.imuTime (findRotationLoop s.imuTime t 0 n)
            ∨ findRotationLoop s.imuTime t 0 n = 0) →
          1 ≤ findRotationLoop s.imuTime t 0 n
            ∧ 0 < s.imuTime (findRotationLoop s.imuTime t 0 n)
                - s.imuTime (findRotationLoop s.imuTime t 0 n - 1)
            ∧ 0 ≤ (t - s.imuTime (findRotationLoop s.imuTime t 0 n - 1))
                / (s.imuTime (findRotationLoop s.imuTime t 0 n)
                  - s.imuTime (findRotationLoop s.imuTime t 0 n - 1))
            ∧ (t - s.imuTime (findRotationLoop s.imuTime t 0 n - 1))
                / (s.imuTime (findRotationLoop s.imuTime t 0 n)
                  - s.imuTime (findRotationLoop s.imuTime t 0 n - 1)) ≤ 1
            ∧ 0 ≤ (s.imuTime (findRotationLoop s.imuTime t 0 n) - t)
                / (s.imuTime (findRotationLoop s.imuTime t 0 n)
                  - s.imuTime (findRotationLoop s.imuTime t 0 n - 1))
            ∧ (s.imuTime (findRotationLoop s.imuTime t 0 n) - t)
                / (s.imuTime (findRotationLoop s.imuTime t 0 n)
                  - s.imuTime (findRotationLoop s.imuTime t 0 n - 1)) ≤ 1
            ∧ (t - s.imuTime (findRotationLoop s.imuTime t 0 n - 1))
                / (s.imuTime (findRotationLoop s.imuTime t 0 n)
                  - s.imuTime (findRotationLoop s.imuTime t 0 n - 1))
              + (s.imuTime (findRotationLoop s.imuTime t 0 n) - t)
                / (s.imuTime (findRotationLoop s.imuTime t 0 n)
                  - s.imuTime (findRotationLoop s.imuTime t 0 n - 1)) = 1)
      ∧ (∀ other : ImageProjection, other.imuPointerCur = (n : Int) →
          (∀ k, k ≤ n → other.imuTime k = s.imuTime k ∧ other.imuRotX k = s.imuRotX k
            ∧ other.imuRotY k = s.imuRotY k ∧ other.imuRotZ k = s.imuRotZ k) →
          findRotation other t = findRotation s t)
      ∧ ((∀ i j : Nat, i ≤ j → sampleRepeatedTable.imuTime i ≤ sampleRepeatedTable.imuTime j)
          ∧ findRotationLoop sampleRepeatedTable.imuTime 1 0 2 = 2
          ∧ ¬ ((1 : ℚ) > sampleRepeatedTable.imuTime 2 ∨ (2 : Nat) = 0)
          ∧ sampleRepeatedTable.imuTime 2 - sampleRepeatedTable.imuTime (2 - 1) = 0) := by
  obtain ⟨_, hle, _, _⟩ := findRotationLoop_spec s.imuTime t n 0
  refine ⟨by omega, ?_, ?_, ?_, ?_⟩
  · unfold findRotation
    rw [hcur]
    simp only [Int.toNat_ofNat]
  · intro hbranch
    obtain ⟨b1, _, b3, b4, b5⟩ := findRotation_bracket s.imuTime n t hmono hbranch
    have hd : 0 < s.imuTime (findRotationLoop s.imuTime t 0 n)
        - s.imuTime (findRotationLoop s.imuTime t 0 n - 1) := by linarith
    refine ⟨b1, hd, div_nonneg (by linarith) (le_of_lt hd), ?_,
      div_nonneg (by linarith) (le_of_lt hd), ?_, ?_⟩
    · rw [div_le_one hd]; linarith
    · rw [div_le_one hd]; linarith
    · rw [← add_div, div_eq_one_iff_eq (ne_of_gt hd)]
      ring
  · intro other ho h
    exact findRotation_congr other s n t ho hcur h
  · refine ⟨?_, ?_, ?_, ?_⟩
    · intro i j hij
      simp only [sampleRepeatedTable]
      split_ifs with h1 h2 h2
      · exact le_refl _
      · norm_num
      · omega
      · exact le_refl _
    · simp [findRotationLoop, sampleRepeatedTable]
    · simp [sampleRepeatedTable]
    · simp [sampleRepeatedTable]

/-- C22 (witness): the sample table with the times 0, 1, 2 and the query 3/2, which
is interpolated between the entries 1 and 2. -/
theorem findRotation_indices_and_weights_witness :
    sampleTableState.imuPointerCur = ((2 : Nat) : Int)
      ∧ (∀ i j : Nat, i < j → j ≤ 2 → sampleTableState.imuTime i < sampleTableState.imuTime j)
      ∧ findRotationLoop sampleTableState.imuTime (3 / 2) 0 2 ≤ 2 :=
  ⟨rfl, fun i j hij _ => by simpa [sampleTableState] using hij,
    (findRotation_indices_and_weights sampleTableState 2 rfl
      (fun i j hij _ => by simpa [sampleTableState] using hij) (3 / 2)).1⟩

/-! ### The column of the azimuth modes -/

/-- C `round` is within one half of its argument. -/
theorem cround_bounds (q : ℚ) : q - 1 / 2 ≤ (cround q : ℚ) ∧ (cround q : ℚ) ≤ q + 1 / 2 := by
  unfold cround
  split_ifs with h
  · have h1 := Int.floor_le (q + 1 / 2)
    have h2 := Int.lt_floor_add_one (q + 1 / 2)
    constructor <;> linarith
  · have h1 := Int.floor_le (-q + 1 / 2)
    have h2 := Int.lt_floor_add_one (-q + 1 / 2)
    push_cast
    constructor <;> linarith

/-- The column formula of the azimuth modes stays inside the image for horizon
angles between -180 and 180 degrees. -/
theorem azimuth_formula_range (H : Nat) (angle : ℚ) (hH : 1 ≤ H) (hlo : -180 ≤ angle)
    (hhi : angle ≤ 180) :
    0 ≤ -cround ((angle - 90) / (360 / (H : ℚ))) + (H : Int) / 2
      ∧ -cround ((angle - 90) / (360 / (H : ℚ))) + (H : Int) / 2 < 2 * (H : Int) := by
  have hHq : (1 : ℚ) ≤ (H : ℚ) := by exact_mod_cast hH
  have hx : (angle - 90) / (360 / (H : ℚ)) = (angle - 90) * (H : ℚ) / 360 := by
    field_simp
  obtain ⟨b1, b2⟩ := cround_bounds ((angle - 90) / (360 / (H : ℚ)))
  rw [hx] at b1 b2
  have hx1 : (angle - 90) * (H : ℚ) / 360 ≤ (H : ℚ) / 4 := by
    have : (angle - 90) * (H : ℚ) ≤ 90 * (H : ℚ) := by nlinarith
    linarith
  have hx2 : -(3 * (H : ℚ) / 4) ≤ (angle - 90) * (H : ℚ) / 360 := by
    have : -270 * (H : ℚ) ≤ (angle - 90) * (H : ℚ) := by nlinarith
    linarith
  have hd1 : 2 * ((H : Int) / 2) ≤ (H : Int) := by omega
  have hd2 : (H : Int) ≤ 2 * ((H : Int) / 2) + 1 := by omega
  have hd1q : 2 * (((H : Int) / 2 : Int) : ℚ) ≤ (H : ℚ) := by exact_mod_cast hd1
  have hd2q : (H : ℚ) ≤ 2 * (((H : Int) / 2 : Int) : ℚ) + 1 := by exact_mod_cast hd2
  rw [hx]
  constructor
  · by_contra hneg
    have hle : -cround ((angle - 90) * (H : ℚ) / 360) + (H : Int) / 2 ≤ -1 := by omega
    have hq : ((-cround ((angle - 90) * (H : ℚ) / 360) + (H : Int) / 2 : Int) : ℚ) ≤ -1 := by
      exact_mod_cast hle
    push_cast at hq
    linarith
  · have hq : ((-cround ((angle - 90) * (H : ℚ) / 360) + (H : Int) / 2 : Int) : ℚ)
        < ((2 * (H : Int) : Int) : ℚ) := by
      push_cast
      linarith
    exact_mod_cast hq

/-- The column of a point in the azimuth modes lies in `[0, Horizon_SCAN)`. -/
theorem azimuthColumn_range (env : ProjEnv) (thisPoint : PointType) (hH : 1 ≤ env.Horizon_SCAN)
    (hlo : -180 ≤ env.atan2 thisPoint.x thisPoint.y * 180 / env.M_PI)
    (hhi : env.atan2 thisPoint.x thisPoint.y * 180 / env.M_PI ≤ 180) :
    0 ≤ azimuthColumn env thisPoint ∧ azimuthColumn env thisPoint < (env.Horizon_SCAN : Int) := by
  obtain ⟨h1, h2⟩ := azimuth_formula_range env.Horizon_SCAN
    (env.atan2 thisPoint.x thisPoint.y * 180 / env.M_PI) hH hlo hhi
  unfold azimuthColumn
  dsimp only
  split_ifs with h
  · constructor <;> omega
  · constructor <;> omega

/-- C23: in the azimuth modes (VELODYNE, LEISHEN, OUSTER), for `Horizon_SCAN >= 1`
and a horizon angle between -180 and 180 degrees, the column
`-round((angle - 90) / (360 / Horizon_SCAN)) + Horizon_SCAN / 2`, reduced by
`Horizon_SCAN` when it is `>= Horizon_SCAN`, lies in `[0, Horizon_SCAN)`. A point
that passes the range, ring and stride checks is therefore never dropped by the
column check: it is written to its cell unless the cell is occupied, and the
cell and its flat index are inside the image. -/
theorem azimuth_column_is_in_range (env : ProjEnv) (s : ImageProjection) (pt : PointXYZIRT)
    (hs : env.sensor = SensorType.VELODYNE ∨ env.sensor = SensorType.LEISHEN
      ∨ env.sensor = SensorType.OUSTER)
    (hH : 1 ≤ env.Horizon_SCAN)
    (hlo : -180 ≤ env.atan2 pt.x pt.y * 180 / env.M_PI)
    (hhi : env.atan2 pt.x pt.y * 180 / env.M_PI ≤ 180) :
    (locateColumn env s ⟨pt.x, pt.y, pt.z, pt.intensity⟩ pt.ring).1
        = (if -cround ((env.atan2 pt.x pt.y * 180 / env.M_PI - 90) / (360 / (env.Horizon_SCAN : ℚ)))
              + (env.Horizon_SCAN : Int) / 2 ≥ (env.Horizon_SCAN : Int)
            then -cround ((env.atan2 pt.x pt.y * 180 / env.M_PI - 90)
                / (360 / (env.Horizon_SCAN : ℚ)))
              + (env.Horizon_SCAN : Int) / 2 - (env.Horizon_SCAN : Int)
            else -cround ((env.atan2 pt.x pt.y * 180 / env.M_PI - 90)
                / (360 / (env.Horizon_SCAN : ℚ)))
              + (env.Horizon_SCAN : Int) / 2)
      ∧ 0 ≤ (locateColumn env s ⟨pt.x, pt.y, pt.z, pt.intensity⟩ pt.ring).1
      ∧ (locateColumn env s ⟨pt.x, pt.y, pt.z, pt.intensity⟩ pt.ring).1 < (env.Horizon_SCAN : Int)
      ∧ (¬ (env.pointDistance ⟨pt.x, pt.y, pt.z, pt.intensity⟩ < env.lidarMinRange
            ∨ env.pointDistance ⟨pt.x, pt.y, pt.z, pt.intensity⟩ > env.lidarMaxRange) →
          0 ≤ pt.ring → pt.ring < (env.N_SCAN : Int) → pt.ring.tmod env.downsampleRate = 0 →
          (projectPoint env s pt).2
              = (if s.rangeMat pt.ring.toNat
                    (azimuthColumn env ⟨pt.x, pt.y, pt.z, pt.intensity⟩).toNat ≠ env.FLT_MAX
                  then none
                  else some (pt.ring.toNat,
                    (azimuthColumn env ⟨pt.x, pt.y, pt.z, pt.intensity⟩).toNat))
            ∧ pt.ring.toNat < env.N_SCAN
            ∧ (azimuthColumn env ⟨pt.x, pt.y, pt.z, pt.intensity⟩).toNat < env.Horizon_SCAN
            ∧ (azimuthColumn env ⟨pt.x, pt.y, pt.z, pt.intensity⟩).toNat
                + pt.ring.toNat * env.Horizon_SCAN < env.N_SCAN * env.Horizon_SCAN) := by
  have hloc : locateColumn env s ⟨pt.x, pt.y, pt.z, pt.intensity⟩ pt.ring
      = (azimuthColumn env ⟨pt.x, pt.y, pt.z, pt.intensity⟩, s) := by
    unfold locateColumn
    rw [if_pos hs]
  obtain ⟨c1, c2⟩ := azimuthColumn_range env ⟨pt.x, pt.y, pt.z, pt.intensity⟩ hH hlo hhi
  rw [hloc]
  refine ⟨rfl, c1, c2, ?_⟩
  intro hrange hr0 hrN hstride
  have hcol : (azimuthColumn env ⟨pt.x, pt.y, pt.z, pt.intensity⟩).toNat < env.Horizon_SCAN := by
    omega
  have hrow : pt.ring.toNat < env.N_SCAN := by omega
  refine ⟨?_, hrow, hcol, ?_⟩
  · unfold projectPoint
    dsimp only
    rw [if_neg hrange, if_neg (by omega), if_neg (by simpa using hstride), hloc]
    dsimp only
    rw [if_neg (by omega)]
    split_ifs <;> rfl
  · calc (azimuthColumn env ⟨pt.x, pt.y, pt.z, pt.intensity⟩).toNat
          + pt.ring.toNat * env.Horizon_SCAN
        < env.Horizon_SCAN + pt.ring.toNat * env.Horizon_SCAN := by omega
      _ = (pt.ring.toNat + 1) * env.Horizon_SCAN := by ring
      _ ≤ env.N_SCAN * env.Horizon_SCAN := Nat.mul_le_mul_right _ hrow

theorem sampleAzimuth_angle :
    sampleAzimuthEnv.atan2 3 0 * 180 / sampleAzimuthEnv.M_PI = 90 := by
  simp [sampleAzimuthEnv, sampleEnv]
  norm_num

/-- C23 (witness): a point on the positive x axis under the VELODYNE sample
configuration with four columns: the horizon angle is 90 degrees and the column
is 2. -/
theorem azimuth_column_is_in_range_witness :
    (1 : Nat) ≤ sampleAzimuthEnv.Horizon_SCAN
      ∧ sampleAzimuthEnv.atan2 3 0 * 180 / sampleAzimuthEnv.M_PI = 90
      ∧ 0 ≤ (locateColumn sampleAzimuthEnv (initial sampleAzimuthEnv) ⟨3, 0, 0, 10⟩ 0).1
      ∧ (locateColumn sampleAzimuthEnv (initial sampleAzimuthEnv) ⟨3, 0, 0, 10⟩ 0).1
          < (sampleAzimuthEnv.Horizon_SCAN : Int) :=
  ⟨by decide, sampleAzimuth_angle,
    (azimuth_column_is_in_range sampleAzimuthEnv (initial sampleAzimuthEnv) ⟨3, 0, 0, 10, 0, 0⟩
      (Or.inl rfl) (by decide) (by rw [sampleAzimuth_angle]; norm_num)
      (by rw [sampleAzimuth_angle]; norm_num)).2.1,
    (azimuth_column_is_in_range sampleAzimuthEnv (initial sampleAzimuthEnv) ⟨3, 0, 0, 10, 0, 0⟩
      (Or.inl rfl) (by decide) (by rw [sampleAzimuth_angle]; norm_num)
      (by rw [sampleAzimuth_angle]; norm_num)).2.2.1⟩

theorem sampleAzimuth_column :
    azimuthColumn sampleAzimuthEnv ⟨3, 0, 0, 10⟩ = 2 := by
  have h := sampleAzimuth_angle
  unfold azimuthColumn
  dsimp only
  rw [h]
  have hf : ⌊(2⁻¹ : ℚ)⌋ = 0 := by
    rw [Int.floor_eq_iff]
    norm_num
  simp [sampleAzimuthEnv, sampleEnv, cround, hf]

/-! ### The divisions of the deskewing and the start of a scan -/

/-- The interpolation of `findRotation` never divides by zero when the last two
stamps of the rotation table differ: below the last entry the two stamps
bracket the query time strictly. -/
theorem findRotationDivisor_nonzero (s : ImageProjection)
    (h : 0 < s.imuPointerCur →
      s.imuTime (s.imuPointerCur.toNat - 1) ≠ s.imuTime s.imuPointerCur.toNat) (t : ℚ) :
    findRotationDivisor s t ≠ some 0 := by
  obtain ⟨_, h2, h3, h4⟩ := findRotationLoop_spec s.imuTime t s.imuPointerCur.toNat 0
  unfold findRotationDivisor
  dsimp only
  split_ifs with hb
  · simp
  · push_neg at hb
    obtain ⟨_, hne⟩ := hb
    intro hz
    injection hz with hz
    rcases Nat.lt_or_ge (findRotationLoop s.imuTime t 0 s.imuPointerCur.toNat)
      s.imuPointerCur.toNat with hlt | hge
    · have a := h3 (by omega)
      have b := h4 (findRotationLoop s.imuTime t 0 s.imuPointerCur.toNat - 1) (Nat.zero_le _)
        (by omega)
      linarith
    · have heq : findRotationLoop s.imuTime t 0 s.imuPointerCur.toNat = s.imuPointerCur.toNat := by
        omega
      rw [heq] at hz hne
      have hpos : 0 < s.imuPointerCur := by omega
      exact h hpos (by linarith)

theorem findPositionDivisor_nonzero (s : ImageProjection)
    (h : s.cloudInfo.odomAvailable = true → s.odomDeskewFlag = true →
      s.timeScanEnd ≠ s.timeScanCur) :
    findPositionDivisor s ≠ some 0 := by
  unfold findPositionDivisor
  split_ifs with hb
  · simp
  · push_neg at hb
    intro hz
    injection hz with hz
    exact h (by simpa using hb.1) (by simpa using hb.2) (by linarith)

/-- With non-zero divisors the checked function returns what `deskewPoint`
returns. -/
theorem deskewPointChecked_defined (env : ProjEnv) (s : ImageProjection) (h : DivisorsNonzero s)
    (point : PointType) (relTime : ℚ) :
    deskewPointChecked env s point relTime = some (deskewPoint env s point relTime) := by
  have h1 := findRotationDivisor_nonzero s h.1 (s.timeScanCur + relTime)
  have h2 := findPositionDivisor_nonzero s h.2
  unfold deskewPointChecked
  split_ifs with ha hb
  · unfold deskewPoint
    rw [if_pos ha]
  · rcases hb with hb | hb
    · exact absurd hb h1
    · exact absurd hb h2
  · rfl

theorem SameDivisors_trans (a b c : ImageProjection) (h1 : SameDivisors a b)
    (h2 : SameDivisors b c) : SameDivisors a c := by
  obtain ⟨a1, a2, a3, a4, a5, a6, a7, a8⟩ := h1
  obtain ⟨b1, b2, b3, b4, b5, b6, b7, b8⟩ := h2
  exact ⟨a1.trans b1, a2.trans b2, a3.trans b3, a4.trans b4, a5.trans b5, a6.trans b6,
    a7.trans b7, a8.trans b8⟩

theorem DivisorsNonzero_congr (a b : ImageProjection) (h : DivisorsNonzero a)
    (e : SameDivisors b a) : DivisorsNonzero b := by
  obtain ⟨e1, e2, e3, e4, e5, e6, _, _⟩ := e
  unfold DivisorsNonzero at *
  rw [e1, e2, e3, e4, e5, e6]
  exact h

theorem deskewPoint_sameDivisors (env : ProjEnv) (s : ImageProjection) (p : PointType) (t : ℚ) :
    SameDivisors (deskewPoint env s p t).2 s := by
  unfold deskewPoint SameDivisors
  split_ifs <;> exact ⟨rfl, rfl, rfl, rfl, rfl, rfl, rfl, rfl⟩

theorem locateColumn_sameDivisors (env : ProjEnv) (s : ImageProjection) (p : PointType)
    (r : Int) : SameDivisors (locateColumn env s p r).2 s := by
  unfold locateColumn SameDivisors
  split_ifs <;> exact ⟨rfl, rfl, rfl, rfl, rfl, rfl, rfl, rfl⟩

theorem projectPoint_sameDivisors (env : ProjEnv) (s : ImageProjection) (pt : PointXYZIRT) :
    SameDivisors (projectPoint env s pt).1 s := by
  have hl := locateColumn_sameDivisors env s ⟨pt.x, pt.y, pt.z, pt.intensity⟩ pt.ring
  unfold projectPoint
  dsimp only
  generalize locateColumn env s ⟨pt.x, pt.y, pt.z, pt.intensity⟩ pt.ring = loc at hl ⊢
  have hd := deskewPoint_sameDivisors env loc.2 ⟨pt.x, pt.y, pt.z, pt.intensity⟩ pt.time
  have hr : SameDivisors s s := ⟨rfl, rfl, rfl, rfl, rfl, rfl, rfl, rfl⟩
  split_ifs
  · exact hr
  · exact hr
  · exact hr
  · exact hl
  · exact hl
  · exact SameDivisors_trans _ _ _ hd hl

theorem projectLoop_sameDivisors (env : ProjEnv) (pts : List PointXYZIRT) (s : ImageProjection) :
    SameDivisors (projectLoop env s pts) s := by
  induction pts generalizing s with
  | nil => exact ⟨rfl, rfl, rfl, rfl, rfl, rfl, rfl, rfl⟩
  | cons pt rest ih =>
    exact SameDivisors_trans _ _ _ (ih _) (projectPoint_sameDivisors env s pt)

theorem deskewCalls_sameDivisors (env : ProjEnv) (calls : List (PointType × ℚ))
    (s : ImageProjection) :
    SameDivisors (calls.foldl (fun st c => (deskewPoint env st c.1 c.2).2) s) s := by
  induction calls generalizing s with
  | nil => exact ⟨rfl, rfl, rfl, rfl, rfl, rfl, rfl, rfl⟩
  | cons c rest ih =>
    exact SameDivisors_trans _ _ _ (ih _) (deskewPoint_sameDivisors env s c.1 c.2)

theorem convertCloud_firstPointFlag (env : ProjEnv) (s : ImageProjection) :
    (convertCloud env s).firstPointFlag = s.firstPointFlag := by
  unfold convertCloud leishenConvert
  dsimp only
  split_ifs <;> rfl

theorem cacheChecks_firstPointFlag (s : ImageProjection) :
    (checkPointTime (checkRingChannel (checkDenseFlag s))).firstPointFlag = s.firstPointFlag := by
  unfold checkPointTime checkRingChannel checkDenseFlag
  split_ifs <;> rfl

/-- The flag `firstPointFlag` is not touched by `cachePointCloud`. -/
theorem cachePointCloud_firstPointFlag (env : ProjEnv) (s : ImageProjection) (m : CloudMsg) :
    (cachePointCloud env s m).2.firstPointFlag = s.firstPointFlag := by
  unfold cachePointCloud
  dsimp only
  split_ifs
  · rfl
  · dsimp only
    rw [cacheChecks_firstPointFlag]
    unfold getTimestamp
    dsimp only
    rw [convertCloud_firstPointFlag]

theorem imuDeskewLoop_firstPointFlag (env : ProjEnv) (q : List ImuMsg) (s : ImageProjection) :
    (imuDeskewLoop env q s).firstPointFlag = s.firstPointFlag := by
  induction q generalizing s with
  | nil => rfl
  | cons m rest ih =>
    unfold imuDeskewLoop imuAngular2rosAngular
    dsimp only
    split_ifs <;> first | rfl | (rw [ih])

/-- The flag `firstPointFlag` is not touched by `deskewInfo`. -/
theorem deskewInfo_firstPointFlag (env : ProjEnv) (s : ImageProjection) :
    (deskewInfo env s).2.firstPointFlag = s.firstPointFlag := by
  have h1 : (imuDeskewInfo env s).firstPointFlag = s.firstPointFlag := by
    unfold imuDeskewInfo
    dsimp only
    split_ifs
    · rfl
    · exact imuDeskewLoop_firstPointFlag env _ _
    · exact imuDeskewLoop_firstPointFlag env _ _
  unfold deskewInfo
  split
  · split_ifs
    · rfl
    · exact (odomDeskewInfo_sameInputs env _).2.1.trans h1
  · rfl

/-- A call of `cloudHandler` ends with `firstPointFlag` set when it is entered
with the flag set: an early return leaves the flag alone, and a scan that is
processed ends in `resetParameters`. -/
theorem cloudHandler_firstPointFlag (env : ProjEnv) (s : ImageProjection) (m : CloudMsg)
    (h : s.firstPointFlag = true) : (cloudHandler env s m).firstPointFlag = true := by
  unfold cloudHandler
  dsimp only
  split_ifs
  · exact (cachePointCloud_firstPointFlag env s m).trans h
  · exact (deskewInfo_firstPointFlag env _).trans ((cachePointCloud_firstPointFlag env s m).trans h)
  · rfl

theorem afterInputs_snoc (env : ProjEnv) (inputs : List Input) (i : Input) :
    afterInputs env (inputs ++ [i]) = receive env (afterInputs env inputs) i := by
  unfold afterInputs
  rw [List.foldl_append]
  rfl

/-- Every callback is entered with `firstPointFlag` set: the constructor ends in
`resetParameters`, and so does every call of `cloudHandler` that projects a
scan. -/
theorem afterInputs_firstPointFlag (env : ProjEnv) (inputs : List Input) :
    (afterInputs env inputs).firstPointFlag = true := by
  induction inputs using List.reverseRecOn with
  | nil => rfl
  | append_singleton l i ih =>
    rw [afterInputs_snoc]
    cases i with
    | imu m => exact ih
    | odometry m => exact ih
    | cloud m => exact cloudHandler_firstPointFlag env _ m ih

/-- The scan taken by a call of `cloudHandler` is prepared and projected with
`firstPointFlag` set. -/
theorem scan_firstPointFlag (env : ProjEnv) (inputs : List Input) (m : CloudMsg) :
    (cachePointCloud env (afterInputs env inputs) m).2.firstPointFlag = true
      ∧ (deskewInfo env (cachePointCloud env (afterInputs env inputs) m).2).2.firstPointFlag
          = true := by
  have h := (cachePointCloud_firstPointFlag env (afterInputs env inputs) m).trans
    (afterInputs_firstPointFlag env inputs)
  exact ⟨h, (deskewInfo_firstPointFlag env _).trans h⟩
/-- The rotation table is usable only when at least two samples entered it. -/
theorem imuDeskewInfo_available (env : ProjEnv) (s : ImageProjection) (taken : List ImuMsg)
    (htaken : taken = (s.imuQueue.dropWhile
        (fun m => decide (m.stamp < s.timeScanCur - 1 / 100))).takeWhile
          (fun m => decide (m.stamp ≤ s.timeScanEnd + 1 / 100)))
    (hav : (imuDeskewInfo env s).cloudInfo.imuAvailable = true) : 2 ≤ taken.length := by
  have g := (imuDeskewLoop_times env
    (s.imuQueue.dropWhile (fun m => decide (m.stamp < s.timeScanCur - 1 / 100)))
    { s with
      cloudInfo := { s.cloudInfo with imuAvailable := false }
      imuQueue := s.imuQueue.dropWhile (fun m => decide (m.stamp < s.timeScanCur - 1 / 100))
      imuPointerCur := 0 }
    (le_refl _)).1
  dsimp only at g
  rw [← htaken] at g
  unfold imuDeskewInfo at hav
  dsimp only at hav
  split_ifs at hav with h1 h2
  · rw [imuDeskewLoop_imuAvailable] at hav
    exact absurd hav (by simp)
  · try dsimp only at h2
    omega

/-- When the last two samples that enter the rotation table carry different
stamps and no odometry is available, the divisions of the deskewing have
non-zero divisors. -/
theorem imuDeskewInfo_divisors (env : ProjEnv) (s : ImageProjection) (used : List ImuMsg)
    (hused : used = (s.imuQueue.dropWhile
        (fun m => decide (m.stamp < s.timeScanCur - 1 / 100))).takeWhile
          (fun m => decide (m.stamp ≤ s.timeScanEnd + 1 / 100)))
    (hstamps : ∀ (k : Nat) (a b : ImuMsg), used[k]? = some a → used[k + 1]? = some b →
      k + 2 = used.length → a.stamp ≠ b.stamp)
    (hodom : (odomDeskewInfo env (imuDeskewInfo env s)).cloudInfo.odomAvailable = false)
    (hav : (odomDeskewInfo env (imuDeskewInfo env s)).cloudInfo.imuAvailable = true) :
    DivisorsNonzero (odomDeskewInfo env (imuDeskewInfo env s)) := by
  obtain ⟨⟨e1, _, _, _, e5, e6, _⟩, _, _⟩ := odomDeskewInfo_sameInputs env (imuDeskewInfo env s)
  rw [e6] at hav
  have hlen := imuDeskewInfo_available env s used hused hav
  obtain ⟨_, tcur, ttab⟩ := imuDeskewInfo_table env s used hused hlen
  constructor
  · intro _
    rw [e1, e5, tcur]
    have hl1 : used.length - 2 < used.length := by omega
    have hl2 : used.length - 2 + 1 < used.length := by omega
    have ha : used[used.length - 2]? = some used[used.length - 2] :=
      List.getElem?_eq_getElem hl1
    have hb : used[used.length - 2 + 1]? = some used[used.length - 2 + 1] :=
      List.getElem?_eq_getElem hl2
    have hne := hstamps (used.length - 2) _ _ ha hb (by omega)
    have i1 : ((used.length : Int) - 1).toNat - 1 = used.length - 2 := by omega
    have i2 : ((used.length : Int) - 1).toNat = used.length - 2 + 1 := by omega
    rw [i1, i2, ttab _ _ ha, ttab _ _ hb]
    exact hne
  · intro ho
    rw [hodom] at ho
    exact absurd ho (by simp)

/-- With deskewing disabled or with non-zero divisors the checked function
returns what `deskewPoint` returns. -/
theorem deskewPointChecked_eq (env : ProjEnv) (s : ImageProjection)
    (h : s.cloudInfo.imuAvailable = true → DivisorsNonzero s) (point : PointType) (relTime : ℚ) :
    deskewPointChecked env s point relTime = some (deskewPoint env s point relTime) := by
  by_cases hav : s.cloudInfo.imuAvailable = true
  · exact deskewPointChecked_defined env s (h hav) point relTime
  · have hf : s.cloudInfo.imuAvailable = false := by simpa using hav
    unfold deskewPointChecked deskewPoint
    rw [if_pos (Or.inr hf), if_pos (Or.inr hf)]

/-- C4 (amended): for every scan a call of `cloudHandler` takes out of the
queue, after any history of messages: when every IMU sample that enters the
rotation table (the samples of the trimmed queue up to the first one later than
`timeScanEnd + 0.01`) has zero angular velocity, the last two of them carry
different stamps, and no odometry is available after `imuDeskewInfo` and
`odomDeskewInfo`, every call of `deskewPoint` in the scan divides by non-zero
values only and returns the raw point: after any number of earlier calls, and in
every state the loop of `projectPointCloud` calls it in. (`pcl::getTransformation`
of zero arguments is the identity.) -/
theorem deskewPoint_identity_without_motion (env : ProjEnv) (inputs : List Input)
    (laserCloudMsg : CloudMsg) (s : ImageProjection) (used : List ImuMsg)
    (hs : s = (cachePointCloud env (afterInputs env inputs) laserCloudMsg).2)
    (hused : used = (s.imuQueue.dropWhile
        (fun m => decide (m.stamp < s.timeScanCur - 1 / 100))).takeWhile
          (fun m => decide (m.stamp ≤ s.timeScanEnd + 1 / 100)))
    (hT : env.getTransformation 0 0 0 0 0 0 = Affine3.identity)
    (hzero : ∀ m ∈ used, m.angular_velocity = Vec3.zero)
    (hstamps : ∀ (k : Nat) (a b : ImuMsg), used[k]? = some a → used[k + 1]? = some b →
      k + 2 = used.length → a.stamp ≠ b.stamp)
    (hodom : (odomDeskewInfo env (imuDeskewInfo env s)).cloudInfo.odomAvailable = false)
    (point : PointType) (relTime : ℚ) :
    (∀ calls : List (PointType × ℚ),
        (deskewPointChecked env
          (calls.foldl (fun st c => (deskewPoint env st c.1 c.2).2)
            (odomDeskewInfo env (imuDeskewInfo env s)))
          point relTime).map Prod.fst = some point)
      ∧ ∀ (pre : List PointXYZIRT) (rowIdn : Int),
          (deskewPointChecked env
            (locateColumn env (projectLoop env (odomDeskewInfo env (imuDeskewInfo env s)) pre)
              point rowIdn).2
            point relTime).map Prod.fst = some point := by
  have hfirst : s.firstPointFlag = true := by
    rw [hs]
    exact (scan_firstPointFlag env inputs laserCloudMsg).1
  have hdiv := imuDeskewInfo_divisors env s used hused hstamps hodom
  subst hused
  obtain ⟨hz, hf, _⟩ := imuDeskewInfo_zero env s hzero
  obtain ⟨hsame, hf2, _⟩ := odomDeskewInfo_sameInputs env (imuDeskewInfo env s)
  have hstart : DeskewIsIdentity (odomDeskewInfo env (imuDeskewInfo env s)) := by
    refine ⟨?_, hodom, Or.inl (by rw [hf2, hf, hfirst])⟩
    obtain ⟨_, e2, e3, e4, e5, e6, _⟩ := hsame
    unfold ZeroTable at hz ⊢
    rw [e2, e3, e4, e5, e6]
    exact hz
  have hall : ∀ (l : List (PointType × ℚ)) (st : ImageProjection), DeskewIsIdentity st →
      DeskewIsIdentity (l.foldl (fun st c => (deskewPoint env st c.1 c.2).2) st) := by
    intro l
    induction l with
    | nil => exact fun st h => h
    | cons c rest ih =>
      intro st h
      exact ih _ (deskewPoint_identity_step env hT st h c.1 c.2).2
  have hchk : ∀ st : ImageProjection,
      SameDivisors st (odomDeskewInfo env (imuDeskewInfo env s)) →
      deskewPointChecked env st point relTime = some (deskewPoint env st point relTime) := by
    intro st hsd
    apply deskewPointChecked_eq
    intro hav
    exact DivisorsNonzero_congr _ _ (hdiv (by rw [← hsd.2.2.2.2.2.2.2]; exact hav)) hsd
  constructor
  · intro calls
    rw [hchk _ (deskewCalls_sameDivisors env calls _), Option.map_some']
    exact congrArg some (deskewPoint_identity_step env hT _ (hall calls _ hstart) point relTime).1
  · intro pre rowIdn
    rw [hchk _ (SameDivisors_trans _ _ _ (locateColumn_sameDivisors env _ point rowIdn)
      (projectLoop_sameDivisors env pre _)), Option.map_some']
    exact congrArg some (deskewPoint_identity_step env hT _
      (locateColumn_identity env _ point rowIdn (projectLoop_identity env hT pre _ hstart))
      point relTime).1
theorem convertCloud_deskewFlag (env : ProjEnv) (s : ImageProjection) :
    (convertCloud env s).deskewFlag = s.deskewFlag := by
  unfold convertCloud leishenConvert
  dsimp only
  split_ifs <;> rfl

/-- The first scan taken out of the queue decides `deskewFlag`: 1 when the scan
has a time channel, -1 otherwise. -/
theorem cachePointCloud_deskewFlag (env : ProjEnv) (s : ImageProjection) (m : CloudMsg)
    (h : 2 ≤ s.cloudQueue.length) (h0 : s.deskewFlag = 0) :
    (cachePointCloud env s m).2.deskewFlag
      = if ((s.cloudQueue ++ [m]).headD s.currentCloudMsg).fields.any
            (fun name => name == "time" || name == "t")
        then 1 else -1 := by
  rw [cachePointCloud_taken env s m h]
  obtain ⟨_, _, _, v4, _⟩ := convertCloud_streams env
    { s with
      cloudQueue := (s.cloudQueue ++ [m]).tail
      currentCloudMsg := (s.cloudQueue ++ [m]).headD s.currentCloudMsg }
  have v5 := convertCloud_deskewFlag env
    { s with
      cloudQueue := (s.cloudQueue ++ [m]).tail
      currentCloudMsg := (s.cloudQueue ++ [m]).headD s.currentCloudMsg }
  dsimp only at v4 v5 ⊢
  generalize convertCloud env
    { s with
      cloudQueue := (s.cloudQueue ++ [m]).tail
      currentCloudMsg := (s.cloudQueue ++ [m]).headD s.currentCloudMsg } = c at v4 v5 ⊢
  have hd : (checkRingChannel (checkDenseFlag (getTimestamp c))).deskewFlag = 0
      ∧ (checkRingChannel (checkDenseFlag (getTimestamp c))).currentCloudMsg
        = (s.cloudQueue ++ [m]).headD s.currentCloudMsg := by
    unfold checkRingChannel checkDenseFlag getTimestamp
    dsimp only
    split_ifs <;> exact ⟨v5.trans h0, v4⟩
  unfold checkPointTime
  rw [if_pos hd.1, hd.2]
  split_ifs <;> rfl

theorem imuDeskewLoop_frame (env : ProjEnv) (q : List ImuMsg) (s : ImageProjection) :
    (imuDeskewLoop env q s).deskewFlag = s.deskewFlag
      ∧ (imuDeskewLoop env q s).timeScanEnd = s.timeScanEnd
      ∧ (imuDeskewLoop env q s).odomQueue = s.odomQueue := by
  induction q generalizing s with
  | nil => exact ⟨rfl, rfl, rfl⟩
  | cons m rest ih =>
    unfold imuDeskewLoop imuAngular2rosAngular
    dsimp only
    split_ifs <;> first | exact ⟨rfl, rfl, rfl⟩ | exact ih _

/-- The preparation of a scan leaves `deskewFlag` and the scan times alone. -/
theorem deskewPrep_frame (env : ProjEnv) (s : ImageProjection) :
    (odomDeskewInfo env (imuDeskewInfo env s)).deskewFlag = s.deskewFlag
      ∧ (odomDeskewInfo env (imuDeskewInfo env s)).timeScanCur = s.timeScanCur
      ∧ (odomDeskewInfo env (imuDeskewInfo env s)).timeScanEnd = s.timeScanEnd
      ∧ (imuDeskewInfo env s).timeScanCur = s.timeScanCur
      ∧ (imuDeskewInfo env s).timeScanEnd = s.timeScanEnd
      ∧ (imuDeskewInfo env s).odomQueue = s.odomQueue := by
  have h1 : (imuDeskewInfo env s).deskewFlag = s.deskewFlag
      ∧ (imuDeskewInfo env s).timeScanCur = s.timeScanCur
      ∧ (imuDeskewInfo env s).timeScanEnd = s.timeScanEnd
      ∧ (imuDeskewInfo env s).odomQueue = s.odomQueue := by
    unfold imuDeskewInfo
    dsimp only
    split_ifs
    · exact ⟨rfl, rfl, rfl, rfl⟩
    · exact ⟨(imuDeskewLoop_frame env _ _).1, imuDeskewLoop_timeScanCur env _ _,
        (imuDeskewLoop_frame env _ _).2.1, (imuDeskewLoop_frame env _ _).2.2⟩
    · exact ⟨(imuDeskewLoop_frame env _ _).1, imuDeskewLoop_timeScanCur env _ _,
        (imuDeskewLoop_frame env _ _).2.1, (imuDeskewLoop_frame env _ _).2.2⟩
  have h2 : ∀ st : ImageProjection, (odomDeskewInfo env st).timeScanCur = st.timeScanCur
      ∧ (odomDeskewInfo env st).timeScanEnd = st.timeScanEnd := by
    intro st
    unfold odomDeskewInfo
    dsimp only
    split
    · split_ifs <;> exact ⟨rfl, rfl⟩
    · exact ⟨rfl, rfl⟩
  obtain ⟨⟨_, _, _, _, _, _, e7⟩, _, _⟩ := odomDeskewInfo_sameInputs env (imuDeskewInfo env s)
  exact ⟨e7.trans h1.1, (h2 _).1.trans h1.2.1, (h2 _).2.trans h1.2.2.1, h1.2.1, h1.2.2.1,
    h1.2.2.2⟩

/-- The state in which a scan is prepared, when a third scan arrives at a node
with an azimuth-free or Velodyne sensor and two scans queued: the queues of
samples are as they were, the scan times are those of the oldest scan, and a
first scan with a time channel enables the deskewing. -/
theorem cachePointCloud_scan (env : ProjEnv) (s : ImageProjection) (m front second : CloudMsg)
    (hq : s.cloudQueue = [front, second])
    (hs : env.sensor = SensorType.VELODYNE ∨ env.sensor = SensorType.LIVOX) :
    (cachePointCloud env s m).2.imuQueue = s.imuQueue
      ∧ (cachePointCloud env s m).2.odomQueue = s.odomQueue
      ∧ (cachePointCloud env s m).2.timeScanCur = front.stamp
      ∧ (cachePointCloud env s m).2.timeScanEnd = front.stamp + backTime front.points
      ∧ (s.deskewFlag = 0 →
          (cachePointCloud env s m).2.deskewFlag
            = if front.fields.any (fun name => name == "time" || name == "t") then 1 else -1) := by
  have hl : 2 ≤ s.cloudQueue.length := by rw [hq]; exact le_refl 2
  obtain ⟨f1, f2, _⟩ := cachePointCloud_frame env s m
  obtain ⟨t1, t2⟩ := cachePointCloud_times env s m hl
  obtain ⟨_, c2, _⟩ := (cachePointCloud_call env s m).2 hl
  have c3 := cachePointCloud_cloud env s m hl hs
  have hh : (s.cloudQueue ++ [m]).headD s.currentCloudMsg = front := by rw [hq]; rfl
  rw [hh] at c2
  rw [c2] at t1 c3
  rw [c3, t1] at t2
  refine ⟨f1, f2, t1, t2, fun h0 => ?_⟩
  rw [cachePointCloud_deskewFlag env s m hl h0, hh]
theorem sampleStill_entry :
    afterInputs sampleEnv sampleStillInputs
      = { initial sampleEnv with
          imuQueue := [sampleStillImu 0, sampleStillImu (1 / 2), sampleStillImu 1, sampleTurningImu 3]
          cloudQueue := [sampleLongScan 0, sampleScan 5] } := rfl

/-- The samples that enter the rotation table of the sample scan. -/
theorem sampleStill_used :
    [sampleStillImu 0, sampleStillImu (1 / 2), sampleStillImu 1]
      = (sampleStillScan.imuQueue.dropWhile
          (fun m => decide (m.stamp < sampleStillScan.timeScanCur - 1 / 100))).takeWhile
            (fun m => decide (m.stamp ≤ sampleStillScan.timeScanEnd + 1 / 100)) := by
  obtain ⟨h1, _, h3, h4, _⟩ := cachePointCloud_scan sampleEnv (afterInputs sampleEnv sampleStillInputs)
    (sampleScan 6) (sampleLongScan 0) (sampleScan 5) (by rw [sampleStill_entry]) (Or.inr rfl)
  unfold sampleStillScan
  rw [h1, h3, h4, sampleStill_entry]
  simp [sampleLongScan, backTime, List.dropWhile, List.takeWhile, sampleStillImu, sampleTurningImu]
  norm_num

theorem sampleStill_no_odometry :
    (odomDeskewInfo sampleEnv (imuDeskewInfo sampleEnv sampleStillScan)).cloudInfo.odomAvailable
      = false := by
  apply odomDeskewInfo_no_odometry
  unfold sampleStillScan
  rw [(cachePointCloud_frame _ _ _).2.1, sampleStill_entry]
  rfl

/-- C4 (witness): three IMU samples at rest with the stamps 0, 1/2 and 1 enter
the rotation table of the sample scan (a turning sample 2 s after the scan does
not), there is no odometry; the second deskewed point of the scan is returned
unchanged. -/
theorem deskewPoint_identity_without_motion_witness :
    sampleEnv.getTransformation 0 0 0 0 0 0 = Affine3.identity
      ∧ (∀ m ∈ [sampleStillImu 0, sampleStillImu (1 / 2), sampleStillImu 1],
          m.angular_velocity = Vec3.zero)
      ∧ (sampleStillImu (1 / 2)).stamp ≠ (sampleStillImu 1).stamp
      ∧ (odomDeskewInfo sampleEnv (imuDeskewInfo sampleEnv sampleStillScan)).cloudInfo.odomAvailable
          = false
      ∧ (deskewPointChecked sampleEnv
          ([((⟨1, 2, 3, 4⟩ : PointType), (1 / 10 : ℚ))].foldl
            (fun st c => (deskewPoint sampleEnv st c.1 c.2).2)
            (odomDeskewInfo sampleEnv (imuDeskewInfo sampleEnv sampleStillScan)))
          ⟨5, 6, 7, 8⟩ (1 / 2)).map Prod.fst = some ⟨5, 6, 7, 8⟩ :=
  ⟨rfl, by simp [sampleStillImu], by norm_num [sampleStillImu], sampleStill_no_odometry,
    (deskewPoint_identity_without_motion sampleEnv sampleStillInputs (sampleScan 6) sampleStillScan
      [sampleStillImu 0, sampleStillImu (1 / 2), sampleStillImu 1] rfl sampleStill_used rfl
      (by simp [sampleStillImu])
      (by
        intro k a b ha hb hk
        have hk1 : k = 1 := by simpa using hk
        subst hk1
        simp at ha hb
        subst ha hb
        norm_num [sampleStillImu])
      sampleStill_no_odometry ⟨5, 6, 7, 8⟩ (1 / 2)).1 [(⟨1, 2, 3, 4⟩, 1 / 10)]⟩

theorem sampleRepeated_entry :
    afterInputs sampleEnv sampleRepeatedInputs
      = { initial sampleEnv with
          imuQueue := [sampleStillImu 0, sampleStillImu 1, sampleStillImu 1]
          cloudQueue := [sampleLongScan 0, sampleScan 5] } := rfl

theorem sampleRepeated_used :
    [sampleStillImu 0, sampleStillImu 1, sampleStillImu 1]
      = (sampleRepeatedScan.imuQueue.dropWhile
          (fun m => decide (m.stamp < sampleRepeatedScan.timeScanCur - 1 / 100))).takeWhile
            (fun m => decide (m.stamp ≤ sampleRepeatedScan.timeScanEnd + 1 / 100)) := by
  obtain ⟨h1, _, h3, h4, _⟩ := cachePointCloud_scan sampleEnv
    (afterInputs sampleEnv sampleRepeatedInputs)
    (sampleScan 6) (sampleLongScan 0) (sampleScan 5) (by rw [sampleRepeated_entry]) (Or.inr rfl)
  unfold sampleRepeatedScan
  rw [h1, h3, h4, sampleRepeated_entry]
  simp [sampleLongScan, backTime, List.dropWhile, List.takeWhile, sampleStillImu]
  norm_num

/-- The scan prepared from the sample with a repeated stamp: deskewing is
enabled, the scan starts at 0, and the rotation table has the stamps 0, 1, 1. -/
theorem sampleRepeated_table :
    (odomDeskewInfo sampleEnv (imuDeskewInfo sampleEnv sampleRepeatedScan)).deskewFlag = 1
      ∧ (odomDeskewInfo sampleEnv (imuDeskewInfo sampleEnv sampleRepeatedScan)).cloudInfo.imuAvailable
          = true
      ∧ (odomDeskewInfo sampleEnv (imuDeskewInfo sampleEnv sampleRepeatedScan)).timeScanCur = 0
      ∧ (odomDeskewInfo sampleEnv (imuDeskewInfo sampleEnv sampleRepeatedScan)).imuPointerCur = 2
      ∧ (odomDeskewInfo sampleEnv (imuDeskewInfo sampleEnv sampleRepeatedScan)).imuTime 0 = 0
      ∧ (odomDeskewInfo sampleEnv (imuDeskewInfo sampleEnv sampleRepeatedScan)).imuTime 1 = 1
      ∧ (odomDeskewInfo sampleEnv (imuDeskewInfo sampleEnv sampleRepeatedScan)).imuTime 2 = 1 := by
  obtain ⟨_, _, h3, _, h5⟩ := cachePointCloud_scan sampleEnv
    (afterInputs sampleEnv sampleRepeatedInputs)
    (sampleScan 6) (sampleLongScan 0) (sampleScan 5) (by rw [sampleRepeated_entry]) (Or.inr rfl)
  have hflag := h5 (by rw [sampleRepeated_entry]; rfl)
  obtain ⟨d1, d2, _⟩ := deskewPrep_frame sampleEnv sampleRepeatedScan
  obtain ⟨⟨e1, _, _, _, e5, e6, _⟩, _, _⟩ :=
    odomDeskewInfo_sameInputs sampleEnv (imuDeskewInfo sampleEnv sampleRepeatedScan)
  obtain ⟨t1, t2, t3⟩ := imuDeskewInfo_table sampleEnv sampleRepeatedScan _ sampleRepeated_used
    (by decide)
  rw [d1, d2, e1, e5, e6]
  refine ⟨?_, t1, ?_, t2, ?_, ?_, ?_⟩
  · unfold sampleRepeatedScan
    rw [hflag]
    decide
  · unfold sampleRepeatedScan
    rw [h3]
    rfl
  · exact t3 0 (sampleStillImu 0) rfl
  · exact t3 1 (sampleStillImu 1) rfl
  · exact t3 2 (sampleStillImu 1) rfl

/-- C4 (counterexample): the samples that enter the rotation table are at rest
and carry the stamps 0, 1 and 1, and there is no odometry. For the last point of
the scan, at time offset 1, `findRotation` interpolates between the last two
entries and divides by the difference of their stamps, which is 0: the angles,
and with them the coordinates of the returned point, are NaN in the source, not
the raw coordinates. -/
theorem repeated_stamp_leaves_point_undefined :
    (∀ m ∈ (sampleRepeatedScan.imuQueue.dropWhile
          (fun m => decide (m.stamp < sampleRepeatedScan.timeScanCur - 1 / 100))).takeWhile
            (fun m => decide (m.stamp ≤ sampleRepeatedScan.timeScanEnd + 1 / 100)),
        m.angular_velocity = Vec3.zero)
      ∧ (odomDeskewInfo sampleEnv
          (imuDeskewInfo sampleEnv sampleRepeatedScan)).cloudInfo.odomAvailable = false
      ∧ findRotationDivisor (odomDeskewInfo sampleEnv (imuDeskewInfo sampleEnv sampleRepeatedScan))
          ((odomDeskewInfo sampleEnv (imuDeskewInfo sampleEnv sampleRepeatedScan)).timeScanCur + 1)
          = some 0
      ∧ deskewPointChecked sampleEnv
          (odomDeskewInfo sampleEnv (imuDeskewInfo sampleEnv sampleRepeatedScan))
          ⟨0, 0, 5, 30⟩ 1 = none := by
  obtain ⟨h1, h2, h3, h4, h5, h6, h7⟩ := sampleRepeated_table
  have hno : (odomDeskewInfo sampleEnv
      (imuDeskewInfo sampleEnv sampleRepeatedScan)).cloudInfo.odomAvailable = false := by
    apply odomDeskewInfo_no_odometry
    unfold sampleRepeatedScan
    rw [(cachePointCloud_frame _ _ _).2.1, sampleRepeated_entry]
    rfl
  have hdiv : findRotationDivisor
      (odomDeskewInfo sampleEnv (imuDeskewInfo sampleEnv sampleRepeatedScan))
      ((odomDeskewInfo sampleEnv (imuDeskewInfo sampleEnv sampleRepeatedScan)).timeScanCur + 1)
      = some 0 := by
    unfold findRotationDivisor
    rw [h3, h4]
    have hl : findRotationLoop
        (odomDeskewInfo sampleEnv (imuDeskewInfo sampleEnv sampleRepeatedScan)).imuTime (0 + 1) 0
        (2 : Int).toNat = 2 := by
      show findRotationLoop _ (0 + 1) 0 2 = 2
      unfold findRotationLoop
      rw [h5, if_neg (by norm_num)]
      unfold findRotationLoop
      rw [h6, if_neg (by norm_num)]
      rfl
    dsimp only
    rw [hl, h7, if_neg (by norm_num)]
    show some ((1 : ℚ) - (odomDeskewInfo sampleEnv
      (imuDeskewInfo sampleEnv sampleRepeatedScan)).imuTime 1) = some 0
    rw [h6]
    norm_num
  refine ⟨?_, hno, hdiv, ?_⟩
  · rw [← sampleRepeated_used]
    simp [sampleStillImu]
  · unfold deskewPointChecked
    rw [if_neg (by rw [h1, h2]; simp), if_pos (Or.inl hdiv)]
end ImageProjection

/-! ## Theorems: the estimator -/

namespace IMUPreintegration

/-- Without a buffered IMU sample `odometryHandler` only records the correction time. -/
theorem odometryHandler_empty (env : PreintEnv) (s : IMUPreintegration) (odomMsg : OdomMsg)
    (hq : s.imuQueOpt = []) :
    odometryHandler env s odomMsg = { s with currentCorrectionTime := odomMsg.stamp } := by
  unfold odometryHandler
  dsimp only
  rw [hq]
  rfl

/-- In the Uninitialized state with a buffered sample `odometryHandler` runs the
initialisation branch. -/
theorem odometryHandler_uninitialized (env : PreintEnv) (s : IMUPreintegration)
    (odomMsg : OdomMsg) (hq : s.imuQueOpt ≠ []) (hsys : s.systemInitialized = false) :
    odometryHandler env s odomMsg
      = initializeSystem env { s with currentCorrectionTime := odomMsg.stamp }
          (lidarPose env odomMsg) := by
  have he : s.imuQueOpt.isEmpty = false := by
    cases h : s.imuQueOpt with
    | nil => exact absurd h hq
    | cons _ _ => rfl
  unfold odometryHandler
  dsimp only
  rw [he, hsys]
  rfl

/-- In the Running state with a buffered sample `odometryHandler` solves and then
either resets or re-propagates. -/
theorem odometryHandler_running (env : PreintEnv) (s : IMUPreintegration) (odomMsg : OdomMsg)
    (hq : s.imuQueOpt ≠ []) (hsys : s.systemInitialized = true) :
    odometryHandler env s odomMsg
      = if failureDetection env
            (integrateAndOptimize env
              (if s.key = env.resetPreintegrationNum
                then reanchor env { s with currentCorrectionTime := odomMsg.stamp }
                else { s with currentCorrectionTime := odomMsg.stamp })
              (lidarPose env odomMsg) (degenerate odomMsg)).prevVel_
            (integrateAndOptimize env
              (if s.key = env.resetPreintegrationNum
                then reanchor env { s with currentCorrectionTime := odomMsg.stamp }
                else { s with currentCorrectionTime := odomMsg.stamp })
              (lidarPose env odomMsg) (degenerate odomMsg)).prevBias_ = true
        then resetParams
          (integrateAndOptimize env
            (if s.key = env.resetPreintegrationNum
              then reanchor env { s with currentCorrectionTime := odomMsg.stamp }
              else { s with currentCorrectionTime := odomMsg.stamp })
            (lidarPose env odomMsg) (degenerate odomMsg))
        else repropagate env
          (integrateAndOptimize env
            (if s.key = env.resetPreintegrationNum
              then reanchor env { s with currentCorrectionTime := odomMsg.stamp }
              else { s with currentCorrectionTime := odomMsg.stamp })
            (lidarPose env odomMsg) (degenerate odomMsg)) := by
  have he : s.imuQueOpt.isEmpty = false := by
    cases h : s.imuQueOpt with
    | nil => exact absurd h hq
    | cons _ _ => rfl
  unfold odometryHandler
  dsimp only
  rw [he, hsys]
  rfl

/-- The state left by the initialisation branch. -/
theorem initializeSystem_result (env : PreintEnv) (s : IMUPreintegration) (pose : Pose3) :
    (initializeSystem env s pose).systemInitialized = true
      ∧ (initializeSystem env s pose).key = 1
      ∧ (initializeSystem env s pose).optimizer.updates
          = [([Factor.priorPose (Symbol.X 0) (pose.mul env.lidar2Imu) NoiseModel.priorPoseNoise,
               Factor.priorVel (Symbol.V 0) ⟨0, 0, 0⟩ NoiseModel.priorVelNoise,
               Factor.priorBias (Symbol.B 0) ⟨Vec3.zero, Vec3.zero⟩ NoiseModel.priorBiasNoise],
              [(Symbol.X 0, Value.pose (pose.mul env.lidar2Imu)),
               (Symbol.V 0, Value.vel ⟨0, 0, 0⟩),
               (Symbol.B 0, Value.bias ⟨Vec3.zero, Vec3.zero⟩)])]
      ∧ (initializeSystem env s pose).prevPose_ = pose.mul env.lidar2Imu
      ∧ (initializeSystem env s pose).prevVel_ = ⟨0, 0, 0⟩
      ∧ (initializeSystem env s pose).prevBias_ = ⟨Vec3.zero, Vec3.zero⟩
      ∧ (initializeSystem env s pose).graphFactors = []
      ∧ (initializeSystem env s pose).graphValues = []
      ∧ (initializeSystem env s pose).imuIntegratorOpt_ = ⟨⟨Vec3.zero, Vec3.zero⟩, []⟩
      ∧ (initializeSystem env s pose).imuIntegratorImu_ = ⟨⟨Vec3.zero, Vec3.zero⟩, []⟩
      ∧ (initializeSystem env s pose).doneFirstOpt = s.doneFirstOpt
      ∧ (initializeSystem env s pose).lastImuT_imu = s.lastImuT_imu
      ∧ (initializeSystem env s pose).imuQueOpt
          = (trimLoop (s.currentCorrectionTime - env.delta_t) s.imuQueOpt s.lastImuT_opt).1 := by
  simp [initializeSystem, trimOldIMUData, resetOptimization, ISAM2.update,
    Preintegrated.resetIntegrationAndSetBias]

/-- C6 (amended): a correction handled in the Uninitialized state with at least
one buffered IMU sample leaves the estimator in Running, after exactly one update
of a freshly reset solver that seeds `X(0)`, `V(0)`, `B(0)`, with the key set to
1; with no buffered sample the handler only records the correction time and the
estimator stays Uninitialized. -/
theorem first_correction_initializes (env : PreintEnv) (s : IMUPreintegration)
    (odomMsg : OdomMsg) (hsys : s.systemInitialized = false) :
    (s.imuQueOpt ≠ [] →
        (odometryHandler env s odomMsg).systemInitialized = true
          ∧ (odometryHandler env s odomMsg).key = 1
          ∧ (odometryHandler env s odomMsg).optimizer.updates
              = [([Factor.priorPose (Symbol.X 0) ((lidarPose env odomMsg).mul env.lidar2Imu)
                     NoiseModel.priorPoseNoise,
                   Factor.priorVel (Symbol.V 0) ⟨0, 0, 0⟩ NoiseModel.priorVelNoise,
                   Factor.priorBias (Symbol.B 0) ⟨Vec3.zero, Vec3.zero⟩ NoiseModel.priorBiasNoise],
                  [(Symbol.X 0, Value.pose ((lidarPose env odomMsg).mul env.lidar2Imu)),
                   (Symbol.V 0, Value.vel ⟨0, 0, 0⟩),
                   (Symbol.B 0, Value.bias ⟨Vec3.zero, Vec3.zero⟩)])])
      ∧ (s.imuQueOpt = [] →
          odometryHandler env s odomMsg = { s with currentCorrectionTime := odomMsg.stamp }
            ∧ (odometryHandler env s odomMsg).systemInitialized = false) := by
  constructor
  · intro hq
    rw [odometryHandler_uninitialized env s odomMsg hq hsys]
    obtain ⟨h1, h2, h3, _⟩ := initializeSystem_result env
      { s with currentCorrectionTime := odomMsg.stamp } (lidarPose env odomMsg)
    exact ⟨h1, h2, h3⟩
  · intro hq
    rw [odometryHandler_empty env s odomMsg hq]
    exact ⟨rfl, hsys⟩

/-- C6 (counterexample): the first correction delivered to a freshly constructed
estimator, which has no buffered IMU sample, leaves it Uninitialized, with no
solver update and the key where it was. -/
theorem first_correction_without_imu_stays_uninitialized :
    initial.systemInitialized = false
      ∧ (odometryHandler (sampleEnv Vec3.zero) initial (sampleOdom 1)).systemInitialized = false
      ∧ (odometryHandler (sampleEnv Vec3.zero) initial (sampleOdom 1)).optimizer.updates = []
      ∧ (odometryHandler (sampleEnv Vec3.zero) initial (sampleOdom 1)).key = 0 := by
  rw [odometryHandler_empty (sampleEnv Vec3.zero) initial (sampleOdom 1) rfl]
  exact ⟨rfl, rfl, rfl, rfl⟩

/-- C6 (witness): a freshly constructed estimator that has buffered one IMU sample
is initialised by its first correction. -/
theorem first_correction_initializes_witness :
    ({ initial with imuQueOpt := [sampleImu 0] } : IMUPreintegration).systemInitialized = false
      ∧ (odometryHandler (sampleEnv Vec3.zero) { initial with imuQueOpt := [sampleImu 0] }
          (sampleOdom 1)).systemInitialized = true
      ∧ (odometryHandler (sampleEnv Vec3.zero) { initial with imuQueOpt := [sampleImu 0] }
          (sampleOdom 1)).key = 1 :=
  ⟨rfl,
    ((first_correction_initializes (sampleEnv Vec3.zero) { initial with imuQueOpt := [sampleImu 0] }
      (sampleOdom 1) rfl).1 (by simp)).1,
    ((first_correction_initializes (sampleEnv Vec3.zero) { initial with imuQueOpt := [sampleImu 0] }
      (sampleOdom 1) rfl).1 (by simp)).2.1⟩

/-! ### Divergence detection -/

theorem roundEven_error (q : ℚ) : |(roundEven q : ℚ) - q| ≤ 1 / 2 := by
  unfold roundEven
  have h1 := Int.floor_le q
  have h2 := Int.lt_floor_add_one q
  split_ifs with a b c
  · rw [abs_le]; constructor <;> linarith
  · push_cast; rw [abs_le]; constructor <;> linarith
  · rw [abs_le]; constructor <;> linarith
  · push_cast; rw [abs_le]; constructor <;> linarith

theorem roundEven_intCast (n : Int) : roundEven (n : ℚ) = n := by
  unfold roundEven
  simp

/-- The value of `toFloat` from the binary exponent of its argument. -/
theorem toFloat_eq (q : ℚ) (e n : Int) (he : -126 ≤ e) (h1 : (2 : ℚ) ^ e ≤ |q|)
    (h2 : |q| < (2 : ℚ) ^ (e + 1)) (hr : roundEven (q / 2 ^ (e - 23)) = n) :
    toFloat q = (n : ℚ) * 2 ^ (e - 23) := by
  have hpos : 0 < |q| := lt_of_lt_of_le (zpow_pos (by norm_num) e) h1
  have hq : q ≠ 0 := abs_pos.mp hpos
  have hlog : Int.log 2 |q| = e := by
    apply le_antisymm
    · have := (Int.lt_zpow_iff_log_lt (by norm_num : 1 < 2) hpos).mp h2
      omega
    · exact (Int.zpow_le_iff_le_log (by norm_num : 1 < 2) hpos).mp h1
  unfold toFloat
  rw [if_neg hq]
  dsimp only
  rw [hlog, max_eq_left he, hr]

theorem toFloat_zero : toFloat 0 = 0 := by
  unfold toFloat
  rw [if_pos rfl]

/-- The value 31 is a `float`. -/
theorem toFloat_31 : toFloat 31 = 31 := by
  have h : ((31 : ℚ) / 2 ^ ((4 : Int) - 23)) = ((31 * 2 ^ 19 : Int) : ℚ) := by
    norm_num [zpow_neg]
  rw [toFloat_eq 31 4 (31 * 2 ^ 19) (by norm_num) (by norm_num) (by norm_num [abs_of_pos])
    (by rw [h]; exact roundEven_intCast _)]
  norm_num [zpow_neg]

/-- The `double` value `30 + 2^-21` lies between the neighbouring `float` values
30 and `30 + 2^-19`, nearer to 30, and is narrowed to 30. -/
theorem toFloat_above_30 : toFloat (30 + 1 / 2 ^ 21) = 30 := by
  have hr : roundEven ((30 + 1 / 2 ^ 21 : ℚ) / 2 ^ ((4 : Int) - 23)) = 30 * 2 ^ 19 := by
    have hv : ((30 + 1 / 2 ^ 21 : ℚ) / 2 ^ ((4 : Int) - 23)) = 15728640 + 1 / 4 := by
      norm_num [zpow_neg]
    have hf : ⌊(15728640 + 1 / 4 : ℚ)⌋ = 15728640 := by
      rw [Int.floor_eq_iff]
      norm_num
    rw [hv]
    unfold roundEven
    rw [hf]
    norm_num
  rw [toFloat_eq _ 4 (30 * 2 ^ 19) (by norm_num) (by norm_num [abs_of_pos])
    (by norm_num [abs_of_pos]) hr]
  norm_num [zpow_neg]

/-- The error of the narrowing: half a unit in the last place, that is at most
`2^-24` of the value, or `2^-150` in the subnormal range. -/
theorem toFloat_error (q : ℚ) : |toFloat q - q| ≤ |q| / 2 ^ 24 + 1 / 2 ^ 150 := by
  by_cases hq : q = 0
  · subst hq
    rw [toFloat_zero]
    norm_num
  have hpos : 0 < |q| := abs_pos.mpr hq
  unfold toFloat
  rw [if_neg hq]
  dsimp only
  set e : Int := max (Int.log 2 |q|) (-126) with he
  have hu : (0 : ℚ) < 2 ^ (e - 23) := zpow_pos (by norm_num) _
  have hr := roundEven_error (q / 2 ^ (e - 23))
  have hrew : (roundEven (q / 2 ^ (e - 23)) : ℚ) * 2 ^ (e - 23) - q
      = ((roundEven (q / 2 ^ (e - 23)) : ℚ) - q / 2 ^ (e - 23)) * 2 ^ (e - 23) := by
    field_simp
  rw [hrew, abs_mul, abs_of_pos hu]
  have hb : |(roundEven (q / 2 ^ (e - 23)) : ℚ) - q / 2 ^ (e - 23)| * 2 ^ (e - 23)
      ≤ 1 / 2 * 2 ^ (e - 23) := mul_le_mul_of_nonneg_right hr (le_of_lt hu)
  have hhalf : (1 / 2 : ℚ) * 2 ^ (e - 23) = 2 ^ e / 2 ^ 24 := by
    rw [zpow_sub₀ (by norm_num : (2 : ℚ) ≠ 0)]
    norm_num
    ring
  rw [hhalf] at hb
  refine le_trans hb ?_
  rcases le_total (-126) (Int.log 2 |q|) with hl | hl
  · have : e = Int.log 2 |q| := by rw [he]; exact max_eq_left hl
    rw [this]
    have hle := Int.zpow_log_le_self (by norm_num : 1 < 2) hpos
    have : (2 : ℚ) ^ Int.log 2 |q| / 2 ^ 24 ≤ |q| / 2 ^ 24 :=
      div_le_div_of_nonneg_right (by exact_mod_cast hle) (by positivity)
    have h0 : (0 : ℚ) ≤ 1 / 2 ^ 150 := by positivity
    linarith
  · have : e = -126 := by rw [he]; exact max_eq_right hl
    rw [this]
    have : (2 : ℚ) ^ (-126 : Int) / 2 ^ 24 = 1 / 2 ^ 150 := by
      norm_num [zpow_neg]
    rw [this]
    have h0 : (0 : ℚ) ≤ |q| / 2 ^ 24 := by positivity
    linarith

/-- The test of `failureDetection`, on the narrowed vectors. -/
theorem failureDetection_iff (env : PreintEnv) (velCur : Vec3) (biasCur : ConstantBias) :
    failureDetection env velCur biasCur = true ↔
      30 < env.vector3fNorm ⟨toFloat velCur.x, toFloat velCur.y, toFloat velCur.z⟩
        ∨ 1 < env.vector3fNorm ⟨toFloat biasCur.accelerometer.x, toFloat biasCur.accelerometer.y,
            toFloat biasCur.accelerometer.z⟩
        ∨ 1 < env.vector3fNorm ⟨toFloat biasCur.gyroscope.x, toFloat biasCur.gyroscope.y,
            toFloat biasCur.gyroscope.z⟩ := by
  unfold failureDetection
  dsimp only
  split_ifs with h1 h2
  · simp only [true_iff]
    exact Or.inl h1
  · simp only [true_iff]
    exact Or.inr h2
  · constructor
    · intro h; exact absurd h (by simp)
    · rintro (h | h)
      · exact absurd h h1
      · exact absurd h h2

/-- The square of a narrowed value is not far below the square of the value. -/
theorem toFloat_sq_lower (q : ℚ) :
    (1 - 1 / 2 ^ 23) * (q * q) - 1 / 2 ^ 149 * (1 + q * q) ≤ toFloat q * toFloat q := by
  have he := toFloat_error q
  have hsq : q * q - 2 * (|q| * |toFloat q - q|) ≤ toFloat q * toFloat q := by
    have h1 : toFloat q * toFloat q = q * q + 2 * (q * (toFloat q - q))
        + (toFloat q - q) * (toFloat q - q) := by ring
    have h2 : -(|q| * |toFloat q - q|) ≤ q * (toFloat q - q) := by
      rw [← abs_mul]
      exact neg_abs_le _
    have h3 : 0 ≤ (toFloat q - q) * (toFloat q - q) := mul_self_nonneg _
    linarith
  have habs : |q| ≤ 1 + q * q := by
    have h : 0 ≤ (|q| - 1 / 2) * (|q| - 1 / 2) := mul_self_nonneg _
    have h2 : |q| * |q| = q * q := abs_mul_abs_self q
    nlinarith
  have hq0 : 0 ≤ |q| := abs_nonneg q
  have hm : |q| * |toFloat q - q| ≤ |q| * (|q| / 2 ^ 24 + 1 / 2 ^ 150) :=
    mul_le_mul_of_nonneg_left he hq0
  have h2 : |q| * |q| = q * q := abs_mul_abs_self q
  have hexp : |q| * (|q| / 2 ^ 24 + 1 / 2 ^ 150)
      = (|q| * |q|) / 2 ^ 24 + |q| / 2 ^ 150 := by ring
  rw [hexp, h2] at hm
  have hq1 : |q| / 2 ^ 150 ≤ (1 + q * q) / 2 ^ 150 :=
    div_le_div_of_nonneg_right habs (by positivity)
  have e1 : (1 - 1 / 2 ^ 23) * (q * q) - 1 / 2 ^ 149 * (1 + q * q)
      = q * q - 2 * (q * q / 2 ^ 24 + (1 + q * q) / 2 ^ 150) := by ring
  rw [e1]
  linarith

/-- The squared length of a narrowed vector is not far below the squared length
of the vector. -/
theorem narrowed_normSq_lower (v : Vec3) :
    (1 - 1 / 2 ^ 23) * v.normSq - 1 / 2 ^ 149 * (3 + v.normSq)
      ≤ (⟨toFloat v.x, toFloat v.y, toFloat v.z⟩ : Vec3).normSq := by
  have hx := toFloat_sq_lower v.x
  have hy := toFloat_sq_lower v.y
  have hz := toFloat_sq_lower v.z
  unfold Vec3.normSq
  dsimp only
  have e : (1 - 1 / 2 ^ 23) * (v.x * v.x + v.y * v.y + v.z * v.z)
      - 1 / 2 ^ 149 * (3 + (v.x * v.x + v.y * v.y + v.z * v.z))
      = ((1 - 1 / 2 ^ 23) * (v.x * v.x) - 1 / 2 ^ 149 * (1 + v.x * v.x))
        + ((1 - 1 / 2 ^ 23) * (v.y * v.y) - 1 / 2 ^ 149 * (1 + v.y * v.y))
        + ((1 - 1 / 2 ^ 23) * (v.z * v.z) - 1 / 2 ^ 149 * (1 + v.z * v.z)) := by ring
  rw [e]
  linarith

/-- A velocity of squared length at least 901 fails the velocity test whenever
the norm of the narrowed vector is computed to within a relative error of
`2^-20` from below. -/
theorem large_velocity_fails (env : PreintEnv) (v : Vec3) (hv : 901 ≤ v.normSq)
    (h0 : 0 ≤ env.vector3fNorm ⟨toFloat v.x, toFloat v.y, toFloat v.z⟩)
    (hacc : (1 - 1 / 2 ^ 20) ^ 2 * (⟨toFloat v.x, toFloat v.y, toFloat v.z⟩ : Vec3).normSq
      ≤ (env.vector3fNorm ⟨toFloat v.x, toFloat v.y, toFloat v.z⟩) ^ 2) :
    30 < env.vector3fNorm ⟨toFloat v.x, toFloat v.y, toFloat v.z⟩ := by
  have hn := narrowed_normSq_lower v
  generalize env.vector3fNorm ⟨toFloat v.x, toFloat v.y, toFloat v.z⟩ = n at h0 hacc
  generalize (⟨toFloat v.x, toFloat v.y, toFloat v.z⟩ : Vec3).normSq = U at hn hacc
  generalize v.normSq = N at hv hn
  have hU : 9005 / 10 ≤ U := by
    have : (9005 / 10 : ℚ) ≤ (1 - 1 / 2 ^ 23) * N - 1 / 2 ^ 149 * (3 + N) := by
      have e : (1 - 1 / 2 ^ 23) * N - 1 / 2 ^ 149 * (3 + N)
          = (1 - 1 / 2 ^ 23 - 1 / 2 ^ 149) * N - 3 / 2 ^ 149 := by ring
      rw [e]
      have hc : (0 : ℚ) ≤ 1 - 1 / 2 ^ 23 - 1 / 2 ^ 149 := by norm_num
      have := mul_le_mul_of_nonneg_left hv hc
      have hnum : (9005 / 10 : ℚ) ≤ (1 - 1 / 2 ^ 23 - 1 / 2 ^ 149) * 901 - 3 / 2 ^ 149 := by
        norm_num
      linarith
    linarith
  have hsq : (900 : ℚ) < n ^ 2 := by
    have hc : (0 : ℚ) ≤ (1 - 1 / 2 ^ 20) ^ 2 := by positivity
    have := mul_le_mul_of_nonneg_left hU hc
    have hnum : (900 : ℚ) < (1 - 1 / 2 ^ 20) ^ 2 * (9005 / 10) := by norm_num
    linarith
  by_contra hle
  have hle : n ≤ 30 := not_lt.mp hle
  have : n ^ 2 ≤ 30 ^ 2 := pow_le_pow_left₀ h0 hle 2
  norm_num at this
  linarith

/-- What `estimateGravity` leaves alone. -/
theorem estimateGravity_frame (env : PreintEnv) (s : IMUPreintegration) :
    (estimateGravity env s).2.key = s.key
      ∧ (estimateGravity env s).2.systemInitialized = s.systemInitialized
      ∧ (estimateGravity env s).2.doneFirstOpt = s.doneFirstOpt
      ∧ (estimateGravity env s).2.lastImuT_imu = s.lastImuT_imu
      ∧ (estimateGravity env s).2.prevStateOdom = s.prevStateOdom
      ∧ (estimateGravity env s).2.prevBiasOdom = s.prevBiasOdom := by
  unfold estimateGravity reexpressWindow pushWindow
  dsimp only
  split_ifs <;> exact ⟨rfl, rfl, rfl, rfl, rfl, rfl⟩

/-- What the re-anchoring block leaves alone, and the key it sets. -/
theorem reanchor_frame (env : PreintEnv) (s : IMUPreintegration) :
    (reanchor env s).key = 1
      ∧ (reanchor env s).systemInitialized = s.systemInitialized
      ∧ (reanchor env s).doneFirstOpt = s.doneFirstOpt
      ∧ (reanchor env s).lastImuT_imu = s.lastImuT_imu
      ∧ (reanchor env s).prevStateOdom = s.prevStateOdom
      ∧ (reanchor env s).prevBiasOdom = s.prevBiasOdom := by
  unfold reanchor
  dsimp only
  split_ifs with h1 h2
  · obtain ⟨_, e2, e3, e4, e5, e6⟩ := estimateGravity_frame env
      { resetOptimization s with
        graphFactors := (resetOptimization s).graphFactors ++
          [Factor.priorPose (Symbol.X 0) (resetOptimization s).prevPose_
              (NoiseModel.covariance (env.marginalCovariance s.optimizer (Symbol.X (s.key - 1)))),
           Factor.priorVel (Symbol.V 0) (resetOptimization s).prevVel_
              (NoiseModel.covariance (env.marginalCovariance s.optimizer (Symbol.V (s.key - 1)))),
           Factor.priorBias (Symbol.B 0) (resetOptimization s).prevBias_
              (NoiseModel.covariance (env.marginalCovariance s.optimizer (Symbol.B (s.key - 1))))] }
    exact ⟨rfl, e2, e3, e4, e5, e6⟩
  · obtain ⟨_, e2, e3, e4, e5, e6⟩ := estimateGravity_frame env
      { resetOptimization s with
        graphFactors := (resetOptimization s).graphFactors ++
          [Factor.priorPose (Symbol.X 0) (resetOptimization s).prevPose_
              (NoiseModel.covariance (env.marginalCovariance s.optimizer (Symbol.X (s.key - 1)))),
           Factor.priorVel (Symbol.V 0) (resetOptimization s).prevVel_
              (NoiseModel.covariance (env.marginalCovariance s.optimizer (Symbol.V (s.key - 1)))),
           Factor.priorBias (Symbol.B 0) (resetOptimization s).prevBias_
              (NoiseModel.covariance (env.marginalCovariance s.optimizer (Symbol.B (s.key - 1))))] }
    exact ⟨rfl, e2, e3, e4, e5, e6⟩
  · exact ⟨rfl, rfl, rfl, rfl, rfl, rfl⟩

/-- The solve step: what it leaves alone and what it reads back. -/
theorem integrateAndOptimize_frame (env : PreintEnv) (s : IMUPreintegration) (pose : Pose3)
    (deg : Bool) :
    (integrateAndOptimize env s pose deg).key = s.key
      ∧ (integrateAndOptimize env s pose deg).systemInitialized = s.systemInitialized
      ∧ (integrateAndOptimize env s pose deg).doneFirstOpt = s.doneFirstOpt
      ∧ (integrateAndOptimize env s pose deg).lastImuT_imu = s.lastImuT_imu
      ∧ (integrateAndOptimize env s pose deg).prevStateOdom = s.prevStateOdom
      ∧ (integrateAndOptimize env s pose deg).prevBiasOdom = s.prevBiasOdom
      ∧ (integrateAndOptimize env s pose deg).prevVel_
          = env.estimateVel (integrateAndOptimize env s pose deg).optimizer (Symbol.V s.key)
      ∧ (integrateAndOptimize env s pose deg).prevBias_
          = env.estimateBias (integrateAndOptimize env s pose deg).optimizer (Symbol.B s.key) := by
  have e := fun st => estimateGravity_frame env st
  unfold integrateAndOptimize
  dsimp only
  split_ifs
  all_goals first
    | exact ⟨rfl, rfl, rfl, rfl, rfl, rfl, rfl, rfl⟩
    | simp only [(e _).1, (e _).2.1, (e _).2.2.1, (e _).2.2.2.1, (e _).2.2.2.2.1,
        (e _).2.2.2.2.2, and_self]

/-- The state in which a Running correction performs its solve: after the
optional re-anchoring. -/
theorem solveState_frame (env : PreintEnv) (s : IMUPreintegration) (stamp : ℚ) (pose : Pose3)
    (deg : Bool) :
    (integrateAndOptimize env
        (if s.key = env.resetPreintegrationNum
          then reanchor env { s with currentCorrectionTime := stamp }
          else { s with currentCorrectionTime := stamp }) pose deg).key
        = (if s.key = env.resetPreintegrationNum then 1 else s.key)
      ∧ (integrateAndOptimize env
        (if s.key = env.resetPreintegrationNum
          then reanchor env { s with currentCorrectionTime := stamp }
          else { s with currentCorrectionTime := stamp }) pose deg).systemInitialized
        = s.systemInitialized
      ∧ (integrateAndOptimize env
        (if s.key = env.resetPreintegrationNum
          then reanchor env { s with currentCorrectionTime := stamp }
          else { s with currentCorrectionTime := stamp }) pose deg).prevStateOdom
        = s.prevStateOdom
      ∧ (integrateAndOptimize env
        (if s.key = env.resetPreintegrationNum
          then reanchor env { s with currentCorrectionTime := stamp }
          else { s with currentCorrectionTime := stamp }) pose deg).prevBiasOdom
        = s.prevBiasOdom := by
  obtain ⟨r1, r2, _, _, r5, r6⟩ := reanchor_frame env { s with currentCorrectionTime := stamp }
  split_ifs with h
  · obtain ⟨e1, e2, _, _, e5, e6, _, _⟩ := integrateAndOptimize_frame env
      (reanchor env { s with currentCorrectionTime := stamp }) pose deg
    exact ⟨e1.trans r1, e2.trans r2, e5.trans r5, e6.trans r6⟩
  · obtain ⟨e1, e2, _, _, e5, e6, _, _⟩ := integrateAndOptimize_frame env
      { s with currentCorrectionTime := stamp } pose deg
    exact ⟨e1, e2, e5, e6⟩

/-- C7 (amended): in a Running correction that performs a solve, the velocity and
bias read back from the solver decide the outcome. They are narrowed to `float`
vectors, and the estimator is torn down (`systemInitialized`, `doneFirstOpt`
false, `lastImuT_imu = -1`, key not advanced, fast-path snapshot untouched)
exactly when the single-precision norm of the narrowed velocity exceeds 30 or
that of a narrowed bias exceeds 1; otherwise the key advances by one and the
snapshot is updated. A velocity of squared length at least 901, in particular a
speed of 31, gives the reset whenever the norm of the narrowed velocity is
computed to within a relative error of `2^-20`. -/
theorem divergence_tears_down_estimator (env : PreintEnv) (s : IMUPreintegration)
    (odomMsg : OdomMsg) (hsys : s.systemInitialized = true) (hq : s.imuQueOpt ≠ []) :
    (odometryHandler env s odomMsg).prevVel_
        = env.estimateVel (odometryHandler env s odomMsg).optimizer
            (Symbol.V (if s.key = env.resetPreintegrationNum then 1 else s.key))
      ∧ (odometryHandler env s odomMsg).prevBias_
        = env.estimateBias (odometryHandler env s odomMsg).optimizer
            (Symbol.B (if s.key = env.resetPreintegrationNum then 1 else s.key))
      ∧ ((odometryHandler env s odomMsg).systemInitialized = false ↔
          30 < env.vector3fNorm
                ⟨toFloat (odometryHandler env s odomMsg).prevVel_.x,
                 toFloat (odometryHandler env s odomMsg).prevVel_.y,
                 toFloat (odometryHandler env s odomMsg).prevVel_.z⟩
            ∨ 1 < env.vector3fNorm
                ⟨toFloat (odometryHandler env s odomMsg).prevBias_.accelerometer.x,
                 toFloat (odometryHandler env s odomMsg).prevBias_.accelerometer.y,
                 toFloat (odometryHandler env s odomMsg).prevBias_.accelerometer.z⟩
            ∨ 1 < env.vector3fNorm
                ⟨toFloat (odometryHandler env s odomMsg).prevBias_.gyroscope.x,
                 toFloat (odometryHandler env s odomMsg).prevBias_.gyroscope.y,
                 toFloat (odometryHandler env s odomMsg).prevBias_.gyroscope.z⟩)
      ∧ ((odometryHandler env s odomMsg).systemInitialized = false →
          (odometryHandler env s odomMsg).doneFirstOpt = false
            ∧ (odometryHandler env s odomMsg).lastImuT_imu = -1
            ∧ (odometryHandler env s odomMsg).key
                = (if s.key = env.resetPreintegrationNum then 1 else s.key)
            ∧ (odometryHandler env s odomMsg).prevStateOdom = s.prevStateOdom
            ∧ (odometryHandler env s odomMsg).prevBiasOdom = s.prevBiasOdom)
      ∧ ((odometryHandler env s odomMsg).systemInitialized = true →
          (odometryHandler env s odomMsg).doneFirstOpt = true
            ∧ (odometryHandler env s odomMsg).key
                = (if s.key = env.resetPreintegrationNum then 1 else s.key) + 1
            ∧ (odometryHandler env s odomMsg).prevStateOdom = (odometryHandler env s odomMsg).prevState_
            ∧ (odometryHandler env s odomMsg).prevBiasOdom = (odometryHandler env s odomMsg).prevBias_)
      ∧ (0 ≤ env.vector3fNorm
              ⟨toFloat (odometryHandler env s odomMsg).prevVel_.x,
               toFloat (odometryHandler env s odomMsg).prevVel_.y,
               toFloat (odometryHandler env s odomMsg).prevVel_.z⟩ →
          (1 - 1 / 2 ^ 20) ^ 2
              * (⟨toFloat (odometryHandler env s odomMsg).prevVel_.x,
                  toFloat (odometryHandler env s odomMsg).prevVel_.y,
                  toFloat (odometryHandler env s odomMsg).prevVel_.z⟩ : Vec3).normSq
            ≤ (env.vector3fNorm
                ⟨toFloat (odometryHandler env s odomMsg).prevVel_.x,
                 toFloat (odometryHandler env s odomMsg).prevVel_.y,
                 toFloat (odometryHandler env s odomMsg).prevVel_.z⟩) ^ 2 →
          (901 ≤ (odometryHandler env s odomMsg).prevVel_.normSq →
              (odometryHandler env s odomMsg).systemInitialized = false)
            ∧ ((odometryHandler env s odomMsg).prevVel_.normSq = 31 ^ 2 →
              (odometryHandler env s odomMsg).systemInitialized = false)) := by
  have hrun := odometryHandler_running env s odomMsg hq hsys
  obtain ⟨f1, f2, f5, f6⟩ := solveState_frame env s odomMsg.stamp (lidarPose env odomMsg)
    (degenerate odomMsg)
  have fr := integrateAndOptimize_frame env
    (if s.key = env.resetPreintegrationNum
      then reanchor env { s with currentCorrectionTime := odomMsg.stamp }
      else { s with currentCorrectionTime := odomMsg.stamp })
    (lidarPose env odomMsg) (degenerate odomMsg)
  obtain ⟨g1, _, _, _, _, _, g7, g8⟩ := fr
  rw [g1] at f1
  generalize hS : integrateAndOptimize env
    (if s.key = env.resetPreintegrationNum
      then reanchor env { s with currentCorrectionTime := odomMsg.stamp }
      else { s with currentCorrectionTime := odomMsg.stamp })
    (lidarPose env odomMsg) (degenerate odomMsg) = solved at hrun f2 f5 f6 g7 g8 g1
  rw [f1] at g7 g8
  have hfd := failureDetection_iff env solved.prevVel_ solved.prevBias_
  by_cases hfail : failureDetection env solved.prevVel_ solved.prevBias_ = true
  · rw [if_pos hfail] at hrun
    have hcond := hfd.mp hfail
    have hinit : (odometryHandler env s odomMsg).systemInitialized = false := by rw [hrun]; rfl
    have hv : (odometryHandler env s odomMsg).prevVel_ = solved.prevVel_ := by rw [hrun]; rfl
    have hb : (odometryHandler env s odomMsg).prevBias_ = solved.prevBias_ := by rw [hrun]; rfl
    have ho : (odometryHandler env s odomMsg).optimizer = solved.optimizer := by rw [hrun]; rfl
    refine ⟨by rw [hv, ho]; exact g7, by rw [hb, ho]; exact g8, ?_, ?_, ?_,
      fun _ _ => ⟨fun _ => hinit, fun _ => hinit⟩⟩
    · rw [hv, hb]; exact ⟨fun _ => hcond, fun _ => hinit⟩
    · intro _
      rw [hrun]
      exact ⟨rfl, rfl, g1.trans f1, f5, f6⟩
    · intro h; rw [hinit] at h; exact absurd h (by simp)
  · rw [if_neg hfail] at hrun
    have hcond : ¬ (30 < env.vector3fNorm
          ⟨toFloat solved.prevVel_.x, toFloat solved.prevVel_.y, toFloat solved.prevVel_.z⟩
        ∨ 1 < env.vector3fNorm
          ⟨toFloat solved.prevBias_.accelerometer.x, toFloat solved.prevBias_.accelerometer.y,
            toFloat solved.prevBias_.accelerometer.z⟩
        ∨ 1 < env.vector3fNorm
          ⟨toFloat solved.prevBias_.gyroscope.x, toFloat solved.prevBias_.gyroscope.y,
            toFloat solved.prevBias_.gyroscope.z⟩) :=
      fun h => hfail (hfd.mpr h)
    have hrep : ∀ st : IMUPreintegration,
        (repropagate env st).systemInitialized = st.systemInitialized
          ∧ (repropagate env st).prevVel_ = st.prevVel_
          ∧ (repropagate env st).prevBias_ = st.prevBias_
          ∧ (repropagate env st).optimizer = st.optimizer
          ∧ (repropagate env st).doneFirstOpt = true
          ∧ (repropagate env st).key = st.key + 1
          ∧ (repropagate env st).prevStateOdom = st.prevState_
          ∧ (repropagate env st).prevBiasOdom = st.prevBias_
          ∧ (repropagate env st).prevState_ = st.prevState_ := by
      intro st
      unfold repropagate
      dsimp only
      split_ifs <;> exact ⟨rfl, rfl, rfl, rfl, rfl, rfl, rfl, rfl, rfl⟩
    obtain ⟨p1, p2, p3, p4, p5, p6, p7, p8, p9⟩ := hrep solved
    have hinit : (odometryHandler env s odomMsg).systemInitialized = true := by
      rw [hrun, p1, f2, hsys]
    rw [hrun, p1, p2, p3, p4, p5, p6, p7, p8, p9, f2, hsys]
    refine ⟨g7, g8, ?_, ?_, ?_, ?_⟩
    · exact ⟨fun h => absurd h (by simp), fun h => absurd h hcond⟩
    · intro h; exact absurd h (by simp)
    · intro _; exact ⟨rfl, by rw [g1, f1], rfl, rfl⟩
    · intro h0 hacc
      constructor
      · intro h901
        exact absurd (Or.inl (large_velocity_fails env solved.prevVel_ h901 h0 hacc)) hcond
      · intro h31
        exact absurd (Or.inl (large_velocity_fails env solved.prevVel_
          (by rw [h31]; norm_num) h0 hacc)) hcond

theorem sample_velocity_31 :
    (odometryHandler (sampleEnv ⟨31, 0, 0⟩) sampleRunning (sampleOdom 1)).prevVel_ = ⟨31, 0, 0⟩ := by
  simp [odometryHandler, sampleRunning, initial, sampleEnv, integrateAndOptimize, integrateOptLoop,
    failureDetection, toFloat_zero, toFloat_31, resetParams, sampleImu, sampleOdom]
  norm_num [Vec3.zero, toFloat_zero]

/-- C7 (witness): the solver returns the velocity `(31, 0, 0)` in a Running
correction; it is narrowed without error, its norm is 31, and the estimator is
reset. -/
theorem divergence_tears_down_estimator_witness :
    sampleRunning.systemInitialized = true ∧ sampleRunning.imuQueOpt ≠ []
      ∧ (odometryHandler (sampleEnv ⟨31, 0, 0⟩) sampleRunning (sampleOdom 1)).prevVel_.normSq
          = 31 ^ 2
      ∧ (odometryHandler (sampleEnv ⟨31, 0, 0⟩) sampleRunning (sampleOdom 1)).systemInitialized
          = false :=
  ⟨rfl, by simp [sampleRunning],
    by rw [sample_velocity_31]; norm_num [Vec3.normSq],
    ((divergence_tears_down_estimator (sampleEnv ⟨31, 0, 0⟩) sampleRunning (sampleOdom 1) rfl
      (by simp [sampleRunning])).2.2.2.2.2
        (by rw [sample_velocity_31]; simp [sampleEnv, toFloat_31, toFloat_zero])
        (by
          rw [sample_velocity_31]
          simp [sampleEnv, toFloat_31, toFloat_zero, Vec3.normSq]
          norm_num)).2
      (by rw [sample_velocity_31]; norm_num [Vec3.normSq])⟩

/-- C7 (counterexample): the solver returns the velocity `(30 + 2^-21, 0, 0)`,
whose length exceeds 30. Narrowed to `float` it is `(30, 0, 0)`, of norm 30: the
estimator is not reset, and the key advances from 2 to 3. -/
theorem velocity_just_above_threshold_is_not_reset :
    sampleRunning.systemInitialized = true ∧ sampleRunning.imuQueOpt ≠ []
      ∧ (odometryHandler (sampleEnv ⟨30 + 1 / 2 ^ 21, 0, 0⟩) sampleRunning (sampleOdom 1)).prevVel_
          = ⟨30 + 1 / 2 ^ 21, 0, 0⟩
      ∧ 30 ^ 2 < (⟨30 + 1 / 2 ^ 21, 0, 0⟩ : Vec3).normSq
      ∧ toFloat (30 + 1 / 2 ^ 21) = 30
      ∧ (odometryHandler (sampleEnv ⟨30 + 1 / 2 ^ 21, 0, 0⟩) sampleRunning
          (sampleOdom 1)).systemInitialized = true
      ∧ (odometryHandler (sampleEnv ⟨30 + 1 / 2 ^ 21, 0, 0⟩) sampleRunning (sampleOdom 1)).key
          = 3 := by
  have h := toFloat_above_30
  have hfd : failureDetection (sampleEnv ⟨30 + 1 / 2 ^ 21, 0, 0⟩) ⟨30 + 1 / 2 ^ 21, 0, 0⟩
      ⟨Vec3.zero, Vec3.zero⟩ = false := by
    have h1 : toFloat (30 + (2 ^ 21)⁻¹) = 30 := by
      have h2 := h
      rwa [one_div] at h2
    simp [failureDetection, sampleEnv, h1, toFloat_zero, Vec3.zero]
  have hrun := odometryHandler_running (sampleEnv ⟨30 + 1 / 2 ^ 21, 0, 0⟩) sampleRunning
    (sampleOdom 1) (by simp [sampleRunning]) rfl
  have hv : (integrateAndOptimize (sampleEnv ⟨30 + 1 / 2 ^ 21, 0, 0⟩)
      (if sampleRunning.key = (sampleEnv ⟨30 + 1 / 2 ^ 21, 0, 0⟩).resetPreintegrationNum
        then reanchor (sampleEnv ⟨30 + 1 / 2 ^ 21, 0, 0⟩)
          { sampleRunning with currentCorrectionTime := (sampleOdom 1).stamp }
        else { sampleRunning with currentCorrectionTime := (sampleOdom 1).stamp })
      (lidarPose (sampleEnv ⟨30 + 1 / 2 ^ 21, 0, 0⟩) (sampleOdom 1)) (degenerate (sampleOdom 1))).prevVel_
      = ⟨30 + 1 / 2 ^ 21, 0, 0⟩ := by
    rw [(integrateAndOptimize_frame _ _ _ _).2.2.2.2.2.2.1]
    rfl
  have hb : (integrateAndOptimize (sampleEnv ⟨30 + 1 / 2 ^ 21, 0, 0⟩)
      (if sampleRunning.key = (sampleEnv ⟨30 + 1 / 2 ^ 21, 0, 0⟩).resetPreintegrationNum
        then reanchor (sampleEnv ⟨30 + 1 / 2 ^ 21, 0, 0⟩)
          { sampleRunning with currentCorrectionTime := (sampleOdom 1).stamp }
        else { sampleRunning with currentCorrectionTime := (sampleOdom 1).stamp })
      (lidarPose (sampleEnv ⟨30 + 1 / 2 ^ 21, 0, 0⟩) (sampleOdom 1)) (degenerate (sampleOdom 1))).prevBias_
      = ⟨Vec3.zero, Vec3.zero⟩ := by
    rw [(integrateAndOptimize_frame _ _ _ _).2.2.2.2.2.2.2]
    rfl
  rw [hv, hb, hfd] at hrun
  simp only [Bool.false_eq_true, if_false] at hrun
  obtain ⟨f1, f2, _, _⟩ := solveState_frame (sampleEnv ⟨30 + 1 / 2 ^ 21, 0, 0⟩) sampleRunning
    (sampleOdom 1).stamp (lidarPose (sampleEnv ⟨30 + 1 / 2 ^ 21, 0, 0⟩) (sampleOdom 1))
    (degenerate (sampleOdom 1))
  have hrep : ∀ st : IMUPreintegration,
      (repropagate (sampleEnv ⟨30 + 1 / 2 ^ 21, 0, 0⟩) st).systemInitialized = st.systemInitialized
        ∧ (repropagate (sampleEnv ⟨30 + 1 / 2 ^ 21, 0, 0⟩) st).prevVel_ = st.prevVel_
        ∧ (repropagate (sampleEnv ⟨30 + 1 / 2 ^ 21, 0, 0⟩) st).key = st.key + 1 := by
    intro st
    unfold repropagate
    dsimp only
    split_ifs <;> exact ⟨rfl, rfl, rfl⟩
  refine ⟨rfl, by simp [sampleRunning], ?_, by norm_num [Vec3.normSq], h, ?_, ?_⟩
  · rw [hrun, (hrep _).2.1, hv]
  · rw [hrun, (hrep _).1, f2]; rfl
  · rw [hrun, (hrep _).2.2, f1]; rfl

theorem sample_reset_state :
    (odometryHandler (sampleEnv ⟨31, 0, 0⟩) sampleRunning (sampleOdom 1)).systemInitialized = false
      ∧ (odometryHandler (sampleEnv ⟨31, 0, 0⟩) sampleRunning (sampleOdom 1)).key = 2
      ∧ (odometryHandler (sampleEnv ⟨31, 0, 0⟩) sampleRunning (sampleOdom 1)).imuQueOpt = [] := by
  simp [odometryHandler, sampleRunning, initial, sampleEnv, integrateAndOptimize, integrateOptLoop,
    failureDetection, toFloat_zero, toFloat_31, resetParams, sampleImu, sampleOdom]
  norm_num

/-! ### Re-initialisation after a reset -/

theorem repropagate_systemInitialized (env : PreintEnv) (s : IMUPreintegration) :
    (repropagate env s).systemInitialized = s.systemInitialized := by
  unfold repropagate
  dsimp only
  split_ifs <;> rfl

/-- A Running correction that ends Uninitialized went through `resetParams`. -/
theorem reset_state_flags (env : PreintEnv) (s : IMUPreintegration) (odomMsg : OdomMsg)
    (hsys : s.systemInitialized = true) (hq : s.imuQueOpt ≠ [])
    (hreset : (odometryHandler env s odomMsg).systemInitialized = false) :
    (odometryHandler env s odomMsg).doneFirstOpt = false
      ∧ (odometryHandler env s odomMsg).lastImuT_imu = -1 := by
  have hrun := odometryHandler_running env s odomMsg hq hsys
  obtain ⟨_, f2, _, _⟩ := solveState_frame env s odomMsg.stamp (lidarPose env odomMsg)
    (degenerate odomMsg)
  generalize integrateAndOptimize env
    (if s.key = env.resetPreintegrationNum
      then reanchor env { s with currentCorrectionTime := odomMsg.stamp }
      else { s with currentCorrectionTime := odomMsg.stamp })
    (lidarPose env odomMsg) (degenerate odomMsg) = solved at hrun f2
  split_ifs at hrun with hfail
  · rw [hrun]; exact ⟨rfl, rfl⟩
  · rw [hrun, repropagate_systemInitialized, f2, hsys] at hreset
    exact absurd hreset (by simp)

/-- The queue left by `trimOldIMUData` does not depend on `lastImuT_opt`. -/
theorem trimLoop_queue (bound : ℚ) (q : List ImuMsg) (last : ℚ) :
    (trimLoop bound q last).1 = q.dropWhile (fun m => decide (m.stamp < bound)) := by
  induction q generalizing last with
  | nil => rfl
  | cons m rest ih =>
    unfold trimLoop
    split_ifs with h
    · rw [ih, List.dropWhile_cons_of_pos (by simpa using h)]
    · rw [List.dropWhile_cons_of_neg (by simpa using h)]

/-- C8 (amended): let `r` be a state produced by a divergence reset and `s0` a
never-initialised estimator with the same buffered IMU samples. When at least one
sample is buffered, the next correction takes the initialisation branch on both
and leaves the same key (1), flags, previous pose (correction composed with
`lidar2Imu`), zero previous velocity and bias, solver, empty graph, integrators
and trimmed queue; when none is buffered, the handler initialises neither. -/
theorem correction_after_reset_reinitializes (env : PreintEnv) (s : IMUPreintegration)
    (resetMsg : OdomMsg) (hsys : s.systemInitialized = true) (hq : s.imuQueOpt ≠ [])
    (hreset : (odometryHandler env s resetMsg).systemInitialized = false)
    (s0 : IMUPreintegration) (h0 : s0.systemInitialized = false) (h0d : s0.doneFirstOpt = false)
    (h0t : s0.lastImuT_imu = -1)
    (hsame : s0.imuQueOpt = (odometryHandler env s resetMsg).imuQueOpt)
    (odomMsg : OdomMsg) :
    (s0.imuQueOpt ≠ [] →
        (odometryHandler env (odometryHandler env s resetMsg) odomMsg).systemInitialized = true
          ∧ (odometryHandler env s0 odomMsg).systemInitialized = true
          ∧ (odometryHandler env (odometryHandler env s resetMsg) odomMsg).key = 1
          ∧ (odometryHandler env s0 odomMsg).key = 1
          ∧ (odometryHandler env (odometryHandler env s resetMsg) odomMsg).doneFirstOpt
              = (odometryHandler env s0 odomMsg).doneFirstOpt
          ∧ (odometryHandler env (odometryHandler env s resetMsg) odomMsg).lastImuT_imu
              = (odometryHandler env s0 odomMsg).lastImuT_imu
          ∧ (odometryHandler env (odometryHandler env s resetMsg) odomMsg).prevPose_
              = (lidarPose env odomMsg).mul env.lidar2Imu
          ∧ (odometryHandler env s0 odomMsg).prevPose_ = (lidarPose env odomMsg).mul env.lidar2Imu
          ∧ (odometryHandler env (odometryHandler env s resetMsg) odomMsg).prevVel_ = ⟨0, 0, 0⟩
          ∧ (odometryHandler env s0 odomMsg).prevVel_ = ⟨0, 0, 0⟩
          ∧ (odometryHandler env (odometryHandler env s resetMsg) odomMsg).prevBias_
              = ⟨Vec3.zero, Vec3.zero⟩
          ∧ (odometryHandler env s0 odomMsg).prevBias_ = ⟨Vec3.zero, Vec3.zero⟩
          ∧ (odometryHandler env (odometryHandler env s resetMsg) odomMsg).optimizer
              = (odometryHandler env s0 odomMsg).optimizer
          ∧ (odometryHandler env (odometryHandler env s resetMsg) odomMsg).optimizer.updates.length = 1
          ∧ (odometryHandler env (odometryHandler env s resetMsg) odomMsg).graphFactors = []
          ∧ (odometryHandler env s0 odomMsg).graphFactors = []
          ∧ (odometryHandler env (odometryHandler env s resetMsg) odomMsg).graphValues = []
          ∧ (odometryHandler env s0 odomMsg).graphValues = []
          ∧ (odometryHandler env (odometryHandler env s resetMsg) odomMsg).imuIntegratorOpt_
              = ⟨⟨Vec3.zero, Vec3.zero⟩, []⟩
          ∧ (odometryHandler env s0 odomMsg).imuIntegratorOpt_ = ⟨⟨Vec3.zero, Vec3.zero⟩, []⟩
          ∧ (odometryHandler env (odometryHandler env s resetMsg) odomMsg).imuIntegratorImu_
              = ⟨⟨Vec3.zero, Vec3.zero⟩, []⟩
          ∧ (odometryHandler env s0 odomMsg).imuIntegratorImu_ = ⟨⟨Vec3.zero, Vec3.zero⟩, []⟩
          ∧ (odometryHandler env (odometryHandler env s resetMsg) odomMsg).imuQueOpt
              = (odometryHandler env s0 odomMsg).imuQueOpt)
      ∧ (s0.imuQueOpt = [] →
          (odometryHandler env (odometryHandler env s resetMsg) odomMsg).systemInitialized = false
            ∧ (odometryHandler env s0 odomMsg).systemInitialized = false
            ∧ (odometryHandler env (odometryHandler env s resetMsg) odomMsg).key
                = (odometryHandler env s resetMsg).key
            ∧ (odometryHandler env s0 odomMsg).key = s0.key) := by
  obtain ⟨rd, rt⟩ := reset_state_flags env s resetMsg hsys hq hreset
  generalize odometryHandler env s resetMsg = r at hreset hsame rd rt
  constructor
  · intro hne
    have hner : r.imuQueOpt ≠ [] := by rw [← hsame]; exact hne
    rw [odometryHandler_uninitialized env r odomMsg hner hreset,
      odometryHandler_uninitialized env s0 odomMsg hne h0]
    obtain ⟨a1, a2, a3, a4, a5, a6, a7, a8, a9, a10, a11, a12, a13⟩ :=
      initializeSystem_result env { r with currentCorrectionTime := odomMsg.stamp }
        (lidarPose env odomMsg)
    obtain ⟨b1, b2, b3, b4, b5, b6, b7, b8, b9, b10, b11, b12, b13⟩ :=
      initializeSystem_result env { s0 with currentCorrectionTime := odomMsg.stamp }
        (lidarPose env odomMsg)
    have hopt : (initializeSystem env { r with currentCorrectionTime := odomMsg.stamp }
        (lidarPose env odomMsg)).optimizer
        = (initializeSystem env { s0 with currentCorrectionTime := odomMsg.stamp }
        (lidarPose env odomMsg)).optimizer := by
      have : ∀ o1 o2 : ISAM2, o1.updates = o2.updates → o1 = o2 := by
        intro o1 o2 h
        cases o1; cases o2
        simp only [ISAM2.mk.injEq]
        exact h
      exact this _ _ (a3.trans b3.symm)
    refine ⟨a1, b1, a2, b2, ?_, ?_, a4, b4, a5, b5, a6, b6, hopt, ?_, a7, b7, a8, b8, a9, b9,
      a10, b10, ?_⟩
    · rw [a11, b11]; exact rd.trans h0d.symm
    · rw [a12, b12]; exact rt.trans h0t.symm
    · rw [a3]; rfl
    · rw [a13, b13]
      dsimp only
      rw [hsame, trimLoop_queue, trimLoop_queue]
  · intro he
    have her : r.imuQueOpt = [] := by rw [← hsame]; exact he
    rw [odometryHandler_empty env r odomMsg her, odometryHandler_empty env s0 odomMsg he]
    exact ⟨hreset, h0, rfl, rfl⟩

/-- C8 (counterexample): the solver returns the velocity `(31, 0, 0)` and the
Running estimator, whose only buffered IMU sample was consumed by the solve, is
reset at key 2; the next correction finds no buffered sample and does not take
the initialisation branch: the estimator stays Uninitialized with key 2. -/
theorem correction_after_reset_without_imu_is_ignored :
    sampleRunning.systemInitialized = true
      ∧ (odometryHandler (sampleEnv ⟨31, 0, 0⟩) sampleRunning (sampleOdom 1)).systemInitialized
          = false
      ∧ (odometryHandler (sampleEnv ⟨31, 0, 0⟩)
          (odometryHandler (sampleEnv ⟨31, 0, 0⟩) sampleRunning (sampleOdom 1))
          (sampleOdom 2)).systemInitialized = false
      ∧ (odometryHandler (sampleEnv ⟨31, 0, 0⟩)
          (odometryHandler (sampleEnv ⟨31, 0, 0⟩) sampleRunning (sampleOdom 1))
          (sampleOdom 2)).key = 2 := by
  obtain ⟨h1, h2, h3⟩ := sample_reset_state
  rw [odometryHandler_empty _ _ (sampleOdom 2) h3]
  exact ⟨rfl, h1, h1, h2⟩

theorem sample_reset_state_two :
    (odometryHandler (sampleEnv ⟨31, 0, 0⟩) sampleRunningTwo (sampleOdom 1)).systemInitialized
        = false
      ∧ (odometryHandler (sampleEnv ⟨31, 0, 0⟩) sampleRunningTwo (sampleOdom 1)).imuQueOpt
        = [sampleImu 2] := by
  simp [odometryHandler, sampleRunningTwo, sampleRunning, initial, sampleEnv, integrateAndOptimize,
    integrateOptLoop, failureDetection, toFloat_zero, toFloat_31, resetParams, sampleImu,
    sampleOdom]
  norm_num

/-- C8 (witness): a reset that leaves one IMU sample buffered, compared with a
freshly constructed estimator holding the same sample. -/
theorem correction_after_reset_reinitializes_witness :
    sampleRunningTwo.systemInitialized = true ∧ sampleRunningTwo.imuQueOpt ≠ []
      ∧ (odometryHandler (sampleEnv ⟨31, 0, 0⟩) sampleRunningTwo (sampleOdom 1)).systemInitialized
          = false
      ∧ ({ initial with imuQueOpt := [sampleImu 2] } : IMUPreintegration).imuQueOpt
          = (odometryHandler (sampleEnv ⟨31, 0, 0⟩) sampleRunningTwo (sampleOdom 1)).imuQueOpt
      ∧ (odometryHandler (sampleEnv ⟨31, 0, 0⟩)
          (odometryHandler (sampleEnv ⟨31, 0, 0⟩) sampleRunningTwo (sampleOdom 1))
          (sampleOdom 3)).key = 1
      ∧ (odometryHandler (sampleEnv ⟨31, 0, 0⟩)
          (odometryHandler (sampleEnv ⟨31, 0, 0⟩) sampleRunningTwo (sampleOdom 1))
          (sampleOdom 3)).optimizer
          = (odometryHandler (sampleEnv ⟨31, 0, 0⟩) { initial with imuQueOpt := [sampleImu 2] }
              (sampleOdom 3)).optimizer :=
  ⟨rfl, by simp [sampleRunningTwo], sample_reset_state_two.1, sample_reset_state_two.2.symm,
    ((correction_after_reset_reinitializes (sampleEnv ⟨31, 0, 0⟩) sampleRunningTwo (sampleOdom 1)
      rfl (by simp [sampleRunningTwo]) sample_reset_state_two.1
      { initial with imuQueOpt := [sampleImu 2] } rfl rfl rfl sample_reset_state_two.2.symm
      (sampleOdom 3)).1 (by simp)).2.2.1,
    ((correction_after_reset_reinitializes (sampleEnv ⟨31, 0, 0⟩) sampleRunningTwo (sampleOdom 1)
      rfl (by simp [sampleRunningTwo]) sample_reset_state_two.1
      { initial with imuQueOpt := [sampleImu 2] } rfl rfl rfl sample_reset_state_two.2.symm
      (sampleOdom 3)).1 (by simp)).2.2.2.2.2.2.2.2.2.2.2.2.1⟩

/-! ### The gravity sanity check -/

/-- On a window-full event the call evicts the oldest entry; the solver is run
on the remaining window, re-expressed relative to its new front entry, and the
outcome is decided from the rotation of that entry. -/
theorem estimateGravity_full (env : PreintEnv) (s : IMUPreintegration) (g_b : Vec3)
    (oldest front : TransformAndPreintegrator) (rest : List TransformAndPreintegrator)
    (hwindow : s.transformAndPreintegratorQueue
        ++ [TransformAndPreintegrator.mk s.prevPose_ s.imuIntegratorOpt_]
      = oldest :: front :: rest)
    (hfull : (rest.length : Int) + 2 > env.gravityEstimateWindowSize + 1)
    (hsolve : env.Estimate
        ((front :: rest).map
          (fun e => { e with transform := front.transform.inverse.mul e.transform }))
        env.transform_l_b
        (rotateVelocities (front :: rest) (s.imuGravityVec ++ [s.prevVel_]).tail)
        env.imuGravity s.gravityInBodyVec = (true, g_b)) :
    (estimateGravity env s).1
        = decide ((front.transform.linear.mulVec g_b.neg).z + env.imuGravity < 1 / 2)
      ∧ (estimateGravity env s).2.gravityInGlobalVec = front.transform.linear.mulVec g_b.neg
      ∧ (estimateGravity env s).2.gravityInBodyVec = g_b := by
  unfold estimateGravity reexpressWindow pushWindow windowFront
  dsimp only
  rw [hwindow]
  simp only [List.tail_cons, List.head?_cons, List.length_cons]
  rw [if_pos (by push_cast; linarith), hsolve]
  dsimp only
  rw [if_pos rfl]
  split_ifs with h
  · exact ⟨(decide_eq_true h).symm, rfl, rfl⟩
  · exact ⟨(decide_eq_false h).symm, rfl, rfl⟩

/-- C9: on a window-full event (after the push the window holds more than
`gravityEstimateWindowSize + 1` entries, `oldest :: front :: rest`, and the
oldest is evicted) on which the gravity solver, run on the remaining window,
reports success with the body-frame vector `g_b`, `estimateGravity` returns
true exactly when the z component of `R_front * (-g_b)` plus the gravity
magnitude is below 0.5, where `R_front` is the rotation of the front entry of
the window after the eviction; the vector is stored in `gravityInGlobalVec`.
With magnitude 9.8, a z component of 0 is rejected and the vector
`(0, 0, -9.8)` is accepted. -/
theorem gravity_estimate_accepted_iff (env : PreintEnv) (s : IMUPreintegration) (g_b : Vec3)
    (oldest front : TransformAndPreintegrator) (rest : List TransformAndPreintegrator)
    (hwindow : s.transformAndPreintegratorQueue
        ++ [TransformAndPreintegrator.mk s.prevPose_ s.imuIntegratorOpt_]
      = oldest :: front :: rest)
    (hfull : (rest.length : Int) + 2 > env.gravityEstimateWindowSize + 1)
    (hsolve : env.Estimate
        ((front :: rest).map
          (fun e => { e with transform := front.transform.inverse.mul e.transform }))
        env.transform_l_b
        (rotateVelocities (front :: rest) (s.imuGravityVec ++ [s.prevVel_]).tail)
        env.imuGravity s.gravityInBodyVec = (true, g_b)) :
    ((estimateGravity env s).1 = true ↔
        (front.transform.linear.mulVec g_b.neg).z + env.imuGravity < 1 / 2)
      ∧ (front.transform.linear.mulVec g_b.neg).z
          = -(front.transform.linear.a20 * g_b.x + front.transform.linear.a21 * g_b.y
              + front.transform.linear.a22 * g_b.z)
      ∧ (estimateGravity env s).2.gravityInGlobalVec = front.transform.linear.mulVec g_b.neg
      ∧ (env.imuGravity = 98 / 10 → (front.transform.linear.mulVec g_b.neg).z = 0 →
          (estimateGravity env s).1 = false)
      ∧ (env.imuGravity = 98 / 10 →
          front.transform.linear.mulVec g_b.neg = ⟨0, 0, -(98 / 10)⟩ →
          (estimateGravity env s).1 = true) := by
  obtain ⟨h1, h2, _⟩ := estimateGravity_full env s g_b oldest front rest hwindow hfull hsolve
  refine ⟨?_, ?_, h2, ?_, ?_⟩
  · rw [h1]; simp
  · simp only [Mat3.mulVec, Vec3.neg]
    ring
  · intro hg hz
    rw [h1, hz, hg]
    exact decide_eq_false (by norm_num)
  · intro hg hv
    rw [h1, hv, hg]
    exact decide_eq_true (by norm_num)

/-- C9 (witness): the window holds an entry with the identity pose and the
current pose is a half turn about the x axis; the window (size 0) is full, the
identity entry is evicted and the half turn is the front entry. The solver
returns `(0, 0, -9.8)` in the body frame, which the half turn maps to the
global vector `(0, 0, -9.8)`; the estimate is accepted. -/
theorem gravity_estimate_accepted_iff_witness :
    sampleTurnedWindowState.transformAndPreintegratorQueue
          ++ [TransformAndPreintegrator.mk sampleTurnedWindowState.prevPose_
                sampleTurnedWindowState.imuIntegratorOpt_]
        = [⟨Affine3.identity, ⟨⟨Vec3.zero, Vec3.zero⟩, []⟩⟩, ⟨halfTurn, ⟨⟨Vec3.zero, Vec3.zero⟩, []⟩⟩]
      ∧ halfTurn.linear.mulVec (⟨0, 0, -(98 / 10)⟩ : Vec3).neg = ⟨0, 0, -(98 / 10)⟩
      ∧ Affine3.identity.linear.mulVec (⟨0, 0, -(98 / 10)⟩ : Vec3).neg ≠ ⟨0, 0, -(98 / 10)⟩
      ∧ (estimateGravity (sampleGravityEnv ⟨0, 0, -(98 / 10)⟩) sampleTurnedWindowState).1 = true :=
  ⟨rfl, by simp [halfTurn, Mat3.mulVec, Vec3.neg],
    by simp [Affine3.identity, Mat3.identity, Mat3.mulVec, Vec3.neg]; norm_num,
    (gravity_estimate_accepted_iff (sampleGravityEnv ⟨0, 0, -(98 / 10)⟩) sampleTurnedWindowState
      ⟨0, 0, -(98 / 10)⟩ ⟨Affine3.identity, ⟨⟨Vec3.zero, Vec3.zero⟩, []⟩⟩
      ⟨halfTurn, ⟨⟨Vec3.zero, Vec3.zero⟩, []⟩⟩ [] rfl (by decide) rfl).2.2.2.2 rfl
      (by simp [halfTurn, Mat3.mulVec, Vec3.neg])⟩

/-! ### The fast path -/

/-- What `imuHandler` does with a sample. -/
theorem imuHandler_spec (env : PreintEnv) (s : IMUPreintegration) (imu_raw : ImuMsg) :
    (imuHandler env s imu_raw).imuQueOpt = s.imuQueOpt ++ [env.imuConverter imu_raw]
      ∧ (imuHandler env s imu_raw).imuQueImu = s.imuQueImu ++ [env.imuConverter imu_raw]
      ∧ (imuHandler env s imu_raw).doneFirstOpt = s.doneFirstOpt
      ∧ (imuHandler env s imu_raw).systemInitialized = s.systemInitialized
      ∧ (imuHandler env s imu_raw).key = s.key
      ∧ (imuHandler env s imu_raw).transformAndPreintegratorQueue = s.transformAndPreintegratorQueue
      ∧ (imuHandler env s imu_raw).imuGravityVec = s.imuGravityVec
      ∧ (s.doneFirstOpt = false → (imuHandler env s imu_raw).published = s.published)
      ∧ (s.doneFirstOpt = true →
          ∃ o : ImuOdometry, (imuHandler env s imu_raw).published = s.published ++ [o]
            ∧ o.stamp = (env.imuConverter imu_raw).stamp) := by
  unfold imuHandler
  dsimp only
  by_cases h : s.doneFirstOpt = false
  · rw [if_pos h]
    exact ⟨rfl, rfl, rfl, rfl, rfl, rfl, rfl, fun _ => rfl, fun g => absurd (h.symm.trans g) (by simp)⟩
  · rw [if_neg h]
    exact ⟨rfl, rfl, rfl, rfl, rfl, rfl, rfl, fun g => absurd g h, fun _ => ⟨_, rfl, rfl⟩⟩

/-- The two outcomes of a Running correction that performs a solve: the reset,
or the re-propagation with the key advanced. -/
theorem odometryHandler_running_outcome (env : PreintEnv) (s : IMUPreintegration)
    (odomMsg : OdomMsg) (hq : s.imuQueOpt ≠ []) (hsys : s.systemInitialized = true) :
    (failureDetection env (odometryHandler env s odomMsg).prevVel_
          (odometryHandler env s odomMsg).prevBias_ = true
        ∧ (odometryHandler env s odomMsg).systemInitialized = false
        ∧ (odometryHandler env s odomMsg).doneFirstOpt = false
        ∧ (odometryHandler env s odomMsg).key
            = (if s.key = env.resetPreintegrationNum then 1 else s.key))
      ∨ (failureDetection env (odometryHandler env s odomMsg).prevVel_
          (odometryHandler env s odomMsg).prevBias_ = false
        ∧ (odometryHandler env s odomMsg).systemInitialized = true
        ∧ (odometryHandler env s odomMsg).doneFirstOpt = true
        ∧ (odometryHandler env s odomMsg).key
            = (if s.key = env.resetPreintegrationNum then 1 else s.key) + 1) := by
  have hrun := odometryHandler_running env s odomMsg hq hsys
  obtain ⟨f1, f2, _, _⟩ := solveState_frame env s odomMsg.stamp (lidarPose env odomMsg)
    (degenerate odomMsg)
  generalize integrateAndOptimize env
    (if s.key = env.resetPreintegrationNum
      then reanchor env { s with currentCorrectionTime := odomMsg.stamp }
      else { s with currentCorrectionTime := odomMsg.stamp })
    (lidarPose env odomMsg) (degenerate odomMsg) = solved at hrun f1 f2
  have hr : (repropagate env solved).prevVel_ = solved.prevVel_
      ∧ (repropagate env solved).prevBias_ = solved.prevBias_
      ∧ (repropagate env solved).doneFirstOpt = true
      ∧ (repropagate env solved).key = solved.key + 1 := by
    unfold repropagate
    dsimp only
    split_ifs <;> exact ⟨rfl, rfl, rfl, rfl⟩
  split_ifs at hrun with hfail
  · left
    rw [hrun]
    exact ⟨hfail, rfl, rfl, f1⟩
  · right
    rw [hrun, repropagate_systemInitialized, hr.1, hr.2.1, hr.2.2.1, hr.2.2.2, f1, f2]
    exact ⟨by simpa using hfail, hsys, rfl, rfl⟩

/-- C13 (amended): every handled IMU sample is appended, after `imuConverter`, to
both IMU queues; it results in exactly one published odometry message when
`doneFirstOpt` is set and in none otherwise, and the handler leaves the flag as
it is. The flag is set by a Running correction whose solve passes the failure
check and cleared by one that fails it; the initialisation branch solves once and
leaves the flag as it was. -/
theorem imu_sample_is_published_once_first_optimization_done (env : PreintEnv)
    (s : IMUPreintegration) (imu_raw : ImuMsg) (odomMsg : OdomMsg) :
    (imuHandler env s imu_raw).imuQueOpt = s.imuQueOpt ++ [env.imuConverter imu_raw]
      ∧ (imuHandler env s imu_raw).imuQueImu = s.imuQueImu ++ [env.imuConverter imu_raw]
      ∧ (imuHandler env s imu_raw).doneFirstOpt = s.doneFirstOpt
      ∧ (s.doneFirstOpt = false → (imuHandler env s imu_raw).published = s.published)
      ∧ (s.doneFirstOpt = true →
          ∃ o : ImuOdometry, (imuHandler env s imu_raw).published = s.published ++ [o]
            ∧ o.stamp = (env.imuConverter imu_raw).stamp)
      ∧ (s.imuQueOpt ≠ [] → s.systemInitialized = false →
          (odometryHandler env s odomMsg).optimizer.updates.length = 1
            ∧ (odometryHandler env s odomMsg).doneFirstOpt = s.doneFirstOpt)
      ∧ (s.imuQueOpt ≠ [] → s.systemInitialized = true →
          ((odometryHandler env s odomMsg).doneFirstOpt = true ↔
            failureDetection env (odometryHandler env s odomMsg).prevVel_
              (odometryHandler env s odomMsg).prevBias_ = false)) := by
  obtain ⟨h1, h2, h3, _, _, _, _, h8, h9⟩ := imuHandler_spec env s imu_raw
  refine ⟨h1, h2, h3, h8, h9, ?_, ?_⟩
  · intro hq hsys
    rw [odometryHandler_uninitialized env s odomMsg hq hsys]
    obtain ⟨_, _, i3, _, _, _, _, _, _, _, i11, _⟩ := initializeSystem_result env
      { s with currentCorrectionTime := odomMsg.stamp } (lidarPose env odomMsg)
    rw [i3, i11]
    exact ⟨rfl, rfl⟩
  · intro hq hsys
    rcases odometryHandler_running_outcome env s odomMsg hq hsys with ⟨a, _, c, _⟩ | ⟨a, _, c, _⟩
    · rw [a, c]; simp
    · rw [a, c]; simp

/-- C13 (counterexample): a freshly constructed estimator handles one IMU sample
and then its first correction, which runs the initialisation branch and solves
once. The IMU sample handled next is queued and no message is published. -/
theorem no_message_after_initialisation_solve :
    (odometryHandler (sampleEnv Vec3.zero) (imuHandler (sampleEnv Vec3.zero) initial (sampleImu 0))
        (sampleOdom 1)).systemInitialized = true
      ∧ (odometryHandler (sampleEnv Vec3.zero) (imuHandler (sampleEnv Vec3.zero) initial (sampleImu 0))
        (sampleOdom 1)).optimizer.updates.length = 1
      ∧ (imuHandler (sampleEnv Vec3.zero)
          (odometryHandler (sampleEnv Vec3.zero)
            (imuHandler (sampleEnv Vec3.zero) initial (sampleImu 0)) (sampleOdom 1))
          (sampleImu 2)).published = [] := by
  have hq : (imuHandler (sampleEnv Vec3.zero) initial (sampleImu 0)).imuQueOpt ≠ [] := by
    rw [(imuHandler_spec _ _ _).1]; simp
  have hsys : (imuHandler (sampleEnv Vec3.zero) initial (sampleImu 0)).systemInitialized = false := by
    rw [(imuHandler_spec _ _ _).2.2.2.1]; rfl
  have hdone : (imuHandler (sampleEnv Vec3.zero) initial (sampleImu 0)).doneFirstOpt = false := by
    rw [(imuHandler_spec _ _ _).2.2.1]; rfl
  have hpub : (imuHandler (sampleEnv Vec3.zero) initial (sampleImu 0)).published = [] :=
    (imuHandler_spec (sampleEnv Vec3.zero) initial (sampleImu 0)).2.2.2.2.2.2.2.1 rfl
  have hinit := odometryHandler_uninitialized (sampleEnv Vec3.zero) _ (sampleOdom 1) hq hsys
  obtain ⟨i1, _, i3, _, _, _, _, _, _, _, i11, _⟩ := initializeSystem_result (sampleEnv Vec3.zero)
    { imuHandler (sampleEnv Vec3.zero) initial (sampleImu 0) with
      currentCorrectionTime := (sampleOdom 1).stamp }
    (lidarPose (sampleEnv Vec3.zero) (sampleOdom 1))
  have hpub2 : (odometryHandler (sampleEnv Vec3.zero)
      (imuHandler (sampleEnv Vec3.zero) initial (sampleImu 0)) (sampleOdom 1)).published = [] := by
    rw [hinit]
    exact hpub
  refine ⟨by rw [hinit]; exact i1, by rw [hinit, i3]; rfl, ?_⟩
  rw [(imuHandler_spec _ _ _).2.2.2.2.2.2.2.1 (by rw [hinit, i11]; exact hdone)]
  exact hpub2

/-- C13 (witness): a Running estimator whose first optimisation is done publishes
one message for the sample it handles. -/
theorem imu_sample_is_published_once_first_optimization_done_witness :
    sampleRunning.doneFirstOpt = true
      ∧ ∃ o : ImuOdometry,
          (imuHandler (sampleEnv Vec3.zero) sampleRunning (sampleImu 1)).published
            = sampleRunning.published ++ [o]
          ∧ o.stamp = ((sampleEnv Vec3.zero).imuConverter (sampleImu 1)).stamp :=
  ⟨rfl,
    (imu_sample_is_published_once_first_optimization_done (sampleEnv Vec3.zero) sampleRunning
      (sampleImu 1) (sampleOdom 1)).2.2.2.2.1 rfl⟩

/-! ### The gravity window -/

theorem rotateVelocities_length (ts : List TransformAndPreintegrator) (vs : List Vec3) :
    (rotateVelocities ts vs).length = vs.length := by
  induction ts generalizing vs with
  | nil => cases vs <;> rfl
  | cons t rest ih =>
    cases vs with
    | nil => rfl
    | cons v vs => simp [rotateVelocities, ih]

/-- What a call of `estimateGravity` does to the two deques. -/
theorem estimateGravity_window (env : PreintEnv) (s : IMUPreintegration) :
    ((s.transformAndPreintegratorQueue.length : Int) + 1 ≤ env.gravityEstimateWindowSize + 1 →
        (estimateGravity env s).2.transformAndPreintegratorQueue
            = s.transformAndPreintegratorQueue ++ [TransformAndPreintegrator.mk s.prevPose_ s.imuIntegratorOpt_]
          ∧ (estimateGravity env s).2.imuGravityVec = s.imuGravityVec ++ [s.prevVel_])
      ∧ (env.gravityEstimateWindowSize + 1 < (s.transformAndPreintegratorQueue.length : Int) + 1 →
        (estimateGravity env s).2.transformAndPreintegratorQueue
            = (s.transformAndPreintegratorQueue ++ [TransformAndPreintegrator.mk s.prevPose_ s.imuIntegratorOpt_]).tail
          ∧ (estimateGravity env s).2.imuGravityVec
            = rotateVelocities
                (s.transformAndPreintegratorQueue ++ [TransformAndPreintegrator.mk s.prevPose_ s.imuIntegratorOpt_]).tail
                (s.imuGravityVec ++ [s.prevVel_]).tail) := by
  have hl : (((s.transformAndPreintegratorQueue ++ [TransformAndPreintegrator.mk s.prevPose_ s.imuIntegratorOpt_]).length : Nat) : Int)
      = (s.transformAndPreintegratorQueue.length : Int) + 1 := by
    rw [List.length_append, List.length_singleton]
    push_cast
    rfl
  unfold estimateGravity reexpressWindow pushWindow
  dsimp only
  rw [hl]
  constructor
  · intro h
    rw [if_neg (by omega)]
    exact ⟨rfl, rfl⟩
  · intro h
    rw [if_pos (by omega)]
    split_ifs <;> exact ⟨rfl, rfl⟩

/-- A call of `estimateGravity` keeps the two deques of equal length and within
the capacity. -/
theorem estimateGravity_bounded (env : PreintEnv) (s : IMUPreintegration)
    (hW : 0 ≤ env.gravityEstimateWindowSize) (h : WindowBounded env s) :
    WindowBounded env (estimateGravity env s).2 := by
  obtain ⟨h1, h2⟩ := estimateGravity_window env s
  obtain ⟨e, c⟩ := h
  unfold WindowBounded
  by_cases hc : (s.transformAndPreintegratorQueue.length : Int) + 1
      ≤ env.gravityEstimateWindowSize + 1
  · obtain ⟨a, b⟩ := h1 hc
    rw [a, b]
    simp only [List.length_append, List.length_singleton]
    constructor
    · omega
    · push_cast; omega
  · obtain ⟨a, b⟩ := h2 (by omega)
    rw [a, b, rotateVelocities_length]
    simp only [List.length_tail, List.length_append, List.length_singleton]
    constructor
    · omega
    · have : s.transformAndPreintegratorQueue.length + 1 - 1
          = s.transformAndPreintegratorQueue.length := by omega
      rw [this]
      exact c

theorem reanchor_bounded (env : PreintEnv) (s : IMUPreintegration)
    (hW : 0 ≤ env.gravityEstimateWindowSize) (h : WindowBounded env s) :
    WindowBounded env (reanchor env s) := by
  have e := fun st hst => estimateGravity_bounded env st hW hst
  unfold reanchor
  dsimp only
  split_ifs
  · exact e _ h
  · exact e _ h
  · exact h

theorem integrateAndOptimize_bounded (env : PreintEnv) (s : IMUPreintegration) (pose : Pose3)
    (deg : Bool) (hW : 0 ≤ env.gravityEstimateWindowSize) (h : WindowBounded env s) :
    WindowBounded env (integrateAndOptimize env s pose deg) := by
  have e := fun st hst => estimateGravity_bounded env st hW hst
  unfold integrateAndOptimize
  dsimp only
  split_ifs
  all_goals first
    | exact h
    | exact e _ h

theorem odometryHandler_bounded (env : PreintEnv) (s : IMUPreintegration) (odomMsg : OdomMsg)
    (hW : 0 ≤ env.gravityEstimateWindowSize) (h : WindowBounded env s) :
    WindowBounded env (odometryHandler env s odomMsg) := by
  have hre : ∀ st : IMUPreintegration, WindowBounded env st → WindowBounded env (repropagate env st) := by
    intro st hst
    unfold repropagate
    dsimp only
    split_ifs <;> exact hst
  unfold odometryHandler
  dsimp only
  split_ifs
  · exact h
  · exact h
  · exact integrateAndOptimize_bounded env _ _ _ hW (reanchor_bounded env _ hW h)
  · exact hre _ (integrateAndOptimize_bounded env _ _ _ hW (reanchor_bounded env _ hW h))
  · exact integrateAndOptimize_bounded env _ _ _ hW h
  · exact hre _ (integrateAndOptimize_bounded env _ _ _ hW h)

theorem run_snoc (env : PreintEnv) (events : List Event) (e : Event) :
    run env (events ++ [e]) = handle env (run env events) e := by
  unfold run
  rw [List.foldl_append]
  rfl

theorem run_bounded (env : PreintEnv) (hW : 0 ≤ env.gravityEstimateWindowSize)
    (events : List Event) : WindowBounded env (run env events) := by
  induction events using List.reverseRecOn with
  | nil => exact ⟨rfl, by show (0 : Int) ≤ _; omega⟩
  | append_singleton es e ih =>
    rw [run_snoc]
    cases e with
    | imu m =>
      obtain ⟨_, _, _, _, _, h6, h7, _⟩ := imuHandler_spec env (run env es) m
      unfold WindowBounded handle
      rw [h6, h7]
      exact ih
    | correction o => exact odometryHandler_bounded env _ o hW ih

/-- C20: with a window size of at least 0, in every state reached from the
constructed estimator the transform/preintegration deque and the velocity deque
have equal length, at most `gravityEstimateWindowSize + 1`; a call of
`estimateGravity` on such a state keeps both properties: below the capacity it
appends one entry to each deque, and at the capacity it appends one entry to each
and evicts exactly the oldest entry of each (the velocities that remain are then
re-expressed in place). -/
theorem gravity_window_is_bounded (env : PreintEnv) (hW : 0 ≤ env.gravityEstimateWindowSize) :
    (∀ events : List Event,
        (run env events).transformAndPreintegratorQueue.length
            = (run env events).imuGravityVec.length
          ∧ ((run env events).transformAndPreintegratorQueue.length : Int)
            ≤ env.gravityEstimateWindowSize + 1)
      ∧ ∀ s : IMUPreintegration,
          s.transformAndPreintegratorQueue.length = s.imuGravityVec.length →
          (s.transformAndPreintegratorQueue.length : Int) ≤ env.gravityEstimateWindowSize + 1 →
          (estimateGravity env s).2.transformAndPreintegratorQueue.length
              = (estimateGravity env s).2.imuGravityVec.length
            ∧ ((estimateGravity env s).2.transformAndPreintegratorQueue.length : Int)
              ≤ env.gravityEstimateWindowSize + 1
            ∧ ((s.transformAndPreintegratorQueue.length : Int) < env.gravityEstimateWindowSize + 1 →
                (estimateGravity env s).2.transformAndPreintegratorQueue
                    = s.transformAndPreintegratorQueue
                      ++ [TransformAndPreintegrator.mk s.prevPose_ s.imuIntegratorOpt_]
                  ∧ (estimateGravity env s).2.imuGravityVec = s.imuGravityVec ++ [s.prevVel_])
            ∧ ((s.transformAndPreintegratorQueue.length : Int) = env.gravityEstimateWindowSize + 1 →
                ∃ oldest restq oldv restv,
                  s.transformAndPreintegratorQueue = oldest :: restq
                    ∧ s.imuGravityVec = oldv :: restv
                    ∧ (estimateGravity env s).2.transformAndPreintegratorQueue
                      = restq ++ [TransformAndPreintegrator.mk s.prevPose_ s.imuIntegratorOpt_]
                    ∧ (estimateGravity env s).2.imuGravityVec
                      = rotateVelocities
                          (restq ++ [TransformAndPreintegrator.mk s.prevPose_ s.imuIntegratorOpt_])
                          (restv ++ [s.prevVel_])) := by
  refine ⟨fun events => run_bounded env hW events, ?_⟩
  intro s he hc
  obtain ⟨b1, b2⟩ := estimateGravity_bounded env s hW ⟨he, hc⟩
  obtain ⟨w1, w2⟩ := estimateGravity_window env s
  refine ⟨b1, b2, fun hlt => w1 (by omega), fun heq => ?_⟩
  obtain ⟨a, b⟩ := w2 (by omega)
  cases hq : s.transformAndPreintegratorQueue with
  | nil => rw [hq] at heq; simp at heq; omega
  | cons oldest restq =>
    cases hv : s.imuGravityVec with
    | nil => rw [hq, hv] at he; simp at he
    | cons oldv restv =>
      rw [hq] at a b
      rw [hv] at b
      exact ⟨oldest, restq, oldv, restv, rfl, rfl, a, b⟩

/-- C20 (witness): a window of size 0 holding one entry; the call evicts it. -/
theorem gravity_window_is_bounded_witness :
    (0 : Int) ≤ (sampleGravityEnv Vec3.zero).gravityEstimateWindowSize
      ∧ sampleWindowState.transformAndPreintegratorQueue.length = 1
      ∧ (estimateGravity (sampleGravityEnv Vec3.zero) sampleWindowState).2.transformAndPreintegratorQueue.length
          = (estimateGravity (sampleGravityEnv Vec3.zero) sampleWindowState).2.imuGravityVec.length
      ∧ ((estimateGravity (sampleGravityEnv Vec3.zero)
            sampleWindowState).2.transformAndPreintegratorQueue.length : Int)
          ≤ (sampleGravityEnv Vec3.zero).gravityEstimateWindowSize + 1 :=
  ⟨by decide, rfl,
    ((gravity_window_is_bounded (sampleGravityEnv Vec3.zero) (by decide)).2 sampleWindowState rfl
      (by decide)).1,
    ((gravity_window_is_bounded (sampleGravityEnv Vec3.zero) (by decide)).2 sampleWindowState rfl
      (by decide)).2.1⟩

/-! ### The key counter and re-anchoring -/

/-- The graph, the solver and the solved state are not touched by `estimateGravity`. -/
theorem estimateGravity_graph (env : PreintEnv) (s : IMUPreintegration) :
    (estimateGravity env s).2.optimizer = s.optimizer
      ∧ (estimateGravity env s).2.graphFactors = s.graphFactors
      ∧ (estimateGravity env s).2.graphValues = s.graphValues
      ∧ (estimateGravity env s).2.prevPose_ = s.prevPose_
      ∧ (estimateGravity env s).2.prevVel_ = s.prevVel_
      ∧ (estimateGravity env s).2.prevBias_ = s.prevBias_ := by
  unfold estimateGravity reexpressWindow pushWindow
  dsimp only
  split_ifs <;> exact ⟨rfl, rfl, rfl, rfl, rfl, rfl⟩

/-- The re-anchoring block leaves a fresh solver with one update: priors at index
0 on the previous solved state, with the marginal covariances read before the
reset, an optional gravity factor, and the previous solved state as values. -/
theorem reanchor_solver (env : PreintEnv) (s : IMUPreintegration) :
    ∃ gravity : List Factor, gravity.length ≤ 1
      ∧ (reanchor env s).optimizer.updates
        = [([Factor.priorPose (Symbol.X 0) s.prevPose_
               (NoiseModel.covariance (env.marginalCovariance s.optimizer (Symbol.X (s.key - 1)))),
             Factor.priorVel (Symbol.V 0) s.prevVel_
               (NoiseModel.covariance (env.marginalCovariance s.optimizer (Symbol.V (s.key - 1)))),
             Factor.priorBias (Symbol.B 0) s.prevBias_
               (NoiseModel.covariance (env.marginalCovariance s.optimizer (Symbol.B (s.key - 1))))]
              ++ gravity,
            [(Symbol.X 0, Value.pose s.prevPose_), (Symbol.V 0, Value.vel s.prevVel_),
             (Symbol.B 0, Value.bias s.prevBias_)])] := by
  have e := fun st => estimateGravity_graph env st
  unfold reanchor
  dsimp only
  split_ifs
  · refine ⟨[gravityFactor env (estimateGravity env
      { resetOptimization s with
        graphFactors := (resetOptimization s).graphFactors ++
          [Factor.priorPose (Symbol.X 0) (resetOptimization s).prevPose_
              (NoiseModel.covariance (env.marginalCovariance s.optimizer (Symbol.X (s.key - 1)))),
           Factor.priorVel (Symbol.V 0) (resetOptimization s).prevVel_
              (NoiseModel.covariance (env.marginalCovariance s.optimizer (Symbol.V (s.key - 1)))),
           Factor.priorBias (Symbol.B 0) (resetOptimization s).prevBias_
              (NoiseModel.covariance (env.marginalCovariance s.optimizer (Symbol.B (s.key - 1))))] }).2
      (Symbol.X 0)], by simp, ?_⟩
    simp only [(e _).1, (e _).2.1, (e _).2.2.1, (e _).2.2.2.1, (e _).2.2.2.2.1, (e _).2.2.2.2.2]
    simp [resetOptimization, ISAM2.update]
  · refine ⟨[], by simp, ?_⟩
    simp only [(e _).1, (e _).2.1, (e _).2.2.1, (e _).2.2.2.1, (e _).2.2.2.2.1, (e _).2.2.2.2.2]
    simp [resetOptimization, ISAM2.update]
  · refine ⟨[], by simp, ?_⟩
    simp [resetOptimization, ISAM2.update]

/-- The solve step makes two updates on the solver it finds; the first one
inserts the nodes of the current key. -/
theorem integrateAndOptimize_solver (env : PreintEnv) (s : IMUPreintegration) (pose : Pose3)
    (deg : Bool) :
    ∃ step : List Factor × List (Symbol × Value),
      (integrateAndOptimize env s pose deg).optimizer.updates
          = s.optimizer.updates ++ [step, ([], [])]
        ∧ step.2.map Prod.fst
          = s.graphValues.map Prod.fst ++ [Symbol.X s.key, Symbol.V s.key, Symbol.B s.key] := by
  have e := fun st => estimateGravity_graph env st
  have f := fun st => estimateGravity_frame env st
  unfold integrateAndOptimize
  dsimp only
  split_ifs
  all_goals
    simp only [ISAM2.update, (e _).1, (e _).2.2.1, (f _).1, List.append_assoc,
      List.singleton_append]
    exact ⟨_, rfl, by simp⟩

/-- The solver a Running correction leaves is the one of its solve step. -/
theorem odometryHandler_running_solver (env : PreintEnv) (s : IMUPreintegration)
    (odomMsg : OdomMsg) (hq : s.imuQueOpt ≠ []) (hsys : s.systemInitialized = true) :
    (odometryHandler env s odomMsg).optimizer
      = (integrateAndOptimize env
          (if s.key = env.resetPreintegrationNum
            then reanchor env { s with currentCorrectionTime := odomMsg.stamp }
            else { s with currentCorrectionTime := odomMsg.stamp })
          (lidarPose env odomMsg) (degenerate odomMsg)).optimizer := by
  rw [odometryHandler_running env s odomMsg hq hsys]
  generalize integrateAndOptimize env
    (if s.key = env.resetPreintegrationNum
      then reanchor env { s with currentCorrectionTime := odomMsg.stamp }
      else { s with currentCorrectionTime := odomMsg.stamp })
    (lidarPose env odomMsg) (degenerate odomMsg) = solved
  split_ifs
  · rfl
  · unfold repropagate
    dsimp only
    split_ifs <;> rfl

/-- A correction keeps the key of an initialised estimator between 1 and
`resetPreintegrationNum`. -/
theorem odometryHandler_key_bound (env : PreintEnv) (hN : 2 ≤ env.resetPreintegrationNum)
    (s : IMUPreintegration) (odomMsg : OdomMsg)
    (h : s.systemInitialized = true → 1 ≤ s.key ∧ s.key ≤ env.resetPreintegrationNum) :
    (odometryHandler env s odomMsg).systemInitialized = true →
      1 ≤ (odometryHandler env s odomMsg).key
        ∧ (odometryHandler env s odomMsg).key ≤ env.resetPreintegrationNum := by
  by_cases hq : s.imuQueOpt = []
  · rw [odometryHandler_empty env s odomMsg hq]
    exact h
  · cases hsys : s.systemInitialized with
    | false =>
      rw [odometryHandler_uninitialized env s odomMsg hq hsys]
      obtain ⟨_, i2, _⟩ := initializeSystem_result env
        { s with currentCorrectionTime := odomMsg.stamp } (lidarPose env odomMsg)
      intro _
      rw [i2]
      omega
    | true =>
      obtain ⟨k1, k2⟩ := h hsys
      rcases odometryHandler_running_outcome env s odomMsg hq hsys with
        ⟨_, b, _, _⟩ | ⟨_, _, _, d⟩
      · intro g; rw [b] at g; exact absurd g (by simp)
      · intro _
        rw [d]
        split_ifs with hk <;> omega

theorem run_key_bound (env : PreintEnv) (hN : 2 ≤ env.resetPreintegrationNum)
    (events : List Event) :
    (run env events).systemInitialized = true →
      1 ≤ (run env events).key ∧ (run env events).key ≤ env.resetPreintegrationNum := by
  induction events using List.reverseRecOn with
  | nil => intro h; exact absurd h (by simp [run, initial])
  | append_singleton es e ih =>
    rw [run_snoc]
    cases e with
    | imu m =>
      obtain ⟨_, _, _, h4, h5, _⟩ := imuHandler_spec env (run env es) m
      unfold handle
      rw [h4, h5]
      exact ih
    | correction o => exact odometryHandler_key_bound env hN _ o ih

/-- C19: with `resetPreintegrationNum` at least 2, in every state reached from
the constructed estimator in which the estimator is initialised the key lies
between 1 and `resetPreintegrationNum`. A Running correction that performs its
solve and passes the failure check leaves the key one above the key it stepped
from: the entry key, or 1 when the entry key equals `resetPreintegrationNum`. In
the second case the solver was replaced by a fresh one whose first update holds
the priors at index 0 on the previous solved state (with at most one gravity
factor) before the step inserted the nodes of key 1; in the first case the
updates of the step are made on the solver as it was. -/
theorem key_stays_within_reanchoring_interval (env : PreintEnv)
    (hN : 2 ≤ env.resetPreintegrationNum) :
    (∀ events : List Event, (run env events).systemInitialized = true →
        1 ≤ (run env events).key ∧ (run env events).key ≤ env.resetPreintegrationNum)
      ∧ ∀ (s : IMUPreintegration) (odomMsg : OdomMsg),
          s.systemInitialized = true → s.imuQueOpt ≠ [] →
          failureDetection env (odometryHandler env s odomMsg).prevVel_
            (odometryHandler env s odomMsg).prevBias_ = false →
          (odometryHandler env s odomMsg).key
              = (if s.key = env.resetPreintegrationNum then 1 else s.key) + 1
            ∧ (s.key ≠ env.resetPreintegrationNum →
                ∃ step : List Factor × List (Symbol × Value),
                  (odometryHandler env s odomMsg).optimizer.updates
                      = s.optimizer.updates ++ [step, ([], [])]
                    ∧ step.2.map Prod.fst
                      = s.graphValues.map Prod.fst
                        ++ [Symbol.X s.key, Symbol.V s.key, Symbol.B s.key])
            ∧ (s.key = env.resetPreintegrationNum →
                ∃ (gravity : List Factor) (step : List Factor × List (Symbol × Value)),
                  gravity.length ≤ 1
                    ∧ (odometryHandler env s odomMsg).optimizer.updates
                      = [([Factor.priorPose (Symbol.X 0) s.prevPose_
                             (NoiseModel.covariance
                               (env.marginalCovariance s.optimizer (Symbol.X (s.key - 1)))),
                           Factor.priorVel (Symbol.V 0) s.prevVel_
                             (NoiseModel.covariance
                               (env.marginalCovariance s.optimizer (Symbol.V (s.key - 1)))),
                           Factor.priorBias (Symbol.B 0) s.prevBias_
                             (NoiseModel.covariance
                               (env.marginalCovariance s.optimizer (Symbol.B (s.key - 1))))]
                            ++ gravity,
                          [(Symbol.X 0, Value.pose s.prevPose_), (Symbol.V 0, Value.vel s.prevVel_),
                           (Symbol.B 0, Value.bias s.prevBias_)]),
                         step, ([], [])]
                    ∧ step.2.map Prod.fst = [Symbol.X 1, Symbol.V 1, Symbol.B 1]
                    ∧ (odometryHandler env s odomMsg).key = 2) := by
  refine ⟨fun events => run_key_bound env hN events, ?_⟩
  intro s odomMsg hsys hq hok
  have hkey : (odometryHandler env s odomMsg).key
      = (if s.key = env.resetPreintegrationNum then 1 else s.key) + 1 := by
    rcases odometryHandler_running_outcome env s odomMsg hq hsys with ⟨a, _⟩ | ⟨_, _, _, d⟩
    · rw [hok] at a; exact absurd a (by simp)
    · exact d
  have hsol := odometryHandler_running_solver env s odomMsg hq hsys
  refine ⟨hkey, ?_, ?_⟩
  · intro hne
    rw [if_neg hne] at hsol
    obtain ⟨step, h1, h2⟩ := integrateAndOptimize_solver env
      { s with currentCorrectionTime := odomMsg.stamp } (lidarPose env odomMsg) (degenerate odomMsg)
    exact ⟨step, by rw [hsol, h1], h2⟩
  · intro heq
    rw [if_pos heq] at hsol
    obtain ⟨step, h1, h2⟩ := integrateAndOptimize_solver env
      (reanchor env { s with currentCorrectionTime := odomMsg.stamp }) (lidarPose env odomMsg)
      (degenerate odomMsg)
    obtain ⟨gravity, g1, g2⟩ := reanchor_solver env { s with currentCorrectionTime := odomMsg.stamp }
    have hgv : (reanchor env { s with currentCorrectionTime := odomMsg.stamp }).graphValues = [] := by
      unfold reanchor
      rfl
    rw [(reanchor_frame env _).1, hgv] at h2
    refine ⟨gravity, step, g1, ?_, by simpa using h2, by rw [hkey, if_pos heq]; rfl⟩
    rw [hsol, h1, g2]
    rfl

theorem sample_running_step :
    failureDetection (sampleEnv Vec3.zero) (odometryHandler (sampleEnv Vec3.zero) sampleRunning (sampleOdom 1)).prevVel_
      (odometryHandler (sampleEnv Vec3.zero) sampleRunning (sampleOdom 1)).prevBias_ = false := by
  simp [odometryHandler, sampleRunning, initial, sampleEnv, integrateAndOptimize, integrateOptLoop,
    failureDetection, toFloat_zero, toFloat_31, repropagate, sampleImu, sampleOdom, Vec3.zero,
    popImuLoop]
  norm_num [failureDetection, toFloat_zero, toFloat_31, repropagate, popImuLoop]

/-- C19 (witness): the sample Running estimator at key 2 steps to key 3. -/
theorem key_stays_within_reanchoring_interval_witness :
    (2 : Int) ≤ (sampleEnv Vec3.zero).resetPreintegrationNum
      ∧ sampleRunning.systemInitialized = true ∧ sampleRunning.imuQueOpt ≠ []
      ∧ sampleRunning.key = 2
      ∧ (odometryHandler (sampleEnv Vec3.zero) sampleRunning (sampleOdom 1)).key = 3 :=
  ⟨by decide, rfl, by simp [sampleRunning], rfl,
    ((key_stays_within_reanchoring_interval (sampleEnv Vec3.zero) (by decide)).2 sampleRunning
      (sampleOdom 1) rfl (by simp [sampleRunning]) sample_running_step).1⟩

/-! ### What the gravity solver is handed -/

/-- A window-full call of `estimateGravity`: the window keeps the poses as they
were inserted, the copy handed to the solver holds them relative to the first
entry, and the velocity deque is overwritten with its own entries multiplied by
the inverse rotations. -/
theorem estimateGravity_handed (env : PreintEnv) (s : IMUPreintegration)
    (hfull : env.gravityEstimateWindowSize + 1 < (s.transformAndPreintegratorQueue.length : Int) + 1) :
    (estimateGravity env s).2.transformAndPreintegratorQueue
        = (s.transformAndPreintegratorQueue
            ++ [TransformAndPreintegrator.mk s.prevPose_ s.imuIntegratorOpt_]).tail
      ∧ (estimateGravity env s).2.transformAndPreintegratorQueueTemp
        = (estimateGravity env s).2.transformAndPreintegratorQueue.map
            (fun e => { e with
              transform := (windowFront (estimateGravity env s).2).inverse.mul e.transform })
      ∧ (estimateGravity env s).2.imuGravityVec
        = rotateVelocities (estimateGravity env s).2.transformAndPreintegratorQueue
            (s.imuGravityVec ++ [s.prevVel_]).tail := by
  have hl : (((s.transformAndPreintegratorQueue
      ++ [TransformAndPreintegrator.mk s.prevPose_ s.imuIntegratorOpt_]).length : Nat) : Int)
      = (s.transformAndPreintegratorQueue.length : Int) + 1 := by
    rw [List.length_append, List.length_singleton]
    push_cast
    rfl
  unfold estimateGravity reexpressWindow pushWindow windowFront
  dsimp only
  rw [hl, if_pos (by omega)]
  split_ifs <;> exact ⟨rfl, rfl, rfl⟩

/-- With as many velocities as window entries, the in-place loop multiplies the
stored velocity of entry `i` by the inverse rotation of entry `i`. -/
theorem rotateVelocities_entry (ts : List TransformAndPreintegrator) (vs : List Vec3)
    (h : ts.length = vs.length) :
    rotateVelocities ts vs
      = List.zipWith (fun e v => e.transform.linear.inverse.mulVec v) ts vs := by
  induction ts generalizing vs with
  | nil =>
    cases vs with
    | nil => rfl
    | cons v vs => simp at h
  | cons e rest ih =>
    cases vs with
    | nil => simp at h
    | cons v vs =>
      simp only [rotateVelocities, List.zipWith_cons_cons]
      rw [ih vs (by simpa using h)]

/-- C21 (code at the failing input): a window of size 1 and four successive calls
of `estimateGravity` from the empty window, each with a quarter turn about z as
pose and the velocity `(k, 0, 0)` in the `k`-th call. The third call is the first
window-full event: the entries 2 and 3 are handed over with the transforms
relative to entry 2 and the velocities `R⁻¹ (2, 0, 0)` and `R⁻¹ (3, 0, 0)`. The
fourth call is the second event: the transforms of the entries 3 and 4 are again
relative to the first of them, but the velocity handed over for entry 3 is
`(-3, 0, 0)`, the stored `R⁻¹ (3, 0, 0) = (0, -3, 0)` rotated once more, not
`R⁻¹ (3, 0, 0)`. -/
theorem surviving_velocity_is_rotated_again :
    quarterTurn.linear.inverse.mulVec ⟨3, 0, 0⟩ = ⟨0, -3, 0⟩
      ∧ (gravityRun sampleWindowEnv initial
          [(quarterTurn, ⟨1, 0, 0⟩), (quarterTurn, ⟨2, 0, 0⟩),
           (quarterTurn, ⟨3, 0, 0⟩)]).imuGravityVec = [⟨0, -2, 0⟩, ⟨0, -3, 0⟩]
      ∧ (gravityRun sampleWindowEnv initial
          [(quarterTurn, ⟨1, 0, 0⟩), (quarterTurn, ⟨2, 0, 0⟩),
           (quarterTurn, ⟨3, 0, 0⟩)]).transformAndPreintegratorQueueTemp.map (fun e => e.transform)
          = [Affine3.identity, Affine3.identity]
      ∧ (gravityRun sampleWindowEnv initial
          [(quarterTurn, ⟨1, 0, 0⟩), (quarterTurn, ⟨2, 0, 0⟩), (quarterTurn, ⟨3, 0, 0⟩),
           (quarterTurn, ⟨4, 0, 0⟩)]).imuGravityVec = [⟨-3, 0, 0⟩, ⟨0, -4, 0⟩]
      ∧ (gravityRun sampleWindowEnv initial
          [(quarterTurn, ⟨1, 0, 0⟩), (quarterTurn, ⟨2, 0, 0⟩), (quarterTurn, ⟨3, 0, 0⟩),
           (quarterTurn, ⟨4, 0, 0⟩)]).transformAndPreintegratorQueue.map (fun e => e.transform)
          = [quarterTurn, quarterTurn]
      ∧ (gravityRun sampleWindowEnv initial
          [(quarterTurn, ⟨1, 0, 0⟩), (quarterTurn, ⟨2, 0, 0⟩), (quarterTurn, ⟨3, 0, 0⟩),
           (quarterTurn, ⟨4, 0, 0⟩)]).transformAndPreintegratorQueueTemp.map (fun e => e.transform)
          = [Affine3.identity, Affine3.identity] := by
  simp [gravityRun, estimateGravity, pushWindow, reexpressWindow, windowFront, rotateVelocities,
    sampleWindowEnv, sampleEnv, initial, quarterTurn, Mat3.inverse, Mat3.det, Mat3.mulVec,
    Mat3.mul, Affine3.inverse, Affine3.mul, Affine3.identity, Mat3.identity, Vec3.zero, Vec3.neg,
    Vec3.add]

end IMUPreintegration

end LioSam
